import Mathlib

/-!
Verification development for the isc2kea migration engine.

The Rust sources are shallowly embedded:
* machine-level strings holding IP addresses and CIDRs are modelled by their
  parsed numeric values (`Nat` for addresses, `Cidr` for networks); the
  textual parsing layer (`InvalidIpAddress` / `InvalidCidr`) is below this
  embedding's abstraction, so values of these types are well formed by
  construction;
* Rust `HashSet`s are modelled as lists used only through membership;
* Rust `HashMap`s are modelled as association lists holding one fixed
  iteration order (Rust's `HashMap` iteration order is unspecified, so a
  list value represents one possible order; quantifying over lists
  quantifies over all orders);
* the XML document is modelled at the level of the data the extraction
  functions in `extract.rs` / `extract_dnsmasq.rs` return, with in-place
  mutation modelled by explicit state passing (the document is returned
  alongside the result even on error, as Rust's `&mut` callers keep it);
* `anyhow!` string errors are modelled by dedicated error constructors;
* generated `uuid::Uuid::new_v4()` identifiers are modelled by a counter
  threaded through the document (fresh identifiers only matter as opaque
  names here), and the uuid attributes of appended reservation and host
  elements, which no extraction function reads back, are omitted.
-/

namespace Isc2Kea

/-- Rust `u8::eq_ignore_ascii_case` applied characterwise, as in
`str::eq_ignore_ascii_case` used for interface-name comparison. -/
def asciiLower (c : Char) : Char :=
  if 'A' ≤ c ∧ c ≤ 'Z' then Char.ofNat (c.toNat + 32) else c

/-- `str::eq_ignore_ascii_case`. -/
def eqIgnoreAsciiCase (a b : String) : Bool :=
  a.data.map asciiLower == b.data.map asciiLower

/-- A parsed CIDR network (Rust `Ipv4Net` / `Ipv6Net`): network address and
prefix length.  The address-family width (32 or 128) is supplied where
containment is computed. -/
structure Cidr where
  addr : Nat
  plen : Nat
  deriving DecidableEq

/-- `IpNet::contains`: an address is inside the network iff it agrees with
the network address on the upper `plen` bits of the `w`-bit address. -/
def cidrContains (w : Nat) (c : Cidr) (ip : Nat) : Bool :=
  ip / 2 ^ (w - c.plen) == c.addr / 2 ^ (w - c.plen)

/-- The migration error taxonomy (`errors.rs`), with `anyhow!` string errors
modelled by dedicated constructors.  Addresses are carried as parsed values. -/
inductive MigErr where
  | NoMatchingSubnet (ip : Nat)
  | NoMatchingInterface (ip : Nat)
  | InterfaceMismatch (ip : Nat) (iscIface : String) (derivedIface : String)
  | BackendNotConfigured (backend : String)
  | NoBackendSubnets (backend : String)
  | BackendV6NotConfigured (backend : String)
  | NoBackendSubnetsV6 (backend : String)
  | NoInterfaceCidrForRange (iface : String)
  | RangeOutsideSubnet (iface : String)
  | NoRangesToCreateSubnets
  | NoRangesToCreateSubnetsV6
  | ExistingRecordsFound
  | KeaNotConfigured
  | EnableBackendFailed
  | DnsmasqNotConfigured
  deriving DecidableEq

/-- `Subnet` / `SubnetV6` of `types.rs` (identical fields): an existing
target subnet.  The `iface` field is never read by the functions verified
here and is omitted. -/
structure Subnet where
  uuid : String
  cidr : Cidr
  deriving DecidableEq

/-- Stable insertion, keeping `a` before the first element whose key is not
larger: the result of inserting into a descending-sorted list. -/
def insertPlenDesc (k : α → Nat) (a : α) : List α → List α
  | [] => [a]
  | b :: t => if k b ≤ k a then a :: b :: t else b :: insertPlenDesc k a t

/-- Stable sort, descending by key: the extensional behaviour of Rust's
stable `sort_by(|a, b| b.0.cmp(&a.0))` (any two stable sorts under the same
comparator agree elementwise). -/
def sortPlenDesc (k : α → Nat) : List α → List α
  | [] => []
  | a :: t => insertPlenDesc k a (sortPlenDesc k t)

/-- `subnet.rs::find_subnet_for_ip`: parse each subnet's CIDR (parsing is
the identity here), stable-sort by descending prefix length, and return the
uuid of the first containing subnet. -/
def find_subnet_for_ip (ip : Nat) (subnets : List Subnet) : Except MigErr String :=
  match (sortPlenDesc (fun s => s.cidr.plen) subnets).find?
      (fun s => cidrContains 32 s.cidr ip) with
  | some s => .ok s.uuid
  | none => .error (.NoMatchingSubnet ip)

/-- `subnet.rs::find_subnet_for_ip_v6` (identical algorithm at width 128). -/
def find_subnet_for_ip_v6 (ip : Nat) (subnets : List Subnet) : Except MigErr String :=
  match (sortPlenDesc (fun s => s.cidr.plen) subnets).find?
      (fun s => cidrContains 128 s.cidr ip) with
  | some s => .ok s.uuid
  | none => .error (.NoMatchingSubnet ip)

/-- `subnet.rs::iface_for_ip`.  The `iface_cidrs` argument is the iteration
order of the Rust `HashMap<String, String>`: pairs of interface name and
parsed CIDR. -/
def iface_for_ip (ip : Nat) (ifaceCidrs : List (String × Cidr)) : Except MigErr String :=
  match (sortPlenDesc (fun e => e.2.plen) ifaceCidrs).find?
      (fun e => cidrContains 32 e.2 ip) with
  | some e => .ok e.1
  | none => .error (.NoMatchingInterface ip)

/-- `subnet.rs::iface_for_ip_v6`. -/
def iface_for_ip_v6 (ip : Nat) (ifaceCidrs : List (String × Cidr)) : Except MigErr String :=
  match (sortPlenDesc (fun e => e.2.plen) ifaceCidrs).find?
      (fun e => cidrContains 128 e.2 ip) with
  | some e => .ok e.1
  | none => .error (.NoMatchingInterface ip)

/-! ### Characterisation of first-containing-after-stable-descending-sort -/

/-- One step of selecting the best element: keep the candidate with the
larger key, preferring the earlier element (`a`) on ties. -/
def pickBetter (k : α → Nat) (p : α → Bool) (a : α) : Option α → Option α
  | none => if p a then some a else none
  | some b => if p a && decide (k b ≤ k a) then some a else some b

/-- The element a stable descending sort followed by `find?` returns: the
first-listed element of maximal key among those satisfying `p`. -/
def bestBy (k : α → Nat) (p : α → Bool) (l : List α) : Option α :=
  l.foldr (pickBetter k p) none

/-! ### Data model of the migration engine

The document is modelled at the level of the data the extraction functions
return; every field below corresponds to one extracted collection (or one
presence/enabled flag the services code reads and writes). -/

/-- Membership test used wherever the Rust sources query a `HashSet`. -/
def elemBy [DecidableEq α] (x : α) (l : List α) : Bool :=
  l.any (fun y => decide (x = y))

/-- `types.rs::IscStaticMap` (v4 source mapping; address parsed). -/
structure IscStaticMap where
  iface : String
  mac : String
  ipaddr : Nat
  hostname : Option String
  cid : Option String
  descr : Option String
  deriving DecidableEq

/-- `types.rs::IscStaticMapV6`. -/
structure IscStaticMapV6 where
  iface : String
  duid : String
  ipaddr : Nat
  hostname : Option String
  descr : Option String
  domainSearch : Option String
  deriving DecidableEq

/-- `types.rs::IscRangeV4` / `IscRangeV6` (identical fields). -/
structure IscRange where
  iface : String
  rangeFrom : Nat
  rangeTo : Nat
  deriving DecidableEq

/-- `types.rs::IscDhcpOptionsV4`. -/
structure IscDhcpOptionsV4 where
  iface : String
  dnsServers : List String
  routers : Option String
  domainName : Option String
  domainSearch : Option String
  ntpServers : List String
  deriving DecidableEq

/-- `types.rs::IscDhcpOptionsV6`. -/
structure IscDhcpOptionsV6 where
  iface : String
  dnsServers : List String
  domainSearch : Option String
  deriving DecidableEq

/-- An address string in the flat backend's shared sets: the textual form of
a v4 address is never equal to the textual form of a v6 address, which the
two constructors preserve. -/
inductive IpAddr where
  | v4 (n : Nat)
  | v6 (n : Nat)
  deriving DecidableEq

/-- A `<subnet4>` / `<subnet6>` element under the Kea `subnets` node, with
the children the engine reads and writes (`uuid`, `subnet`, `pools`,
`interface` for v6, `option_data`, `option_data_autocollect`). -/
structure KeaSubnetRec where
  uuid : String
  cidr : Cidr
  pools : List (Nat × Nat)
  iface : Option String
  optionData : List (String × String)
  autocollect : Option String
  deriving DecidableEq

/-- A `<reservation>` element under Kea dhcp4 (`migrate_v4.rs::\
create_reservation_element` children; the generated uuid attribute, read by
nothing, is omitted). -/
structure RsvV4 where
  subnet : String
  ip : Nat
  hw : String
  hostname : Option String
  descr : Option String
  deriving DecidableEq

/-- A `<reservation>` element under Kea dhcp6 (`migrate_v6.rs`). -/
structure RsvV6 where
  subnet : String
  ip : Nat
  duid : String
  hostname : Option String
  domainSearch : Option String
  descr : Option String
  deriving DecidableEq

/-- A `<hosts>` element under `<dnsmasq>` with the children the engine
reads back (`hwaddr`, `ip`, `host`, `client_id`, `domain`, `descr`; the
constant default children are not read by any extraction function). -/
structure DnsHost where
  hw : String
  ip : IpAddr
  host : String
  clientId : Option String
  domain : String
  descr : Option String
  deriving DecidableEq

/-- A `<dhcp_ranges>` element under `<dnsmasq>`, reduced to the fields of
`range_key`.  The v4 netmask (an injective image of the prefix length under
`prefix_to_netmask`) is carried as the prefix-length value. -/
structure RangeKey where
  iface : String
  start : Nat
  stop : Nat
  plen : Option Nat
  mask : Option Nat
  deriving DecidableEq

/-- A `<dhcp_options>` element under `<dnsmasq>`. -/
structure DnsmasqOpt where
  otype : String
  option : String
  option6 : String
  iface : String
  tag : String
  setTag : String
  value : String
  deriving DecidableEq

/-- The key fields of `extract_dnsmasq.rs::dnsmasq_option_key`. -/
structure OptKey where
  otype : String
  option : String
  option6 : String
  iface : String
  tag : String
  setTag : String
  deriving DecidableEq

/-- `options.rs::DnsmasqOptionSpec`. -/
structure DnsmasqOptionSpec where
  iface : String
  option : String
  option6 : String
  value : String
  deriving DecidableEq

/-- `types.rs::MigrationOptions` (the `verbose` flag only prints and the
`backend` field only selects which of the two pipelines runs; both are
outside this model). -/
structure MOpts where
  failIfExisting : Bool
  createSubnets : Bool
  forceSubnets : Bool
  createOptions : Bool
  forceOptions : Bool
  enableBackend : Bool
  deriving DecidableEq

/-- `types.rs::MigrationStats` (the unreported `isc_ranges_found` fields,
never set by the pipelines verified here, are omitted). -/
structure MStats where
  iscMappingsFound : Nat
  iscMappingsV6Found : Nat
  targetSubnetsFound : Nat
  targetSubnetsV6Found : Nat
  reservationsToCreate : Nat
  reservationsV6ToCreate : Nat
  reservationsSkipped : Nat
  reservationsV6Skipped : Nat
  interfacesConfigured : List String
  iscDisabledV4 : List String
  iscDisabledV6 : List String
  backendEnabledV4 : Bool
  backendEnabledV6 : Bool
  deriving DecidableEq

/-- The configuration document, at the abstraction level of the extraction
functions.  List-valued fields keep document order; the `has…` flags model
presence of the corresponding section. -/
structure Doc where
  ifaceCidrsV4 : List (String × Cidr)
  ifaceCidrsV6 : List (String × Cidr)
  iscRangesV4 : List IscRange
  iscRangesV6 : List IscRange
  iscOptionsV4 : List IscDhcpOptionsV4
  iscOptionsV6 : List IscDhcpOptionsV6
  iscEnabledV4 : List String
  iscEnabledV6 : List String
  hasKea : Bool
  hasKeaDhcp4 : Bool
  hasKeaDhcp6 : Bool
  keaSubnets : List KeaSubnetRec
  keaSubnetsV6 : List KeaSubnetRec
  keaReservations : List RsvV4
  keaReservationsV6 : List RsvV6
  keaDhcp4Enabled : Bool
  keaDhcp6Enabled : Bool
  keaIfacesV4 : List String
  keaIfacesV6 : List String
  hasDnsmasq : Bool
  dnsmasqHosts : List DnsHost
  dnsmasqRanges : List RangeKey
  dnsmasqOpts : List DnsmasqOpt
  dnsmasqEnabled : Bool
  dnsmasqIfaces : List String
  uuidCtr : Nat
  deriving DecidableEq

/-! ### Extraction (`extract.rs`, `extract_dnsmasq.rs`) -/

/-- `extract.rs::extract_kea_subnets`: uuid and CIDR of every `subnet4`. -/
def extract_kea_subnets (d : Doc) : List Subnet :=
  d.keaSubnets.map (fun r => ⟨r.uuid, r.cidr⟩)

/-- `extract.rs::extract_kea_subnets_v6`. -/
def extract_kea_subnets_v6 (d : Doc) : List Subnet :=
  d.keaSubnetsV6.map (fun r => ⟨r.uuid, r.cidr⟩)

/-- `extract.rs::extract_existing_reservation_ips`. -/
def extract_existing_reservation_ips (d : Doc) : List Nat :=
  d.keaReservations.map (fun r => r.ip)

/-- `extract.rs::extract_existing_reservation_ips_v6`. -/
def extract_existing_reservation_ips_v6 (d : Doc) : List Nat :=
  d.keaReservationsV6.map (fun r => r.ip)

/-- `extract.rs::extract_existing_reservation_duids_v6`. -/
def extract_existing_reservation_duids_v6 (d : Doc) : List String :=
  d.keaReservationsV6.map (fun r => r.duid)

/-- `extract.rs::has_kea_dhcp4`. -/
def has_kea_dhcp4 (d : Doc) : Bool := d.hasKea && d.hasKeaDhcp4

/-- `extract.rs::has_kea_dhcp6`. -/
def has_kea_dhcp6 (d : Doc) : Bool := d.hasKea && d.hasKeaDhcp6

/-- `extract_dnsmasq.rs::has_dnsmasq`. -/
def has_dnsmasq (d : Doc) : Bool := d.hasDnsmasq

/-- `extract_dnsmasq.rs::extract_existing_dnsmasq_ips` (host `ip` children;
the skip of textually empty values is below the parsed-address
abstraction). -/
def extract_existing_dnsmasq_ips (d : Doc) : List IpAddr :=
  d.dnsmasqHosts.map (fun h => h.ip)

/-- `extract_dnsmasq.rs::extract_existing_dnsmasq_macs` (empty `hwaddr`
values are skipped, as for the dnsmasq v6 hosts the engine writes). -/
def extract_existing_dnsmasq_macs (d : Doc) : List String :=
  (d.dnsmasqHosts.map (fun h => h.hw)).filter (fun s => !(s == ""))

/-- `extract_dnsmasq.rs::extract_existing_dnsmasq_client_ids`. -/
def extract_existing_dnsmasq_client_ids (d : Doc) : List String :=
  (d.dnsmasqHosts.filterMap (fun h => h.clientId)).filter (fun s => !(s == ""))

/-- `extract_dnsmasq.rs::extract_existing_dnsmasq_ranges` (all stored range
elements have a nonempty interface and endpoints: XML element text the
engine writes is never empty for these fields). -/
def extract_existing_dnsmasq_ranges (d : Doc) : List RangeKey :=
  d.dnsmasqRanges

/-- `extract_dnsmasq.rs::dnsmasq_option_key`. -/
def dnsmasq_option_key (o : DnsmasqOpt) : OptKey :=
  ⟨o.otype, o.option, o.option6, o.iface, o.tag, o.setTag⟩

/-- `extract_dnsmasq.rs::extract_existing_dnsmasq_options` (keys of the
`type=set` option elements). -/
def extract_existing_dnsmasq_options (d : Doc) : List OptKey :=
  (d.dnsmasqOpts.filter (fun o => eqIgnoreAsciiCase o.otype "set")).map dnsmasq_option_key

/-! ### Desired subnets (`migrate/subnets.rs`) -/

/-- `DesiredSubnetV4` / `DesiredSubnetV6` (identical fields, CIDR parsed). -/
structure DesiredSubnet where
  iface : String
  cidr : Cidr
  ranges : List IscRange
  deriving DecidableEq

/-- `HashMap::get` on the interface-CIDR map (keys are unique in a map, so
the first match is the match). -/
def lookupCidr (cidrs : List (String × Cidr)) (iface : String) : Option Cidr :=
  (cidrs.find? (fun e => e.1 == iface)).map (fun e => e.2)

/-- `by_iface.entry(..).and_modify(..).or_insert(..)`: append the range to
its interface's group, or open a new group.  Groups are produced in
first-occurrence order — one fixed choice of the unspecified
`HashMap::into_values` order. -/
def addRangeToGroups (r : IscRange) (c : Cidr) :
    List DesiredSubnet → List DesiredSubnet
  | [] => [⟨r.iface, c, [r]⟩]
  | g :: t =>
    if g.iface == r.iface then ⟨g.iface, g.cidr, g.ranges ++ [r]⟩ :: t
    else g :: addRangeToGroups r c t

/-- The shared loop of `desired_subnets_v4` / `desired_subnets_v6`: look up
each range's interface CIDR, verify both endpoints are contained, group by
interface. -/
def buildDesired (w : Nat) (ifaceCidrs : List (String × Cidr)) :
    List IscRange → List DesiredSubnet → Except MigErr (List DesiredSubnet)
  | [], acc => .ok acc
  | r :: rest, acc =>
    match lookupCidr ifaceCidrs r.iface with
    | none => .error (.NoInterfaceCidrForRange r.iface)
    | some c =>
      if cidrContains w c r.rangeFrom && cidrContains w c r.rangeTo then
        buildDesired w ifaceCidrs rest (addRangeToGroups r c acc)
      else .error (.RangeOutsideSubnet r.iface)

/-- `migrate/subnets.rs::desired_subnets_v4`. -/
def desired_subnets_v4 (d : Doc) : Except MigErr (List DesiredSubnet) :=
  if d.iscRangesV4.isEmpty then .ok []
  else buildDesired 32 d.ifaceCidrsV4 d.iscRangesV4 []

/-- `migrate/subnets.rs::desired_subnets_v6`. -/
def desired_subnets_v6 (d : Doc) : Except MigErr (List DesiredSubnet) :=
  if d.iscRangesV6.isEmpty then .ok []
  else buildDesired 128 d.ifaceCidrsV6 d.iscRangesV6 []

/-! ### Interface validation (`migrate/utils.rs`) -/

/-- `migrate/utils.rs::validate_mapping_ifaces_v4`. -/
def validate_mapping_ifaces_v4 (mappings : List IscStaticMap)
    (ifaceCidrs : List (String × Cidr)) : Except MigErr Unit :=
  match mappings with
  | [] => .ok ()
  | m :: rest =>
    match iface_for_ip m.ipaddr ifaceCidrs with
    | .error e => .error e
    | .ok derived =>
      if eqIgnoreAsciiCase derived m.iface then
        validate_mapping_ifaces_v4 rest ifaceCidrs
      else .error (.InterfaceMismatch m.ipaddr m.iface derived)

/-- `migrate/utils.rs::validate_mapping_ifaces_v6`. -/
def validate_mapping_ifaces_v6 (mappings : List IscStaticMapV6)
    (ifaceCidrs : List (String × Cidr)) : Except MigErr Unit :=
  match mappings with
  | [] => .ok ()
  | m :: rest =>
    match iface_for_ip_v6 m.ipaddr ifaceCidrs with
    | .error e => .error e
    | .ok derived =>
      if eqIgnoreAsciiCase derived m.iface then
        validate_mapping_ifaces_v6 rest ifaceCidrs
      else .error (.InterfaceMismatch m.ipaddr m.iface derived)

/-! ### String-list helpers used by interface-list merging and the
services code (`HashSet` collect + `sort`): canonical sorted dedup. -/

def insertStrAsc (a : String) : List String → List String
  | [] => [a]
  | b :: t => if decide (a ≤ b) then a :: b :: t else b :: insertStrAsc a t

def sortStrAsc (l : List String) : List String :=
  l.foldr insertStrAsc []

def dedupStr (l : List String) : List String :=
  l.foldl (fun acc x => if elemBy x acc then acc else acc ++ [x]) []

/-- `HashSet<String>` collected then sorted (`Vec::sort`). -/
def sortedSet (l : List String) : List String :=
  sortStrAsc (dedupStr l)

/-! ### Kea subnet / interface / option application
(`migrate/subnets.rs`, `migrate/options.rs`) -/

/-- `create_kea_subnet4_element` / `create_kea_subnet6_element`: fresh uuid,
the CIDR, a pool list rendered from the ranges, and (v6 only) the owning
interface. -/
def create_kea_subnet_element (isV6 : Bool) (ds : DesiredSubnet) (ctr : Nat) :
    KeaSubnetRec :=
  ⟨"uuid-" ++ toString ctr, ds.cidr,
    ds.ranges.map (fun r => (r.rangeFrom, r.rangeTo)),
    if isV6 then some ds.iface else none, [], none⟩

/-- `remove_kea_subnet_by_cidr`: drop every subnet element whose `subnet`
child equals the CIDR. -/
def remove_kea_subnet_by_cidr (subs : List KeaSubnetRec) (c : Cidr) :
    List KeaSubnetRec :=
  subs.filter (fun s => !(decide (s.cidr = c)))

/-- The per-family loop of `apply_kea_subnets`: for each desired subnet,
skip when its CIDR pre-exists (unless `force`, which removes the matching
elements first), else append a fresh element.  `existing` is the CIDR set
captured before the loop, as in the source. -/
def applyDesiredList (isV6 : Bool) (existing : List Cidr) (force : Bool) :
    List DesiredSubnet → List KeaSubnetRec → Nat → List KeaSubnetRec × Nat
  | [], subs, ctr => (subs, ctr)
  | ds :: rest, subs, ctr =>
    if elemBy ds.cidr existing then
      if force then
        applyDesiredList isV6 existing force rest
          (remove_kea_subnet_by_cidr subs ds.cidr ++
            [create_kea_subnet_element isV6 ds ctr]) (ctr + 1)
      else applyDesiredList isV6 existing force rest subs ctr
    else
      applyDesiredList isV6 existing force rest
        (subs ++ [create_kea_subnet_element isV6 ds ctr]) (ctr + 1)

/-- v4 half of `apply_kea_subnets` (`get_kea_subnets_node_mut` fails when
the Kea or dhcp4 section is absent). -/
def applyKeaSubnets4 (d : Doc) (desired4 : List DesiredSubnet) (force : Bool) :
    Doc × Option MigErr :=
  if desired4.isEmpty then (d, none)
  else if !(d.hasKea && d.hasKeaDhcp4) then (d, some .KeaNotConfigured)
  else
    let out := applyDesiredList false (d.keaSubnets.map (fun s => s.cidr)) force
      desired4 d.keaSubnets d.uuidCtr
    ({ d with keaSubnets := out.1, uuidCtr := out.2 }, none)

/-- v6 half of `apply_kea_subnets`. -/
def applyKeaSubnets6 (d : Doc) (desired6 : List DesiredSubnet) (force : Bool) :
    Doc × Option MigErr :=
  if desired6.isEmpty then (d, none)
  else if !(d.hasKea && d.hasKeaDhcp6) then (d, some .KeaNotConfigured)
  else
    let out := applyDesiredList true (d.keaSubnetsV6.map (fun s => s.cidr)) force
      desired6 d.keaSubnetsV6 d.uuidCtr
    ({ d with keaSubnetsV6 := out.1, uuidCtr := out.2 }, none)

/-- `migrate/subnets.rs::apply_kea_subnets` (the trailing re-extraction of
`kea_subnets` is the projection `extract_kea_subnets` in this model). -/
def apply_kea_subnets (d : Doc) (desired4 desired6 : List DesiredSubnet)
    (force : Bool) : Doc × Option MigErr :=
  match applyKeaSubnets4 d desired4 force with
  | (d1, some e) => (d1, some e)
  | (d1, none) => applyKeaSubnets6 d1 desired6 force

/-- v4 half of `apply_kea_interfaces`: merge the interfaces into the
`general/interfaces` list of dhcp4 (`get_kea_general_node_mut` fails when
the Kea or dhcp4 section is absent). -/
def applyKeaIfaces4 (d : Doc) (if4 : List String) : Doc × Option MigErr :=
  if if4.isEmpty then (d, none)
  else if !(d.hasKea && d.hasKeaDhcp4) then (d, some .KeaNotConfigured)
  else ({ d with keaIfacesV4 := sortedSet (if4 ++ d.keaIfacesV4) }, none)

/-- v6 half of `apply_kea_interfaces`. -/
def applyKeaIfaces6 (d : Doc) (if6 : List String) : Doc × Option MigErr :=
  if if6.isEmpty then (d, none)
  else if !(d.hasKea && d.hasKeaDhcp6) then (d, some .KeaNotConfigured)
  else ({ d with keaIfacesV6 := sortedSet (if6 ++ d.keaIfacesV6) }, none)

/-- `migrate/subnets.rs::apply_kea_interfaces`: merge the desired subnets'
interfaces into the per-family `general/interfaces` lists (deduplicated,
sorted).  The source's return value is inconsistent mid-refactor
(`Result<()>` assigned to a `Vec<String>`); the merged sorted union is
returned here, and no claim reads it. -/
def apply_kea_interfaces (d : Doc) (desired4 desired6 : List DesiredSubnet) :
    Doc × Option MigErr × List String :=
  let if4 := dedupStr (desired4.map (fun ds => ds.iface))
  let if6 := dedupStr (desired6.map (fun ds => ds.iface))
  match applyKeaIfaces4 d if4 with
  | (d1, some e) => (d1, some e, [])
  | (d1, none) =>
    match applyKeaIfaces6 d1 if6 with
    | (d2, some e) => (d2, some e, [])
    | (d2, none) => (d2, none, sortedSet (if4 ++ if6))

/-- `options.rs::dedupe_preserve_order`. -/
def dedupe_preserve_order (l : List String) : List String := dedupStr l

/-- `options.rs::join_list`. -/
def join_list (values : List String) : Option String :=
  let filtered := dedupe_preserve_order (values.filter (fun v => !(v == "")))
  if filtered.isEmpty then none else some (String.intercalate "," filtered)

/-- Replace the text of the first child with the given tag. -/
def replaceFirstTag (tag v : String) : List (String × String) → List (String × String)
  | [] => []
  | e :: t => if e.1 == tag then (e.1, v) :: t else e :: replaceFirstTag tag v t

/-- `options.rs::set_option_value`: empty or absent values are ignored; a
pre-existing nonempty value is skipped with a warning unless `force`. -/
def set_option_value (target : List (String × String)) (tag : String)
    (value : Option String) (force : Bool) : List (String × String) :=
  match value with
  | none => target
  | some v =>
    if v == "" then target
    else
      match target.find? (fun e => e.1 == tag) with
      | some e =>
        if !(e.2 == "") && !force then target
        else replaceFirstTag tag v target
      | none => target ++ [(tag, v)]

/-- The `v4_by_cidr` map (`HashMap::insert` overwrites, so the last
bundle whose interface resolves to the CIDR wins); bundles whose interface
has no CIDR are skipped with a warning. -/
def optForCidr4 (ifaceCidrs : List (String × Cidr)) (opts : List IscDhcpOptionsV4)
    (c : Cidr) : Option IscDhcpOptionsV4 :=
  (opts.filter (fun o => lookupCidr ifaceCidrs o.iface == some c)).getLast?

def optForCidr6 (ifaceCidrs : List (String × Cidr)) (opts : List IscDhcpOptionsV6)
    (c : Cidr) : Option IscDhcpOptionsV6 :=
  (opts.filter (fun o => lookupCidr ifaceCidrs o.iface == some c)).getLast?

/-- Per-subnet v4 option application: ensure `option_data`, force the
autocollect flag to `0`, then set the five named fields. -/
def applyOptsToSubnet4 (o : IscDhcpOptionsV4) (force : Bool)
    (s : KeaSubnetRec) : KeaSubnetRec :=
  let od := s.optionData
  let od := set_option_value od "domain_name_servers" (join_list o.dnsServers) force
  let od := set_option_value od "routers" o.routers force
  let od := set_option_value od "domain_name" o.domainName force
  let od := set_option_value od "domain_search" o.domainSearch force
  let od := set_option_value od "ntp_servers" (join_list o.ntpServers) force
  { s with optionData := od, autocollect := some "0" }

/-- Per-subnet v6 option application (no autocollect flag). -/
def applyOptsToSubnet6 (o : IscDhcpOptionsV6) (force : Bool)
    (s : KeaSubnetRec) : KeaSubnetRec :=
  let od := s.optionData
  let od := set_option_value od "dns_servers" (join_list o.dnsServers) force
  let od := set_option_value od "domain_search" o.domainSearch force
  { s with optionData := od }

/-- `options.rs::apply_kea_options`: attach each option bundle to the
subnet elements whose CIDR equals the bundle's interface CIDR. -/
def apply_kea_options (d : Doc) (opts4 : List IscDhcpOptionsV4)
    (opts6 : List IscDhcpOptionsV6) (force : Bool) : Doc :=
  let subs4 := d.keaSubnets.map (fun s =>
    match optForCidr4 d.ifaceCidrsV4 opts4 s.cidr with
    | some o => applyOptsToSubnet4 o force s
    | none => s)
  let subs6 := d.keaSubnetsV6.map (fun s =>
    match optForCidr6 d.ifaceCidrsV6 opts6 s.cidr with
    | some o => applyOptsToSubnet6 o force s
    | none => s)
  { d with keaSubnets := subs4, keaSubnetsV6 := subs6 }

/-! ### Services (`migrate/services.rs`) -/

/-- `isc_enabled_ifaces`: interfaces whose `enable` flag is set (nonempty,
non-`"0"` text), collected through a `HashSet` and sorted. -/
def isc_enabled_ifaces_v4 (d : Doc) : List String := sortedSet d.iscEnabledV4

def isc_enabled_ifaces_v6 (d : Doc) : List String := sortedSet d.iscEnabledV6

/-- `services.rs::disable_isc_dhcp_from_config`: clear the enable flag of
every enabled source interface; return the sorted lists actually changed. -/
def disable_isc_dhcp_from_config (d : Doc) : Doc × List String × List String :=
  ({ d with iscEnabledV4 := [], iscEnabledV6 := [] },
    isc_enabled_ifaces_v4 d, isc_enabled_ifaces_v6 d)

/-- `services.rs::enable_kea`: per family, set the `general/enabled` flag
only when that family has subnets and its `dhcp` section exists (the
`general` child is created on demand, so presence of `dhcp4`/`dhcp6`
decides success); returns which families were enabled. -/
def enable_kea (d : Doc) (hasV4Subnets hasV6Subnets : Bool) :
    Doc × Bool × Bool :=
  if !d.hasKea then (d, false, false)
  else
    let e4 := hasV4Subnets && d.hasKeaDhcp4
    let e6 := hasV6Subnets && d.hasKeaDhcp6
    ({ d with keaDhcp4Enabled := (if e4 then true else d.keaDhcp4Enabled),
              keaDhcp6Enabled := (if e6 then true else d.keaDhcp6Enabled) },
      e4, e6)

/-- `services.rs::enable_dnsmasq`. -/
def enable_dnsmasq (d : Doc) : Doc × Bool :=
  if d.hasDnsmasq then ({ d with dnsmasqEnabled := true }, true) else (d, false)

/-! ### The Kea pipeline (`migrate/kea.rs`) -/

/-- `migrate_v4.rs::create_reservation_element` (hostname prefers the
explicit hostname, falling back to the v4 client id). -/
def create_reservation_element (m : IscStaticMap) (subnetUuid : String) : RsvV4 :=
  ⟨subnetUuid, m.ipaddr, m.mac,
    (match m.hostname with | some h => some h | none => m.cid), m.descr⟩

/-- `migrate_v6.rs::create_reservation_element_v6`. -/
def create_reservation_element_v6 (m : IscStaticMapV6) (subnetUuid : String) : RsvV6 :=
  ⟨subnetUuid, m.ipaddr, m.duid, m.hostname, m.domainSearch, m.descr⟩

/-- The v4/v6 early backend checks, identical in `scan_kea` and
`convert_kea` (a shared helper for the duplicated source blocks). -/
def keaBackendChecks (d : Doc) (msEmpty ms6Empty : Bool) (subs subs6 : List Subnet)
    (createSubnets : Bool) (desired4 desired6 : List DesiredSubnet) : Option MigErr :=
  if !msEmpty && subs.isEmpty && !createSubnets then
    some (if !(has_kea_dhcp4 d) then .BackendNotConfigured "Kea"
      else .NoBackendSubnets "Kea")
  else if !ms6Empty && subs6.isEmpty && !createSubnets then
    some (if !(has_kea_dhcp6 d) then .BackendV6NotConfigured "Kea"
      else .NoBackendSubnetsV6 "Kea")
  else if createSubnets && !msEmpty && subs.isEmpty && !(has_kea_dhcp4 d) then
    some (.BackendNotConfigured "Kea")
  else if createSubnets && !msEmpty && subs.isEmpty && desired4.isEmpty then
    some .NoRangesToCreateSubnets
  else if createSubnets && !ms6Empty && subs6.isEmpty && !(has_kea_dhcp6 d) then
    some (.BackendV6NotConfigured "Kea")
  else if createSubnets && !ms6Empty && subs6.isEmpty && desired6.isEmpty then
    some .NoRangesToCreateSubnetsV6
  else none

/-- The Kea `fail_if_existing` check. -/
def failIfExistingKea (o : MOpts) (ips ips6 : List Nat) (duids : List String) :
    Option MigErr :=
  if o.failIfExisting && (!ips.isEmpty || !ips6.isEmpty || !duids.isEmpty) then
    some .ExistingRecordsFound
  else none

/-- `scan_kea`'s effective-subnet list: append a placeholder entry (with a
synthetic identifier) for every desired CIDR not already present. -/
def effectiveSubnets (base : List Subnet) (desired : List DesiredSubnet) :
    List Subnet :=
  desired.foldl (fun acc ds =>
    if acc.any (fun s => decide (s.cidr = ds.cidr)) then acc
    else acc ++ [⟨"new-" ++ toString acc.length, ds.cidr⟩]) base

/-- State of `scan_kea`'s v4 loop. -/
structure ScanSt where
  reserved : List Nat
  created : Nat
  skipped : Nat
  deriving DecidableEq

/-- `scan_kea`'s v4 loop: skip reserved addresses, otherwise resolve the
subnet (propagating failure), reserve and count. -/
def scanLoopV4 (subnets : List Subnet) :
    List IscStaticMap → ScanSt → Except MigErr ScanSt
  | [], st => .ok st
  | m :: rest, st =>
    if elemBy m.ipaddr st.reserved then
      scanLoopV4 subnets rest { st with skipped := st.skipped + 1 }
    else
      match find_subnet_for_ip m.ipaddr subnets with
      | .error e => .error e
      | .ok _ =>
        scanLoopV4 subnets rest
          { st with reserved := m.ipaddr :: st.reserved, created := st.created + 1 }

/-- State of `scan_kea`'s v6 loop. -/
structure ScanStV6 where
  reservedIps : List Nat
  reservedDuids : List String
  created : Nat
  skipped : Nat
  deriving DecidableEq

/-- `scan_kea`'s v6 loop (skip on address or DUID collision). -/
def scanLoopV6 (subnets : List Subnet) :
    List IscStaticMapV6 → ScanStV6 → Except MigErr ScanStV6
  | [], st => .ok st
  | m :: rest, st =>
    if elemBy m.ipaddr st.reservedIps || elemBy m.duid st.reservedDuids then
      scanLoopV6 subnets rest { st with skipped := st.skipped + 1 }
    else
      match find_subnet_for_ip_v6 m.ipaddr subnets with
      | .error e => .error e
      | .ok _ =>
        scanLoopV6 subnets rest
          { st with reservedIps := m.ipaddr :: st.reservedIps,
                    reservedDuids := m.duid :: st.reservedDuids,
                    created := st.created + 1 }

/-- `migrate/kea.rs::scan_kea`. -/
def scan_kea (d : Doc) (ms : List IscStaticMap) (ms6 : List IscStaticMapV6)
    (o : MOpts) : Except MigErr MStats :=
  let keaSubs := extract_kea_subnets d
  let existingIps := extract_existing_reservation_ips d
  let keaSubs6 := extract_kea_subnets_v6 d
  let existingIps6 := extract_existing_reservation_ips_v6 d
  let existingDuids6 := extract_existing_reservation_duids_v6 d
  match (if o.createSubnets then desired_subnets_v4 d else .ok []) with
  | .error e => .error e
  | .ok desired4 =>
  match (if o.createSubnets then desired_subnets_v6 d else .ok []) with
  | .error e => .error e
  | .ok desired6 =>
  match keaBackendChecks d ms.isEmpty ms6.isEmpty keaSubs keaSubs6
      o.createSubnets desired4 desired6 with
  | some e => .error e
  | none =>
  match validate_mapping_ifaces_v4 ms d.ifaceCidrsV4 with
  | .error e => .error e
  | .ok _ =>
  match validate_mapping_ifaces_v6 ms6 d.ifaceCidrsV6 with
  | .error e => .error e
  | .ok _ =>
  match failIfExistingKea o existingIps existingIps6 existingDuids6 with
  | some e => .error e
  | none =>
  let eff := if o.createSubnets then effectiveSubnets keaSubs desired4 else keaSubs
  let eff6 := if o.createSubnets then effectiveSubnets keaSubs6 desired6 else keaSubs6
  match scanLoopV4 eff ms ⟨existingIps, 0, 0⟩ with
  | .error e => .error e
  | .ok st4 =>
  match scanLoopV6 eff6 ms6 ⟨existingIps6, existingDuids6, 0, 0⟩ with
  | .error e => .error e
  | .ok st6 =>
  .ok { iscMappingsFound := ms.length, iscMappingsV6Found := ms6.length,
        targetSubnetsFound := keaSubs.length,
        targetSubnetsV6Found := keaSubs6.length,
        reservationsToCreate := st4.created,
        reservationsV6ToCreate := st6.created,
        reservationsSkipped := st4.skipped,
        reservationsV6Skipped := st6.skipped,
        interfacesConfigured := [], iscDisabledV4 := [], iscDisabledV6 := [],
        backendEnabledV4 := false, backendEnabledV6 := false }

/-- State of `convert_kea`'s v4 loop. -/
structure ConvSt where
  recs : List RsvV4
  reserved : List Nat
  created : Nat
  skipped : Nat
  err : Option MigErr
  deriving DecidableEq

/-- `convert_kea`'s v4 loop: as the scan loop, but building and appending a
reservation for each accepted mapping; on a resolution failure the records
appended so far stay in the document. -/
def convLoopV4 (subnets : List Subnet) :
    List IscStaticMap → ConvSt → ConvSt
  | [], st => st
  | m :: rest, st =>
    if elemBy m.ipaddr st.reserved then
      convLoopV4 subnets rest { st with skipped := st.skipped + 1 }
    else
      match find_subnet_for_ip m.ipaddr subnets with
      | .error e => { st with err := some e }
      | .ok u =>
        convLoopV4 subnets rest
          { st with recs := st.recs ++ [create_reservation_element m u],
                    reserved := m.ipaddr :: st.reserved,
                    created := st.created + 1 }

/-- State of `convert_kea`'s v6 loop. -/
structure ConvStV6 where
  recs : List RsvV6
  reservedIps : List Nat
  reservedDuids : List String
  created : Nat
  skipped : Nat
  err : Option MigErr
  deriving DecidableEq

/-- `convert_kea`'s v6 loop. -/
def convLoopV6 (subnets : List Subnet) :
    List IscStaticMapV6 → ConvStV6 → ConvStV6
  | [], st => st
  | m :: rest, st =>
    if elemBy m.ipaddr st.reservedIps || elemBy m.duid st.reservedDuids then
      convLoopV6 subnets rest { st with skipped := st.skipped + 1 }
    else
      match find_subnet_for_ip_v6 m.ipaddr subnets with
      | .error e => { st with err := some e }
      | .ok u =>
        convLoopV6 subnets rest
          { st with recs := st.recs ++ [create_reservation_element_v6 m u],
                    reservedIps := m.ipaddr :: st.reservedIps,
                    reservedDuids := m.duid :: st.reservedDuids,
                    created := st.created + 1 }

/-- `convert_kea`'s v4 record phase: nothing runs when no mappings exist;
`get_reservations_node` fails when Kea or dhcp4 is absent; otherwise the
loop appends accepted records (also on a mid-loop failure). -/
def keaRecordPhaseV4 (d : Doc) (ms : List IscStaticMap) (subs : List Subnet)
    (existingIps : List Nat) : Doc × Except MigErr (Nat × Nat) :=
  if ms.isEmpty then (d, .ok (0, 0))
  else if !(d.hasKea && d.hasKeaDhcp4) then (d, .error .KeaNotConfigured)
  else
    let st := convLoopV4 subs ms ⟨[], existingIps, 0, 0, none⟩
    let d1 := { d with keaReservations := d.keaReservations ++ st.recs }
    match st.err with
    | some e => (d1, .error e)
    | none => (d1, .ok (st.created, st.skipped))

/-- `convert_kea`'s v6 record phase. -/
def keaRecordPhaseV6 (d : Doc) (ms6 : List IscStaticMapV6) (subs6 : List Subnet)
    (existingIps6 : List Nat) (existingDuids6 : List String) :
    Doc × Except MigErr (Nat × Nat) :=
  if ms6.isEmpty then (d, .ok (0, 0))
  else if !(d.hasKea && d.hasKeaDhcp6) then (d, .error .KeaNotConfigured)
  else
    let st := convLoopV6 subs6 ms6 ⟨[], existingIps6, existingDuids6, 0, 0, none⟩
    let d1 := { d with keaReservationsV6 := d.keaReservationsV6 ++ st.recs }
    match st.err with
    | some e => (d1, .error e)
    | none => (d1, .ok (st.created, st.skipped))

/-- `convert_kea`'s enable phase: disable the enabled source interfaces,
enable each Kea family that has subnets, and fail when a family with
subnets could not be enabled. -/
def keaEnablePhase (d : Doc) (o : MOpts) (subs subs6 : List Subnet) :
    Doc × Except MigErr (List String × List String × Bool × Bool) :=
  if o.enableBackend then
    match disable_isc_dhcp_from_config d with
    | (d1, dis4, dis6) =>
      match enable_kea d1 (!subs.isEmpty) (!subs6.isEmpty) with
      | (d2, e4, e6) =>
        if !subs.isEmpty && !e4 then (d2, .error .EnableBackendFailed)
        else if !subs6.isEmpty && !e6 then (d2, .error .EnableBackendFailed)
        else (d2, .ok (dis4, dis6, e4, e6))
  else (d, .ok ([], [], false, false))

/-- Context established by `convert_kea` before the record phases. -/
structure KeaCtx where
  desired4 : List DesiredSubnet
  desired6 : List DesiredSubnet
  ifacesConfigured : List String
  subs : List Subnet
  subs6 : List Subnet
  existingIps : List Nat
  existingIps6 : List Nat
  existingDuids6 : List String
  deriving DecidableEq

/-- The phases of `convert_kea` up to and including the `fail_if_existing`
check: extraction, desired-subnet synthesis, subnet/interface/option
application, interface validation, backend checks. -/
def convert_kea_pre (d : Doc) (ms : List IscStaticMap) (ms6 : List IscStaticMapV6)
    (o : MOpts) : Doc × Except MigErr KeaCtx :=
  let existingIps := extract_existing_reservation_ips d
  let existingIps6 := extract_existing_reservation_ips_v6 d
  let existingDuids6 := extract_existing_reservation_duids_v6 d
  let wantDesired := o.createSubnets || o.enableBackend
  match (if wantDesired then desired_subnets_v4 d else .ok []) with
  | .error e => (d, .error e)
  | .ok desired4 =>
  match (if wantDesired then desired_subnets_v6 d else .ok []) with
  | .error e => (d, .error e)
  | .ok desired6 =>
  let opts4 := if o.createOptions then d.iscOptionsV4 else []
  let opts6 := if o.createOptions then d.iscOptionsV6 else []
  match (if o.createSubnets then apply_kea_subnets d desired4 desired6 o.forceSubnets
      else (d, none)) with
  | (d1, some e) => (d1, .error e)
  | (d1, none) =>
  match (if o.createSubnets then apply_kea_interfaces d1 desired4 desired6
      else (d1, none, [])) with
  | (d2, some e, _) => (d2, .error e)
  | (d2, none, ifacesConfigured) =>
  let d3 := if o.createOptions then apply_kea_options d2 opts4 opts6 o.forceOptions else d2
  let subs := extract_kea_subnets d3
  let subs6 := extract_kea_subnets_v6 d3
  match validate_mapping_ifaces_v4 ms d3.ifaceCidrsV4 with
  | .error e => (d3, .error e)
  | .ok _ =>
  match validate_mapping_ifaces_v6 ms6 d3.ifaceCidrsV6 with
  | .error e => (d3, .error e)
  | .ok _ =>
  match keaBackendChecks d3 ms.isEmpty ms6.isEmpty subs subs6
      o.createSubnets desired4 desired6 with
  | some e => (d3, .error e)
  | none =>
  match failIfExistingKea o existingIps existingIps6 existingDuids6 with
  | some e => (d3, .error e)
  | none =>
  (d3, .ok ⟨desired4, desired6, ifacesConfigured, subs, subs6,
    existingIps, existingIps6, existingDuids6⟩)

/-- The phases of `convert_kea` after the `fail_if_existing` check: the two
record phases, the enable phase, and stats assembly. -/
def convert_kea_post (d : Doc) (ms : List IscStaticMap) (ms6 : List IscStaticMapV6)
    (o : MOpts) (ctx : KeaCtx) : Doc × Except MigErr MStats :=
  match keaRecordPhaseV4 d ms ctx.subs ctx.existingIps with
  | (d4, .error e) => (d4, .error e)
  | (d4, .ok out4) =>
  match keaRecordPhaseV6 d4 ms6 ctx.subs6 ctx.existingIps6 ctx.existingDuids6 with
  | (d5, .error e) => (d5, .error e)
  | (d5, .ok out6) =>
  match keaEnablePhase d5 o ctx.subs ctx.subs6 with
  | (d6, .error e) => (d6, .error e)
  | (d6, .ok enOut) =>
  (d6, .ok { iscMappingsFound := ms.length, iscMappingsV6Found := ms6.length,
             targetSubnetsFound := ctx.subs.length,
             targetSubnetsV6Found := ctx.subs6.length,
             reservationsToCreate := out4.1,
             reservationsV6ToCreate := out6.1,
             reservationsSkipped := out4.2,
             reservationsV6Skipped := out6.2,
             interfacesConfigured := ctx.ifacesConfigured,
             iscDisabledV4 := enOut.1, iscDisabledV6 := enOut.2.1,
             backendEnabledV4 := enOut.2.2.1, backendEnabledV6 := enOut.2.2.2 })

/-- `migrate/kea.rs::convert_kea`.  The document is returned alongside the
result; mutations made before a failure stay in it, as with `&mut` in the
source. -/
def convert_kea (d : Doc) (ms : List IscStaticMap) (ms6 : List IscStaticMapV6)
    (o : MOpts) : Doc × Except MigErr MStats :=
  match convert_kea_pre d ms ms6 o with
  | (d1, .error e) => (d1, .error e)
  | (d1, .ok ctx) => convert_kea_post d1 ms ms6 o ctx

/-! ### The dnsmasq pipeline (`migrate/dnsmasq.rs`) -/

/-- `migrate_dnsmasq.rs::first_domain`: first nonempty
whitespace/comma-delimited token. -/
def first_domain (s : String) : String :=
  ((s.split (fun c => c.isWhitespace || c == ',')).find? (fun t => !(t == ""))).getD ""

/-- `migrate_dnsmasq.rs::create_dnsmasq_host_element`. -/
def create_dnsmasq_host_element (m : IscStaticMap) : DnsHost :=
  ⟨m.mac, .v4 m.ipaddr,
    (match m.hostname with
      | some h => h
      | none => (match m.cid with | some c => c | none => "")),
    m.cid, "", m.descr⟩

/-- `migrate_dnsmasq.rs::create_dnsmasq_host_element_v6` (no hardware
address; DUID stored as client id; domain from the first domain-search
token). -/
def create_dnsmasq_host_element_v6 (m : IscStaticMapV6) : DnsHost :=
  ⟨"", .v6 m.ipaddr,
    (match m.hostname with | some h => h | none => ""),
    some m.duid,
    (match m.domainSearch with | some s => first_domain s | none => ""), m.descr⟩

/-- Modelled from the spec: `create_dnsmasq_range_element_v4` is imported by
`migrate/dnsmasq.rs` but its definition is missing from the sources; per
§4.4/§8 it emits a `dhcp_ranges` record with the interface, both endpoints
and the v4 netmask (no v6 prefix length), so that its extracted key equals
the `range_key(iface, from, to, "", mask)` the caller deduplicates on. -/
def create_dnsmasq_range_element_v4 (iface : String) (rfrom rto mask : Nat) :
    RangeKey :=
  ⟨iface, rfrom, rto, none, some mask⟩

/-- Modelled from the spec: `create_dnsmasq_range_element_v6` (missing from
the sources); emits a `dhcp_ranges` record with the interface, both
endpoints and the v6 prefix length (no netmask). -/
def create_dnsmasq_range_element_v6 (iface : String) (rfrom rto plen : Nat) :
    RangeKey :=
  ⟨iface, rfrom, rto, some plen, none⟩

/-- Modelled from the spec: `create_dnsmasq_option_element` (missing from
the sources); per §4.7 it emits one `type=set` option record keyed by
(option code, v6 option code, interface) with empty tags, so that its
extracted key equals `option_key_for_spec` of its spec. -/
def create_dnsmasq_option_element (iface oc oc6 value : String) : DnsmasqOpt :=
  ⟨"set", oc, oc6, iface, "", "", value⟩

/-- `options.rs::domain_search_csv`. -/
def domain_search_csv (value : String) : Option String :=
  let parts := (value.split (fun c => c == ';' || c == ',' || c.isWhitespace)).filter
    (fun s => !(s == ""))
  if parts.isEmpty then none else some (String.intercalate "," parts)

/-- The v4 rows of `options.rs::dnsmasq_option_specs_from_isc`: DNS 6,
gateway 3, domain name 15, domain search 119 (csv), NTP 42. -/
def specsFromV4 (o : IscDhcpOptionsV4) : List DnsmasqOptionSpec :=
  (match join_list o.dnsServers with
    | some v => [⟨o.iface, "6", "", v⟩] | none => []) ++
  (match o.routers with
    | some v => if v == "" then [] else [⟨o.iface, "3", "", v⟩] | none => []) ++
  (match o.domainName with
    | some v => if v == "" then [] else [⟨o.iface, "15", "", v⟩] | none => []) ++
  (match o.domainSearch with
    | some s => (match domain_search_csv s with
      | some v => [⟨o.iface, "119", "", v⟩] | none => [])
    | none => []) ++
  (match join_list o.ntpServers with
    | some v => [⟨o.iface, "42", "", v⟩] | none => [])

/-- The v6 rows: DNS 23, domain search 24. -/
def specsFromV6 (o : IscDhcpOptionsV6) : List DnsmasqOptionSpec :=
  (match join_list o.dnsServers with
    | some v => [⟨o.iface, "", "23", v⟩] | none => []) ++
  (match o.domainSearch with
    | some s => (match domain_search_csv s with
      | some v => [⟨o.iface, "", "24", v⟩] | none => [])
    | none => [])

/-- `options.rs::dnsmasq_option_specs_from_isc`. -/
def dnsmasq_option_specs_from_isc (opts4 : List IscDhcpOptionsV4)
    (opts6 : List IscDhcpOptionsV6) : List DnsmasqOptionSpec :=
  (opts4.map specsFromV4).flatten ++ (opts6.map specsFromV6).flatten

/-- `migrate/dnsmasq.rs::option_key_for_spec`. -/
def option_key_for_spec (spec : DnsmasqOptionSpec) : OptKey :=
  ⟨"set", spec.option, spec.option6, spec.iface, "", ""⟩

/-- `options.rs::dnsmasq_option_key_from_elem`. -/
def dnsmasq_option_key_from_elem (o : DnsmasqOpt) : Option OptKey :=
  if eqIgnoreAsciiCase o.otype "set" then some (dnsmasq_option_key o) else none

/-- One desired range processed by `convert_dnsmasq`: skip on a
pre-existing key (removing the matching elements first under `force`),
else append the created element.  `existing` is the key set captured before
the block. -/
def applyRanges (existing : List RangeKey) (force : Bool)
    (mkKey : IscRange → RangeKey) (ranges : List IscRange)
    (cur : List RangeKey) : List RangeKey :=
  ranges.foldl (fun cur r =>
    let key := mkKey r
    if elemBy key existing then
      if force then (cur.filter (fun e => !(decide (e = key)))) ++ [key]
      else cur
    else cur ++ [key]) cur

/-- The v4 desired-range block of `convert_dnsmasq`. -/
def applyDesiredRangesV4 (existing : List RangeKey) (force : Bool)
    (desired : List DesiredSubnet) (cur : List RangeKey) : List RangeKey :=
  desired.foldl (fun cur ds =>
    applyRanges existing force
      (fun r => create_dnsmasq_range_element_v4 ds.iface r.rangeFrom r.rangeTo
        ds.cidr.plen)
      ds.ranges cur) cur

/-- The v6 desired-range block of `convert_dnsmasq`. -/
def applyDesiredRangesV6 (existing : List RangeKey) (force : Bool)
    (desired : List DesiredSubnet) (cur : List RangeKey) : List RangeKey :=
  desired.foldl (fun cur ds =>
    applyRanges existing force
      (fun r => create_dnsmasq_range_element_v6 ds.iface r.rangeFrom r.rangeTo
        ds.cidr.plen)
      ds.ranges cur) cur

/-- The option block of `convert_dnsmasq`. -/
def applyDnsmasqOptions (existing : List OptKey) (force : Bool)
    (specs : List DnsmasqOptionSpec) (cur : List DnsmasqOpt) : List DnsmasqOpt :=
  specs.foldl (fun cur spec =>
    let key := option_key_for_spec spec
    let elem := create_dnsmasq_option_element spec.iface spec.option spec.option6
      spec.value
    if elemBy key existing then
      if force then
        (cur.filter (fun o => !(decide (dnsmasq_option_key_from_elem o = some key))))
          ++ [elem]
      else cur
    else cur ++ [elem]) cur

/-- State of the dnsmasq scan loops (one shared address set for both
families). -/
structure DnsScanSt where
  reservedIps : List IpAddr
  reservedMacs : List String
  reservedCids : List String
  created : Nat
  createdV6 : Nat
  skipped : Nat
  skippedV6 : Nat
  deriving DecidableEq

/-- `scan_dnsmasq`'s v4 loop (skip on address or MAC collision). -/
def dnsScanLoopV4 : List IscStaticMap → DnsScanSt → DnsScanSt
  | [], st => st
  | m :: rest, st =>
    if elemBy (IpAddr.v4 m.ipaddr) st.reservedIps || elemBy m.mac st.reservedMacs then
      dnsScanLoopV4 rest { st with skipped := st.skipped + 1 }
    else
      dnsScanLoopV4 rest
        { st with reservedIps := IpAddr.v4 m.ipaddr :: st.reservedIps,
                  reservedMacs := m.mac :: st.reservedMacs,
                  created := st.created + 1 }

/-- `scan_dnsmasq`'s v6 loop (skip on address — against the shared set —
or DUID collision). -/
def dnsScanLoopV6 : List IscStaticMapV6 → DnsScanSt → DnsScanSt
  | [], st => st
  | m :: rest, st =>
    if elemBy (IpAddr.v6 m.ipaddr) st.reservedIps || elemBy m.duid st.reservedCids then
      dnsScanLoopV6 rest { st with skippedV6 := st.skippedV6 + 1 }
    else
      dnsScanLoopV6 rest
        { st with reservedIps := IpAddr.v6 m.ipaddr :: st.reservedIps,
                  reservedCids := m.duid :: st.reservedCids,
                  createdV6 := st.createdV6 + 1 }

/-- The dnsmasq backend-presence condition, shared by `scan_dnsmasq` and
`convert_dnsmasq` (a named helper for the duplicated source expression). -/
def dnsmasq_backend_missing (d : Doc) (msE ms6E : Bool)
    (des4 des6 : List DesiredSubnet) (specs : List DnsmasqOptionSpec) : Bool :=
  (!msE || !ms6E || !des4.isEmpty || !des6.isEmpty || !specs.isEmpty) &&
    !(has_dnsmasq d)

/-- The dnsmasq `fail_if_existing` condition (including the desired-range
collision when subnet creation is requested). -/
def dnsmasq_fail_existing (o : MOpts) (ips : List IpAddr) (macs cids : List String)
    (ranges : List RangeKey) : Bool :=
  o.failIfExisting && (!ips.isEmpty || !macs.isEmpty || !cids.isEmpty ||
    (o.createSubnets && !ranges.isEmpty))

/-- The work-exists condition guarding `convert_dnsmasq`'s mutation block. -/
def dnsmasq_work_exists (msE ms6E : Bool) (o : MOpts)
    (des4 des6 : List DesiredSubnet) (specs : List DnsmasqOptionSpec) : Bool :=
  !msE || !ms6E || (o.createSubnets && (!des4.isEmpty || !des6.isEmpty)) ||
    (o.createOptions && !specs.isEmpty)

/-- `migrate/dnsmasq.rs::scan_dnsmasq`. -/
def scan_dnsmasq (d : Doc) (ms : List IscStaticMap) (ms6 : List IscStaticMapV6)
    (o : MOpts) : Except MigErr MStats :=
  match (if o.createSubnets then desired_subnets_v4 d else .ok []) with
  | .error e => .error e
  | .ok desired4 =>
  match (if o.createSubnets then desired_subnets_v6 d else .ok []) with
  | .error e => .error e
  | .ok desired6 =>
  let opts4 := if o.createOptions then d.iscOptionsV4 else []
  let opts6 := if o.createOptions then d.iscOptionsV6 else []
  let desiredOptions :=
    if o.createOptions then dnsmasq_option_specs_from_isc opts4 opts6 else []
  if dnsmasq_backend_missing d ms.isEmpty ms6.isEmpty desired4 desired6
      desiredOptions then
    .error (.BackendNotConfigured "dnsmasq")
  else
  let existingIps := extract_existing_dnsmasq_ips d
  let existingMacs := extract_existing_dnsmasq_macs d
  let existingCids := extract_existing_dnsmasq_client_ids d
  let existingRanges := extract_existing_dnsmasq_ranges d
  if dnsmasq_fail_existing o existingIps existingMacs existingCids existingRanges then
    .error .ExistingRecordsFound
  else
  match validate_mapping_ifaces_v4 ms d.ifaceCidrsV4 with
  | .error e => .error e
  | .ok _ =>
  match validate_mapping_ifaces_v6 ms6 d.ifaceCidrsV6 with
  | .error e => .error e
  | .ok _ =>
  let st := dnsScanLoopV4 ms ⟨existingIps, existingMacs, existingCids, 0, 0, 0, 0⟩
  let st2 := dnsScanLoopV6 ms6 st
  .ok { iscMappingsFound := ms.length, iscMappingsV6Found := ms6.length,
        targetSubnetsFound := 0, targetSubnetsV6Found := 0,
        reservationsToCreate := st2.created,
        reservationsV6ToCreate := st2.createdV6,
        reservationsSkipped := st2.skipped,
        reservationsV6Skipped := st2.skippedV6,
        interfacesConfigured := [], iscDisabledV4 := [], iscDisabledV6 := [],
        backendEnabledV4 := false, backendEnabledV6 := false }

/-- State of the dnsmasq convert loops: the scan state plus the appended
host elements. -/
structure DnsConvSt where
  hosts : List DnsHost
  reservedIps : List IpAddr
  reservedMacs : List String
  reservedCids : List String
  created : Nat
  createdV6 : Nat
  skipped : Nat
  skippedV6 : Nat
  deriving DecidableEq

/-- `convert_dnsmasq`'s v4 loop. -/
def dnsConvLoopV4 : List IscStaticMap → DnsConvSt → DnsConvSt
  | [], st => st
  | m :: rest, st =>
    if elemBy (IpAddr.v4 m.ipaddr) st.reservedIps || elemBy m.mac st.reservedMacs then
      dnsConvLoopV4 rest { st with skipped := st.skipped + 1 }
    else
      dnsConvLoopV4 rest
        { st with hosts := st.hosts ++ [create_dnsmasq_host_element m],
                  reservedIps := IpAddr.v4 m.ipaddr :: st.reservedIps,
                  reservedMacs := m.mac :: st.reservedMacs,
                  created := st.created + 1 }

/-- `convert_dnsmasq`'s v6 loop. -/
def dnsConvLoopV6 : List IscStaticMapV6 → DnsConvSt → DnsConvSt
  | [], st => st
  | m :: rest, st =>
    if elemBy (IpAddr.v6 m.ipaddr) st.reservedIps || elemBy m.duid st.reservedCids then
      dnsConvLoopV6 rest { st with skippedV6 := st.skippedV6 + 1 }
    else
      dnsConvLoopV6 rest
        { st with hosts := st.hosts ++ [create_dnsmasq_host_element_v6 m],
                  reservedIps := IpAddr.v6 m.ipaddr :: st.reservedIps,
                  reservedCids := m.duid :: st.reservedCids,
                  createdV6 := st.createdV6 + 1 }

/-- `migrate/dnsmasq.rs::apply_dnsmasq_interfaces`. -/
def apply_dnsmasq_interfaces (d : Doc) (desired4 desired6 : List DesiredSubnet) :
    Doc × Option MigErr × List String :=
  let ifaces := dedupStr (desired4.map (fun ds => ds.iface) ++
    desired6.map (fun ds => ds.iface))
  if ifaces.isEmpty then (d, none, [])
  else if !(has_dnsmasq d) then (d, some .DnsmasqNotConfigured, [])
  else
    let merged := sortedSet (ifaces ++ d.dnsmasqIfaces)
    ({ d with dnsmasqIfaces := merged }, none, merged)

/-- Context established by `convert_dnsmasq` before its mutation block. -/
structure DnsCtx where
  desired4 : List DesiredSubnet
  desired6 : List DesiredSubnet
  desiredOptions : List DnsmasqOptionSpec
  existingIps : List IpAddr
  existingMacs : List String
  existingCids : List String
  existingRanges : List RangeKey
  existingOptions : List OptKey
  deriving DecidableEq

/-- The phases of `convert_dnsmasq` up to and including interface
validation: desired synthesis, backend-presence check, extraction of
existing records, `fail_if_existing` check, validation. -/
def convert_dnsmasq_pre (d : Doc) (ms : List IscStaticMap)
    (ms6 : List IscStaticMapV6) (o : MOpts) : Except MigErr DnsCtx :=
  let wantDesired := o.createSubnets || o.enableBackend
  match (if wantDesired then desired_subnets_v4 d else .ok []) with
  | .error e => .error e
  | .ok desired4 =>
  match (if wantDesired then desired_subnets_v6 d else .ok []) with
  | .error e => .error e
  | .ok desired6 =>
  let opts4 := if o.createOptions then d.iscOptionsV4 else []
  let opts6 := if o.createOptions then d.iscOptionsV6 else []
  let desiredOptions :=
    if o.createOptions then dnsmasq_option_specs_from_isc opts4 opts6 else []
  if dnsmasq_backend_missing d ms.isEmpty ms6.isEmpty desired4 desired6
      desiredOptions then
    .error (.BackendNotConfigured "dnsmasq")
  else
  let existingIps := extract_existing_dnsmasq_ips d
  let existingMacs := extract_existing_dnsmasq_macs d
  let existingCids := extract_existing_dnsmasq_client_ids d
  let existingRanges := extract_existing_dnsmasq_ranges d
  let existingOptions := if o.createOptions then extract_existing_dnsmasq_options d else []
  if dnsmasq_fail_existing o existingIps existingMacs existingCids existingRanges then
    .error .ExistingRecordsFound
  else
  match validate_mapping_ifaces_v4 ms d.ifaceCidrsV4 with
  | .error e => .error e
  | .ok _ =>
  match validate_mapping_ifaces_v6 ms6 d.ifaceCidrsV6 with
  | .error e => .error e
  | .ok _ =>
  .ok ⟨desired4, desired6, desiredOptions, existingIps, existingMacs,
    existingCids, existingRanges, existingOptions⟩

/-- The deduplicating record loops of `convert_dnsmasq`'s mutation block
(run only when there is work to do), starting from the context's existing
sets. -/
def dnsMutateSt (ms : List IscStaticMap) (ms6 : List IscStaticMapV6)
    (o : MOpts) (ctx : DnsCtx) : DnsConvSt :=
  if dnsmasq_work_exists ms.isEmpty ms6.isEmpty o ctx.desired4 ctx.desired6
      ctx.desiredOptions then
    dnsConvLoopV6 ms6 (dnsConvLoopV4 ms
      ⟨[], ctx.existingIps, ctx.existingMacs, ctx.existingCids, 0, 0, 0, 0⟩)
  else ⟨[], ctx.existingIps, ctx.existingMacs, ctx.existingCids, 0, 0, 0, 0⟩

/-- The mutation block of `convert_dnsmasq`: desired ranges, translated
options, then the accepted host records are written into the document. -/
def dnsMutate (d : Doc) (ms : List IscStaticMap) (ms6 : List IscStaticMapV6)
    (o : MOpts) (ctx : DnsCtx) : Doc :=
  let bigCond := dnsmasq_work_exists ms.isEmpty ms6.isEmpty o ctx.desired4
    ctx.desired6 ctx.desiredOptions
  let newRanges := applyDesiredRangesV6 ctx.existingRanges o.forceSubnets ctx.desired6
    (applyDesiredRangesV4 ctx.existingRanges o.forceSubnets ctx.desired4
      d.dnsmasqRanges)
  let d1 := if bigCond && o.createSubnets then { d with dnsmasqRanges := newRanges }
    else d
  let newOpts := applyDnsmasqOptions ctx.existingOptions o.forceOptions
    ctx.desiredOptions d1.dnsmasqOpts
  let d2 := if bigCond && o.createOptions then { d1 with dnsmasqOpts := newOpts }
    else d1
  { d2 with dnsmasqHosts := d2.dnsmasqHosts ++ (dnsMutateSt ms ms6 o ctx).hosts }

/-- The phases of `convert_dnsmasq` after validation: the mutation block
(ranges, options, host records), interface-list merge, enable phase, and
stats assembly. -/
def convert_dnsmasq_post (d : Doc) (ms : List IscStaticMap)
    (ms6 : List IscStaticMapV6) (o : MOpts) (ctx : DnsCtx) :
    Doc × Except MigErr MStats :=
  let bigCond := dnsmasq_work_exists ms.isEmpty ms6.isEmpty o ctx.desired4
    ctx.desired6 ctx.desiredOptions
  if bigCond && !(has_dnsmasq d) then (d, .error .DnsmasqNotConfigured)
  else
  let stOut := dnsMutateSt ms ms6 o ctx
  let d3 := dnsMutate d ms ms6 o ctx
  match (if o.createSubnets then apply_dnsmasq_interfaces d3 ctx.desired4 ctx.desired6
      else (d3, none, [])) with
  | (d4, some e, _) => (d4, .error e)
  | (d4, none, ifacesConfigured) =>
  if o.enableBackend then
    match disable_isc_dhcp_from_config d4 with
    | (d5, dis4, dis6) =>
      let hasRanges := !ctx.desired4.isEmpty || !ctx.desired6.isEmpty ||
        !ctx.existingRanges.isEmpty
      match (if hasRanges then enable_dnsmasq d5 else (d5, false)) with
      | (d6, en) =>
        if hasRanges && !en then (d6, .error .EnableBackendFailed)
        else
          (d6, .ok { iscMappingsFound := ms.length, iscMappingsV6Found := ms6.length,
                     targetSubnetsFound := 0, targetSubnetsV6Found := 0,
                     reservationsToCreate := stOut.created,
                     reservationsV6ToCreate := stOut.createdV6,
                     reservationsSkipped := stOut.skipped,
                     reservationsV6Skipped := stOut.skippedV6,
                     interfacesConfigured := ifacesConfigured,
                     iscDisabledV4 := dis4, iscDisabledV6 := dis6,
                     backendEnabledV4 := en, backendEnabledV6 := en })
  else
    (d4, .ok { iscMappingsFound := ms.length, iscMappingsV6Found := ms6.length,
               targetSubnetsFound := 0, targetSubnetsV6Found := 0,
               reservationsToCreate := stOut.created,
               reservationsV6ToCreate := stOut.createdV6,
               reservationsSkipped := stOut.skipped,
               reservationsV6Skipped := stOut.skippedV6,
               interfacesConfigured := ifacesConfigured,
               iscDisabledV4 := [], iscDisabledV6 := [],
               backendEnabledV4 := false, backendEnabledV6 := false })

/-- `migrate/dnsmasq.rs::convert_dnsmasq`.  The document is returned
alongside the result, as with `&mut` in the source. -/
def convert_dnsmasq (d : Doc) (ms : List IscStaticMap) (ms6 : List IscStaticMapV6)
    (o : MOpts) : Doc × Except MigErr MStats :=
  match convert_dnsmasq_pre d ms ms6 o with
  | .error e => (d, .error e)
  | .ok ctx => convert_dnsmasq_post d ms ms6 o ctx

/-- Document fields the pre-record mutation phases of `convert_kea`
(subnet, interface-list and option application) never change. -/
def keaFrameEq (a b : Doc) : Prop :=
  a.ifaceCidrsV4 = b.ifaceCidrsV4 ∧ a.ifaceCidrsV6 = b.ifaceCidrsV6 ∧
  a.keaReservations = b.keaReservations ∧ a.keaReservationsV6 = b.keaReservationsV6 ∧
  a.hasKea = b.hasKea ∧ a.hasKeaDhcp4 = b.hasKeaDhcp4 ∧ a.hasKeaDhcp6 = b.hasKeaDhcp6 ∧
  a.iscRangesV4 = b.iscRangesV4 ∧ a.iscRangesV6 = b.iscRangesV6 ∧
  a.iscOptionsV4 = b.iscOptionsV4 ∧ a.iscOptionsV6 = b.iscOptionsV6 ∧
  a.iscEnabledV4 = b.iscEnabledV4 ∧ a.iscEnabledV6 = b.iscEnabledV6 ∧
  a.keaDhcp4Enabled = b.keaDhcp4Enabled ∧ a.keaDhcp6Enabled = b.keaDhcp6Enabled

/-! ### Concrete fixtures used by witnesses and counterexamples -/

/-- A document with one Kea v4 subnet `0.0.0.0/24` on interface `lan` and
one ISC v4 range on an interface (`wan`) that has no CIDR. -/
def exDocC1 : Doc :=
  { ifaceCidrsV4 := [("lan", ⟨0, 24⟩)], ifaceCidrsV6 := [],
    iscRangesV4 := [⟨"wan", 5, 6⟩], iscRangesV6 := [],
    iscOptionsV4 := [], iscOptionsV6 := [], iscEnabledV4 := [], iscEnabledV6 := [],
    hasKea := true, hasKeaDhcp4 := true, hasKeaDhcp6 := true,
    keaSubnets := [⟨"u1", ⟨0, 24⟩, [], none, [], none⟩], keaSubnetsV6 := [],
    keaReservations := [], keaReservationsV6 := [],
    keaDhcp4Enabled := false, keaDhcp6Enabled := false,
    keaIfacesV4 := [], keaIfacesV6 := [], hasDnsmasq := false,
    dnsmasqHosts := [], dnsmasqRanges := [], dnsmasqOpts := [],
    dnsmasqEnabled := false, dnsmasqIfaces := [], uuidCtr := 0 }

/-- One v4 mapping on `lan` at address 5. -/
def exMapsC1 : List IscStaticMap := [⟨"lan", "aa:bb", 5, none, none, none⟩]

/-- Options with only `enable_backend` set. -/
def exOptsC1 : MOpts := ⟨false, false, false, false, false, true⟩

/-- As `exDocC1` but without the stray ISC range, so that both pipelines
succeed. -/
def exDocC1ok : Doc := { exDocC1 with iscRangesV4 := [] }

/-- The document `convert_kea` produces from `exDocC1ok`. -/
def exDocC1okOut : Doc :=
  { exDocC1ok with keaReservations := [⟨"u1", 5, "aa:bb", none, none⟩],
                   keaDhcp4Enabled := true }

/-- The stats `convert_kea` produces from `exDocC1ok`. -/
def exStatsC1ok : MStats :=
  { iscMappingsFound := 1, iscMappingsV6Found := 0, targetSubnetsFound := 1,
    targetSubnetsV6Found := 0, reservationsToCreate := 1,
    reservationsV6ToCreate := 0, reservationsSkipped := 0,
    reservationsV6Skipped := 0, interfacesConfigured := [],
    iscDisabledV4 := [], iscDisabledV6 := [],
    backendEnabledV4 := true, backendEnabledV6 := false }

/-- A document with an ISC v4 range on `lan` (so a desired subnet exists)
but no Kea subnets yet. -/
def exDocC8 : Doc := { exDocC1 with keaSubnets := [], iscRangesV4 := [⟨"lan", 5, 6⟩] }

/-- One v4 mapping declaring `wan` although its address 5 derives `lan`. -/
def exMapsC8 : List IscStaticMap := [⟨"wan", "cc:dd", 5, none, none, none⟩]

/-- Options with only `create_subnets` set. -/
def exOptsC8 : MOpts := ⟨false, true, false, false, false, false⟩

/-- A dnsmasq document with one existing v6 host at address 7. -/
def exDocC10 : Doc :=
  { exDocC1 with
      iscRangesV4 := []
      hasDnsmasq := true
      ifaceCidrsV6 := [("lan", ⟨0, 64⟩)]
      dnsmasqHosts := [⟨"", .v6 7, "h0", some "cid0", "", none⟩] }

/-- One v6 mapping whose address collides with the existing host (its DUID
is fresh). -/
def exMaps6C10 : List IscStaticMapV6 := [⟨"lan", "duid2", 7, none, none, none⟩]

/-- All-false options. -/
def exOptsC10 : MOpts := ⟨false, false, false, false, false, false⟩

/-- The stats of converting `exMaps6C10` against `exDocC10`: the colliding
mapping is skipped via the shared address set. -/
def exStatsC10 : MStats :=
  { iscMappingsFound := 0, iscMappingsV6Found := 1, targetSubnetsFound := 0,
    targetSubnetsV6Found := 0, reservationsToCreate := 0,
    reservationsV6ToCreate := 0, reservationsSkipped := 0,
    reservationsV6Skipped := 1, interfacesConfigured := [],
    iscDisabledV4 := [], iscDisabledV6 := [],
    backendEnabledV4 := false, backendEnabledV6 := false }

/-- A document holding both a pre-existing Kea reservation and a
pre-existing dnsmasq host. -/
def exDocC7 : Doc :=
  { exDocC1 with
      keaReservations := [⟨"u1", 9, "ee:ff", none, none⟩]
      hasDnsmasq := true
      dnsmasqHosts := [⟨"aa:bb", .v4 9, "h", none, "", none⟩] }

/-- Options with only `fail_if_existing` set. -/
def exOptsC7 : MOpts := ⟨true, false, false, false, false, false⟩

/-- As `exDocC1ok` but with the dnsmasq backend installed, so that both
`convert_kea` and `convert_dnsmasq` succeed on the same document. -/
def exDocC6 : Doc := { exDocC1ok with hasDnsmasq := true }

/-- The document `convert_kea` produces from `exDocC6`. -/
def exDocC6kOut : Doc :=
  { exDocC6 with keaReservations := [⟨"u1", 5, "aa:bb", none, none⟩],
                 keaDhcp4Enabled := true }

/-- The document `convert_dnsmasq` produces from `exDocC6`. -/
def exDocC6dOut : Doc :=
  { exDocC6 with dnsmasqHosts := [⟨"aa:bb", .v4 5, "", none, "", none⟩] }

/-- The stats `convert_dnsmasq` produces from `exDocC6`. -/
def exStatsC6d : MStats :=
  { iscMappingsFound := 1, iscMappingsV6Found := 0, targetSubnetsFound := 0,
    targetSubnetsV6Found := 0, reservationsToCreate := 1,
    reservationsV6ToCreate := 0, reservationsSkipped := 0,
    reservationsV6Skipped := 0, interfacesConfigured := [],
    iscDisabledV4 := [], iscDisabledV6 := [],
    backendEnabledV4 := false, backendEnabledV6 := false }

/-! ### Idempotence of option application (C6) -/

/-- A target is settled for `(tag, value)` when `set_option_value` with
`force = false` leaves it unchanged: no value, an empty value, or a
pre-existing nonempty entry. -/
def OptSettled (od : List (String × String)) (tag : String)
    (value : Option String) : Prop :=
  value = none ∨ (∃ v, value = some v ∧ v = "") ∨
  (∃ v e, value = some v ∧ od.find? (fun x => x.1 == tag) = some e ∧ ¬(e.2 = ""))

/-- Keys of the `type=set` option elements of a list. -/
def optKeys (l : List DnsmasqOpt) : List OptKey :=
  (l.filter (fun o => eqIgnoreAsciiCase o.otype "set")).map dnsmasq_option_key

/-! ### Theorems -/

theorem mem_insertPlenDesc {k : α → Nat} {a x : α} {l : List α} :
    x ∈ insertPlenDesc k a l ↔ x = a ∨ x ∈ l := by
  induction l with
  | nil => simp [insertPlenDesc]
  | cons b t ih =>
    simp only [insertPlenDesc]
    by_cases h : k b ≤ k a
    · simp [if_pos h, List.mem_cons]
    · simp only [if_neg h, List.mem_cons, ih]
      tauto

theorem pairwise_insertPlenDesc {k : α → Nat} (a : α) {l : List α}
    (h : l.Pairwise (fun x y => k y ≤ k x)) :
    (insertPlenDesc k a l).Pairwise (fun x y => k y ≤ k x) := by
  induction l with
  | nil => simp [insertPlenDesc]
  | cons b t ih =>
    rcases List.pairwise_cons.mp h with ⟨hb, ht⟩
    simp only [insertPlenDesc]
    by_cases hba : k b ≤ k a
    · simp only [if_pos hba]
      refine List.pairwise_cons.mpr ⟨?_, h⟩
      intro y hy
      rcases List.mem_cons.mp hy with rfl | hy
      · exact hba
      · exact le_trans (hb _ hy) hba
    · simp only [if_neg hba]
      refine List.pairwise_cons.mpr ⟨?_, ih ht⟩
      intro y hy
      rcases mem_insertPlenDesc.mp hy with rfl | hy
      · omega
      · exact hb _ hy

theorem sortPlenDesc_pairwise (k : α → Nat) (l : List α) :
    (sortPlenDesc k l).Pairwise (fun x y => k y ≤ k x) := by
  induction l with
  | nil => simp [sortPlenDesc]
  | cons a t ih => exact pairwise_insertPlenDesc a ih

theorem find?_insertPlenDesc {k : α → Nat} {p : α → Bool} (a : α) {l : List α}
    (h : l.Pairwise (fun x y => k y ≤ k x)) :
    (insertPlenDesc k a l).find? p = pickBetter k p a (l.find? p) := by
  induction l with
  | nil =>
    cases hpa : p a <;> simp [insertPlenDesc, pickBetter, List.find?, hpa]
  | cons b t ih =>
    rcases List.pairwise_cons.mp h with ⟨hb, ht⟩
    simp only [insertPlenDesc]
    by_cases hba : k b ≤ k a
    · simp only [if_pos hba]
      cases hpa : p a with
      | true =>
        rw [List.find?_cons_of_pos _ hpa]
        cases hfind : (b :: t).find? p with
        | none => simp [pickBetter, hpa]
        | some c =>
          have hc : k c ≤ k a := by
            rcases List.mem_cons.mp (List.mem_of_find?_eq_some hfind) with rfl | hc
            · exact hba
            · exact le_trans (hb _ hc) hba
          simp [pickBetter, hpa, hc]
      | false =>
        rw [List.find?_cons_of_neg _ (by simp [hpa])]
        cases hfind : (b :: t).find? p with
        | none => simp [pickBetter, hpa]
        | some c => simp [pickBetter, hpa]
    · simp only [if_neg hba]
      cases hpb : p b with
      | true =>
        rw [List.find?_cons_of_pos _ hpb, List.find?_cons_of_pos _ hpb]
        simp [pickBetter, hba]
      | false =>
        rw [List.find?_cons_of_neg _ (by simp [hpb]),
          List.find?_cons_of_neg _ (by simp [hpb])]
        exact ih ht

theorem find?_sortPlenDesc (k : α → Nat) (p : α → Bool) (l : List α) :
    (sortPlenDesc k l).find? p = bestBy k p l := by
  induction l with
  | nil => rfl
  | cons a t ih =>
    simp only [sortPlenDesc, bestBy, List.foldr_cons]
    rw [find?_insertPlenDesc a (sortPlenDesc_pairwise k t), ih]
    rfl

theorem bestBy_eq_none_iff (k : α → Nat) (p : α → Bool) (l : List α) :
    bestBy k p l = none ↔ ∀ x ∈ l, p x = false := by
  induction l with
  | nil => simp [bestBy]
  | cons a t ih =>
    simp only [bestBy, List.foldr_cons] at ih ⊢
    cases hbt : List.foldr (pickBetter k p) none t with
    | none =>
      have hall : ∀ x ∈ t, p x = false := ih.mp hbt
      cases hpa : p a with
      | true => simp [pickBetter, hpa]
      | false =>
        simp only [pickBetter, hpa]
        constructor
        · intro _ x hx
          rcases List.mem_cons.mp hx with rfl | hx
          · exact hpa
          · exact hall x hx
        · intro _
          simp
    | some b =>
      have hmem : ¬ (∀ x ∈ t, p x = false) := by
        intro hall
        rw [ih.mpr hall] at hbt
        exact Option.noConfusion hbt
      constructor
      · intro hnone
        exfalso
        cases hc : p a && decide (k b ≤ k a) with
        | true => simp [pickBetter, hc] at hnone
        | false => simp [pickBetter, hc] at hnone
      · intro hall
        exact absurd (fun x hx => hall x (List.mem_cons_of_mem a hx)) hmem

theorem bestBy_spec {k : α → Nat} {p : α → Bool} {l : List α} {x : α}
    (h : bestBy k p l = some x) :
    ∃ l₁ l₂, l = l₁ ++ x :: l₂ ∧ p x = true ∧
      (∀ y ∈ l, p y = true → k y ≤ k x) ∧
      (∀ y ∈ l₁, p y = true → k y < k x) := by
  induction l generalizing x with
  | nil => simp [bestBy] at h
  | cons a t ih =>
    simp only [bestBy, List.foldr_cons] at h
    cases hbt : List.foldr (pickBetter k p) none t with
    | none =>
      rw [hbt] at h
      have hall : ∀ y ∈ t, p y = false :=
        (bestBy_eq_none_iff k p t).mp hbt
      cases hpa : p a with
      | true =>
        simp only [pickBetter, hpa, if_true, Option.some.injEq] at h
        subst h
        refine ⟨[], t, by simp, hpa, ?_, by simp⟩
        intro y hy hpy
        rcases List.mem_cons.mp hy with rfl | hy
        · exact le_refl _
        · rw [hall y hy] at hpy; exact absurd hpy (by simp)
      | false =>
        simp [pickBetter, hpa] at h
    | some b =>
      rw [hbt] at h
      rcases ih hbt with ⟨t₁, t₂, rfl, hpb, hmax, hstrict⟩
      by_cases hcond : p a = true ∧ k b ≤ k a
      · have hc : (p a && decide (k b ≤ k a)) = true := by
          simp [hcond.1, hcond.2]
        simp only [pickBetter, hc, if_true, Option.some.injEq] at h
        subst h
        refine ⟨[], t₁ ++ b :: t₂, by simp, hcond.1, ?_, by simp⟩
        intro y hy hpy
        rcases List.mem_cons.mp hy with rfl | hy
        · exact le_refl _
        · exact le_trans (hmax y hy hpy) hcond.2
      · have hc : (p a && decide (k b ≤ k a)) = false := by
          cases hpa : p a with
          | true =>
            have hn : ¬ (k b ≤ k a) := fun hle => hcond ⟨hpa, hle⟩
            simp [hn]
          | false => simp
        rw [pickBetter, hc] at h
        simp only [Bool.false_eq_true, if_false, Option.some.injEq] at h
        subst h
        have halt : p a = true → k a < k b := by
          intro hpa
          have hn : ¬ (k b ≤ k a) := fun hle => hcond ⟨hpa, hle⟩
          omega
        refine ⟨a :: t₁, t₂, by simp, hpb, ?_, ?_⟩
        · intro y hy hpy
          rcases List.mem_cons.mp hy with rfl | hy
          · exact Nat.le_of_lt (halt hpy)
          · exact hmax y hy hpy
        · intro y hy hpy
          rcases List.mem_cons.mp hy with rfl | hy
          · exact halt hpy
          · exact hstrict y hy hpy

/-- Behaviour of `find?` after a stable descending sort: the result is the
first-listed element of maximal key among those satisfying `p`, and `none`
exactly when no element satisfies `p`. -/
theorem find?_sorted_spec (k : α → Nat) (p : α → Bool) (l : List α) :
    (match (sortPlenDesc k l).find? p with
      | some x => ∃ l₁ l₂, l = l₁ ++ x :: l₂ ∧ p x = true ∧
          (∀ y ∈ l, p y = true → k y ≤ k x) ∧
          (∀ y ∈ l₁, p y = true → k y < k x)
      | none => ∀ y ∈ l, p y = false) := by
  rw [find?_sortPlenDesc]
  cases h : bestBy k p l with
  | none => exact (bestBy_eq_none_iff k p l).mp h
  | some x => exact bestBy_spec h

/-- C2: `find_subnet_for_ip` / `find_subnet_for_ip_v6` return the uuid of a
containing subnet of greatest prefix length, resolving equal-length ties to
the earlier-declared subnet, and fail with `NoMatchingSubnet` exactly when
no subnet in the list contains the address. -/
theorem find_subnet_most_specific_first_declared
    (ip ip6 : Nat) (subnets subnets6 : List Subnet) :
    (match find_subnet_for_ip ip subnets with
      | .ok u => ∃ l₁ s l₂, subnets = l₁ ++ s :: l₂ ∧ u = s.uuid ∧
          cidrContains 32 s.cidr ip = true ∧
          (∀ t ∈ subnets, cidrContains 32 t.cidr ip = true → t.cidr.plen ≤ s.cidr.plen) ∧
          (∀ t ∈ l₁, cidrContains 32 t.cidr ip = true → t.cidr.plen < s.cidr.plen)
      | .error e => e = .NoMatchingSubnet ip ∧
          ∀ s ∈ subnets, cidrContains 32 s.cidr ip = false) ∧
    (match find_subnet_for_ip_v6 ip6 subnets6 with
      | .ok u => ∃ l₁ s l₂, subnets6 = l₁ ++ s :: l₂ ∧ u = s.uuid ∧
          cidrContains 128 s.cidr ip6 = true ∧
          (∀ t ∈ subnets6, cidrContains 128 t.cidr ip6 = true → t.cidr.plen ≤ s.cidr.plen) ∧
          (∀ t ∈ l₁, cidrContains 128 t.cidr ip6 = true → t.cidr.plen < s.cidr.plen)
      | .error e => e = .NoMatchingSubnet ip6 ∧
          ∀ s ∈ subnets6, cidrContains 128 s.cidr ip6 = false) := by
  constructor
  · have h := find?_sorted_spec (fun s : Subnet => s.cidr.plen)
      (fun s => cidrContains 32 s.cidr ip) subnets
    unfold find_subnet_for_ip
    cases hf : (sortPlenDesc (fun s : Subnet => s.cidr.plen) subnets).find?
        (fun s => cidrContains 32 s.cidr ip) with
    | some s =>
      rw [hf] at h
      rcases h with ⟨l₁, l₂, hsplit, hp, hmax, hstrict⟩
      exact ⟨l₁, s, l₂, hsplit, rfl, hp, hmax, hstrict⟩
    | none =>
      rw [hf] at h
      exact ⟨rfl, h⟩
  · have h := find?_sorted_spec (fun s : Subnet => s.cidr.plen)
      (fun s => cidrContains 128 s.cidr ip6) subnets6
    unfold find_subnet_for_ip_v6
    cases hf : (sortPlenDesc (fun s : Subnet => s.cidr.plen) subnets6).find?
        (fun s => cidrContains 128 s.cidr ip6) with
    | some s =>
      rw [hf] at h
      rcases h with ⟨l₁, l₂, hsplit, hp, hmax, hstrict⟩
      exact ⟨l₁, s, l₂, hsplit, rfl, hp, hmax, hstrict⟩
    | none =>
      rw [hf] at h
      exact ⟨rfl, h⟩

/-- Concrete instance of `find_subnet_most_specific_first_declared`: two
equal-length containing subnets; the earlier-declared one wins. -/
theorem find_subnet_most_specific_witness :
    find_subnet_for_ip 5 [⟨"first", ⟨0, 24⟩⟩, ⟨"second", ⟨0, 24⟩⟩] = .ok "first" ∧
    find_subnet_for_ip_v6 5 [⟨"wide", ⟨0, 48⟩⟩, ⟨"narrow", ⟨0, 64⟩⟩] = .ok "narrow" ∧
    (match find_subnet_for_ip 5 [⟨"first", ⟨0, 24⟩⟩, ⟨"second", ⟨0, 24⟩⟩] with
      | .ok u => ∃ l₁ s l₂,
          ([⟨"first", ⟨0, 24⟩⟩, ⟨"second", ⟨0, 24⟩⟩] : List Subnet) = l₁ ++ s :: l₂ ∧
          u = s.uuid ∧ cidrContains 32 s.cidr 5 = true ∧
          (∀ t ∈ ([⟨"first", ⟨0, 24⟩⟩, ⟨"second", ⟨0, 24⟩⟩] : List Subnet),
            cidrContains 32 t.cidr 5 = true → t.cidr.plen ≤ s.cidr.plen) ∧
          (∀ t ∈ l₁, cidrContains 32 t.cidr 5 = true → t.cidr.plen < s.cidr.plen)
      | .error e => e = .NoMatchingSubnet 5 ∧
          ∀ s ∈ ([⟨"first", ⟨0, 24⟩⟩, ⟨"second", ⟨0, 24⟩⟩] : List Subnet),
            cidrContains 32 s.cidr 5 = false) := by
  refine ⟨by rfl, by rfl, ?_⟩
  exact (find_subnet_most_specific_first_declared 5 5
    [⟨"first", ⟨0, 24⟩⟩, ⟨"second", ⟨0, 24⟩⟩] []).1

/-- C3 counterexample: `iface_for_ip` iterates a `HashMap`, so equal-length
ties are resolved by the map's iteration order; two iteration orders of the
same map (same key-value pairs, as the permutation shows) give different
results, so the result is not determined by the address and map contents. -/
theorem iface_for_ip_depends_on_map_order :
    iface_for_ip 5 [("lan", ⟨0, 24⟩), ("opt1", ⟨0, 24⟩)] = .ok "lan" ∧
    iface_for_ip 5 [("opt1", ⟨0, 24⟩), ("lan", ⟨0, 24⟩)] = .ok "opt1" ∧
    ([("lan", (⟨0, 24⟩ : Cidr)), ("opt1", ⟨0, 24⟩)].Perm
      [("opt1", ⟨0, 24⟩), ("lan", ⟨0, 24⟩)]) := by
  refine ⟨by rfl, by rfl, ?_⟩
  exact List.Perm.swap _ _ _

/-- C3 (amended): for each fixed iteration order of the interface-CIDR map,
`iface_for_ip` / `iface_for_ip_v6` return an interface whose CIDR contains
the address with the greatest prefix length; equal-length ties resolve to
the interface appearing earlier in that iteration order (which for a Rust
`HashMap` is arbitrary, not declaration order); they fail with
`NoMatchingInterface` exactly when no interface CIDR contains the address. -/
theorem iface_for_ip_most_specific_iteration_order
    (ip ip6 : Nat) (cidrs cidrs6 : List (String × Cidr)) :
    (match iface_for_ip ip cidrs with
      | .ok name => ∃ l₁ e l₂, cidrs = l₁ ++ e :: l₂ ∧ name = e.1 ∧
          cidrContains 32 e.2 ip = true ∧
          (∀ y ∈ cidrs, cidrContains 32 y.2 ip = true → y.2.plen ≤ e.2.plen) ∧
          (∀ y ∈ l₁, cidrContains 32 y.2 ip = true → y.2.plen < e.2.plen)
      | .error e => e = .NoMatchingInterface ip ∧
          ∀ y ∈ cidrs, cidrContains 32 y.2 ip = false) ∧
    (match iface_for_ip_v6 ip6 cidrs6 with
      | .ok name => ∃ l₁ e l₂, cidrs6 = l₁ ++ e :: l₂ ∧ name = e.1 ∧
          cidrContains 128 e.2 ip6 = true ∧
          (∀ y ∈ cidrs6, cidrContains 128 y.2 ip6 = true → y.2.plen ≤ e.2.plen) ∧
          (∀ y ∈ l₁, cidrContains 128 y.2 ip6 = true → y.2.plen < e.2.plen)
      | .error e => e = .NoMatchingInterface ip6 ∧
          ∀ y ∈ cidrs6, cidrContains 128 y.2 ip6 = false) := by
  constructor
  · have h := find?_sorted_spec (fun e : String × Cidr => e.2.plen)
      (fun e => cidrContains 32 e.2 ip) cidrs
    unfold iface_for_ip
    cases hf : (sortPlenDesc (fun e : String × Cidr => e.2.plen) cidrs).find?
        (fun e => cidrContains 32 e.2 ip) with
    | some e =>
      rw [hf] at h
      rcases h with ⟨l₁, l₂, hsplit, hp, hmax, hstrict⟩
      exact ⟨l₁, e, l₂, hsplit, rfl, hp, hmax, hstrict⟩
    | none =>
      rw [hf] at h
      exact ⟨rfl, h⟩
  · have h := find?_sorted_spec (fun e : String × Cidr => e.2.plen)
      (fun e => cidrContains 128 e.2 ip6) cidrs6
    unfold iface_for_ip_v6
    cases hf : (sortPlenDesc (fun e : String × Cidr => e.2.plen) cidrs6).find?
        (fun e => cidrContains 128 e.2 ip6) with
    | some e =>
      rw [hf] at h
      rcases h with ⟨l₁, l₂, hsplit, hp, hmax, hstrict⟩
      exact ⟨l₁, e, l₂, hsplit, rfl, hp, hmax, hstrict⟩
    | none =>
      rw [hf] at h
      exact ⟨rfl, h⟩

theorem elemBy_iff [DecidableEq α] (x : α) (l : List α) :
    elemBy x l = true ↔ x ∈ l := by
  simp [elemBy, List.any_eq_true]

/-! ### Shape lemmas: which document fields each phase can touch -/

theorem applyKeaSubnets4_shape (d : Doc) (ds : List DesiredSubnet) (f : Bool) :
    ∃ subs ctr, (applyKeaSubnets4 d ds f).1 =
      { d with keaSubnets := subs, uuidCtr := ctr } := by
  unfold applyKeaSubnets4
  split
  · exact ⟨d.keaSubnets, d.uuidCtr, rfl⟩
  · split
    · exact ⟨d.keaSubnets, d.uuidCtr, rfl⟩
    · exact ⟨_, _, rfl⟩

theorem applyKeaSubnets6_shape (d : Doc) (ds : List DesiredSubnet) (f : Bool) :
    ∃ subs ctr, (applyKeaSubnets6 d ds f).1 =
      { d with keaSubnetsV6 := subs, uuidCtr := ctr } := by
  unfold applyKeaSubnets6
  split
  · exact ⟨d.keaSubnetsV6, d.uuidCtr, rfl⟩
  · split
    · exact ⟨d.keaSubnetsV6, d.uuidCtr, rfl⟩
    · exact ⟨_, _, rfl⟩

theorem apply_kea_subnets_shape (d : Doc) (d4 d6 : List DesiredSubnet) (f : Bool) :
    ∃ s4 s6 ctr, (apply_kea_subnets d d4 d6 f).1 =
      { d with keaSubnets := s4, keaSubnetsV6 := s6, uuidCtr := ctr } := by
  rcases h4 : applyKeaSubnets4 d d4 f with ⟨d1, e1⟩
  rcases applyKeaSubnets4_shape d d4 f with ⟨subs, ctr, hshape⟩
  rw [h4] at hshape
  unfold apply_kea_subnets
  rw [h4]
  have hd1 : d1 = { d with keaSubnets := subs, uuidCtr := ctr } := hshape
  cases e1 with
  | some e => exact ⟨subs, d.keaSubnetsV6, ctr, hd1⟩
  | none =>
    rcases applyKeaSubnets6_shape d1 d6 f with ⟨subs6, ctr6, hshape6⟩
    refine ⟨subs, subs6, ctr6, ?_⟩
    rw [hshape6, hd1]

theorem applyKeaIfaces4_shape (d : Doc) (if4 : List String) :
    ∃ x, (applyKeaIfaces4 d if4).1 = { d with keaIfacesV4 := x } := by
  unfold applyKeaIfaces4
  split
  · exact ⟨d.keaIfacesV4, rfl⟩
  · split
    · exact ⟨d.keaIfacesV4, rfl⟩
    · exact ⟨sortedSet (if4 ++ d.keaIfacesV4), rfl⟩

theorem applyKeaIfaces6_shape (d : Doc) (if6 : List String) :
    ∃ x, (applyKeaIfaces6 d if6).1 = { d with keaIfacesV6 := x } := by
  unfold applyKeaIfaces6
  split
  · exact ⟨d.keaIfacesV6, rfl⟩
  · split
    · exact ⟨d.keaIfacesV6, rfl⟩
    · exact ⟨sortedSet (if6 ++ d.keaIfacesV6), rfl⟩

theorem apply_kea_interfaces_shape (d : Doc) (d4 d6 : List DesiredSubnet) :
    ∃ i4 i6, (apply_kea_interfaces d d4 d6).1 =
      { d with keaIfacesV4 := i4, keaIfacesV6 := i6 } := by
  rcases h4 : applyKeaIfaces4 d (dedupStr (d4.map (fun ds => ds.iface))) with ⟨d1, e1⟩
  rcases applyKeaIfaces4_shape d (dedupStr (d4.map (fun ds => ds.iface))) with
    ⟨x4, hshape⟩
  rw [h4] at hshape
  have hd1 : d1 = { d with keaIfacesV4 := x4 } := hshape
  simp only [apply_kea_interfaces]
  rw [h4]
  cases e1 with
  | some e => exact ⟨x4, d.keaIfacesV6, hd1⟩
  | none =>
    dsimp only
    rcases h6 : applyKeaIfaces6 d1 (dedupStr (d6.map (fun ds => ds.iface))) with ⟨d2, e2⟩
    rcases applyKeaIfaces6_shape d1 (dedupStr (d6.map (fun ds => ds.iface))) with
      ⟨x6, hshape6⟩
    rw [h6] at hshape6
    have hd2 : d2 = { d1 with keaIfacesV6 := x6 } := hshape6
    rw [h6]
    cases e2 with
    | some e =>
      refine ⟨x4, x6, ?_⟩
      rw [hd2, hd1]
    | none =>
      refine ⟨x4, x6, ?_⟩
      rw [hd2, hd1]

theorem apply_kea_options_shape (d : Doc) (o4 : List IscDhcpOptionsV4)
    (o6 : List IscDhcpOptionsV6) (f : Bool) :
    ∃ s4 s6, apply_kea_options d o4 o6 f =
      { d with keaSubnets := s4, keaSubnetsV6 := s6 } :=
  ⟨_, _, rfl⟩

/-- Option application does not change the uuid/CIDR projection the subnet
resolver reads. -/
theorem extract_apply_kea_options (d : Doc) (o4 : List IscDhcpOptionsV4)
    (o6 : List IscDhcpOptionsV6) (f : Bool) :
    extract_kea_subnets (apply_kea_options d o4 o6 f) = extract_kea_subnets d ∧
    extract_kea_subnets_v6 (apply_kea_options d o4 o6 f) = extract_kea_subnets_v6 d := by
  constructor
  · simp only [extract_kea_subnets, apply_kea_options, List.map_map]
    apply List.map_congr_left
    intro s _
    simp only [Function.comp]
    split
    · rfl
    · rfl
  · simp only [extract_kea_subnets_v6, apply_kea_options, List.map_map]
    apply List.map_congr_left
    intro s _
    simp only [Function.comp]
    split
    · rfl
    · rfl

theorem keaFrameEq_refl (a : Doc) : keaFrameEq a a := by
  simp [keaFrameEq]

theorem keaFrameEq_trans {a b c : Doc} (h1 : keaFrameEq a b) (h2 : keaFrameEq b c) :
    keaFrameEq a c := by
  simp only [keaFrameEq] at *
  obtain ⟨a1, a2, a3, a4, a5, a6, a7, a8, a9, a10, a11, a12, a13, a14, a15⟩ := h1
  obtain ⟨b1, b2, b3, b4, b5, b6, b7, b8, b9, b10, b11, b12, b13, b14, b15⟩ := h2
  exact ⟨a1.trans b1, a2.trans b2, a3.trans b3, a4.trans b4, a5.trans b5,
    a6.trans b6, a7.trans b7, a8.trans b8, a9.trans b9, a10.trans b10,
    a11.trans b11, a12.trans b12, a13.trans b13, a14.trans b14, a15.trans b15⟩

theorem keaFrameEq_apply_subnets {o : MOpts} {d d1 : Doc}
    {ds4 ds6 : List DesiredSubnet} {e : Option MigErr}
    (h : (if o.createSubnets then apply_kea_subnets d ds4 ds6 o.forceSubnets
      else (d, none)) = (d1, e)) :
    keaFrameEq d1 d := by
  by_cases hc : o.createSubnets = true
  · rw [if_pos hc] at h
    have hd1 : d1 = (apply_kea_subnets d ds4 ds6 o.forceSubnets).1 := by rw [h]
    rcases apply_kea_subnets_shape d ds4 ds6 o.forceSubnets with ⟨s4, s6, ctr, hs⟩
    rw [hs] at hd1
    subst hd1
    simp [keaFrameEq]
  · rw [if_neg hc] at h
    have hd1 : d1 = d := (congrArg Prod.fst h).symm
    subst hd1
    exact keaFrameEq_refl _

theorem keaFrameEq_apply_interfaces {o : MOpts} {d d1 : Doc}
    {ds4 ds6 : List DesiredSubnet} {e : Option MigErr} {ifs : List String}
    (h : (if o.createSubnets then apply_kea_interfaces d ds4 ds6
      else (d, none, [])) = (d1, e, ifs)) :
    keaFrameEq d1 d := by
  by_cases hc : o.createSubnets = true
  · rw [if_pos hc] at h
    have hd1 : d1 = (apply_kea_interfaces d ds4 ds6).1 := by rw [h]
    rcases apply_kea_interfaces_shape d ds4 ds6 with ⟨i4, i6, hs⟩
    rw [hs] at hd1
    subst hd1
    simp [keaFrameEq]
  · rw [if_neg hc] at h
    have hd1 : d1 = d := (congrArg Prod.fst h).symm
    subst hd1
    exact keaFrameEq_refl _

theorem keaFrameEq_apply_options {d : Doc} {o4 : List IscDhcpOptionsV4}
    {o6 : List IscDhcpOptionsV6} {f : Bool} (c : Bool) :
    keaFrameEq (if c then apply_kea_options d o4 o6 f else d) d := by
  cases c with
  | true =>
    rcases apply_kea_options_shape d o4 o6 f with ⟨s4, s6, hs⟩
    simp only [if_true, hs]
    simp [keaFrameEq]
  | false => simpa using keaFrameEq_refl d

theorem extract_subnets_apply_interfaces {o : MOpts} {d1 d2 : Doc}
    {a b : List DesiredSubnet} {e : Option MigErr} {ifs : List String}
    (h : (if o.createSubnets then apply_kea_interfaces d1 a b
      else (d1, none, [])) = (d2, e, ifs)) :
    extract_kea_subnets d2 = extract_kea_subnets d1 ∧
    extract_kea_subnets_v6 d2 = extract_kea_subnets_v6 d1 := by
  by_cases hc : o.createSubnets = true
  · rw [if_pos hc] at h
    have hd2 : d2 = (apply_kea_interfaces d1 a b).1 := by rw [h]
    rcases apply_kea_interfaces_shape d1 a b with ⟨i4, i6, hs⟩
    rw [hs] at hd2
    subst hd2
    constructor <;> rfl
  · rw [if_neg hc] at h
    have hd2 : d2 = d1 := (congrArg (fun p => p.1) h).symm
    subst hd2
    constructor <;> rfl

/-- Master inversion for a successful `convert_kea_pre`: every phase
completed, with the stated relationships between the input document, the
mutated document and the context. -/
theorem convert_kea_pre_ok {d : Doc} {ms : List IscStaticMap}
    {ms6 : List IscStaticMapV6} {o : MOpts} {d' : Doc} {ctx : KeaCtx}
    (h : convert_kea_pre d ms ms6 o = (d', .ok ctx)) :
    keaFrameEq d' d ∧
    (if o.createSubnets || o.enableBackend then desired_subnets_v4 d else .ok [])
      = .ok ctx.desired4 ∧
    (if o.createSubnets || o.enableBackend then desired_subnets_v6 d else .ok [])
      = .ok ctx.desired6 ∧
    validate_mapping_ifaces_v4 ms d.ifaceCidrsV4 = .ok () ∧
    validate_mapping_ifaces_v6 ms6 d.ifaceCidrsV6 = .ok () ∧
    keaBackendChecks d' ms.isEmpty ms6.isEmpty ctx.subs ctx.subs6
      o.createSubnets ctx.desired4 ctx.desired6 = none ∧
    failIfExistingKea o ctx.existingIps ctx.existingIps6 ctx.existingDuids6 = none ∧
    ctx.existingIps = extract_existing_reservation_ips d ∧
    ctx.existingIps6 = extract_existing_reservation_ips_v6 d ∧
    ctx.existingDuids6 = extract_existing_reservation_duids_v6 d ∧
    ctx.subs = extract_kea_subnets d' ∧
    ctx.subs6 = extract_kea_subnets_v6 d' ∧
    ∃ d1, (if o.createSubnets then apply_kea_subnets d ctx.desired4 ctx.desired6
        o.forceSubnets else (d, none)) = (d1, none) ∧
      extract_kea_subnets d' = extract_kea_subnets d1 ∧
      extract_kea_subnets_v6 d' = extract_kea_subnets_v6 d1 := by
  simp only [convert_kea_pre] at h
  split at h
  · simp at h
  rename_i desired4 heq4
  split at h
  · simp at h
  rename_i desired6 heq6
  split at h
  · simp at h
  rename_i d1 heqApply
  split at h
  · simp at h
  rename_i d2 ifacesCfg heqIfaces
  split at h
  · simp at h
  rename_i uv4 heqVal4
  split at h
  · simp at h
  rename_i uv6 heqVal6
  split at h
  · simp at h
  rename_i heqChecks
  split at h
  · simp at h
  rename_i heqFail
  injection h with hdoc hrest
  injection hrest with hctx
  subst hdoc
  subst hctx
  have hframe23 : keaFrameEq
      (if o.createOptions then
        apply_kea_options d2 (if o.createOptions then d.iscOptionsV4 else [])
          (if o.createOptions then d.iscOptionsV6 else []) o.forceOptions
      else d2) d2 := keaFrameEq_apply_options o.createOptions
  have hframe2 : keaFrameEq d2 d1 := keaFrameEq_apply_interfaces heqIfaces
  have hframe1 : keaFrameEq d1 d := keaFrameEq_apply_subnets heqApply
  have hframe : keaFrameEq
      (if o.createOptions then
        apply_kea_options d2 (if o.createOptions then d.iscOptionsV4 else [])
          (if o.createOptions then d.iscOptionsV6 else []) o.forceOptions
      else d2) d :=
    keaFrameEq_trans hframe23 (keaFrameEq_trans hframe2 hframe1)
  refine ⟨hframe, heq4, heq6, ?_, ?_, heqChecks, heqFail, rfl, rfl, rfl, rfl, rfl,
    d1, heqApply, ?_, ?_⟩
  · rw [hframe.1] at heqVal4
    exact heqVal4
  · rw [hframe.2.1] at heqVal6
    exact heqVal6
  · rcases extract_subnets_apply_interfaces heqIfaces with ⟨h21, h216⟩
    rcases extract_apply_kea_options d2 (if o.createOptions then d.iscOptionsV4 else [])
      (if o.createOptions then d.iscOptionsV6 else []) o.forceOptions with ⟨ho1, ho2⟩
    by_cases hc : o.createOptions = true
    · rw [if_pos hc, ho1, h21]
    · rw [if_neg hc, h21]
  · rcases extract_subnets_apply_interfaces heqIfaces with ⟨h21, h216⟩
    rcases extract_apply_kea_options d2 (if o.createOptions then d.iscOptionsV4 else [])
      (if o.createOptions then d.iscOptionsV6 else []) o.forceOptions with ⟨ho1, ho2⟩
    by_cases hc : o.createOptions = true
    · rw [if_pos hc, ho2, h216]
    · rw [if_neg hc, h216]

/-! ### Resolution-success lemmas -/

theorem mem_sortPlenDesc {k : α → Nat} {x : α} {l : List α} :
    x ∈ sortPlenDesc k l ↔ x ∈ l := by
  induction l with
  | nil => simp [sortPlenDesc]
  | cons a t ih =>
    simp only [sortPlenDesc, mem_insertPlenDesc, List.mem_cons, ih]

/-- `find_subnet_for_ip` succeeds exactly when some subnet contains the
address. -/
theorem find_subnet_ok_iff (w ip : Nat) (subs : List Subnet) :
    (∃ u, (match (sortPlenDesc (fun s : Subnet => s.cidr.plen) subs).find?
        (fun s => cidrContains w s.cidr ip) with
      | some s => Except.ok s.uuid
      | none => Except.error (MigErr.NoMatchingSubnet ip)) = .ok u) ↔
    ∃ s ∈ subs, cidrContains w s.cidr ip = true := by
  cases hf : (sortPlenDesc (fun s : Subnet => s.cidr.plen) subs).find?
      (fun s => cidrContains w s.cidr ip) with
  | some s =>
    constructor
    · intro _
      exact ⟨s, mem_sortPlenDesc.mp (List.mem_of_find?_eq_some hf),
        by simpa using List.find?_some hf⟩
    · intro _
      exact ⟨s.uuid, rfl⟩
  | none =>
    constructor
    · intro ⟨u, hu⟩
      exact absurd hu (by simp)
    · intro ⟨s, hs, hc⟩
      have := List.find?_eq_none.mp hf s (mem_sortPlenDesc.mpr hs)
      simp [hc] at this

/-! ### Convert-loop lemmas -/

/-- What the v4 convert loop appends: fresh, mutually distinct addresses;
the reserved set grows by exactly the accepted addresses; the created
count grows by the number of appended records. -/
theorem convLoopV4_recs (subs : List Subnet) :
    ∀ (ms : List IscStaticMap) (st : ConvSt),
    ∃ new, (convLoopV4 subs ms st).recs = st.recs ++ new ∧
      (convLoopV4 subs ms st).reserved
        = (new.map (fun r => r.ip)).reverse ++ st.reserved ∧
      (convLoopV4 subs ms st).created = st.created + new.length ∧
      (∀ r ∈ new, r.ip ∉ st.reserved) ∧
      (new.map (fun r => r.ip)).Nodup := by
  intro ms
  induction ms with
  | nil =>
    intro st
    exact ⟨[], by simp [convLoopV4], by simp [convLoopV4], by simp [convLoopV4],
      by simp, by simp⟩
  | cons m rest ih =>
    intro st
    by_cases hskip : elemBy m.ipaddr st.reserved = true
    · rcases ih { st with skipped := st.skipped + 1 } with ⟨new, h1, h2, h3, h4, h5⟩
      exact ⟨new, by simp only [convLoopV4, hskip, if_true]; exact ⟨h1, h2, h3, h4, h5⟩⟩
    · cases hfind : find_subnet_for_ip m.ipaddr subs with
      | error e =>
        refine ⟨[], ?_⟩
        simp only [convLoopV4, hskip, hfind]
        simp
      | ok u =>
        rcases ih { st with recs := st.recs ++ [create_reservation_element m u], reserved := m.ipaddr :: st.reserved, created := st.created + 1 } with
          ⟨new, h1, h2, h3, h4, h5⟩
        refine ⟨create_reservation_element m u :: new, ?_⟩
        simp only [convLoopV4, hskip, hfind]
        simp only [Bool.false_eq_true, if_false]
        refine ⟨by simpa using h1, ?_, by simpa [Nat.add_assoc, Nat.add_comm 1] using h3,
          ?_, ?_⟩
        · rw [h2]
          simp [create_reservation_element]
        · intro r hr
          rcases List.mem_cons.mp hr with rfl | hr
          · simpa [create_reservation_element, elemBy_iff] using hskip
          · have hni := h4 r hr
            simp only [List.mem_cons] at hni
            exact fun hmem => hni (Or.inr hmem)
        · simp only [List.map_cons, List.nodup_cons]
          refine ⟨?_, h5⟩
          intro hmem
          rcases List.mem_map.mp hmem with ⟨r, hr, hip⟩
          have hni := h4 r hr
          simp only [List.mem_cons] at hni
          exact hni (Or.inl (hip.trans rfl))

/-- If every mapping's address is already reserved, the v4 convert loop
skips them all, appending nothing. -/
theorem convLoopV4_all_skip (subs : List Subnet) :
    ∀ (ms : List IscStaticMap) (st : ConvSt),
    (∀ m ∈ ms, m.ipaddr ∈ st.reserved) →
    convLoopV4 subs ms st = { st with skipped := st.skipped + ms.length } := by
  intro ms
  induction ms with
  | nil => intro st _; simp [convLoopV4]
  | cons m rest ih =>
    intro st hall
    have hm : elemBy m.ipaddr st.reserved = true :=
      (elemBy_iff _ _).mpr (hall m (List.mem_cons_self m rest))
    simp only [convLoopV4, hm, if_true]
    rw [ih { st with skipped := st.skipped + 1 }
      (fun m' hm' => hall m' (List.mem_cons_of_mem m hm'))]
    congr 1
    simp
    omega

/-- On a completed v4 convert loop every processed address ends up
reserved. -/
theorem convLoopV4_all_reserved (subs : List Subnet) :
    ∀ (ms : List IscStaticMap) (st : ConvSt),
    (convLoopV4 subs ms st).err = none → st.err = none →
    ∀ m ∈ ms, m.ipaddr ∈ (convLoopV4 subs ms st).reserved := by
  intro ms
  induction ms with
  | nil => intro st _ _ m hm; exact absurd hm (List.not_mem_nil m)
  | cons m0 rest ih =>
    intro st hout hst m hm
    by_cases hskip : elemBy m0.ipaddr st.reserved = true
    · simp only [convLoopV4, hskip, if_true] at hout ⊢
      rcases List.mem_cons.mp hm with rfl | hm'
      · rcases convLoopV4_recs subs rest { st with skipped := st.skipped + 1 } with
          ⟨new, _, h2, _, _, _⟩
        rw [h2]
        exact List.mem_append_right _ ((elemBy_iff _ _).mp hskip)
      · exact ih _ hout hst m hm'
    · cases hfind : find_subnet_for_ip m0.ipaddr subs with
      | error e =>
        exfalso
        simp only [convLoopV4, hskip, hfind] at hout
        simp at hout
      | ok u =>
        simp only [convLoopV4, hskip, hfind] at hout ⊢
        simp only [Bool.false_eq_true, if_false] at hout ⊢
        rcases List.mem_cons.mp hm with rfl | hm'
        · rcases convLoopV4_recs subs rest { st with recs := st.recs ++ [create_reservation_element m u], reserved := m.ipaddr :: st.reserved, created := st.created + 1 } with
            ⟨new, _, h2, _, _, _⟩
          rw [h2]
          exact List.mem_append_right _ (List.mem_cons_self _ _)
        · exact ih _ hout hst m hm'

/-- v6 analogue of `convLoopV4_recs` (tracking addresses and DUIDs). -/
theorem convLoopV6_recs (subs : List Subnet) :
    ∀ (ms : List IscStaticMapV6) (st : ConvStV6),
    ∃ new, (convLoopV6 subs ms st).recs = st.recs ++ new ∧
      (convLoopV6 subs ms st).reservedIps
        = (new.map (fun r => r.ip)).reverse ++ st.reservedIps ∧
      (convLoopV6 subs ms st).reservedDuids
        = (new.map (fun r => r.duid)).reverse ++ st.reservedDuids ∧
      (convLoopV6 subs ms st).created = st.created + new.length ∧
      (∀ r ∈ new, r.ip ∉ st.reservedIps ∧ r.duid ∉ st.reservedDuids) ∧
      (new.map (fun r => r.ip)).Nodup := by
  intro ms
  induction ms with
  | nil =>
    intro st
    exact ⟨[], by simp [convLoopV6], by simp [convLoopV6], by simp [convLoopV6],
      by simp [convLoopV6], by simp, by simp⟩
  | cons m rest ih =>
    intro st
    by_cases hskip : (elemBy m.ipaddr st.reservedIps || elemBy m.duid st.reservedDuids) = true
    · rcases ih { st with skipped := st.skipped + 1 } with ⟨new, h1, h2, h3, h4, h5, h6⟩
      exact ⟨new, by simp only [convLoopV6, hskip, if_true]; exact ⟨h1, h2, h3, h4, h5, h6⟩⟩
    · cases hfind : find_subnet_for_ip_v6 m.ipaddr subs with
      | error e =>
        refine ⟨[], ?_⟩
        simp only [convLoopV6, hskip, hfind]
        simp
      | ok u =>
        rcases ih { st with recs := st.recs ++ [create_reservation_element_v6 m u], reservedIps := m.ipaddr :: st.reservedIps, reservedDuids := m.duid :: st.reservedDuids, created := st.created + 1 } with
          ⟨new, h1, h2, h3, h4, h5, h6⟩
        refine ⟨create_reservation_element_v6 m u :: new, ?_⟩
        simp only [convLoopV6, hskip, hfind]
        simp only [Bool.false_eq_true, if_false]
        have hskipIp : m.ipaddr ∉ st.reservedIps := by
          intro hmem
          apply hskip
          simp [Bool.or_eq_true, elemBy_iff, hmem]
        have hskipDuid : m.duid ∉ st.reservedDuids := by
          intro hmem
          apply hskip
          simp [Bool.or_eq_true, elemBy_iff, hmem]
        refine ⟨by simpa using h1, ?_, ?_,
          by simpa [Nat.add_assoc, Nat.add_comm 1] using h4, ?_, ?_⟩
        · rw [h2]
          simp [create_reservation_element_v6]
        · rw [h3]
          simp [create_reservation_element_v6]
        · intro r hr
          rcases List.mem_cons.mp hr with rfl | hr
          · exact ⟨hskipIp, hskipDuid⟩
          · rcases h5 r hr with ⟨hip, hduid⟩
            simp only [List.mem_cons] at hip hduid
            exact ⟨fun hmem => hip (Or.inr hmem), fun hmem => hduid (Or.inr hmem)⟩
        · simp only [List.map_cons, List.nodup_cons]
          refine ⟨?_, h6⟩
          intro hmem
          rcases List.mem_map.mp hmem with ⟨r, hr, hip⟩
          rcases h5 r hr with ⟨hipn, _⟩
          simp only [List.mem_cons] at hipn
          exact hipn (Or.inl (hip.trans rfl))

/-- v6 analogue of `convLoopV4_all_skip`. -/
theorem convLoopV6_all_skip (subs : List Subnet) :
    ∀ (ms : List IscStaticMapV6) (st : ConvStV6),
    (∀ m ∈ ms, m.ipaddr ∈ st.reservedIps ∨ m.duid ∈ st.reservedDuids) →
    convLoopV6 subs ms st = { st with skipped := st.skipped + ms.length } := by
  intro ms
  induction ms with
  | nil => intro st _; simp [convLoopV6]
  | cons m rest ih =>
    intro st hall
    have hm : (elemBy m.ipaddr st.reservedIps || elemBy m.duid st.reservedDuids) = true := by
      rcases hall m (List.mem_cons_self m rest) with hip | hduid
      · simp [elemBy_iff, hip]
      · simp [elemBy_iff, hduid]
    simp only [convLoopV6, hm, if_true]
    rw [ih { st with skipped := st.skipped + 1 }
      (fun m' hm' => hall m' (List.mem_cons_of_mem m hm'))]
    congr 1
    simp
    omega

/-- On a completed v6 convert loop every processed mapping has its address
or DUID reserved (in fact both, when it was accepted). -/
theorem convLoopV6_all_reserved (subs : List Subnet) :
    ∀ (ms : List IscStaticMapV6) (st : ConvStV6),
    (convLoopV6 subs ms st).err = none → st.err = none →
    ∀ m ∈ ms, m.ipaddr ∈ (convLoopV6 subs ms st).reservedIps ∨
      m.duid ∈ (convLoopV6 subs ms st).reservedDuids := by
  intro ms
  induction ms with
  | nil => intro st _ _ m hm; exact absurd hm (List.not_mem_nil m)
  | cons m0 rest ih =>
    intro st hout hst m hm
    by_cases hskip : (elemBy m0.ipaddr st.reservedIps || elemBy m0.duid st.reservedDuids) = true
    · simp only [convLoopV6, hskip, if_true] at hout ⊢
      rcases List.mem_cons.mp hm with rfl | hm'
      · rcases convLoopV6_recs subs rest { st with skipped := st.skipped + 1 } with
          ⟨new, _, h2, h3, _, _, _⟩
        rcases Bool.or_eq_true_iff.mp hskip with hip | hduid
        · left
          rw [h2]
          exact List.mem_append_right _ ((elemBy_iff _ _).mp hip)
        · right
          rw [h3]
          exact List.mem_append_right _ ((elemBy_iff _ _).mp hduid)
      · exact ih _ hout hst m hm'
    · cases hfind : find_subnet_for_ip_v6 m0.ipaddr subs with
      | error e =>
        exfalso
        simp only [convLoopV6, hskip, hfind] at hout
        simp at hout
      | ok u =>
        simp only [convLoopV6, hskip, hfind] at hout ⊢
        simp only [Bool.false_eq_true, if_false] at hout ⊢
        rcases List.mem_cons.mp hm with rfl | hm'
        · rcases convLoopV6_recs subs rest { st with recs := st.recs ++ [create_reservation_element_v6 m u], reservedIps := m.ipaddr :: st.reservedIps, reservedDuids := m.duid :: st.reservedDuids, created := st.created + 1 } with
            ⟨new, _, h2, _, _, _, _⟩
          left
          rw [h2]
          exact List.mem_append_right _ (List.mem_cons_self _ _)
        · exact ih _ hout hst m hm'

theorem find_subnet_for_ip_ok_iff (ip : Nat) (subs : List Subnet) :
    (∃ u, find_subnet_for_ip ip subs = .ok u) ↔
    ∃ s ∈ subs, cidrContains 32 s.cidr ip = true :=
  find_subnet_ok_iff 32 ip subs

theorem find_subnet_for_ip_v6_ok_iff (ip : Nat) (subs : List Subnet) :
    (∃ u, find_subnet_for_ip_v6 ip subs = .ok u) ↔
    ∃ s ∈ subs, cidrContains 128 s.cidr ip = true :=
  find_subnet_ok_iff 128 ip subs

/-- The scan and convert v4 loops agree: over two subnet lists with the
same containment behaviour and from the same counters and reserved set,
either both complete with identical counts and reserved sets, or both
fail. -/
theorem loops_agree_v4 {A B : List Subnet}
    (hiff : ∀ ip : Nat, (∃ s ∈ A, cidrContains 32 s.cidr ip = true) ↔
      (∃ s ∈ B, cidrContains 32 s.cidr ip = true)) :
    ∀ (ms : List IscStaticMap) (reserved : List Nat) (created skipped : Nat)
      (recs : List RsvV4),
    (match scanLoopV4 A ms ⟨reserved, created, skipped⟩ with
      | .ok st =>
        (convLoopV4 B ms ⟨recs, reserved, created, skipped, none⟩).err = none ∧
        (convLoopV4 B ms ⟨recs, reserved, created, skipped, none⟩).created = st.created ∧
        (convLoopV4 B ms ⟨recs, reserved, created, skipped, none⟩).skipped = st.skipped ∧
        (convLoopV4 B ms ⟨recs, reserved, created, skipped, none⟩).reserved = st.reserved
      | .error _ =>
        ((convLoopV4 B ms ⟨recs, reserved, created, skipped, none⟩).err).isSome = true) := by
  intro ms
  induction ms with
  | nil =>
    intro reserved created skipped recs
    simp [scanLoopV4, convLoopV4]
  | cons m rest ih =>
    intro reserved created skipped recs
    by_cases hskip : elemBy m.ipaddr reserved = true
    · have hsc : scanLoopV4 A (m :: rest) ⟨reserved, created, skipped⟩ =
          scanLoopV4 A rest ⟨reserved, created, skipped + 1⟩ := by
        simp [scanLoopV4, hskip]
      have hcv : convLoopV4 B (m :: rest) ⟨recs, reserved, created, skipped, none⟩ =
          convLoopV4 B rest ⟨recs, reserved, created, skipped + 1, none⟩ := by
        simp [convLoopV4, hskip]
      rw [hsc, hcv]
      exact ih reserved created (skipped + 1) recs
    · cases hfA : find_subnet_for_ip m.ipaddr A with
      | ok u =>
        have hB : ∃ u', find_subnet_for_ip m.ipaddr B = .ok u' :=
          (find_subnet_for_ip_ok_iff m.ipaddr B).mpr
            ((hiff m.ipaddr).mp ((find_subnet_for_ip_ok_iff m.ipaddr A).mp ⟨u, hfA⟩))
        rcases hB with ⟨u', hfB⟩
        have hsc : scanLoopV4 A (m :: rest) ⟨reserved, created, skipped⟩ =
            scanLoopV4 A rest ⟨m.ipaddr :: reserved, created + 1, skipped⟩ := by
          simp [scanLoopV4, hskip, hfA]
        have hcv : convLoopV4 B (m :: rest) ⟨recs, reserved, created, skipped, none⟩ =
            convLoopV4 B rest ⟨recs ++ [create_reservation_element m u'],
              m.ipaddr :: reserved, created + 1, skipped, none⟩ := by
          simp [convLoopV4, hskip, hfB]
        rw [hsc, hcv]
        exact ih (m.ipaddr :: reserved) (created + 1) skipped
          (recs ++ [create_reservation_element m u'])
      | error e =>
        have hBerr : ∀ u', find_subnet_for_ip m.ipaddr B ≠ .ok u' := by
          intro u' hu'
          rcases (find_subnet_for_ip_ok_iff m.ipaddr A).mpr
            ((hiff m.ipaddr).mpr ((find_subnet_for_ip_ok_iff m.ipaddr B).mp ⟨u', hu'⟩)) with
            ⟨u, hu⟩
          rw [hfA] at hu
          exact absurd hu (by simp)
        have hsc : scanLoopV4 A (m :: rest) ⟨reserved, created, skipped⟩ = .error e := by
          simp [scanLoopV4, hskip, hfA]
        rw [hsc]
        cases hfB : find_subnet_for_ip m.ipaddr B with
        | ok u' => exact absurd hfB (hBerr u')
        | error e' =>
          simp [convLoopV4, hskip, hfB]

/-- v6 analogue of `loops_agree_v4`. -/
theorem loops_agree_v6 {A B : List Subnet}
    (hiff : ∀ ip : Nat, (∃ s ∈ A, cidrContains 128 s.cidr ip = true) ↔
      (∃ s ∈ B, cidrContains 128 s.cidr ip = true)) :
    ∀ (ms : List IscStaticMapV6) (rips : List Nat) (rduids : List String)
      (created skipped : Nat) (recs : List RsvV6),
    (match scanLoopV6 A ms ⟨rips, rduids, created, skipped⟩ with
      | .ok st =>
        (convLoopV6 B ms ⟨recs, rips, rduids, created, skipped, none⟩).err = none ∧
        (convLoopV6 B ms ⟨recs, rips, rduids, created, skipped, none⟩).created = st.created ∧
        (convLoopV6 B ms ⟨recs, rips, rduids, created, skipped, none⟩).skipped = st.skipped ∧
        (convLoopV6 B ms ⟨recs, rips, rduids, created, skipped, none⟩).reservedIps = st.reservedIps ∧
        (convLoopV6 B ms ⟨recs, rips, rduids, created, skipped, none⟩).reservedDuids = st.reservedDuids
      | .error _ =>
        ((convLoopV6 B ms ⟨recs, rips, rduids, created, skipped, none⟩).err).isSome = true) := by
  intro ms
  induction ms with
  | nil =>
    intro rips rduids created skipped recs
    simp [scanLoopV6, convLoopV6]
  | cons m rest ih =>
    intro rips rduids created skipped recs
    by_cases hskip : (elemBy m.ipaddr rips || elemBy m.duid rduids) = true
    · have hsc : scanLoopV6 A (m :: rest) ⟨rips, rduids, created, skipped⟩ =
          scanLoopV6 A rest ⟨rips, rduids, created, skipped + 1⟩ := by
        simp only [scanLoopV6, hskip, if_true]
      have hcv : convLoopV6 B (m :: rest) ⟨recs, rips, rduids, created, skipped, none⟩ =
          convLoopV6 B rest ⟨recs, rips, rduids, created, skipped + 1, none⟩ := by
        simp only [convLoopV6, hskip, if_true]
      rw [hsc, hcv]
      exact ih rips rduids created (skipped + 1) recs
    · cases hfA : find_subnet_for_ip_v6 m.ipaddr A with
      | ok u =>
        have hB : ∃ u', find_subnet_for_ip_v6 m.ipaddr B = .ok u' :=
          (find_subnet_for_ip_v6_ok_iff m.ipaddr B).mpr
            ((hiff m.ipaddr).mp ((find_subnet_for_ip_v6_ok_iff m.ipaddr A).mp ⟨u, hfA⟩))
        rcases hB with ⟨u', hfB⟩
        have hsc : scanLoopV6 A (m :: rest) ⟨rips, rduids, created, skipped⟩ =
            scanLoopV6 A rest ⟨m.ipaddr :: rips, m.duid :: rduids, created + 1, skipped⟩ := by
          simp only [scanLoopV6, hskip, hfA]
          simp
        have hcv : convLoopV6 B (m :: rest) ⟨recs, rips, rduids, created, skipped, none⟩ =
            convLoopV6 B rest ⟨recs ++ [create_reservation_element_v6 m u'],
              m.ipaddr :: rips, m.duid :: rduids, created + 1, skipped, none⟩ := by
          simp only [convLoopV6, hskip, hfB]
          simp
        rw [hsc, hcv]
        exact ih (m.ipaddr :: rips) (m.duid :: rduids) (created + 1) skipped
          (recs ++ [create_reservation_element_v6 m u'])
      | error e =>
        have hBerr : ∀ u', find_subnet_for_ip_v6 m.ipaddr B ≠ .ok u' := by
          intro u' hu'
          rcases (find_subnet_for_ip_v6_ok_iff m.ipaddr A).mpr
            ((hiff m.ipaddr).mpr ((find_subnet_for_ip_v6_ok_iff m.ipaddr B).mp ⟨u', hu'⟩)) with
            ⟨u, hu⟩
          rw [hfA] at hu
          exact absurd hu (by simp)
        have hsc : scanLoopV6 A (m :: rest) ⟨rips, rduids, created, skipped⟩ = .error e := by
          simp only [scanLoopV6, hskip, hfA]
          simp
        rw [hsc]
        cases hfB : find_subnet_for_ip_v6 m.ipaddr B with
        | ok u' => exact absurd hfB (hBerr u')
        | error e' =>
          simp only [convLoopV6, hskip, hfB]
          simp

/-! ### CIDR-set lemmas: the effective subnet list of `scan_kea` and the
applied subnet list of `convert_kea` cover the same CIDRs -/

theorem effectiveSubnets_cidr_mem (ds : List DesiredSubnet) :
    ∀ (base : List Subnet) (c : Cidr),
    (∃ s ∈ effectiveSubnets base ds, s.cidr = c) ↔
    ((∃ s ∈ base, s.cidr = c) ∨ ∃ x ∈ ds, x.cidr = c) := by
  induction ds with
  | nil =>
    intro base c
    simp [effectiveSubnets]
  | cons x t ih =>
    intro base c
    have hstep : effectiveSubnets base (x :: t) = effectiveSubnets
        (if base.any (fun s => decide (s.cidr = x.cidr)) then base
          else base ++ [⟨"new-" ++ toString base.length, x.cidr⟩]) t := rfl
    rw [hstep]
    by_cases hc : base.any (fun s => decide (s.cidr = x.cidr)) = true
    · rw [if_pos hc, ih]
      have hx : ∃ s ∈ base, s.cidr = x.cidr := by
        rcases List.any_eq_true.mp hc with ⟨s, hs, hsc⟩
        exact ⟨s, hs, of_decide_eq_true hsc⟩
      constructor
      · rintro (hbase | ht)
        · exact Or.inl hbase
        · rcases ht with ⟨y, hy, hyc⟩
          exact Or.inr ⟨y, List.mem_cons_of_mem x hy, hyc⟩
      · rintro (hbase | ⟨y, hy, hyc⟩)
        · exact Or.inl hbase
        · rcases List.mem_cons.mp hy with rfl | hy'
          · rcases hx with ⟨s, hs, hsc⟩
            exact Or.inl ⟨s, hs, hsc.trans hyc⟩
          · exact Or.inr ⟨y, hy', hyc⟩
    · rw [if_neg hc, ih]
      constructor
      · rintro (hbase | ht)
        · rcases hbase with ⟨s, hs, hsc⟩
          rcases List.mem_append.mp hs with hs' | hs'
          · exact Or.inl ⟨s, hs', hsc⟩
          · rcases List.mem_singleton.mp hs' with rfl
            exact Or.inr ⟨x, List.mem_cons_self x t, hsc⟩
        · rcases ht with ⟨y, hy, hyc⟩
          exact Or.inr ⟨y, List.mem_cons_of_mem x hy, hyc⟩
      · rintro (hbase | ⟨y, hy, hyc⟩)
        · rcases hbase with ⟨s, hs, hsc⟩
          exact Or.inl ⟨s, List.mem_append_left _ hs, hsc⟩
        · rcases List.mem_cons.mp hy with rfl | hy'
          · exact Or.inl ⟨⟨"new-" ++ toString base.length, y.cidr⟩,
              List.mem_append_right _ (List.mem_singleton.mpr rfl), hyc⟩
          · exact Or.inr ⟨y, hy', hyc⟩

theorem applyDesiredList_cidr_mem (isV6 force : Bool) (existing : List Cidr) :
    ∀ (ds : List DesiredSubnet) (subs : List KeaSubnetRec) (ctr : Nat),
    (∀ c ∈ existing, ∃ s ∈ subs, s.cidr = c) →
    ∀ c, (∃ s ∈ (applyDesiredList isV6 existing force ds subs ctr).1, s.cidr = c) ↔
      ((∃ s ∈ subs, s.cidr = c) ∨ ∃ x ∈ ds, x.cidr = c) := by
  intro ds
  induction ds with
  | nil =>
    intro subs ctr _ c
    simp [applyDesiredList]
  | cons x t ih =>
    intro subs ctr hinv c
    by_cases hex : elemBy x.cidr existing = true
    · by_cases hf : force = true
      · have hstep : applyDesiredList isV6 existing force (x :: t) subs ctr =
            applyDesiredList isV6 existing force t
              (remove_kea_subnet_by_cidr subs x.cidr ++
                [create_kea_subnet_element isV6 x ctr]) (ctr + 1) := by
          simp [applyDesiredList, hex, hf]
        rw [hstep]
        have hinv' : ∀ c ∈ existing, ∃ s ∈ remove_kea_subnet_by_cidr subs x.cidr ++
            [create_kea_subnet_element isV6 x ctr], s.cidr = c := by
          intro c' hc'
          rcases hinv c' hc' with ⟨s, hs, hsc⟩
          by_cases hcx : c' = x.cidr
          · exact ⟨create_kea_subnet_element isV6 x ctr,
              List.mem_append_right _ (List.mem_singleton.mpr rfl), hcx.symm⟩
          · refine ⟨s, List.mem_append_left _ ?_, hsc⟩
            simp only [remove_kea_subnet_by_cidr, List.mem_filter]
            exact ⟨hs, by simp [hsc, hcx]⟩
        rw [ih _ (ctr + 1) hinv' c]
        have hmem : (∃ s ∈ remove_kea_subnet_by_cidr subs x.cidr ++
            [create_kea_subnet_element isV6 x ctr], s.cidr = c) ↔
            ((∃ s ∈ subs, s.cidr = c) ∨ c = x.cidr) := by
          constructor
          · rintro ⟨s, hs, hsc⟩
            rcases List.mem_append.mp hs with hs' | hs'
            · exact Or.inl ⟨s, (List.mem_filter.mp hs').1, hsc⟩
            · rcases List.mem_singleton.mp hs' with rfl
              exact Or.inr hsc.symm
          · rintro (⟨s, hs, hsc⟩ | rfl)
            · by_cases hcx : c = x.cidr
              · exact ⟨create_kea_subnet_element isV6 x ctr,
                  List.mem_append_right _ (List.mem_singleton.mpr rfl), hcx.symm⟩
              · refine ⟨s, List.mem_append_left _ ?_, hsc⟩
                simp only [remove_kea_subnet_by_cidr, List.mem_filter]
                exact ⟨hs, by simp [hsc, hcx]⟩
            · exact ⟨create_kea_subnet_element isV6 x ctr,
                List.mem_append_right _ (List.mem_singleton.mpr rfl), rfl⟩
        rw [hmem]
        constructor
        · rintro ((hsubs | rfl) | ht)
          · exact Or.inl hsubs
          · exact Or.inr ⟨x, List.mem_cons_self x t, rfl⟩
          · rcases ht with ⟨y, hy, hyc⟩
            exact Or.inr ⟨y, List.mem_cons_of_mem x hy, hyc⟩
        · rintro (hsubs | ⟨y, hy, hyc⟩)
          · exact Or.inl (Or.inl hsubs)
          · rcases List.mem_cons.mp hy with rfl | hy'
            · exact Or.inl (Or.inr hyc.symm)
            · exact Or.inr ⟨y, hy', hyc⟩
      · have hstep : applyDesiredList isV6 existing force (x :: t) subs ctr =
            applyDesiredList isV6 existing force t subs ctr := by
          simp [applyDesiredList, hex, hf]
        rw [hstep, ih subs ctr hinv c]
        have hx : ∃ s ∈ subs, s.cidr = x.cidr :=
          hinv x.cidr ((elemBy_iff _ _).mp hex)
        constructor
        · rintro (hsubs | ht)
          · exact Or.inl hsubs
          · rcases ht with ⟨y, hy, hyc⟩
            exact Or.inr ⟨y, List.mem_cons_of_mem x hy, hyc⟩
        · rintro (hsubs | ⟨y, hy, hyc⟩)
          · exact Or.inl hsubs
          · rcases List.mem_cons.mp hy with rfl | hy'
            · rcases hx with ⟨s, hs, hsc⟩
              exact Or.inl ⟨s, hs, hsc.trans hyc⟩
            · exact Or.inr ⟨y, hy', hyc⟩
    · have hstep : applyDesiredList isV6 existing force (x :: t) subs ctr =
          applyDesiredList isV6 existing force t
            (subs ++ [create_kea_subnet_element isV6 x ctr]) (ctr + 1) := by
        simp [applyDesiredList, hex]
      rw [hstep]
      have hinv' : ∀ c ∈ existing, ∃ s ∈ subs ++ [create_kea_subnet_element isV6 x ctr],
          s.cidr = c := by
        intro c' hc'
        rcases hinv c' hc' with ⟨s, hs, hsc⟩
        exact ⟨s, List.mem_append_left _ hs, hsc⟩
      rw [ih _ (ctr + 1) hinv' c]
      constructor
      · rintro (hsubs | ht)
        · rcases hsubs with ⟨s, hs, hsc⟩
          rcases List.mem_append.mp hs with hs' | hs'
          · exact Or.inl ⟨s, hs', hsc⟩
          · rcases List.mem_singleton.mp hs' with rfl
            exact Or.inr ⟨x, List.mem_cons_self x t, hsc⟩
        · rcases ht with ⟨y, hy, hyc⟩
          exact Or.inr ⟨y, List.mem_cons_of_mem x hy, hyc⟩
      · rintro (hsubs | ⟨y, hy, hyc⟩)
        · rcases hsubs with ⟨s, hs, hsc⟩
          exact Or.inl ⟨s, List.mem_append_left _ hs, hsc⟩
        · rcases List.mem_cons.mp hy with rfl | hy'
          · exact Or.inl ⟨create_kea_subnet_element isV6 y ctr,
              List.mem_append_right _ (List.mem_singleton.mpr rfl), hyc⟩
          · exact Or.inr ⟨y, hy', hyc⟩

/-- Membership of a CIDR among the extracted subnets is membership among
the underlying records. -/
theorem extract_cidr_mem (d : Doc) (c : Cidr) :
    ((∃ s ∈ extract_kea_subnets d, s.cidr = c) ↔ ∃ r ∈ d.keaSubnets, r.cidr = c) ∧
    ((∃ s ∈ extract_kea_subnets_v6 d, s.cidr = c) ↔ ∃ r ∈ d.keaSubnetsV6, r.cidr = c) := by
  constructor
  · constructor
    · rintro ⟨s, hs, hsc⟩
      rcases List.mem_map.mp hs with ⟨r, hr, rfl⟩
      exact ⟨r, hr, hsc⟩
    · rintro ⟨r, hr, hrc⟩
      exact ⟨⟨r.uuid, r.cidr⟩, List.mem_map.mpr ⟨r, hr, rfl⟩, hrc⟩
  · constructor
    · rintro ⟨s, hs, hsc⟩
      rcases List.mem_map.mp hs with ⟨r, hr, rfl⟩
      exact ⟨r, hr, hsc⟩
    · rintro ⟨r, hr, hrc⟩
      exact ⟨⟨r.uuid, r.cidr⟩, List.mem_map.mpr ⟨r, hr, rfl⟩, hrc⟩

/-- A successful v4 half of `apply_kea_subnets`: the resulting subnet list
covers exactly the pre-existing CIDRs plus the desired ones, the other
fields are untouched, and the Kea sections were present when something had
to be created. -/
theorem applyKeaSubnets4_ok {d dA : Doc} {ds4 : List DesiredSubnet} {f : Bool}
    (h : applyKeaSubnets4 d ds4 f = (dA, none)) :
    (∀ c, (∃ r ∈ dA.keaSubnets, r.cidr = c) ↔
      ((∃ r ∈ d.keaSubnets, r.cidr = c) ∨ ∃ x ∈ ds4, x.cidr = c)) ∧
    dA.keaSubnetsV6 = d.keaSubnetsV6 ∧ dA.hasKea = d.hasKea ∧
    dA.hasKeaDhcp4 = d.hasKeaDhcp4 ∧ dA.hasKeaDhcp6 = d.hasKeaDhcp6 ∧
    (ds4.isEmpty = false → (d.hasKea && d.hasKeaDhcp4) = true) := by
  by_cases hemp : ds4.isEmpty = true
  · have h1 : dA = d := by
      simp only [applyKeaSubnets4, hemp, if_true] at h
      exact (Prod.mk.injEq _ _ _ _ ▸ h).1.symm
    subst h1
    have h2 : ds4 = [] := List.isEmpty_iff.mp hemp
    subst h2
    exact ⟨fun c => by simp, rfl, rfl, rfl, rfl, by simp⟩
  · have hemp' : ds4.isEmpty = false := by
      revert hemp; cases ds4.isEmpty <;> simp
    by_cases hflags : (d.hasKea && d.hasKeaDhcp4) = true
    · simp only [applyKeaSubnets4, hemp', hflags, Bool.not_true, Bool.false_eq_true,
        if_false, Prod.mk.injEq] at h
      have h1 : dA = { d with
          keaSubnets := (applyDesiredList false (d.keaSubnets.map (fun s => s.cidr))
            f ds4 d.keaSubnets d.uuidCtr).1,
          uuidCtr := (applyDesiredList false (d.keaSubnets.map (fun s => s.cidr))
            f ds4 d.keaSubnets d.uuidCtr).2 } := h.1.symm
      subst h1
      refine ⟨fun c => ?_, rfl, rfl, rfl, rfl, fun _ => hflags⟩
      have hinv : ∀ c ∈ d.keaSubnets.map (fun s => s.cidr),
          ∃ s ∈ d.keaSubnets, s.cidr = c := by
        intro c hc
        rcases List.mem_map.mp hc with ⟨r, hr, rfl⟩
        exact ⟨r, hr, rfl⟩
      exact applyDesiredList_cidr_mem false f _ ds4 d.keaSubnets d.uuidCtr hinv c
    · have hf : (d.hasKea && d.hasKeaDhcp4) = false := by
        revert hflags; cases (d.hasKea && d.hasKeaDhcp4) <;> simp
      simp [applyKeaSubnets4, hemp', hf] at h

/-- Same for the v6 half. -/
theorem applyKeaSubnets6_ok {d dA : Doc} {ds6 : List DesiredSubnet} {f : Bool}
    (h : applyKeaSubnets6 d ds6 f = (dA, none)) :
    (∀ c, (∃ r ∈ dA.keaSubnetsV6, r.cidr = c) ↔
      ((∃ r ∈ d.keaSubnetsV6, r.cidr = c) ∨ ∃ x ∈ ds6, x.cidr = c)) ∧
    dA.keaSubnets = d.keaSubnets ∧ dA.hasKea = d.hasKea ∧
    dA.hasKeaDhcp4 = d.hasKeaDhcp4 ∧ dA.hasKeaDhcp6 = d.hasKeaDhcp6 ∧
    (ds6.isEmpty = false → (d.hasKea && d.hasKeaDhcp6) = true) := by
  by_cases hemp : ds6.isEmpty = true
  · have h1 : dA = d := by
      simp only [applyKeaSubnets6, hemp, if_true] at h
      exact (Prod.mk.injEq _ _ _ _ ▸ h).1.symm
    subst h1
    have h2 : ds6 = [] := List.isEmpty_iff.mp hemp
    subst h2
    exact ⟨fun c => by simp, rfl, rfl, rfl, rfl, by simp⟩
  · have hemp' : ds6.isEmpty = false := by
      revert hemp; cases ds6.isEmpty <;> simp
    by_cases hflags : (d.hasKea && d.hasKeaDhcp6) = true
    · simp only [applyKeaSubnets6, hemp', hflags, Bool.not_true, Bool.false_eq_true,
        if_false, Prod.mk.injEq] at h
      have h1 : dA = { d with
          keaSubnetsV6 := (applyDesiredList true (d.keaSubnetsV6.map (fun s => s.cidr))
            f ds6 d.keaSubnetsV6 d.uuidCtr).1,
          uuidCtr := (applyDesiredList true (d.keaSubnetsV6.map (fun s => s.cidr))
            f ds6 d.keaSubnetsV6 d.uuidCtr).2 } := h.1.symm
      subst h1
      refine ⟨fun c => ?_, rfl, rfl, rfl, rfl, fun _ => hflags⟩
      have hinv : ∀ c ∈ d.keaSubnetsV6.map (fun s => s.cidr),
          ∃ s ∈ d.keaSubnetsV6, s.cidr = c := by
        intro c hc
        rcases List.mem_map.mp hc with ⟨r, hr, rfl⟩
        exact ⟨r, hr, rfl⟩
      exact applyDesiredList_cidr_mem true f _ ds6 d.keaSubnetsV6 d.uuidCtr hinv c
    · have hf : (d.hasKea && d.hasKeaDhcp6) = false := by
        revert hflags; cases (d.hasKea && d.hasKeaDhcp6) <;> simp
      simp [applyKeaSubnets6, hemp', hf] at h

/-- A successful `apply_kea_subnets` leaves subnet lists covering exactly
the pre-existing CIDRs plus the desired ones, and witnesses that the Kea
sections were present when something had to be created. -/
theorem apply_kea_subnets_ok {d d1 : Doc} {ds4 ds6 : List DesiredSubnet} {f : Bool}
    (h : apply_kea_subnets d ds4 ds6 f = (d1, none)) :
    (∀ c, (∃ s ∈ extract_kea_subnets d1, s.cidr = c) ↔
      ((∃ s ∈ extract_kea_subnets d, s.cidr = c) ∨ ∃ x ∈ ds4, x.cidr = c)) ∧
    (∀ c, (∃ s ∈ extract_kea_subnets_v6 d1, s.cidr = c) ↔
      ((∃ s ∈ extract_kea_subnets_v6 d, s.cidr = c) ∨ ∃ x ∈ ds6, x.cidr = c)) ∧
    (ds4.isEmpty = false → (d.hasKea && d.hasKeaDhcp4) = true) ∧
    (ds6.isEmpty = false → (d.hasKea && d.hasKeaDhcp6) = true) := by
  unfold apply_kea_subnets at h
  rcases h4 : applyKeaSubnets4 d ds4 f with ⟨dA, e1⟩
  rw [h4] at h
  cases e1 with
  | some e => simp at h
  | none =>
    rcases applyKeaSubnets4_ok h4 with ⟨hm4, hs6, hk, h4f, h6f, hfl4⟩
    rcases applyKeaSubnets6_ok h with ⟨hm6, hs4, hk', _, h6f', hfl6⟩
    refine ⟨fun c => ?_, fun c => ?_, hfl4, fun hne => ?_⟩
    · rw [(extract_cidr_mem d1 c).1, (extract_cidr_mem d c).1, hs4]
      exact hm4 c
    · rw [(extract_cidr_mem d1 c).2, (extract_cidr_mem d c).2]
      rw [hm6 c, hs6]
    · have := hfl6 hne
      rw [hk, h6f] at this
      exact this

/-! ### Validation lemmas -/

/-- The first mapping failing the interface check determines the
`InterfaceMismatch` error. -/
theorem validate_v4_first_mismatch (cidrs : List (String × Cidr))
    (pre rest : List IscStaticMap) (m : IscStaticMap) (derived : String)
    (hpre : ∀ m' ∈ pre, ∃ dv, iface_for_ip m'.ipaddr cidrs = .ok dv ∧
      eqIgnoreAsciiCase dv m'.iface = true)
    (hm : iface_for_ip m.ipaddr cidrs = .ok derived)
    (hne : eqIgnoreAsciiCase derived m.iface = false) :
    validate_mapping_ifaces_v4 (pre ++ m :: rest) cidrs =
      .error (.InterfaceMismatch m.ipaddr m.iface derived) := by
  induction pre with
  | nil =>
    simp only [List.nil_append, validate_mapping_ifaces_v4, hm, hne]
    simp
  | cons p t ih =>
    rcases hpre p (List.mem_cons_self p t) with ⟨dv, hdv, heq⟩
    simp only [List.cons_append, validate_mapping_ifaces_v4, hdv, heq, if_true]
    exact ih (fun m' hm' => hpre m' (List.mem_cons_of_mem p hm'))

/-- Any mapping whose derived interface differs from its declared one makes
v4 validation fail (with some error). -/
theorem validate_v4_mismatch_not_ok (cidrs : List (String × Cidr))
    (ms : List IscStaticMap) (m : IscStaticMap) (derived : String)
    (hmem : m ∈ ms)
    (hm : iface_for_ip m.ipaddr cidrs = .ok derived)
    (hne : eqIgnoreAsciiCase derived m.iface = false) :
    ∀ u, validate_mapping_ifaces_v4 ms cidrs ≠ .ok u := by
  induction ms with
  | nil => exact absurd hmem (List.not_mem_nil m)
  | cons p t ih =>
    intro u
    rcases List.mem_cons.mp hmem with rfl | hmem'
    · simp only [validate_mapping_ifaces_v4, hm]
      rw [hne]
      simp
    · simp only [validate_mapping_ifaces_v4]
      cases hd : iface_for_ip p.ipaddr cidrs with
      | error e => simp [hd]
      | ok dv =>
        simp only [hd]
        split
        · exact ih hmem' u
        · simp

/-- v6 analogue of `validate_v4_first_mismatch`. -/
theorem validate_v6_first_mismatch (cidrs : List (String × Cidr))
    (pre rest : List IscStaticMapV6) (m : IscStaticMapV6) (derived : String)
    (hpre : ∀ m' ∈ pre, ∃ dv, iface_for_ip_v6 m'.ipaddr cidrs = .ok dv ∧
      eqIgnoreAsciiCase dv m'.iface = true)
    (hm : iface_for_ip_v6 m.ipaddr cidrs = .ok derived)
    (hne : eqIgnoreAsciiCase derived m.iface = false) :
    validate_mapping_ifaces_v6 (pre ++ m :: rest) cidrs =
      .error (.InterfaceMismatch m.ipaddr m.iface derived) := by
  induction pre with
  | nil =>
    simp only [List.nil_append, validate_mapping_ifaces_v6, hm, hne]
    simp
  | cons p t ih =>
    rcases hpre p (List.mem_cons_self p t) with ⟨dv, hdv, heq⟩
    simp only [List.cons_append, validate_mapping_ifaces_v6, hdv, heq, if_true]
    exact ih (fun m' hm' => hpre m' (List.mem_cons_of_mem p hm'))

/-- v6 analogue of `validate_v4_mismatch_not_ok`. -/
theorem validate_v6_mismatch_not_ok (cidrs : List (String × Cidr))
    (ms : List IscStaticMapV6) (m : IscStaticMapV6) (derived : String)
    (hmem : m ∈ ms)
    (hm : iface_for_ip_v6 m.ipaddr cidrs = .ok derived)
    (hne : eqIgnoreAsciiCase derived m.iface = false) :
    ∀ u, validate_mapping_ifaces_v6 ms cidrs ≠ .ok u := by
  induction ms with
  | nil => exact absurd hmem (List.not_mem_nil m)
  | cons p t ih =>
    intro u
    rcases List.mem_cons.mp hmem with rfl | hmem'
    · simp only [validate_mapping_ifaces_v6, hm]
      rw [hne]
      simp
    · simp only [validate_mapping_ifaces_v6]
      cases hd : iface_for_ip_v6 p.ipaddr cidrs with
      | error e => simp [hd]
      | ok dv =>
        simp only [hd]
        split
        · exact ih hmem' u
        · simp

/-! ### Record/enable-phase inversions -/

/-- `keaBackendChecks` passes exactly when each of its six guards is
false. -/
theorem keaBackendChecks_none_iff (d : Doc) (msE ms6E : Bool)
    (subs subs6 : List Subnet) (cs : Bool) (ds4 ds6 : List DesiredSubnet) :
    keaBackendChecks d msE ms6E subs subs6 cs ds4 ds6 = none ↔
      ((!msE && subs.isEmpty && !cs) = false ∧
       (!ms6E && subs6.isEmpty && !cs) = false ∧
       (cs && !msE && subs.isEmpty && !(has_kea_dhcp4 d)) = false ∧
       (cs && !msE && subs.isEmpty && ds4.isEmpty) = false ∧
       (cs && !ms6E && subs6.isEmpty && !(has_kea_dhcp6 d)) = false ∧
       (cs && !ms6E && subs6.isEmpty && ds6.isEmpty) = false) := by
  unfold keaBackendChecks
  split
  · rename_i h1
    simp [h1]
  split
  · rename_i h1 h2
    simp [h1, h2]
  split
  · rename_i h1 h2 h3
    simp [h1, h2, h3]
  split
  · rename_i h1 h2 h3 h4
    simp [h1, h2, h3, h4]
  split
  · rename_i h1 h2 h3 h4 h5
    simp [h1, h2, h3, h4, h5]
  split
  · rename_i h1 h2 h3 h4 h5 h6
    simp [h1, h2, h3, h4, h5, h6]
  rename_i h1 h2 h3 h4 h5 h6
  simp only [Bool.not_eq_true] at h1 h2 h3 h4 h5 h6
  simp [h1, h2, h3, h4, h5, h6]

/-- A nonempty subnet list has a member realising some CIDR. -/
theorem subnet_list_nonempty_cidr {l : List Subnet} (h : l.isEmpty = false) :
    ∃ c, ∃ s ∈ l, s.cidr = c := by
  cases l with
  | nil => simp at h
  | cons x t => exact ⟨x.cidr, x, List.mem_cons_self x t, rfl⟩

/-- Inversion of the successful v4 record phase. -/
theorem keaRecordPhaseV4_ok {d d4 : Doc} {ms : List IscStaticMap}
    {subs : List Subnet} {existingIps : List Nat} {created skipped : Nat}
    (h : keaRecordPhaseV4 d ms subs existingIps = (d4, .ok (created, skipped))) :
    (ms.isEmpty = true → d4 = d ∧ created = 0 ∧ skipped = 0) ∧
    (ms.isEmpty = false →
      (d.hasKea && d.hasKeaDhcp4) = true ∧
      (convLoopV4 subs ms ⟨[], existingIps, 0, 0, none⟩).err = none ∧
      created = (convLoopV4 subs ms ⟨[], existingIps, 0, 0, none⟩).created ∧
      skipped = (convLoopV4 subs ms ⟨[], existingIps, 0, 0, none⟩).skipped ∧
      d4 = { d with keaReservations := d.keaReservations ++
        (convLoopV4 subs ms ⟨[], existingIps, 0, 0, none⟩).recs }) := by
  by_cases hemp : ms.isEmpty = true
  · simp only [keaRecordPhaseV4, hemp, if_true, Prod.mk.injEq, Except.ok.injEq] at h
    refine ⟨fun _ => ?_, fun hne => by rw [hemp] at hne; simp at hne⟩
    exact ⟨h.1.symm, h.2.1.symm, h.2.2.symm⟩
  · have hemp' : ms.isEmpty = false := by
      revert hemp; cases ms.isEmpty <;> simp
    refine ⟨fun ht => by rw [hemp'] at ht; simp at ht, fun _ => ?_⟩
    by_cases hflags : (d.hasKea && d.hasKeaDhcp4) = true
    · simp only [keaRecordPhaseV4, hemp', hflags, Bool.not_true, Bool.false_eq_true,
        if_false] at h
      cases herr : (convLoopV4 subs ms ⟨[], existingIps, 0, 0, none⟩).err with
      | some e =>
        rw [herr] at h
        simp at h
      | none =>
        rw [herr] at h
        simp only [Prod.mk.injEq, Except.ok.injEq] at h
        exact ⟨hflags, rfl, h.2.1.symm, h.2.2.symm, h.1.symm⟩
    · have hf : (d.hasKea && d.hasKeaDhcp4) = false := by
        revert hflags; cases (d.hasKea && d.hasKeaDhcp4) <;> simp
      simp [keaRecordPhaseV4, hemp', hf] at h

/-- Inversion of the successful v6 record phase. -/
theorem keaRecordPhaseV6_ok {d d4 : Doc} {ms6 : List IscStaticMapV6}
    {subs6 : List Subnet} {existingIps6 : List Nat} {existingDuids6 : List String}
    {created skipped : Nat}
    (h : keaRecordPhaseV6 d ms6 subs6 existingIps6 existingDuids6 =
      (d4, .ok (created, skipped))) :
    (ms6.isEmpty = true → d4 = d ∧ created = 0 ∧ skipped = 0) ∧
    (ms6.isEmpty = false →
      (d.hasKea && d.hasKeaDhcp6) = true ∧
      (convLoopV6 subs6 ms6 ⟨[], existingIps6, existingDuids6, 0, 0, none⟩).err = none ∧
      created = (convLoopV6 subs6 ms6 ⟨[], existingIps6, existingDuids6, 0, 0, none⟩).created ∧
      skipped = (convLoopV6 subs6 ms6 ⟨[], existingIps6, existingDuids6, 0, 0, none⟩).skipped ∧
      d4 = { d with keaReservationsV6 := d.keaReservationsV6 ++
        (convLoopV6 subs6 ms6 ⟨[], existingIps6, existingDuids6, 0, 0, none⟩).recs }) := by
  by_cases hemp : ms6.isEmpty = true
  · simp only [keaRecordPhaseV6, hemp, if_true, Prod.mk.injEq, Except.ok.injEq] at h
    refine ⟨fun _ => ?_, fun hne => by rw [hemp] at hne; simp at hne⟩
    exact ⟨h.1.symm, h.2.1.symm, h.2.2.symm⟩
  · have hemp' : ms6.isEmpty = false := by
      revert hemp; cases ms6.isEmpty <;> simp
    refine ⟨fun ht => by rw [hemp'] at ht; simp at ht, fun _ => ?_⟩
    by_cases hflags : (d.hasKea && d.hasKeaDhcp6) = true
    · simp only [keaRecordPhaseV6, hemp', hflags, Bool.not_true, Bool.false_eq_true,
        if_false] at h
      cases herr : (convLoopV6 subs6 ms6 ⟨[], existingIps6, existingDuids6, 0, 0, none⟩).err with
      | some e =>
        rw [herr] at h
        simp at h
      | none =>
        rw [herr] at h
        simp only [Prod.mk.injEq, Except.ok.injEq] at h
        exact ⟨hflags, rfl, h.2.1.symm, h.2.2.symm, h.1.symm⟩
    · have hf : (d.hasKea && d.hasKeaDhcp6) = false := by
        revert hflags; cases (d.hasKea && d.hasKeaDhcp6) <;> simp
      simp [keaRecordPhaseV6, hemp', hf] at h

/-- The enable phase never touches the reservation lists, the subnet
lists, or the interface-CIDR tables. -/
theorem keaEnablePhase_frame (d : Doc) (o : MOpts) (subs subs6 : List Subnet) :
    (keaEnablePhase d o subs subs6).1.keaReservations = d.keaReservations ∧
    (keaEnablePhase d o subs subs6).1.keaReservationsV6 = d.keaReservationsV6 ∧
    (keaEnablePhase d o subs subs6).1.keaSubnets = d.keaSubnets ∧
    (keaEnablePhase d o subs subs6).1.keaSubnetsV6 = d.keaSubnetsV6 ∧
    (keaEnablePhase d o subs subs6).1.ifaceCidrsV4 = d.ifaceCidrsV4 ∧
    (keaEnablePhase d o subs subs6).1.ifaceCidrsV6 = d.ifaceCidrsV6 := by
  unfold keaEnablePhase disable_isc_dhcp_from_config enable_kea
  by_cases he : o.enableBackend = true
  · simp only [he, if_true]
    by_cases hk : d.hasKea = true
    · simp only [hk, Bool.not_true, Bool.false_eq_true, if_false]
      split
      simp_all
      split <;> simp_all
    · have hk' : d.hasKea = false := by
        revert hk; cases d.hasKea <;> simp
      simp only [hk', Bool.not_false, if_true]
      split
      simp_all
      split <;> simp_all
  · have he' : o.enableBackend = false := by
      revert he; cases o.enableBackend <;> simp
    simp [he']

/-- Equal CIDR coverage transports containment. -/
theorem contains_iff_of_cidr_mem {w : Nat} {A B : List Subnet}
    (h : ∀ c, (∃ s ∈ A, s.cidr = c) ↔ (∃ s ∈ B, s.cidr = c)) (ip : Nat) :
    (∃ s ∈ A, cidrContains w s.cidr ip = true) ↔
    (∃ s ∈ B, cidrContains w s.cidr ip = true) := by
  constructor
  · rintro ⟨s, hs, hc⟩
    rcases (h s.cidr).mp ⟨s, hs, rfl⟩ with ⟨t, ht, htc⟩
    exact ⟨t, ht, by rw [htc]; exact hc⟩
  · rintro ⟨s, hs, hc⟩
    rcases (h s.cidr).mpr ⟨s, hs, rfl⟩ with ⟨t, ht, htc⟩
    exact ⟨t, ht, by rw [htc]; exact hc⟩

/-- A successful v4 record phase over a subnet list `B` is mirrored by the
scan loop over any list `A` with the same containment behaviour: the scan
loop succeeds with the same counts, and the document grew by exactly the
created records. -/
theorem recordPhase_scanLoop_v4 {d1 d4 : Doc} {ms : List IscStaticMap}
    {A B : List Subnet} {X : List Nat} {created4 skipped4 : Nat}
    (hiff : ∀ ip : Nat, (∃ s ∈ A, cidrContains 32 s.cidr ip = true) ↔
      (∃ s ∈ B, cidrContains 32 s.cidr ip = true))
    (hr : keaRecordPhaseV4 d1 ms B X = (d4, .ok (created4, skipped4))) :
    ∃ st4, scanLoopV4 A ms ⟨X, 0, 0⟩ = .ok st4 ∧ st4.created = created4 ∧
      st4.skipped = skipped4 ∧
      d4.keaReservations.length = d1.keaReservations.length + created4 ∧
      d4.keaReservationsV6 = d1.keaReservationsV6 := by
  rcases keaRecordPhaseV4_ok hr with ⟨hempcase, hnecase⟩
  by_cases hms : ms.isEmpty = true
  · rcases hempcase hms with ⟨hd, hc, hs⟩
    have hnil : ms = [] := List.isEmpty_iff.mp hms
    subst hnil hd hc hs
    exact ⟨⟨X, 0, 0⟩, rfl, rfl, rfl, by simp, rfl⟩
  · have hms' : ms.isEmpty = false := by revert hms; cases ms.isEmpty <;> simp
    rcases hnecase hms' with ⟨hflags, herr, hc, hs, hd4⟩
    have hloop := loops_agree_v4 hiff ms X 0 0 []
    cases hsc : scanLoopV4 A ms ⟨X, 0, 0⟩ with
    | error e =>
      rw [hsc] at hloop
      rw [herr] at hloop
      simp at hloop
    | ok st4 =>
      rw [hsc] at hloop
      rcases hloop with ⟨_, hcreated, hskipped, _⟩
      subst hd4
      refine ⟨st4, rfl, ?_, ?_, ?_, rfl⟩
      · rw [← hcreated, ← hc]
      · rw [← hskipped, ← hs]
      · rcases convLoopV4_recs B ms ⟨[], X, 0, 0, none⟩ with ⟨new, h1, _, h3, _, _⟩
        simp only [List.nil_append] at h1
        simp only [List.length_append, h1, hc, h3]
        omega

/-- v6 analogue of `recordPhase_scanLoop_v4`. -/
theorem recordPhase_scanLoop_v6 {d1 d4 : Doc} {ms6 : List IscStaticMapV6}
    {A B : List Subnet} {X6 : List Nat} {XD : List String} {created6 skipped6 : Nat}
    (hiff : ∀ ip : Nat, (∃ s ∈ A, cidrContains 128 s.cidr ip = true) ↔
      (∃ s ∈ B, cidrContains 128 s.cidr ip = true))
    (hr : keaRecordPhaseV6 d1 ms6 B X6 XD = (d4, .ok (created6, skipped6))) :
    ∃ st6, scanLoopV6 A ms6 ⟨X6, XD, 0, 0⟩ = .ok st6 ∧ st6.created = created6 ∧
      st6.skipped = skipped6 ∧
      d4.keaReservationsV6.length = d1.keaReservationsV6.length + created6 ∧
      d4.keaReservations = d1.keaReservations := by
  rcases keaRecordPhaseV6_ok hr with ⟨hempcase, hnecase⟩
  by_cases hms : ms6.isEmpty = true
  · rcases hempcase hms with ⟨hd, hc, hs⟩
    have hnil : ms6 = [] := List.isEmpty_iff.mp hms
    subst hnil hd hc hs
    exact ⟨⟨X6, XD, 0, 0⟩, rfl, rfl, rfl, by simp, rfl⟩
  · have hms' : ms6.isEmpty = false := by revert hms; cases ms6.isEmpty <;> simp
    rcases hnecase hms' with ⟨hflags, herr, hc, hs, hd4⟩
    have hloop := loops_agree_v6 hiff ms6 X6 XD 0 0 []
    cases hsc : scanLoopV6 A ms6 ⟨X6, XD, 0, 0⟩ with
    | error e =>
      rw [hsc] at hloop
      rw [herr] at hloop
      simp at hloop
    | ok st6 =>
      rw [hsc] at hloop
      rcases hloop with ⟨_, hcreated, hskipped, _⟩
      subst hd4
      refine ⟨st6, rfl, ?_, ?_, ?_, rfl⟩
      · rw [← hcreated, ← hc]
      · rw [← hskipped, ← hs]
      · rcases convLoopV6_recs B ms6 ⟨[], X6, XD, 0, 0, none⟩ with
          ⟨new, h1, _, _, h3, _, _⟩
        simp only [List.nil_append] at h1
        simp only [List.length_append, h1, hc, h3]
        omega

/-- Assembling a successful `scan_kea` run from the outcomes of its
phases. -/
theorem scan_kea_assemble {d : Doc} {ms : List IscStaticMap}
    {ms6 : List IscStaticMapV6} {o : MOpts} {sd4 sd6 : List DesiredSubnet}
    {st4 : ScanSt} {st6 : ScanStV6}
    (hd4 : (if o.createSubnets then desired_subnets_v4 d else .ok []) = .ok sd4)
    (hd6 : (if o.createSubnets then desired_subnets_v6 d else .ok []) = .ok sd6)
    (hchecks : keaBackendChecks d ms.isEmpty ms6.isEmpty (extract_kea_subnets d)
      (extract_kea_subnets_v6 d) o.createSubnets sd4 sd6 = none)
    (hval4 : validate_mapping_ifaces_v4 ms d.ifaceCidrsV4 = .ok ())
    (hval6 : validate_mapping_ifaces_v6 ms6 d.ifaceCidrsV6 = .ok ())
    (hfail : failIfExistingKea o (extract_existing_reservation_ips d)
      (extract_existing_reservation_ips_v6 d)
      (extract_existing_reservation_duids_v6 d) = none)
    (hl4 : scanLoopV4 (if o.createSubnets then
        effectiveSubnets (extract_kea_subnets d) sd4 else extract_kea_subnets d)
      ms ⟨extract_existing_reservation_ips d, 0, 0⟩ = .ok st4)
    (hl6 : scanLoopV6 (if o.createSubnets then
        effectiveSubnets (extract_kea_subnets_v6 d) sd6 else extract_kea_subnets_v6 d)
      ms6 ⟨extract_existing_reservation_ips_v6 d,
        extract_existing_reservation_duids_v6 d, 0, 0⟩ = .ok st6) :
    scan_kea d ms ms6 o = .ok
      { iscMappingsFound := ms.length, iscMappingsV6Found := ms6.length,
        targetSubnetsFound := (extract_kea_subnets d).length,
        targetSubnetsV6Found := (extract_kea_subnets_v6 d).length,
        reservationsToCreate := st4.created,
        reservationsV6ToCreate := st6.created,
        reservationsSkipped := st4.skipped,
        reservationsV6Skipped := st6.skipped,
        interfacesConfigured := [], iscDisabledV4 := [], iscDisabledV6 := [],
        backendEnabledV4 := false, backendEnabledV6 := false } := by
  simp only [scan_kea]
  split
  · rename_i e heq
    rw [hd4] at heq
    simp at heq
  rename_i a4 heq4
  rw [hd4] at heq4
  injection heq4 with heq4
  subst heq4
  split
  · rename_i e heq
    rw [hd6] at heq
    simp at heq
  rename_i a6 heq6
  rw [hd6] at heq6
  injection heq6 with heq6
  subst heq6
  split
  · rename_i e heq
    rw [hchecks] at heq
    simp at heq
  split
  · rename_i e heq
    rw [hval4] at heq
    simp at heq
  split
  · rename_i e heq
    rw [hval6] at heq
    simp at heq
  split
  · rename_i e heq
    rw [hfail] at heq
    simp at heq
  split
  · rename_i e heq
    rw [hl4] at heq
    simp at heq
  rename_i stA heqA
  rw [hl4] at heqA
  injection heqA with heqA
  subst heqA
  split
  · rename_i e heq
    rw [hl6] at heq
    simp at heq
  rename_i stB heqB
  rw [hl6] at heqB
  injection heqB with heqB
  subst heqB
  rfl

/-- C1 (amended): whenever `convert_kea` succeeds, `scan_kea` on the same
input succeeds too, its reported per-family to-create and skipped counts
equal those of `convert_kea`, and the document grew by exactly the reported
number of reservation records per family.  (The unamended claim — that the
counts agree for every input on which `scan_kea` succeeds — is refuted by
`kea_scan_convert_counts_diverge`.) -/
theorem kea_scan_counts_match_convert {d d' : Doc} {ms : List IscStaticMap}
    {ms6 : List IscStaticMapV6} {o : MOpts} {stats : MStats}
    (h : convert_kea d ms ms6 o = (d', .ok stats)) :
    ∃ sstats, scan_kea d ms ms6 o = .ok sstats ∧
      sstats.reservationsToCreate = stats.reservationsToCreate ∧
      sstats.reservationsV6ToCreate = stats.reservationsV6ToCreate ∧
      sstats.reservationsSkipped = stats.reservationsSkipped ∧
      sstats.reservationsV6Skipped = stats.reservationsV6Skipped ∧
      d'.keaReservations.length
        = d.keaReservations.length + stats.reservationsToCreate ∧
      d'.keaReservationsV6.length
        = d.keaReservationsV6.length + stats.reservationsV6ToCreate := by
  simp only [convert_kea] at h
  split at h
  · simp at h
  rename_i d1 ctx hpre
  rcases convert_kea_pre_ok hpre with ⟨hframe, hdes4, hdes6, hval4, hval6, hchecks,
    hfail, hips, hips6, hduids, hsubs, hsubs6, dS, happ, hext4, hext6⟩
  obtain ⟨hfc4, hfc6, hfr4, hfr6, hfk, hfk4, hfk6, -, -, -, -, -, -, -, -⟩ := hframe
  simp only [convert_kea_post] at h
  split at h
  · simp at h
  rename_i d4 out4 hr4
  split at h
  · simp at h
  rename_i d5 out6 hr6
  split at h
  · simp at h
  rename_i d6 enOut hen
  simp only [Prod.mk.injEq, Except.ok.injEq] at h
  obtain ⟨hd6, hstats⟩ := h
  rcases out4 with ⟨created4, skipped4⟩
  rcases out6 with ⟨created6, skipped6⟩
  rw [hips] at hr4
  rw [hips6, hduids] at hr6
  rw [hips, hips6, hduids] at hfail
  have hfr := keaEnablePhase_frame d5 o ctx.subs ctx.subs6
  rw [hen] at hfr
  dsimp only at hfr
  rcases (keaBackendChecks_none_iff d1 ms.isEmpty ms6.isEmpty ctx.subs ctx.subs6
    o.createSubnets ctx.desired4 ctx.desired6).mp hchecks with ⟨c1, c2, c3, c4, c5, c6⟩
  have hkd4eq : has_kea_dhcp4 d1 = has_kea_dhcp4 d := by
    simp only [has_kea_dhcp4]
    rw [hfk, hfk4]
  have hkd6eq : has_kea_dhcp6 d1 = has_kea_dhcp6 d := by
    simp only [has_kea_dhcp6]
    rw [hfk, hfk6]
  cases hcs : o.createSubnets with
  | false =>
    have hdS : dS = d := by
      rw [hcs] at happ
      simp only [Bool.false_eq_true, if_false, Prod.mk.injEq] at happ
      exact happ.1.symm
    rw [hdS] at hext4 hext6
    have hsubseq : ctx.subs = extract_kea_subnets d := hsubs.trans hext4
    have hsubseq6 : ctx.subs6 = extract_kea_subnets_v6 d := hsubs6.trans hext6
    have hd4 : (if o.createSubnets then desired_subnets_v4 d else .ok [])
        = Except.ok ([] : List DesiredSubnet) := by
      rw [hcs]
      simp
    have hd6e : (if o.createSubnets then desired_subnets_v6 d else .ok [])
        = Except.ok ([] : List DesiredSubnet) := by
      rw [hcs]
      simp
    have hchecks' : keaBackendChecks d ms.isEmpty ms6.isEmpty (extract_kea_subnets d)
        (extract_kea_subnets_v6 d) o.createSubnets [] [] = none := by
      rw [keaBackendChecks_none_iff]
      refine ⟨?_, ?_, ?_, ?_, ?_, ?_⟩
      · rw [← hsubseq]
        exact c1
      · rw [← hsubseq6]
        exact c2
      · rw [hcs]
        simp
      · rw [hcs]
        simp
      · rw [hcs]
        simp
      · rw [hcs]
        simp
    have hiff4 : ∀ ip : Nat,
        (∃ s ∈ (if o.createSubnets then
            effectiveSubnets (extract_kea_subnets d) ([] : List DesiredSubnet)
          else extract_kea_subnets d), cidrContains 32 s.cidr ip = true) ↔
        (∃ s ∈ ctx.subs, cidrContains 32 s.cidr ip = true) := by
      intro ip
      rw [hcs, hsubseq]
      simp
    have hiff6 : ∀ ip : Nat,
        (∃ s ∈ (if o.createSubnets then
            effectiveSubnets (extract_kea_subnets_v6 d) ([] : List DesiredSubnet)
          else extract_kea_subnets_v6 d), cidrContains 128 s.cidr ip = true) ↔
        (∃ s ∈ ctx.subs6, cidrContains 128 s.cidr ip = true) := by
      intro ip
      rw [hcs, hsubseq6]
      simp
    rcases recordPhase_scanLoop_v4 hiff4 hr4 with ⟨st4, hl4, hc4, hs4, hlen4, hkeep4⟩
    rcases recordPhase_scanLoop_v6 hiff6 hr6 with ⟨st6, hl6, hc6, hs6, hlen6, hkeep6⟩
    have hscan := scan_kea_assemble hd4 hd6e hchecks' hval4 hval6 hfail hl4 hl6
    refine ⟨_, hscan, ?_, ?_, ?_, ?_, ?_, ?_⟩
    · rw [← hstats]
      exact hc4
    · rw [← hstats]
      exact hc6
    · rw [← hstats]
      exact hs4
    · rw [← hstats]
      exact hs6
    · rw [← hd6, ← hstats]
      show d6.keaReservations.length = d.keaReservations.length + created4
      rw [hfr.1, hkeep6, hlen4, hfr4]
    · rw [← hd6, ← hstats]
      show d6.keaReservationsV6.length = d.keaReservationsV6.length + created6
      rw [hfr.2.1, hlen6, hkeep4, hfr6]
  | true =>
    have happ' : apply_kea_subnets d ctx.desired4 ctx.desired6 o.forceSubnets
        = (dS, none) := by
      rw [hcs] at happ
      simpa using happ
    rcases apply_kea_subnets_ok happ' with ⟨m4, m6, hfl4, hfl6⟩
    have hcov4 : ∀ c, (∃ s ∈ ctx.subs, s.cidr = c) ↔
        ((∃ s ∈ extract_kea_subnets d, s.cidr = c) ∨ ∃ x ∈ ctx.desired4, x.cidr = c) := by
      intro c
      rw [hsubs, hext4]
      exact m4 c
    have hcov6 : ∀ c, (∃ s ∈ ctx.subs6, s.cidr = c) ↔
        ((∃ s ∈ extract_kea_subnets_v6 d, s.cidr = c) ∨ ∃ x ∈ ctx.desired6, x.cidr = c) := by
      intro c
      rw [hsubs6, hext6]
      exact m6 c
    have hd4 : (if o.createSubnets then desired_subnets_v4 d else .ok [])
        = Except.ok ctx.desired4 := by
      rw [hcs]
      rw [hcs] at hdes4
      simpa using hdes4
    have hd6e : (if o.createSubnets then desired_subnets_v6 d else .ok [])
        = Except.ok ctx.desired6 := by
      rw [hcs]
      rw [hcs] at hdes6
      simpa using hdes6
    have hchecks' : keaBackendChecks d ms.isEmpty ms6.isEmpty (extract_kea_subnets d)
        (extract_kea_subnets_v6 d) o.createSubnets ctx.desired4 ctx.desired6 = none := by
      rw [keaBackendChecks_none_iff]
      refine ⟨?_, ?_, ?_, ?_, ?_, ?_⟩
      · rw [hcs]
        simp
      · rw [hcs]
        simp
      · rw [hcs, ← Bool.not_eq_true]
        intro hg
        simp only [Bool.and_eq_true, Bool.not_eq_true'] at hg
        obtain ⟨⟨⟨-, hmsE⟩, hE4⟩, hk4⟩ := hg
        have hsubsne : ctx.subs.isEmpty = false := by
          by_contra hq
          have hq' : ctx.subs.isEmpty = true := by
            revert hq
            cases ctx.subs.isEmpty <;> simp
          rw [hcs, hmsE, hq', hkd4eq, hk4] at c3
          simp at c3
        rcases subnet_list_nonempty_cidr hsubsne with ⟨c, hcmem⟩
        rcases (hcov4 c).mp hcmem with ⟨y, hy, -⟩ | ⟨x, hx, -⟩
        · rw [List.isEmpty_iff.mp hE4] at hy
          exact absurd hy (List.not_mem_nil y)
        · have hD4 : ctx.desired4.isEmpty = false := by
            cases hD : ctx.desired4 with
            | nil =>
              rw [hD] at hx
              exact absurd hx (List.not_mem_nil x)
            | cons y t => rfl
          have hfl := hfl4 hD4
          simp only [has_kea_dhcp4] at hk4
          rw [hfl] at hk4
          simp at hk4
      · rw [hcs, ← Bool.not_eq_true]
        intro hg
        simp only [Bool.and_eq_true, Bool.not_eq_true'] at hg
        obtain ⟨⟨⟨-, hmsE⟩, hE4⟩, hD4⟩ := hg
        have hsubs0 : ctx.subs.isEmpty = true := by
          cases hS : ctx.subs with
          | nil => rfl
          | cons s t =>
            have hcm : ∃ z ∈ ctx.subs, z.cidr = s.cidr := by
              rw [hS]
              exact ⟨s, List.mem_cons_self s t, rfl⟩
            rcases (hcov4 s.cidr).mp hcm with ⟨y, hy, -⟩ | ⟨x, hx, -⟩
            · rw [List.isEmpty_iff.mp hE4] at hy
              exact absurd hy (List.not_mem_nil y)
            · rw [List.isEmpty_iff.mp hD4] at hx
              exact absurd hx (List.not_mem_nil x)
        rw [hcs, hmsE, hsubs0, hD4] at c4
        simp at c4
      · rw [hcs, ← Bool.not_eq_true]
        intro hg
        simp only [Bool.and_eq_true, Bool.not_eq_true'] at hg
        obtain ⟨⟨⟨-, hmsE⟩, hE6⟩, hk6⟩ := hg
        have hsubsne : ctx.subs6.isEmpty = false := by
          by_contra hq
          have hq' : ctx.subs6.isEmpty = true := by
            revert hq
            cases ctx.subs6.isEmpty <;> simp
          rw [hcs, hmsE, hq', hkd6eq, hk6] at c5
          simp at c5
        rcases subnet_list_nonempty_cidr hsubsne with ⟨c, hcmem⟩
        rcases (hcov6 c).mp hcmem with ⟨y, hy, -⟩ | ⟨x, hx, -⟩
        · rw [List.isEmpty_iff.mp hE6] at hy
          exact absurd hy (List.not_mem_nil y)
        · have hD6 : ctx.desired6.isEmpty = false := by
            cases hD : ctx.desired6 with
            | nil =>
              rw [hD] at hx
              exact absurd hx (List.not_mem_nil x)
            | cons y t => rfl
          have hfl := hfl6 hD6
          simp only [has_kea_dhcp6] at hk6
          rw [hfl] at hk6
          simp at hk6
      · rw [hcs, ← Bool.not_eq_true]
        intro hg
        simp only [Bool.and_eq_true, Bool.not_eq_true'] at hg
        obtain ⟨⟨⟨-, hmsE⟩, hE6⟩, hD6⟩ := hg
        have hsubs0 : ctx.subs6.isEmpty = true := by
          cases hS : ctx.subs6 with
          | nil => rfl
          | cons s t =>
            have hcm : ∃ z ∈ ctx.subs6, z.cidr = s.cidr := by
              rw [hS]
              exact ⟨s, List.mem_cons_self s t, rfl⟩
            rcases (hcov6 s.cidr).mp hcm with ⟨y, hy, -⟩ | ⟨x, hx, -⟩
            · rw [List.isEmpty_iff.mp hE6] at hy
              exact absurd hy (List.not_mem_nil y)
            · rw [List.isEmpty_iff.mp hD6] at hx
              exact absurd hx (List.not_mem_nil x)
        rw [hcs, hmsE, hsubs0, hD6] at c6
        simp at c6
    have hifeq4 : (if o.createSubnets then
        effectiveSubnets (extract_kea_subnets d) ctx.desired4
        else extract_kea_subnets d)
        = effectiveSubnets (extract_kea_subnets d) ctx.desired4 := by
      rw [hcs]
      simp
    have hifeq6 : (if o.createSubnets then
        effectiveSubnets (extract_kea_subnets_v6 d) ctx.desired6
        else extract_kea_subnets_v6 d)
        = effectiveSubnets (extract_kea_subnets_v6 d) ctx.desired6 := by
      rw [hcs]
      simp
    have hiff4 : ∀ ip : Nat,
        (∃ s ∈ (if o.createSubnets then
            effectiveSubnets (extract_kea_subnets d) ctx.desired4
          else extract_kea_subnets d), cidrContains 32 s.cidr ip = true) ↔
        (∃ s ∈ ctx.subs, cidrContains 32 s.cidr ip = true) := by
      intro ip
      rw [hifeq4]
      exact contains_iff_of_cidr_mem
        (fun c => by rw [effectiveSubnets_cidr_mem]; exact (hcov4 c).symm) ip
    have hiff6 : ∀ ip : Nat,
        (∃ s ∈ (if o.createSubnets then
            effectiveSubnets (extract_kea_subnets_v6 d) ctx.desired6
          else extract_kea_subnets_v6 d), cidrContains 128 s.cidr ip = true) ↔
        (∃ s ∈ ctx.subs6, cidrContains 128 s.cidr ip = true) := by
      intro ip
      rw [hifeq6]
      exact contains_iff_of_cidr_mem
        (fun c => by rw [effectiveSubnets_cidr_mem]; exact (hcov6 c).symm) ip
    rcases recordPhase_scanLoop_v4 hiff4 hr4 with ⟨st4, hl4, hc4, hs4, hlen4, hkeep4⟩
    rcases recordPhase_scanLoop_v6 hiff6 hr6 with ⟨st6, hl6, hc6, hs6, hlen6, hkeep6⟩
    have hscan := scan_kea_assemble hd4 hd6e hchecks' hval4 hval6 hfail hl4 hl6
    refine ⟨_, hscan, ?_, ?_, ?_, ?_, ?_, ?_⟩
    · rw [← hstats]
      exact hc4
    · rw [← hstats]
      exact hc6
    · rw [← hstats]
      exact hs4
    · rw [← hstats]
      exact hs6
    · rw [← hd6, ← hstats]
      show d6.keaReservations.length = d.keaReservations.length + created4
      rw [hfr.1, hkeep6, hlen4, hfr4]
    · rw [← hd6, ← hstats]
      show d6.keaReservationsV6.length = d.keaReservationsV6.length + created6
      rw [hfr.2.1, hlen6, hkeep4, hfr6]

/-- C1 counterexample: on `exDocC1` with `enable_backend` set, `scan_kea`
succeeds and reports one reservation to create, while `convert_kea` on the
same input and options fails (it computes the desired subnets even without
`create_subnets`) and appends no record — so scan's reported count does not
equal what convert appends. -/
theorem kea_scan_convert_counts_diverge :
    (∃ sstats, scan_kea exDocC1 exMapsC1 [] exOptsC1 = .ok sstats ∧
      sstats.reservationsToCreate = 1) ∧
    (convert_kea exDocC1 exMapsC1 [] exOptsC1).2 =
      .error (.NoInterfaceCidrForRange "wan") ∧
    (convert_kea exDocC1 exMapsC1 [] exOptsC1).1.keaReservations.length = 0 :=
  ⟨⟨_, rfl, rfl⟩, rfl, rfl⟩

/-- Witness for the amended C1 theorem at a concrete succeeding input. -/
theorem kea_scan_counts_match_convert_witness :
    ∃ sstats, scan_kea exDocC1ok exMapsC1 [] exOptsC1 = .ok sstats ∧
      sstats.reservationsToCreate = exStatsC1ok.reservationsToCreate ∧
      sstats.reservationsV6ToCreate = exStatsC1ok.reservationsV6ToCreate ∧
      sstats.reservationsSkipped = exStatsC1ok.reservationsSkipped ∧
      sstats.reservationsV6Skipped = exStatsC1ok.reservationsV6Skipped ∧
      exDocC1okOut.keaReservations.length
        = exDocC1ok.keaReservations.length + exStatsC1ok.reservationsToCreate ∧
      exDocC1okOut.keaReservationsV6.length
        = exDocC1ok.keaReservationsV6.length + exStatsC1ok.reservationsV6ToCreate :=
  kea_scan_counts_match_convert (by rfl)

/-! ### Frame and success inversions used by the validation-ordering and
mismatch claims -/

/-- The phases of `convert_kea` before the record phases never touch the
frame fields (in particular the reservation lists), error or not. -/
theorem convert_kea_pre_frame (d : Doc) (ms : List IscStaticMap)
    (ms6 : List IscStaticMapV6) (o : MOpts) :
    keaFrameEq (convert_kea_pre d ms ms6 o).1 d := by
  simp only [convert_kea_pre]
  split
  · exact keaFrameEq_refl d
  rename_i des4 h4
  split
  · exact keaFrameEq_refl d
  rename_i des6 h6
  split
  · rename_i d1 e happly
    exact keaFrameEq_apply_subnets happly
  rename_i d1 happly
  have hf1 : keaFrameEq d1 d := keaFrameEq_apply_subnets happly
  split
  · rename_i d2 e ifs hifaces
    exact keaFrameEq_trans (keaFrameEq_apply_interfaces hifaces) hf1
  rename_i d2 ifs hifaces
  have hf2 : keaFrameEq d2 d :=
    keaFrameEq_trans (keaFrameEq_apply_interfaces hifaces) hf1
  have hf3 : keaFrameEq (if o.createOptions then
      apply_kea_options d2 (if o.createOptions then d.iscOptionsV4 else [])
        (if o.createOptions then d.iscOptionsV6 else []) o.forceOptions
      else d2) d :=
    keaFrameEq_trans (keaFrameEq_apply_options o.createOptions) hf2
  split
  · exact hf3
  split
  · exact hf3
  split
  · exact hf3
  split
  · exact hf3
  exact hf3

/-- A successful `scan_kea` has passed both interface validations. -/
theorem scan_kea_ok_inv {d : Doc} {ms : List IscStaticMap}
    {ms6 : List IscStaticMapV6} {o : MOpts} {stats : MStats}
    (h : scan_kea d ms ms6 o = .ok stats) :
    validate_mapping_ifaces_v4 ms d.ifaceCidrsV4 = .ok () ∧
    validate_mapping_ifaces_v6 ms6 d.ifaceCidrsV6 = .ok () ∧
    failIfExistingKea o (extract_existing_reservation_ips d)
      (extract_existing_reservation_ips_v6 d)
      (extract_existing_reservation_duids_v6 d) = none := by
  simp only [scan_kea] at h
  split at h
  · simp at h
  rename_i des4 h4
  split at h
  · simp at h
  rename_i des6 h6
  split at h
  · simp at h
  rename_i hchecks
  split at h
  · simp at h
  rename_i u4 hval4
  split at h
  · simp at h
  rename_i u6 hval6
  split at h
  · simp at h
  rename_i hfail
  cases u4
  cases u6
  exact ⟨hval4, hval6, hfail⟩

/-- A successful `scan_dnsmasq` has passed both interface validations. -/
theorem scan_dnsmasq_ok_inv {d : Doc} {ms : List IscStaticMap}
    {ms6 : List IscStaticMapV6} {o : MOpts} {stats : MStats}
    (h : scan_dnsmasq d ms ms6 o = .ok stats) :
    validate_mapping_ifaces_v4 ms d.ifaceCidrsV4 = .ok () ∧
    validate_mapping_ifaces_v6 ms6 d.ifaceCidrsV6 = .ok () ∧
    dnsmasq_fail_existing o (extract_existing_dnsmasq_ips d)
      (extract_existing_dnsmasq_macs d) (extract_existing_dnsmasq_client_ids d)
      (extract_existing_dnsmasq_ranges d) = false := by
  simp only [scan_dnsmasq] at h
  split at h
  · simp at h
  rename_i des4 h4
  split at h
  · simp at h
  rename_i des6 h6
  split at h <;>
    (rename_i hco
     split at h
     · simp at h
     rename_i hbc
     split at h
     · simp at h
     rename_i hfie
     split at h
     · simp at h
     rename_i u4 hval4
     split at h
     · simp at h
     rename_i u6 hval6
     cases u4
     cases u6
     exact ⟨hval4, hval6, Bool.eq_false_iff.mpr hfie⟩)

/-- Inversion of a successful `convert_dnsmasq_pre`: everything it
checked, and what the context holds. -/
theorem convert_dnsmasq_pre_ok {d : Doc} {ms : List IscStaticMap}
    {ms6 : List IscStaticMapV6} {o : MOpts} {ctx : DnsCtx}
    (h : convert_dnsmasq_pre d ms ms6 o = .ok ctx) :
    (if o.createSubnets || o.enableBackend then desired_subnets_v4 d else .ok [])
      = .ok ctx.desired4 ∧
    (if o.createSubnets || o.enableBackend then desired_subnets_v6 d else .ok [])
      = .ok ctx.desired6 ∧
    ctx.desiredOptions = (if o.createOptions then
      dnsmasq_option_specs_from_isc (if o.createOptions then d.iscOptionsV4 else [])
        (if o.createOptions then d.iscOptionsV6 else []) else []) ∧
    dnsmasq_backend_missing d ms.isEmpty ms6.isEmpty ctx.desired4 ctx.desired6
      ctx.desiredOptions = false ∧
    dnsmasq_fail_existing o ctx.existingIps ctx.existingMacs ctx.existingCids
      ctx.existingRanges = false ∧
    validate_mapping_ifaces_v4 ms d.ifaceCidrsV4 = .ok () ∧
    validate_mapping_ifaces_v6 ms6 d.ifaceCidrsV6 = .ok () ∧
    ctx.existingIps = extract_existing_dnsmasq_ips d ∧
    ctx.existingMacs = extract_existing_dnsmasq_macs d ∧
    ctx.existingCids = extract_existing_dnsmasq_client_ids d ∧
    ctx.existingRanges = extract_existing_dnsmasq_ranges d ∧
    ctx.existingOptions
      = (if o.createOptions then extract_existing_dnsmasq_options d else []) := by
  simp only [convert_dnsmasq_pre] at h
  split at h
  · simp at h
  rename_i des4 h4
  split at h
  · simp at h
  rename_i des6 h6
  split at h <;>
    (rename_i hco
     split at h
     · simp at h
     rename_i hbc
     split at h
     · simp at h
     rename_i hfie
     split at h
     · simp at h
     rename_i u4 hval4
     split at h
     · simp at h
     rename_i u6 hval6
     cases u4
     cases u6
     injection h with h
     subst h
     refine ⟨h4, h6, ?_, Bool.eq_false_iff.mpr hbc, Bool.eq_false_iff.mpr hfie,
       hval4, hval6, rfl, rfl, rfl, rfl, ?_⟩ <;> simp [hco])

/-- C5: a mapping whose declared interface differs from the one derived
from its address makes interface validation fail with `InterfaceMismatch`
carrying the address, the declared and the derived interface; every scan
and convert operation of both backends fails on such input; convert
produces no reservation record (Kea) and leaves the document untouched
(dnsmasq); the mismatch is reported, never auto-corrected. -/
theorem mapping_iface_mismatch_fails_all {d : Doc} {pre rest : List IscStaticMap}
    {m : IscStaticMap} {derived : String} {ms6 : List IscStaticMapV6} {o : MOpts}
    (hpre : ∀ m' ∈ pre, ∃ dv, iface_for_ip m'.ipaddr d.ifaceCidrsV4 = .ok dv ∧
      eqIgnoreAsciiCase dv m'.iface = true)
    (hm : iface_for_ip m.ipaddr d.ifaceCidrsV4 = .ok derived)
    (hne : eqIgnoreAsciiCase derived m.iface = false) :
    validate_mapping_ifaces_v4 (pre ++ m :: rest) d.ifaceCidrsV4 =
      .error (.InterfaceMismatch m.ipaddr m.iface derived) ∧
    (∀ stats, scan_kea d (pre ++ m :: rest) ms6 o ≠ .ok stats) ∧
    (∀ stats, scan_dnsmasq d (pre ++ m :: rest) ms6 o ≠ .ok stats) ∧
    (∀ d' stats, convert_kea d (pre ++ m :: rest) ms6 o ≠ (d', .ok stats)) ∧
    (convert_kea d (pre ++ m :: rest) ms6 o).1.keaReservations = d.keaReservations ∧
    (convert_kea d (pre ++ m :: rest) ms6 o).1.keaReservationsV6
      = d.keaReservationsV6 ∧
    (∀ d' stats, convert_dnsmasq d (pre ++ m :: rest) ms6 o ≠ (d', .ok stats)) ∧
    (convert_dnsmasq d (pre ++ m :: rest) ms6 o).1 = d := by
  have hmis := validate_v4_first_mismatch d.ifaceCidrsV4 pre rest m derived hpre hm hne
  refine ⟨hmis, ?_, ?_, ?_, ?_, ?_, ?_, ?_⟩
  · intro stats hok
    have := (scan_kea_ok_inv hok).1
    rw [hmis] at this
    cases this
  · intro stats hok
    have := (scan_dnsmasq_ok_inv hok).1
    rw [hmis] at this
    cases this
  · intro d' stats hok
    simp only [convert_kea] at hok
    split at hok
    · simp at hok
    rename_i d1 ctx hpreok
    have := (convert_kea_pre_ok hpreok).2.2.2.1
    rw [hmis] at this
    cases this
  · rcases hpre2 : convert_kea_pre d (pre ++ m :: rest) ms6 o with ⟨d1, r⟩
    have hfr := convert_kea_pre_frame d (pre ++ m :: rest) ms6 o
    rw [hpre2] at hfr
    cases r with
    | error e =>
      simp only [convert_kea, hpre2]
      exact hfr.2.2.1
    | ok ctx =>
      have := (convert_kea_pre_ok hpre2).2.2.2.1
      rw [hmis] at this
      cases this
  · rcases hpre2 : convert_kea_pre d (pre ++ m :: rest) ms6 o with ⟨d1, r⟩
    have hfr := convert_kea_pre_frame d (pre ++ m :: rest) ms6 o
    rw [hpre2] at hfr
    cases r with
    | error e =>
      simp only [convert_kea, hpre2]
      exact hfr.2.2.2.1
    | ok ctx =>
      have := (convert_kea_pre_ok hpre2).2.2.2.1
      rw [hmis] at this
      cases this
  · intro d' stats hok
    simp only [convert_dnsmasq] at hok
    split at hok
    · simp at hok
    rename_i ctx hpreok
    have := (convert_dnsmasq_pre_ok hpreok).2.2.2.2.2.1
    rw [hmis] at this
    cases this
  · cases hpre2 : convert_dnsmasq_pre d (pre ++ m :: rest) ms6 o with
    | error e =>
      simp only [convert_dnsmasq, hpre2]
    | ok ctx =>
      have := (convert_dnsmasq_pre_ok hpre2).2.2.2.2.2.1
      rw [hmis] at this
      cases this

/-- Witness for the C5 theorem at a concrete mismatching mapping. -/
theorem mapping_iface_mismatch_fails_all_witness :
    validate_mapping_ifaces_v4 ([] ++ ⟨"wan", "cc:dd", 5, none, none, none⟩ :: [])
      exDocC8.ifaceCidrsV4 =
      .error (.InterfaceMismatch 5 "wan" "lan") ∧
    (∀ stats, scan_kea exDocC8
      ([] ++ ⟨"wan", "cc:dd", 5, none, none, none⟩ :: []) [] exOptsC8
        ≠ .ok stats) ∧
    (∀ stats, scan_dnsmasq exDocC8
      ([] ++ ⟨"wan", "cc:dd", 5, none, none, none⟩ :: []) [] exOptsC8
        ≠ .ok stats) ∧
    (∀ d' stats, convert_kea exDocC8
      ([] ++ ⟨"wan", "cc:dd", 5, none, none, none⟩ :: []) [] exOptsC8
        ≠ (d', .ok stats)) ∧
    (convert_kea exDocC8 ([] ++ ⟨"wan", "cc:dd", 5, none, none, none⟩ :: [])
      [] exOptsC8).1.keaReservations = exDocC8.keaReservations ∧
    (convert_kea exDocC8 ([] ++ ⟨"wan", "cc:dd", 5, none, none, none⟩ :: [])
      [] exOptsC8).1.keaReservationsV6 = exDocC8.keaReservationsV6 ∧
    (∀ d' stats, convert_dnsmasq exDocC8
      ([] ++ ⟨"wan", "cc:dd", 5, none, none, none⟩ :: []) [] exOptsC8
        ≠ (d', .ok stats)) ∧
    (convert_dnsmasq exDocC8 ([] ++ ⟨"wan", "cc:dd", 5, none, none, none⟩ :: [])
      [] exOptsC8).1 = exDocC8 :=
  mapping_iface_mismatch_fails_all
    (fun m' hm' => absurd hm' (List.not_mem_nil m')) (by rfl) (by rfl)

/-- C8 counterexample: with `create_subnets` set and a mismatching mapping,
`convert_kea` fails with `InterfaceMismatch` — yet the desired subnet has
already been merged into the document: the Kea subnet list grew from zero
to one element before validation ran, refuting "validation runs before
the merge steps mutate the document". -/
theorem kea_merge_precedes_validation :
    (convert_kea exDocC8 exMapsC8 [] exOptsC8).2 =
      .error (.InterfaceMismatch 5 "wan" "lan") ∧
    exDocC8.keaSubnets.length = 0 ∧
    (convert_kea exDocC8 exMapsC8 [] exOptsC8).1.keaSubnets.length = 1 :=
  ⟨rfl, rfl, rfl⟩

/-- C8 (amended): interface validation still precedes the per-mapping
record phases: when validation of either family fails, convert (both
backends) fails and appends no record — the Kea reservation lists and the
dnsmasq host list are unchanged (for dnsmasq the whole document is
unchanged, its validation preceding all mutation; for Kea the subnet and
option merges may already have run, as `kea_merge_precedes_validation`
shows). -/
theorem validation_precedes_record_phases {d : Doc} {ms : List IscStaticMap}
    {ms6 : List IscStaticMapV6} {o : MOpts} {e4 e6 : MigErr}
    (hv : validate_mapping_ifaces_v4 ms d.ifaceCidrsV4 = .error e4 ∨
          validate_mapping_ifaces_v6 ms6 d.ifaceCidrsV6 = .error e6) :
    (∀ d' stats, convert_kea d ms ms6 o ≠ (d', .ok stats)) ∧
    (convert_kea d ms ms6 o).1.keaReservations = d.keaReservations ∧
    (convert_kea d ms ms6 o).1.keaReservationsV6 = d.keaReservationsV6 ∧
    (∀ d' stats, convert_dnsmasq d ms ms6 o ≠ (d', .ok stats)) ∧
    (convert_dnsmasq d ms ms6 o).1 = d := by
  have hcontra : ∀ (h4 : validate_mapping_ifaces_v4 ms d.ifaceCidrsV4 = .ok ())
      (h6 : validate_mapping_ifaces_v6 ms6 d.ifaceCidrsV6 = .ok ()), False := by
    intro h4 h6
    cases hv with
    | inl hv4 => rw [hv4] at h4; cases h4
    | inr hv6 => rw [hv6] at h6; cases h6
  refine ⟨?_, ?_, ?_, ?_, ?_⟩
  · intro d' stats hok
    simp only [convert_kea] at hok
    split at hok
    · simp at hok
    rename_i d1 ctx hpreok
    rcases convert_kea_pre_ok hpreok with ⟨-, -, -, h4, h6, -⟩
    exact hcontra h4 h6
  · rcases hpre2 : convert_kea_pre d ms ms6 o with ⟨d1, r⟩
    have hfr := convert_kea_pre_frame d ms ms6 o
    rw [hpre2] at hfr
    cases r with
    | error e =>
      simp only [convert_kea, hpre2]
      exact hfr.2.2.1
    | ok ctx =>
      rcases convert_kea_pre_ok hpre2 with ⟨-, -, -, h4, h6, -⟩
      exact absurd (hcontra h4 h6) not_false
  · rcases hpre2 : convert_kea_pre d ms ms6 o with ⟨d1, r⟩
    have hfr := convert_kea_pre_frame d ms ms6 o
    rw [hpre2] at hfr
    cases r with
    | error e =>
      simp only [convert_kea, hpre2]
      exact hfr.2.2.2.1
    | ok ctx =>
      rcases convert_kea_pre_ok hpre2 with ⟨-, -, -, h4, h6, -⟩
      exact absurd (hcontra h4 h6) not_false
  · intro d' stats hok
    simp only [convert_dnsmasq] at hok
    split at hok
    · simp at hok
    rename_i ctx hpreok
    rcases convert_dnsmasq_pre_ok hpreok with ⟨-, -, -, -, -, h4, h6, -⟩
    exact hcontra h4 h6
  · cases hpre2 : convert_dnsmasq_pre d ms ms6 o with
    | error e =>
      simp only [convert_dnsmasq, hpre2]
    | ok ctx =>
      rcases convert_dnsmasq_pre_ok hpre2 with ⟨-, -, -, -, -, h4, h6, -⟩
      exact absurd (hcontra h4 h6) not_false

/-- Witness for the amended C8 theorem at a concrete mismatching input. -/
theorem validation_precedes_record_phases_witness :
    (∀ d' stats, convert_kea exDocC8 exMapsC8 [] exOptsC8 ≠ (d', .ok stats)) ∧
    (convert_kea exDocC8 exMapsC8 [] exOptsC8).1.keaReservations
      = exDocC8.keaReservations ∧
    (convert_kea exDocC8 exMapsC8 [] exOptsC8).1.keaReservationsV6
      = exDocC8.keaReservationsV6 ∧
    (∀ d' stats, convert_dnsmasq exDocC8 exMapsC8 [] exOptsC8 ≠ (d', .ok stats)) ∧
    (convert_dnsmasq exDocC8 exMapsC8 [] exOptsC8).1 = exDocC8 :=
  @validation_precedes_record_phases exDocC8 exMapsC8 [] exOptsC8
    (.InterfaceMismatch 5 "wan" "lan") (.NoMatchingSubnet 0) (Or.inl (by rfl))

/-! ### Enable-phase lemmas (C9) -/

/-- Fields the record phases never touch. -/
theorem keaRecordPhaseV4_keeps (d : Doc) (ms : List IscStaticMap)
    (subs : List Subnet) (X : List Nat) :
    (keaRecordPhaseV4 d ms subs X).1.keaSubnets = d.keaSubnets ∧
    (keaRecordPhaseV4 d ms subs X).1.keaSubnetsV6 = d.keaSubnetsV6 ∧
    (keaRecordPhaseV4 d ms subs X).1.hasKea = d.hasKea ∧
    (keaRecordPhaseV4 d ms subs X).1.hasKeaDhcp4 = d.hasKeaDhcp4 ∧
    (keaRecordPhaseV4 d ms subs X).1.hasKeaDhcp6 = d.hasKeaDhcp6 ∧
    (keaRecordPhaseV4 d ms subs X).1.keaDhcp4Enabled = d.keaDhcp4Enabled ∧
    (keaRecordPhaseV4 d ms subs X).1.keaDhcp6Enabled = d.keaDhcp6Enabled ∧
    (keaRecordPhaseV4 d ms subs X).1.keaReservationsV6 = d.keaReservationsV6 := by
  simp only [keaRecordPhaseV4]
  split
  · exact ⟨rfl, rfl, rfl, rfl, rfl, rfl, rfl, rfl⟩
  split
  · exact ⟨rfl, rfl, rfl, rfl, rfl, rfl, rfl, rfl⟩
  split <;> exact ⟨rfl, rfl, rfl, rfl, rfl, rfl, rfl, rfl⟩

/-- v6 analogue. -/
theorem keaRecordPhaseV6_keeps (d : Doc) (ms6 : List IscStaticMapV6)
    (subs6 : List Subnet) (X6 : List Nat) (XD : List String) :
    (keaRecordPhaseV6 d ms6 subs6 X6 XD).1.keaSubnets = d.keaSubnets ∧
    (keaRecordPhaseV6 d ms6 subs6 X6 XD).1.keaSubnetsV6 = d.keaSubnetsV6 ∧
    (keaRecordPhaseV6 d ms6 subs6 X6 XD).1.hasKea = d.hasKea ∧
    (keaRecordPhaseV6 d ms6 subs6 X6 XD).1.hasKeaDhcp4 = d.hasKeaDhcp4 ∧
    (keaRecordPhaseV6 d ms6 subs6 X6 XD).1.hasKeaDhcp6 = d.hasKeaDhcp6 ∧
    (keaRecordPhaseV6 d ms6 subs6 X6 XD).1.keaDhcp4Enabled = d.keaDhcp4Enabled ∧
    (keaRecordPhaseV6 d ms6 subs6 X6 XD).1.keaDhcp6Enabled = d.keaDhcp6Enabled ∧
    (keaRecordPhaseV6 d ms6 subs6 X6 XD).1.keaReservations = d.keaReservations := by
  simp only [keaRecordPhaseV6]
  split
  · exact ⟨rfl, rfl, rfl, rfl, rfl, rfl, rfl, rfl⟩
  split
  · exact ⟨rfl, rfl, rfl, rfl, rfl, rfl, rfl, rfl⟩
  split <;> exact ⟨rfl, rfl, rfl, rfl, rfl, rfl, rfl, rfl⟩

/-- `enable_kea` enables each family's flag exactly when the family has
subnets, Kea is present and the family's dhcp section exists; a flag not
enabled stays what it was. -/
theorem enable_kea_spec (d : Doc) (h4 h6 : Bool) :
    (enable_kea d h4 h6).2.1 = (d.hasKea && (h4 && d.hasKeaDhcp4)) ∧
    (enable_kea d h4 h6).2.2 = (d.hasKea && (h6 && d.hasKeaDhcp6)) ∧
    ((enable_kea d h4 h6).2.1 = true →
      (enable_kea d h4 h6).1.keaDhcp4Enabled = true) ∧
    ((enable_kea d h4 h6).2.1 = false →
      (enable_kea d h4 h6).1.keaDhcp4Enabled = d.keaDhcp4Enabled) ∧
    ((enable_kea d h4 h6).2.2 = true →
      (enable_kea d h4 h6).1.keaDhcp6Enabled = true) ∧
    ((enable_kea d h4 h6).2.2 = false →
      (enable_kea d h4 h6).1.keaDhcp6Enabled = d.keaDhcp6Enabled) := by
  by_cases hk : d.hasKea = true
  · by_cases he4 : (h4 && d.hasKeaDhcp4) = true
    · by_cases he6 : (h6 && d.hasKeaDhcp6) = true
      · simp [enable_kea, hk, he4, he6]
      · have he6' : (h6 && d.hasKeaDhcp6) = false := by
          revert he6
          cases (h6 && d.hasKeaDhcp6) <;> simp
        simp [enable_kea, hk, he4, he6']
    · have he4' : (h4 && d.hasKeaDhcp4) = false := by
        revert he4
        cases (h4 && d.hasKeaDhcp4) <;> simp
      by_cases he6 : (h6 && d.hasKeaDhcp6) = true
      · simp [enable_kea, hk, he4', he6]
      · have he6' : (h6 && d.hasKeaDhcp6) = false := by
          revert he6
          cases (h6 && d.hasKeaDhcp6) <;> simp
        simp [enable_kea, hk, he4', he6']
  · have hk' : d.hasKea = false := by
      revert hk
      cases d.hasKea <;> simp
    simp [enable_kea, hk']

/-- Inversion of a successful enable phase with `enable_backend` set: each
family's returned enabled flag equals "that family has subnets", the
per-family service flag is set exactly when the flag is returned true, and
an enabled family witnesses its Kea dhcp section. -/
theorem keaEnablePhase_ok_inv {d d2 : Doc} {o : MOpts} {subs subs6 : List Subnet}
    {out : List String × List String × Bool × Bool}
    (he : o.enableBackend = true)
    (h : keaEnablePhase d o subs subs6 = (d2, .ok out)) :
    out.2.2.1 = !subs.isEmpty ∧ out.2.2.2 = !subs6.isEmpty ∧
    (out.2.2.1 = true → d2.keaDhcp4Enabled = true) ∧
    (out.2.2.1 = false → d2.keaDhcp4Enabled = d.keaDhcp4Enabled) ∧
    (out.2.2.2 = true → d2.keaDhcp6Enabled = true) ∧
    (out.2.2.2 = false → d2.keaDhcp6Enabled = d.keaDhcp6Enabled) ∧
    (out.2.2.1 = true → (d.hasKea && d.hasKeaDhcp4) = true) ∧
    (out.2.2.2 = true → (d.hasKea && d.hasKeaDhcp6) = true) := by
  simp only [keaEnablePhase, he, if_true, disable_isc_dhcp_from_config] at h
  rcases hek : enable_kea { d with iscEnabledV4 := [], iscEnabledV6 := [] }
    (!subs.isEmpty) (!subs6.isEmpty) with ⟨dx, e4, e6⟩
  rw [hek] at h
  dsimp only at h
  have spec := enable_kea_spec { d with iscEnabledV4 := [], iscEnabledV6 := [] }
    (!subs.isEmpty) (!subs6.isEmpty)
  rw [hek] at spec
  dsimp only at spec
  obtain ⟨hs1, hs2, hs3, hs4, hs5, hs6⟩ := spec
  split at h
  · simp at h
  rename_i hc1
  split at h
  · simp at h
  rename_i hc2
  simp only [Prod.mk.injEq, Except.ok.injEq] at h
  obtain ⟨hd2, hout⟩ := h
  have he4eq : e4 = !subs.isEmpty := by
    by_cases hse : subs.isEmpty = true
    · rw [hs1, hse]
      simp
    · have hse' : subs.isEmpty = false := by
        revert hse
        cases subs.isEmpty <;> simp
      rw [hse']
      rw [hse'] at hc1
      revert hc1
      cases e4 <;> simp
  have he6eq : e6 = !subs6.isEmpty := by
    by_cases hse : subs6.isEmpty = true
    · rw [hs2, hse]
      simp
    · have hse' : subs6.isEmpty = false := by
        revert hse
        cases subs6.isEmpty <;> simp
      rw [hse']
      rw [hse'] at hc2
      revert hc2
      cases e6 <;> simp
  rw [← hout]
  refine ⟨he4eq, he6eq, ?_, ?_, ?_, ?_, ?_, ?_⟩
  · intro hq
    rw [← hd2]
    exact hs3 hq
  · intro hq
    rw [← hd2]
    exact hs4 hq
  · intro hq
    rw [← hd2]
    exact hs5 hq
  · intro hq
    rw [← hd2]
    exact hs6 hq
  · intro hq
    have hq' : e4 = true := hq
    rw [hq'] at hs1
    have := hs1.symm
    simp only [Bool.and_eq_true] at this
    simp only [Bool.and_eq_true]
    exact ⟨this.1, this.2.2⟩
  · intro hq
    have hq' : e6 = true := hq
    rw [hq'] at hs2
    have := hs2.symm
    simp only [Bool.and_eq_true] at this
    simp only [Bool.and_eq_true]
    exact ⟨this.1, this.2.2⟩

/-- An enable phase cannot succeed when a family has subnets but its Kea
dhcp section is unavailable. -/
theorem keaEnablePhase_fails_v4 {d d2 : Doc} {o : MOpts} {subs subs6 : List Subnet}
    {out : List String × List String × Bool × Bool}
    (he : o.enableBackend = true) (hsubs : subs.isEmpty = false)
    (hflags : (d.hasKea && d.hasKeaDhcp4) = false) :
    keaEnablePhase d o subs subs6 ≠ (d2, .ok out) := by
  intro h
  rcases keaEnablePhase_ok_inv he h with ⟨he4, -, -, -, -, -, hwit, -⟩
  rw [hsubs] at he4
  simp only [Bool.not_false] at he4
  have := hwit he4
  rw [hflags] at this
  cases this

/-- C9: under `enable_backend`, a successful `convert_kea` enables each
protocol family's service flag exactly when that family ends up with at
least one target subnet; the stats record which families were enabled (the
flag equals subnet presence in the output document); a family not enabled
keeps its previous service flag; and the enable phase fails whenever a
family has subnets but its Kea dhcp section is unavailable. -/
theorem enable_backend_flags {d d' : Doc} {ms : List IscStaticMap}
    {ms6 : List IscStaticMapV6} {o : MOpts} {stats : MStats}
    (h : convert_kea d ms ms6 o = (d', .ok stats)) (he : o.enableBackend = true) :
    stats.backendEnabledV4 = !(extract_kea_subnets d').isEmpty ∧
    stats.backendEnabledV6 = !(extract_kea_subnets_v6 d').isEmpty ∧
    (stats.backendEnabledV4 = true → d'.keaDhcp4Enabled = true) ∧
    (stats.backendEnabledV6 = true → d'.keaDhcp6Enabled = true) ∧
    (stats.backendEnabledV4 = false → d'.keaDhcp4Enabled = d.keaDhcp4Enabled) ∧
    (stats.backendEnabledV6 = false → d'.keaDhcp6Enabled = d.keaDhcp6Enabled) ∧
    (∀ (db db2 : Doc) (subs subs6 : List Subnet)
      (out : List String × List String × Bool × Bool),
      subs.isEmpty = false → (db.hasKea && db.hasKeaDhcp4) = false →
      keaEnablePhase db o subs subs6 ≠ (db2, .ok out)) := by
  simp only [convert_kea] at h
  split at h
  · simp at h
  rename_i d1 ctx hpre
  rcases convert_kea_pre_ok hpre with ⟨hframe, -, -, -, -, -, -, -, -, -,
    hsubs, hsubs6, -⟩
  simp only [convert_kea_post] at h
  split at h
  · simp at h
  rename_i d4 out4 hr4
  split at h
  · simp at h
  rename_i d5 out6 hr6
  split at h
  · simp at h
  rename_i d6 enOut hen
  simp only [Prod.mk.injEq, Except.ok.injEq] at h
  obtain ⟨hd6, hstats⟩ := h
  have hk4 := keaRecordPhaseV4_keeps d1 ms ctx.subs ctx.existingIps
  rw [hr4] at hk4
  dsimp only at hk4
  have hk6 := keaRecordPhaseV6_keeps d4 ms6 ctx.subs6 ctx.existingIps6 ctx.existingDuids6
  rw [hr6] at hk6
  dsimp only at hk6
  have hfr := keaEnablePhase_frame d5 o ctx.subs ctx.subs6
  rw [hen] at hfr
  dsimp only at hfr
  have hsubchain : d6.keaSubnets = d1.keaSubnets := by
    rw [hfr.2.2.1, hk6.1, hk4.1]
  have hsubchain6 : d6.keaSubnetsV6 = d1.keaSubnetsV6 := by
    rw [hfr.2.2.2.1, hk6.2.1, hk4.2.1]
  have hext : extract_kea_subnets d6 = ctx.subs := by
    rw [hsubs]
    simp only [extract_kea_subnets, hsubchain]
  have hext6 : extract_kea_subnets_v6 d6 = ctx.subs6 := by
    rw [hsubs6]
    simp only [extract_kea_subnets_v6, hsubchain6]
  rcases keaEnablePhase_ok_inv he hen with ⟨he4, he6, hset4, hkeep4, hset6, hkeep6, -, -⟩
  obtain ⟨-, -, -, -, -, -, -, -, -, -, -, -, -, hfe4, hfe6⟩ := hframe
  have hflag4chain : d5.keaDhcp4Enabled = d.keaDhcp4Enabled := by
    rw [hk6.2.2.2.2.2.1, hk4.2.2.2.2.2.1, hfe4]
  have hflag6chain : d5.keaDhcp6Enabled = d.keaDhcp6Enabled := by
    rw [hk6.2.2.2.2.2.2.1, hk4.2.2.2.2.2.2.1, hfe6]
  rw [← hd6, ← hstats]
  refine ⟨?_, ?_, ?_, ?_, ?_, ?_, ?_⟩
  · show enOut.2.2.1 = !(extract_kea_subnets d6).isEmpty
    rw [hext, he4]
  · show enOut.2.2.2 = !(extract_kea_subnets_v6 d6).isEmpty
    rw [hext6, he6]
  · intro hq
    exact hset4 hq
  · intro hq
    exact hset6 hq
  · intro hq
    rw [hkeep4 hq, hflag4chain]
  · intro hq
    rw [hkeep6 hq, hflag6chain]
  · intro db db2 subs subs6 out hs hf
    exact keaEnablePhase_fails_v4 he hs hf

/-- Witness for the C9 theorem at a concrete succeeding input. -/
theorem enable_backend_flags_witness :
    exStatsC1ok.backendEnabledV4
      = !(extract_kea_subnets exDocC1okOut).isEmpty ∧
    exStatsC1ok.backendEnabledV6
      = !(extract_kea_subnets_v6 exDocC1okOut).isEmpty ∧
    (exStatsC1ok.backendEnabledV4 = true → exDocC1okOut.keaDhcp4Enabled = true) ∧
    (exStatsC1ok.backendEnabledV6 = true → exDocC1okOut.keaDhcp6Enabled = true) ∧
    (exStatsC1ok.backendEnabledV4 = false →
      exDocC1okOut.keaDhcp4Enabled = exDocC1ok.keaDhcp4Enabled) ∧
    (exStatsC1ok.backendEnabledV6 = false →
      exDocC1okOut.keaDhcp6Enabled = exDocC1ok.keaDhcp6Enabled) ∧
    (∀ (db db2 : Doc) (subs subs6 : List Subnet)
      (out : List String × List String × Bool × Bool),
      subs.isEmpty = false → (db.hasKea && db.hasKeaDhcp4) = false →
      keaEnablePhase db exOptsC1 subs subs6 ≠ (db2, .ok out)) :=
  @enable_backend_flags exDocC1ok exDocC1okOut exMapsC1 [] exOptsC1 exStatsC1ok
    (by rfl) (by rfl)

/-- C4: within one `convert_kea` call, no two appended v4 reservations
share an address, and no appended reservation reuses a pre-existing
reservation address: accepting a mapping immediately reserves its address,
so a later mapping of the batch with the same address is skipped; in
particular two batch mappings sharing an address (with any hardware ids)
yield exactly one accepted and one skipped. -/
theorem convert_v4_no_duplicate_addresses {d d' : Doc} {ms : List IscStaticMap}
    {ms6 : List IscStaticMapV6} {o : MOpts} {stats : MStats}
    (h : convert_kea d ms ms6 o = (d', .ok stats)) :
    (∃ new, d'.keaReservations = d.keaReservations ++ new ∧
      (new.map (fun r => r.ip)).Nodup ∧
      (∀ r ∈ new, r.ip ∉ extract_existing_reservation_ips d)) ∧
    (∀ (subs : List Subnet) (m1 m2 : IscStaticMap) (u : String),
      m1.ipaddr = m2.ipaddr → find_subnet_for_ip m1.ipaddr subs = .ok u →
      (convLoopV4 subs [m1, m2] ⟨[], [], 0, 0, none⟩).created = 1 ∧
      (convLoopV4 subs [m1, m2] ⟨[], [], 0, 0, none⟩).skipped = 1 ∧
      (convLoopV4 subs [m1, m2] ⟨[], [], 0, 0, none⟩).recs.length = 1) := by
  constructor
  · simp only [convert_kea] at h
    split at h
    · simp at h
    rename_i d1 ctx hpre
    rcases convert_kea_pre_ok hpre with ⟨hframe, -, -, -, -, -, -, hips, -, -, -⟩
    simp only [convert_kea_post] at h
    split at h
    · simp at h
    rename_i d4 out4 hr4
    split at h
    · simp at h
    rename_i d5 out6 hr6
    split at h
    · simp at h
    rename_i d6 enOut hen
    simp only [Prod.mk.injEq, Except.ok.injEq] at h
    obtain ⟨hd6, hstats⟩ := h
    obtain ⟨-, -, hfr4, -⟩ := hframe
    have hk6 := keaRecordPhaseV6_keeps d4 ms6 ctx.subs6 ctx.existingIps6
      ctx.existingDuids6
    rw [hr6] at hk6
    dsimp only at hk6
    have hfr := keaEnablePhase_frame d5 o ctx.subs ctx.subs6
    rw [hen] at hfr
    dsimp only at hfr
    have hchain : d'.keaReservations = d4.keaReservations := by
      rw [← hd6, hfr.1, hk6.2.2.2.2.2.2.2]
    rcases out4 with ⟨created4, skipped4⟩
    rcases keaRecordPhaseV4_ok hr4 with ⟨hempcase, hnecase⟩
    by_cases hms : ms.isEmpty = true
    · rcases hempcase hms with ⟨hd4, -, -⟩
      refine ⟨[], ?_, by simp, by simp⟩
      rw [hchain, hd4, hfr4]
      simp
    · have hms' : ms.isEmpty = false := by
        revert hms
        cases ms.isEmpty <;> simp
      rcases hnecase hms' with ⟨-, -, -, -, hd4⟩
      rcases convLoopV4_recs ctx.subs ms ⟨[], ctx.existingIps, 0, 0, none⟩ with
        ⟨new, h1, -, -, h4, h5⟩
      simp only [List.nil_append] at h1
      refine ⟨new, ?_, h5, ?_⟩
      · rw [hchain, hd4]
        dsimp only
        rw [h1, hfr4]
      · intro r hr
        have := h4 r hr
        rw [hips] at this
        exact this
  · intro subs m1 m2 u heq hfind
    have h1 : elemBy m1.ipaddr ([] : List Nat) = false := rfl
    have h2 : elemBy m2.ipaddr [m1.ipaddr] = true := by
      simp [elemBy, heq]
    simp only [convLoopV4, h1, Bool.false_eq_true, if_false, hfind]
    simp only [h2, if_true]
    exact ⟨trivial, trivial, rfl⟩

/-- Witness for the C4 theorem at a concrete succeeding input. -/
theorem convert_v4_no_duplicate_addresses_witness :
    (∃ new, exDocC1okOut.keaReservations = exDocC1ok.keaReservations ++ new ∧
      (new.map (fun r => r.ip)).Nodup ∧
      (∀ r ∈ new, r.ip ∉ extract_existing_reservation_ips exDocC1ok)) ∧
    (∀ (subs : List Subnet) (m1 m2 : IscStaticMap) (u : String),
      m1.ipaddr = m2.ipaddr → find_subnet_for_ip m1.ipaddr subs = .ok u →
      (convLoopV4 subs [m1, m2] ⟨[], [], 0, 0, none⟩).created = 1 ∧
      (convLoopV4 subs [m1, m2] ⟨[], [], 0, 0, none⟩).skipped = 1 ∧
      (convLoopV4 subs [m1, m2] ⟨[], [], 0, 0, none⟩).recs.length = 1) :=
  @convert_v4_no_duplicate_addresses exDocC1ok exDocC1okOut exMapsC1 [] exOptsC1
    exStatsC1ok (by rfl)

/-! ### Dnsmasq convert-loop lemmas -/

/-- What the dnsmasq v4 convert loop appends: host elements built from
batch mappings, with fresh, mutually distinct addresses; the shared
address set grows by exactly the accepted addresses. -/
theorem dnsConvLoopV4_recs :
    ∀ (ms : List IscStaticMap) (st : DnsConvSt),
    ∃ new, (dnsConvLoopV4 ms st).hosts = st.hosts ++ new ∧
      (dnsConvLoopV4 ms st).reservedIps
        = (new.map (fun x => x.ip)).reverse ++ st.reservedIps ∧
      (dnsConvLoopV4 ms st).reservedCids = st.reservedCids ∧
      (dnsConvLoopV4 ms st).created = st.created + new.length ∧
      (∀ x ∈ new, x.ip ∉ st.reservedIps) ∧
      (new.map (fun x => x.ip)).Nodup ∧
      (∀ x ∈ new, ∃ m ∈ ms, x = create_dnsmasq_host_element m) := by
  intro ms
  induction ms with
  | nil =>
    intro st
    exact ⟨[], by simp [dnsConvLoopV4], by simp [dnsConvLoopV4],
      by simp [dnsConvLoopV4], by simp [dnsConvLoopV4], by simp, by simp, by simp⟩
  | cons m rest ih =>
    intro st
    by_cases hskip : (elemBy (IpAddr.v4 m.ipaddr) st.reservedIps ||
        elemBy m.mac st.reservedMacs) = true
    · rcases ih { st with skipped := st.skipped + 1 } with
        ⟨new, h1, h2, h3, h4, h5, h6, h7⟩
      refine ⟨new, ?_⟩
      simp only [dnsConvLoopV4, hskip, if_true]
      exact ⟨h1, h2, h3, h4, h5, h6, fun x hx => by
        rcases h7 x hx with ⟨m', hm', hxe⟩
        exact ⟨m', List.mem_cons_of_mem m hm', hxe⟩⟩
    · rcases ih { st with hosts := st.hosts ++ [create_dnsmasq_host_element m], reservedIps := IpAddr.v4 m.ipaddr :: st.reservedIps, reservedMacs := m.mac :: st.reservedMacs, created := st.created + 1 } with
        ⟨new, h1, h2, h3, h4, h5, h6, h7⟩
      refine ⟨create_dnsmasq_host_element m :: new, ?_⟩
      simp only [dnsConvLoopV4, hskip]
      simp only [Bool.false_eq_true, if_false]
      have hskipip : IpAddr.v4 m.ipaddr ∉ st.reservedIps := by
        intro hmem
        apply hskip
        simp [elemBy_iff, hmem]
      refine ⟨by simpa using h1, ?_, h3,
        by simpa [Nat.add_assoc, Nat.add_comm 1] using h4, ?_, ?_, ?_⟩
      · rw [h2]
        simp [create_dnsmasq_host_element]
      · intro x hx
        rcases List.mem_cons.mp hx with rfl | hx'
        · simpa [create_dnsmasq_host_element] using hskipip
        · have hni := h5 x hx'
          simp only [List.mem_cons] at hni
          exact fun hmem => hni (Or.inr hmem)
      · simp only [List.map_cons, List.nodup_cons]
        refine ⟨?_, h6⟩
        intro hmem
        rcases List.mem_map.mp hmem with ⟨x, hx, hip⟩
        have hni := h5 x hx
        simp only [List.mem_cons] at hni
        exact hni (Or.inl (hip.trans rfl))
      · intro x hx
        rcases List.mem_cons.mp hx with rfl | hx'
        · exact ⟨m, List.mem_cons_self m rest, rfl⟩
        · rcases h7 x hx' with ⟨m', hm', hxe⟩
          exact ⟨m', List.mem_cons_of_mem m hm', hxe⟩

/-- v6 analogue (addresses checked against the shared set, DUIDs against
the client-id set). -/
theorem dnsConvLoopV6_recs :
    ∀ (ms6 : List IscStaticMapV6) (st : DnsConvSt),
    ∃ new, (dnsConvLoopV6 ms6 st).hosts = st.hosts ++ new ∧
      (dnsConvLoopV6 ms6 st).reservedIps
        = (new.map (fun x => x.ip)).reverse ++ st.reservedIps ∧
      (dnsConvLoopV6 ms6 st).createdV6 = st.createdV6 + new.length ∧
      (∀ x ∈ new, x.ip ∉ st.reservedIps) ∧
      (new.map (fun x => x.ip)).Nodup ∧
      (∀ x ∈ new, ∃ m ∈ ms6, x = create_dnsmasq_host_element_v6 m) := by
  intro ms6
  induction ms6 with
  | nil =>
    intro st
    exact ⟨[], by simp [dnsConvLoopV6], by simp [dnsConvLoopV6],
      by simp [dnsConvLoopV6], by simp, by simp, by simp⟩
  | cons m rest ih =>
    intro st
    by_cases hskip : (elemBy (IpAddr.v6 m.ipaddr) st.reservedIps ||
        elemBy m.duid st.reservedCids) = true
    · rcases ih { st with skippedV6 := st.skippedV6 + 1 } with
        ⟨new, h1, h2, h3, h4, h5, h6⟩
      refine ⟨new, ?_⟩
      simp only [dnsConvLoopV6, hskip, if_true]
      exact ⟨h1, h2, h3, h4, h5, fun x hx => by
        rcases h6 x hx with ⟨m', hm', hxe⟩
        exact ⟨m', List.mem_cons_of_mem m hm', hxe⟩⟩
    · rcases ih { st with hosts := st.hosts ++ [create_dnsmasq_host_element_v6 m], reservedIps := IpAddr.v6 m.ipaddr :: st.reservedIps, reservedCids := m.duid :: st.reservedCids, createdV6 := st.createdV6 + 1 } with
        ⟨new, h1, h2, h3, h4, h5, h6⟩
      refine ⟨create_dnsmasq_host_element_v6 m :: new, ?_⟩
      simp only [dnsConvLoopV6, hskip]
      simp only [Bool.false_eq_true, if_false]
      have hskipip : IpAddr.v6 m.ipaddr ∉ st.reservedIps := by
        intro hmem
        apply hskip
        simp [elemBy_iff, hmem]
      refine ⟨by simpa using h1, ?_,
        by simpa [Nat.add_assoc, Nat.add_comm 1] using h3, ?_, ?_, ?_⟩
      · rw [h2]
        simp [create_dnsmasq_host_element_v6]
      · intro x hx
        rcases List.mem_cons.mp hx with rfl | hx'
        · simpa [create_dnsmasq_host_element_v6] using hskipip
        · have hni := h4 x hx'
          simp only [List.mem_cons] at hni
          exact fun hmem => hni (Or.inr hmem)
      · simp only [List.map_cons, List.nodup_cons]
        refine ⟨?_, h5⟩
        intro hmem
        rcases List.mem_map.mp hmem with ⟨x, hx, hip⟩
        have hni := h4 x hx
        simp only [List.mem_cons] at hni
        exact hni (Or.inl (hip.trans rfl))
      · intro x hx
        rcases List.mem_cons.mp hx with rfl | hx'
        · exact ⟨m, List.mem_cons_self m rest, rfl⟩
        · rcases h6 x hx' with ⟨m', hm', hxe⟩
          exact ⟨m', List.mem_cons_of_mem m hm', hxe⟩

/-- The mutation block appends exactly the loops' accepted hosts and
touches no field other than ranges, options and hosts. -/
theorem dnsMutate_spec (d : Doc) (ms : List IscStaticMap)
    (ms6 : List IscStaticMapV6) (o : MOpts) (ctx : DnsCtx) :
    (dnsMutate d ms ms6 o ctx).dnsmasqHosts
      = d.dnsmasqHosts ++ (dnsMutateSt ms ms6 o ctx).hosts ∧
    (dnsMutate d ms ms6 o ctx).ifaceCidrsV4 = d.ifaceCidrsV4 ∧
    (dnsMutate d ms ms6 o ctx).ifaceCidrsV6 = d.ifaceCidrsV6 ∧
    (dnsMutate d ms ms6 o ctx).iscRangesV4 = d.iscRangesV4 ∧
    (dnsMutate d ms ms6 o ctx).iscRangesV6 = d.iscRangesV6 ∧
    (dnsMutate d ms ms6 o ctx).iscOptionsV4 = d.iscOptionsV4 ∧
    (dnsMutate d ms ms6 o ctx).iscOptionsV6 = d.iscOptionsV6 ∧
    (dnsMutate d ms ms6 o ctx).hasDnsmasq = d.hasDnsmasq := by
  simp only [dnsMutate]
  split <;> split <;> exact ⟨rfl, rfl, rfl, rfl, rfl, rfl, rfl, rfl⟩

/-- Fields the dnsmasq interface-list merge never touches. -/
theorem apply_dnsmasq_interfaces_keeps (d : Doc) (a b : List DesiredSubnet) :
    (apply_dnsmasq_interfaces d a b).1.dnsmasqHosts = d.dnsmasqHosts ∧
    (apply_dnsmasq_interfaces d a b).1.dnsmasqRanges = d.dnsmasqRanges ∧
    (apply_dnsmasq_interfaces d a b).1.dnsmasqOpts = d.dnsmasqOpts ∧
    (apply_dnsmasq_interfaces d a b).1.ifaceCidrsV4 = d.ifaceCidrsV4 ∧
    (apply_dnsmasq_interfaces d a b).1.ifaceCidrsV6 = d.ifaceCidrsV6 ∧
    (apply_dnsmasq_interfaces d a b).1.iscRangesV4 = d.iscRangesV4 ∧
    (apply_dnsmasq_interfaces d a b).1.iscRangesV6 = d.iscRangesV6 ∧
    (apply_dnsmasq_interfaces d a b).1.iscOptionsV4 = d.iscOptionsV4 ∧
    (apply_dnsmasq_interfaces d a b).1.iscOptionsV6 = d.iscOptionsV6 ∧
    (apply_dnsmasq_interfaces d a b).1.hasDnsmasq = d.hasDnsmasq := by
  simp only [apply_dnsmasq_interfaces]
  split
  · exact ⟨rfl, rfl, rfl, rfl, rfl, rfl, rfl, rfl, rfl, rfl⟩
  split
  · exact ⟨rfl, rfl, rfl, rfl, rfl, rfl, rfl, rfl, rfl, rfl⟩
  exact ⟨rfl, rfl, rfl, rfl, rfl, rfl, rfl, rfl, rfl, rfl⟩

/-- Fields `enable_dnsmasq` never touches. -/
theorem enable_dnsmasq_keeps (d : Doc) :
    (enable_dnsmasq d).1.dnsmasqHosts = d.dnsmasqHosts ∧
    (enable_dnsmasq d).1.dnsmasqRanges = d.dnsmasqRanges ∧
    (enable_dnsmasq d).1.dnsmasqOpts = d.dnsmasqOpts := by
  simp only [enable_dnsmasq]
  split <;> exact ⟨rfl, rfl, rfl⟩

/-- A successful `convert_dnsmasq_post` appends exactly the loops' hosts
and reports the loops' counts; ranges and options come from the mutation
block. -/
theorem convert_dnsmasq_post_ok {d d' : Doc} {ms : List IscStaticMap}
    {ms6 : List IscStaticMapV6} {o : MOpts} {ctx : DnsCtx} {stats : MStats}
    (h : convert_dnsmasq_post d ms ms6 o ctx = (d', .ok stats)) :
    d'.dnsmasqHosts = d.dnsmasqHosts ++ (dnsMutateSt ms ms6 o ctx).hosts ∧
    d'.dnsmasqRanges = (dnsMutate d ms ms6 o ctx).dnsmasqRanges ∧
    d'.dnsmasqOpts = (dnsMutate d ms ms6 o ctx).dnsmasqOpts ∧
    stats.reservationsToCreate = (dnsMutateSt ms ms6 o ctx).created ∧
    stats.reservationsV6ToCreate = (dnsMutateSt ms ms6 o ctx).createdV6 ∧
    stats.reservationsSkipped = (dnsMutateSt ms ms6 o ctx).skipped ∧
    stats.reservationsV6Skipped = (dnsMutateSt ms ms6 o ctx).skippedV6 := by
  simp only [convert_dnsmasq_post] at h
  split at h
  · simp at h
  rename_i hbc
  split at h
  · simp at h
  rename_i d4 ifc happ
  have hd4 : d4.dnsmasqHosts = (dnsMutate d ms ms6 o ctx).dnsmasqHosts ∧
      d4.dnsmasqRanges = (dnsMutate d ms ms6 o ctx).dnsmasqRanges ∧
      d4.dnsmasqOpts = (dnsMutate d ms ms6 o ctx).dnsmasqOpts := by
    have h1 := congrArg (fun p => p.1) happ
    dsimp only at h1
    revert h1
    split
    · intro h1
      have hk := apply_dnsmasq_interfaces_keeps (dnsMutate d ms ms6 o ctx)
        ctx.desired4 ctx.desired6
      rw [h1] at hk
      exact ⟨hk.1, hk.2.1, hk.2.2.1⟩
    · intro h1
      rw [← h1]
      exact ⟨rfl, rfl, rfl⟩
  have hmut := dnsMutate_spec d ms ms6 o ctx
  split at h
  · -- enable backend branch
    rcases hdis : disable_isc_dhcp_from_config d4 with ⟨d5, dis4, dis6⟩
    rw [hdis] at h
    dsimp only at h
    rcases hen2 : (if (!ctx.desired4.isEmpty || !ctx.desired6.isEmpty ||
        !ctx.existingRanges.isEmpty) then enable_dnsmasq d5 else (d5, false)) with
      ⟨d6, en⟩
    rw [hen2] at h
    dsimp only at h
    have hd5 : d5 = { d4 with iscEnabledV4 := [], iscEnabledV6 := [] } := by
      have h1 := congrArg Prod.fst hdis
      dsimp only [disable_isc_dhcp_from_config] at h1
      exact h1.symm
    have hd6 : d6.dnsmasqHosts = d4.dnsmasqHosts ∧
        d6.dnsmasqRanges = d4.dnsmasqRanges ∧
        d6.dnsmasqOpts = d4.dnsmasqOpts := by
      have h1 := congrArg Prod.fst hen2
      dsimp only at h1
      revert h1
      split
      · intro h1
        have hk := enable_dnsmasq_keeps d5
        rw [h1] at hk
        rw [hk.1, hk.2.1, hk.2.2, hd5]
        exact ⟨rfl, rfl, rfl⟩
      · intro h1
        rw [← h1, hd5]
        exact ⟨rfl, rfl, rfl⟩
    split at h
    · simp at h
    simp only [Prod.mk.injEq, Except.ok.injEq] at h
    obtain ⟨hd', hstats⟩ := h
    rw [← hd', ← hstats]
    exact ⟨by rw [hd6.1, hd4.1, hmut.1], by rw [hd6.2.1, hd4.2.1],
      by rw [hd6.2.2, hd4.2.2], rfl, rfl, rfl, rfl⟩
  · simp only [Prod.mk.injEq, Except.ok.injEq] at h
    obtain ⟨hd', hstats⟩ := h
    rw [← hd', ← hstats]
    exact ⟨by rw [hd4.1, hmut.1], by rw [hd4.2.1], by rw [hd4.2.2],
      rfl, rfl, rfl, rfl⟩

/-- Accounting of `scan_dnsmasq`'s v4 loop: the addresses it pushes into
the shared reservation set are fresh, pairwise distinct, v4 addresses of
the processed mappings, and `created` counts exactly them. -/
theorem dnsScanLoopV4_recs :
    ∀ (ms : List IscStaticMap) (st : DnsScanSt),
    ∃ new : List IpAddr, (dnsScanLoopV4 ms st).reservedIps = new.reverse ++ st.reservedIps ∧
      (dnsScanLoopV4 ms st).reservedCids = st.reservedCids ∧
      (dnsScanLoopV4 ms st).created = st.created + new.length ∧
      (dnsScanLoopV4 ms st).createdV6 = st.createdV6 ∧
      (∀ a ∈ new, a ∉ st.reservedIps) ∧
      new.Nodup ∧
      (∀ a ∈ new, ∃ m ∈ ms, a = IpAddr.v4 m.ipaddr) := by
  intro ms
  induction ms with
  | nil =>
    intro st
    exact ⟨[], by simp [dnsScanLoopV4], by simp [dnsScanLoopV4],
      by simp [dnsScanLoopV4], by simp [dnsScanLoopV4], by simp, by simp, by simp⟩
  | cons m rest ih =>
    intro st
    by_cases hskip : (elemBy (IpAddr.v4 m.ipaddr) st.reservedIps ||
        elemBy m.mac st.reservedMacs) = true
    · rcases ih { st with skipped := st.skipped + 1 } with
        ⟨new, h1, h2, h3, h4, h5, h6, h7⟩
      refine ⟨new, ?_⟩
      simp only [dnsScanLoopV4, hskip, if_true]
      exact ⟨h1, h2, h3, h4, h5, h6, fun a ha => by
        rcases h7 a ha with ⟨m', hm', hae⟩
        exact ⟨m', List.mem_cons_of_mem m hm', hae⟩⟩
    · rcases ih { st with reservedIps := IpAddr.v4 m.ipaddr :: st.reservedIps, reservedMacs := m.mac :: st.reservedMacs, created := st.created + 1 } with ⟨new, h1, h2, h3, h4, h5, h6, h7⟩
      refine ⟨IpAddr.v4 m.ipaddr :: new, ?_⟩
      simp only [dnsScanLoopV4, hskip]
      simp only [Bool.false_eq_true, if_false]
      have hskipip : IpAddr.v4 m.ipaddr ∉ st.reservedIps := by
        intro hmem
        apply hskip
        simp [elemBy_iff, hmem]
      refine ⟨by rw [h1]; simp, h2,
        by rw [h3]; simp only [List.length_cons]; omega, h4, ?_, ?_, ?_⟩
      · intro a ha
        rcases List.mem_cons.mp ha with rfl | ha'
        · exact hskipip
        · have hni := h5 a ha'
          simp only [List.mem_cons] at hni
          exact fun hmem => hni (Or.inr hmem)
      · simp only [List.nodup_cons]
        refine ⟨?_, h6⟩
        intro hmem
        exact h5 _ hmem (List.mem_cons_self _ _)
      · intro a ha
        rcases List.mem_cons.mp ha with rfl | ha'
        · exact ⟨m, List.mem_cons_self m rest, rfl⟩
        · rcases h7 a ha' with ⟨m', hm', hae⟩
          exact ⟨m', List.mem_cons_of_mem m hm', hae⟩

/-- v6 analogue for `scan_dnsmasq`: fresh distinct v6 addresses pushed
into the same shared set, counted by `createdV6`; the v4 count and skip
tally are untouched. -/
theorem dnsScanLoopV6_recs :
    ∀ (ms6 : List IscStaticMapV6) (st : DnsScanSt),
    ∃ new : List IpAddr, (dnsScanLoopV6 ms6 st).reservedIps = new.reverse ++ st.reservedIps ∧
      (dnsScanLoopV6 ms6 st).createdV6 = st.createdV6 + new.length ∧
      (dnsScanLoopV6 ms6 st).created = st.created ∧
      (dnsScanLoopV6 ms6 st).skipped = st.skipped ∧
      (∀ a ∈ new, a ∉ st.reservedIps) ∧
      new.Nodup ∧
      (∀ a ∈ new, ∃ m ∈ ms6, a = IpAddr.v6 m.ipaddr) := by
  intro ms6
  induction ms6 with
  | nil =>
    intro st
    exact ⟨[], by simp [dnsScanLoopV6], by simp [dnsScanLoopV6],
      by simp [dnsScanLoopV6], by simp [dnsScanLoopV6], by simp, by simp, by simp⟩
  | cons m rest ih =>
    intro st
    by_cases hskip : (elemBy (IpAddr.v6 m.ipaddr) st.reservedIps ||
        elemBy m.duid st.reservedCids) = true
    · rcases ih { st with skippedV6 := st.skippedV6 + 1 } with
        ⟨new, h1, h2, h3, h4, h5, h6, h7⟩
      refine ⟨new, ?_⟩
      simp only [dnsScanLoopV6, hskip, if_true]
      exact ⟨h1, h2, h3, h4, h5, h6, fun a ha => by
        rcases h7 a ha with ⟨m', hm', hae⟩
        exact ⟨m', List.mem_cons_of_mem m hm', hae⟩⟩
    · rcases ih { st with reservedIps := IpAddr.v6 m.ipaddr :: st.reservedIps, reservedCids := m.duid :: st.reservedCids, createdV6 := st.createdV6 + 1 } with ⟨new, h1, h2, h3, h4, h5, h6, h7⟩
      refine ⟨IpAddr.v6 m.ipaddr :: new, ?_⟩
      simp only [dnsScanLoopV6, hskip]
      simp only [Bool.false_eq_true, if_false]
      have hskipip : IpAddr.v6 m.ipaddr ∉ st.reservedIps := by
        intro hmem
        apply hskip
        simp [elemBy_iff, hmem]
      refine ⟨by rw [h1]; simp,
        by rw [h2]; simp only [List.length_cons]; omega, h3, h4, ?_, ?_, ?_⟩
      · intro a ha
        rcases List.mem_cons.mp ha with rfl | ha'
        · exact hskipip
        · have hni := h5 a ha'
          simp only [List.mem_cons] at hni
          exact fun hmem => hni (Or.inr hmem)
      · simp only [List.nodup_cons]
        refine ⟨?_, h6⟩
        intro hmem
        exact h5 _ hmem (List.mem_cons_self _ _)
      · intro a ha
        rcases List.mem_cons.mp ha with rfl | ha'
        · exact ⟨m, List.mem_cons_self m rest, rfl⟩
        · rcases h7 a ha' with ⟨m', hm', hae⟩
          exact ⟨m', List.mem_cons_of_mem m hm', hae⟩

/-- A successful `scan_dnsmasq` reports exactly the counts of the two
shared-set loops, the v6 loop running on the state the v4 loop left
(seeded with the existing host addresses, MACs and client ids). -/
theorem scan_dnsmasq_stats {d : Doc} {ms : List IscStaticMap}
    {ms6 : List IscStaticMapV6} {o : MOpts} {stats : MStats}
    (h : scan_dnsmasq d ms ms6 o = .ok stats) :
    stats.reservationsToCreate = (dnsScanLoopV6 ms6 (dnsScanLoopV4 ms
      ⟨extract_existing_dnsmasq_ips d, extract_existing_dnsmasq_macs d,
       extract_existing_dnsmasq_client_ids d, 0, 0, 0, 0⟩)).created ∧
    stats.reservationsV6ToCreate = (dnsScanLoopV6 ms6 (dnsScanLoopV4 ms
      ⟨extract_existing_dnsmasq_ips d, extract_existing_dnsmasq_macs d,
       extract_existing_dnsmasq_client_ids d, 0, 0, 0, 0⟩)).createdV6 := by
  simp only [scan_dnsmasq] at h
  split at h
  · simp at h
  rename_i des4 h4
  split at h
  · simp at h
  rename_i des6 h6
  split at h <;>
    (rename_i hco
     split at h
     · simp at h
     rename_i hbc
     split at h
     · simp at h
     rename_i hfie
     split at h
     · simp at h
     rename_i u4 hval4
     split at h
     · simp at h
     rename_i u6 hval6
     simp only [Except.ok.injEq] at h
     subst h
     exact ⟨rfl, rfl⟩)

/-- C10: the flat backend deduplicates both families against one shared
address set: the hosts one `convert_dnsmasq` call appends (v4 and v6
together) have pairwise-distinct addresses and avoid every existing host
address; a v6 mapping is skipped whenever its address is in the shared set
— which, after the v4 batch, contains the existing host addresses plus the
addresses of the v4 mappings accepted earlier in the same call — or its
DUID is among the tracked client ids. -/
theorem dnsmasq_shared_address_dedup {d d' : Doc} {ms : List IscStaticMap}
    {ms6 : List IscStaticMapV6} {o : MOpts} {stats : MStats}
    (h : convert_dnsmasq d ms ms6 o = (d', .ok stats)) :
    (∃ new, d'.dnsmasqHosts = d.dnsmasqHosts ++ new ∧
      (new.map (fun x => x.ip)).Nodup ∧
      (∀ x ∈ new, x.ip ∉ extract_existing_dnsmasq_ips d)) ∧
    (∀ (m : IscStaticMapV6) (rest : List IscStaticMapV6) (st : DnsConvSt),
      (elemBy (IpAddr.v6 m.ipaddr) st.reservedIps || elemBy m.duid st.reservedCids)
        = true →
      dnsConvLoopV6 (m :: rest) st
        = dnsConvLoopV6 rest { st with skippedV6 := st.skippedV6 + 1 }) ∧
    (∀ (ms' : List IscStaticMap) (st : DnsConvSt), ∃ acc,
      (dnsConvLoopV4 ms' st).reservedIps = acc ++ st.reservedIps ∧
      ∀ a ∈ acc, ∃ m' ∈ ms', a = IpAddr.v4 m'.ipaddr) ∧
    (∀ stats', scan_dnsmasq d ms ms6 o = .ok stats' →
      ∃ new4 new6 : List IpAddr,
        stats'.reservationsToCreate = new4.length ∧
        stats'.reservationsV6ToCreate = new6.length ∧
        (new4 ++ new6).Nodup ∧
        (∀ a ∈ new4 ++ new6, a ∉ extract_existing_dnsmasq_ips d) ∧
        (∀ a ∈ new4, ∃ m ∈ ms, a = IpAddr.v4 m.ipaddr) ∧
        (∀ a ∈ new6, ∃ m ∈ ms6, a = IpAddr.v6 m.ipaddr)) ∧
    (∀ (m : IscStaticMapV6) (rest : List IscStaticMapV6) (st : DnsScanSt),
      (elemBy (IpAddr.v6 m.ipaddr) st.reservedIps || elemBy m.duid st.reservedCids)
        = true →
      dnsScanLoopV6 (m :: rest) st
        = dnsScanLoopV6 rest { st with skippedV6 := st.skippedV6 + 1 }) ∧
    (∀ (ms' : List IscStaticMap) (st : DnsScanSt), ∃ acc,
      (dnsScanLoopV4 ms' st).reservedIps = acc ++ st.reservedIps ∧
      ∀ a ∈ acc, ∃ m' ∈ ms', a = IpAddr.v4 m'.ipaddr) := by
  refine ⟨?_, ?_, ?_, ?_, ?_, ?_⟩
  · simp only [convert_dnsmasq] at h
    split at h
    · simp at h
    rename_i ctx hpre
    rcases convert_dnsmasq_pre_ok hpre with ⟨-, -, -, -, -, -, -, hips, -, -, -, -⟩
    rcases convert_dnsmasq_post_ok h with ⟨hhosts, -⟩
    by_cases hwork : dnsmasq_work_exists ms.isEmpty ms6.isEmpty o ctx.desired4
        ctx.desired6 ctx.desiredOptions = true
    · rcases dnsConvLoopV4_recs ms ⟨[], ctx.existingIps, ctx.existingMacs,
        ctx.existingCids, 0, 0, 0, 0⟩ with ⟨new4, g1, g2, g3, g4, g5, g6, g7⟩
      rcases dnsConvLoopV6_recs ms6 (dnsConvLoopV4 ms ⟨[], ctx.existingIps,
        ctx.existingMacs, ctx.existingCids, 0, 0, 0, 0⟩) with
        ⟨new6, k1, k2, k3, k4, k5, k6⟩
      have hstq : dnsMutateSt ms ms6 o ctx = dnsConvLoopV6 ms6 (dnsConvLoopV4 ms
          ⟨[], ctx.existingIps, ctx.existingMacs, ctx.existingCids, 0, 0, 0, 0⟩) := by
        simp [dnsMutateSt, hwork]
      refine ⟨new4 ++ new6, ?_, ?_, ?_⟩
      · rw [hhosts, hstq, k1, g1]
        simp
      · rw [List.map_append]
        refine List.Nodup.append g6 k5 ?_
        intro a ha4 ha6
        rcases List.mem_map.mp ha6 with ⟨x, hx, rfl⟩
        apply k4 x hx
        rw [g2]
        exact List.mem_append_left _ (List.mem_reverse.mpr ha4)
      · intro x hx
        rcases List.mem_append.mp hx with hx4 | hx6
        · have hfree := g5 x hx4
          rw [hips] at hfree
          exact hfree
        · intro hmem
          apply k4 x hx6
          rw [g2]
          apply List.mem_append_right
          rw [← hips] at hmem
          exact hmem
    · have hwork' : dnsmasq_work_exists ms.isEmpty ms6.isEmpty o ctx.desired4
          ctx.desired6 ctx.desiredOptions = false := by
        revert hwork
        cases dnsmasq_work_exists ms.isEmpty ms6.isEmpty o ctx.desired4
          ctx.desired6 ctx.desiredOptions <;> simp
      have hstq : dnsMutateSt ms ms6 o ctx = ⟨[], ctx.existingIps,
          ctx.existingMacs, ctx.existingCids, 0, 0, 0, 0⟩ := by
        simp [dnsMutateSt, hwork']
      refine ⟨[], ?_, by simp, by simp⟩
      rw [hhosts, hstq]
  · intro m rest st hc
    simp only [dnsConvLoopV6, hc, if_true]
  · intro ms' st
    rcases dnsConvLoopV4_recs ms' st with ⟨new, -, g2, -, -, -, -, g7⟩
    refine ⟨(new.map (fun x => x.ip)).reverse, g2, ?_⟩
    intro a ha
    rcases List.mem_map.mp (List.mem_reverse.mp ha) with ⟨x, hx, rfl⟩
    rcases g7 x hx with ⟨m', hm', rfl⟩
    exact ⟨m', hm', rfl⟩
  · intro stats' hs
    rcases scan_dnsmasq_stats hs with ⟨hc4, hc6⟩
    rcases dnsScanLoopV4_recs ms ⟨extract_existing_dnsmasq_ips d,
      extract_existing_dnsmasq_macs d, extract_existing_dnsmasq_client_ids d,
      0, 0, 0, 0⟩ with ⟨new4, p1, p2, p3, p4, p5, p6, p7⟩
    rcases dnsScanLoopV6_recs ms6 (dnsScanLoopV4 ms ⟨extract_existing_dnsmasq_ips d,
      extract_existing_dnsmasq_macs d, extract_existing_dnsmasq_client_ids d,
      0, 0, 0, 0⟩) with ⟨new6, q1, q2, q3, q4, q5, q6, q7⟩
    refine ⟨new4, new6, ?_, ?_, ?_, ?_, p7, q7⟩
    · rw [hc4, q3, p3]
      simp
    · rw [hc6, q2, p4]
      simp
    · refine List.Nodup.append p6 q6 ?_
      intro a ha4 ha6
      apply q5 a ha6
      rw [p1]
      exact List.mem_append_left _ (List.mem_reverse.mpr ha4)
    · intro a ha
      rcases List.mem_append.mp ha with ha4 | ha6
      · exact p5 a ha4
      · intro hmem
        apply q5 a ha6
        rw [p1]
        exact List.mem_append_right _ hmem
  · intro m rest st hc
    simp only [dnsScanLoopV6, hc, if_true]
  · intro ms' st
    rcases dnsScanLoopV4_recs ms' st with ⟨new, g1, -, -, -, -, -, g7⟩
    refine ⟨new.reverse, g1, ?_⟩
    intro a ha
    rcases g7 a (List.mem_reverse.mp ha) with ⟨m', hm', hae⟩
    exact ⟨m', hm', hae⟩

/-- Witness for the C10 theorem: the colliding v6 mapping is skipped, so
nothing is appended. -/
theorem dnsmasq_shared_address_dedup_witness :
    (∃ new, exDocC10.dnsmasqHosts = exDocC10.dnsmasqHosts ++ new ∧
      (new.map (fun x => x.ip)).Nodup ∧
      (∀ x ∈ new, x.ip ∉ extract_existing_dnsmasq_ips exDocC10)) ∧
    (∀ (m : IscStaticMapV6) (rest : List IscStaticMapV6) (st : DnsConvSt),
      (elemBy (IpAddr.v6 m.ipaddr) st.reservedIps || elemBy m.duid st.reservedCids)
        = true →
      dnsConvLoopV6 (m :: rest) st
        = dnsConvLoopV6 rest { st with skippedV6 := st.skippedV6 + 1 }) ∧
    (∀ (ms' : List IscStaticMap) (st : DnsConvSt), ∃ acc,
      (dnsConvLoopV4 ms' st).reservedIps = acc ++ st.reservedIps ∧
      ∀ a ∈ acc, ∃ m' ∈ ms', a = IpAddr.v4 m'.ipaddr) ∧
    (∀ stats', scan_dnsmasq exDocC10 [] exMaps6C10 exOptsC10 = .ok stats' →
      ∃ new4 new6 : List IpAddr,
        stats'.reservationsToCreate = new4.length ∧
        stats'.reservationsV6ToCreate = new6.length ∧
        (new4 ++ new6).Nodup ∧
        (∀ a ∈ new4 ++ new6, a ∉ extract_existing_dnsmasq_ips exDocC10) ∧
        (∀ a ∈ new4, ∃ m ∈ ([] : List IscStaticMap), a = IpAddr.v4 m.ipaddr) ∧
        (∀ a ∈ new6, ∃ m ∈ exMaps6C10, a = IpAddr.v6 m.ipaddr)) ∧
    (∀ (m : IscStaticMapV6) (rest : List IscStaticMapV6) (st : DnsScanSt),
      (elemBy (IpAddr.v6 m.ipaddr) st.reservedIps || elemBy m.duid st.reservedCids)
        = true →
      dnsScanLoopV6 (m :: rest) st
        = dnsScanLoopV6 rest { st with skippedV6 := st.skippedV6 + 1 }) ∧
    (∀ (ms' : List IscStaticMap) (st : DnsScanSt), ∃ acc,
      (dnsScanLoopV4 ms' st).reservedIps = acc ++ st.reservedIps ∧
      ∀ a ∈ acc, ∃ m' ∈ ms', a = IpAddr.v4 m'.ipaddr) :=
  @dnsmasq_shared_address_dedup exDocC10 exDocC10 [] exMaps6C10 exOptsC10
    exStatsC10 (by rfl)

/-- C7: with `fail_if_existing` set, any pre-existing target record — a
Kea reservation address, v6 address or DUID; a dnsmasq host address,
hardware id or client id; or, for dnsmasq with subnet creation requested,
any pre-existing range element — aborts scan and convert with an error
before any record is processed: no reservation is appended (Kea) and the
document is untouched (dnsmasq). -/
theorem fail_if_existing_aborts {d : Doc} {ms : List IscStaticMap}
    {ms6 : List IscStaticMapV6} {o : MOpts}
    (hfie : o.failIfExisting = true) :
    ((extract_existing_reservation_ips d ≠ [] ∨
      extract_existing_reservation_ips_v6 d ≠ [] ∨
      extract_existing_reservation_duids_v6 d ≠ []) →
      (∀ stats, scan_kea d ms ms6 o ≠ .ok stats) ∧
      (∀ d' stats, convert_kea d ms ms6 o ≠ (d', .ok stats)) ∧
      (convert_kea d ms ms6 o).1.keaReservations = d.keaReservations ∧
      (convert_kea d ms ms6 o).1.keaReservationsV6 = d.keaReservationsV6) ∧
    ((extract_existing_dnsmasq_ips d ≠ [] ∨ extract_existing_dnsmasq_macs d ≠ [] ∨
      extract_existing_dnsmasq_client_ids d ≠ [] ∨
      (o.createSubnets = true ∧ extract_existing_dnsmasq_ranges d ≠ [])) →
      (∀ stats, scan_dnsmasq d ms ms6 o ≠ .ok stats) ∧
      (∀ d' stats, convert_dnsmasq d ms ms6 o ≠ (d', .ok stats)) ∧
      (convert_dnsmasq d ms ms6 o).1 = d) := by
  have hne : ∀ {α : Type} (l : List α), l ≠ [] → l.isEmpty = false := by
    intro α l hl
    cases l with
    | nil => exact absurd rfl hl
    | cons a t => rfl
  constructor
  · intro hseed
    have hcond : (o.failIfExisting && (!(extract_existing_reservation_ips d).isEmpty ||
        !(extract_existing_reservation_ips_v6 d).isEmpty ||
        !(extract_existing_reservation_duids_v6 d).isEmpty)) = true := by
      rw [hfie]
      rcases hseed with h1 | h2 | h3
      · rw [hne _ h1]
        simp
      · rw [hne _ h2]
        simp
      · rw [hne _ h3]
        simp
    have hfk : failIfExistingKea o (extract_existing_reservation_ips d)
        (extract_existing_reservation_ips_v6 d)
        (extract_existing_reservation_duids_v6 d) = some .ExistingRecordsFound := by
      unfold failIfExistingKea
      rw [hcond]
      exact if_pos rfl
    refine ⟨?_, ?_, ?_, ?_⟩
    · intro stats hok
      have := (scan_kea_ok_inv hok).2.2
      rw [hfk] at this
      cases this
    · intro d' stats hok
      simp only [convert_kea] at hok
      split at hok
      · simp at hok
      rename_i d1 ctx hpreok
      rcases convert_kea_pre_ok hpreok with ⟨-, -, -, -, -, -, hfail, hips,
        hips6, hduids, -⟩
      rw [hips, hips6, hduids, hfk] at hfail
      cases hfail
    · rcases hpre2 : convert_kea_pre d ms ms6 o with ⟨d1, r⟩
      have hfr := convert_kea_pre_frame d ms ms6 o
      rw [hpre2] at hfr
      cases r with
      | error e =>
        simp only [convert_kea, hpre2]
        exact hfr.2.2.1
      | ok ctx =>
        rcases convert_kea_pre_ok hpre2 with ⟨-, -, -, -, -, -, hfail, hips,
          hips6, hduids, -⟩
        rw [hips, hips6, hduids, hfk] at hfail
        cases hfail
    · rcases hpre2 : convert_kea_pre d ms ms6 o with ⟨d1, r⟩
      have hfr := convert_kea_pre_frame d ms ms6 o
      rw [hpre2] at hfr
      cases r with
      | error e =>
        simp only [convert_kea, hpre2]
        exact hfr.2.2.2.1
      | ok ctx =>
        rcases convert_kea_pre_ok hpre2 with ⟨-, -, -, -, -, -, hfail, hips,
          hips6, hduids, -⟩
        rw [hips, hips6, hduids, hfk] at hfail
        cases hfail
  · intro hseed
    have hcondD : dnsmasq_fail_existing o (extract_existing_dnsmasq_ips d)
        (extract_existing_dnsmasq_macs d) (extract_existing_dnsmasq_client_ids d)
        (extract_existing_dnsmasq_ranges d) = true := by
      unfold dnsmasq_fail_existing
      rw [hfie]
      rcases hseed with h1 | h2 | h3 | ⟨hcs, h4⟩
      · rw [hne _ h1]
        simp
      · rw [hne _ h2]
        simp
      · rw [hne _ h3]
        simp
      · rw [hcs, hne _ h4]
        simp
    refine ⟨?_, ?_, ?_⟩
    · intro stats hok
      have := (scan_dnsmasq_ok_inv hok).2.2
      rw [hcondD] at this
      exact absurd this (by simp)
    · intro d' stats hok
      simp only [convert_dnsmasq] at hok
      split at hok
      · simp at hok
      rename_i ctx hpreok
      rcases convert_dnsmasq_pre_ok hpreok with ⟨-, -, -, -, hfail, -, -, hips,
        hmacs, hcids, hranges, -⟩
      rw [hips, hmacs, hcids, hranges, hcondD] at hfail
      exact absurd hfail (by simp)
    · cases hpre2 : convert_dnsmasq_pre d ms ms6 o with
      | error e => simp only [convert_dnsmasq, hpre2]
      | ok ctx =>
        rcases convert_dnsmasq_pre_ok hpre2 with ⟨-, -, -, -, hfail, -, -, hips,
          hmacs, hcids, hranges, -⟩
        rw [hips, hmacs, hcids, hranges, hcondD] at hfail
        exact absurd hfail (by simp)

/-- Witness for the C7 theorem at a concrete seeded document. -/
theorem fail_if_existing_aborts_witness :
    ((extract_existing_reservation_ips exDocC7 ≠ [] ∨
      extract_existing_reservation_ips_v6 exDocC7 ≠ [] ∨
      extract_existing_reservation_duids_v6 exDocC7 ≠ []) →
      (∀ stats, scan_kea exDocC7 exMapsC1 [] exOptsC7 ≠ .ok stats) ∧
      (∀ d' stats, convert_kea exDocC7 exMapsC1 [] exOptsC7 ≠ (d', .ok stats)) ∧
      (convert_kea exDocC7 exMapsC1 [] exOptsC7).1.keaReservations
        = exDocC7.keaReservations ∧
      (convert_kea exDocC7 exMapsC1 [] exOptsC7).1.keaReservationsV6
        = exDocC7.keaReservationsV6) ∧
    ((extract_existing_dnsmasq_ips exDocC7 ≠ [] ∨
      extract_existing_dnsmasq_macs exDocC7 ≠ [] ∨
      extract_existing_dnsmasq_client_ids exDocC7 ≠ [] ∨
      (exOptsC7.createSubnets = true ∧
        extract_existing_dnsmasq_ranges exDocC7 ≠ [])) →
      (∀ stats, scan_dnsmasq exDocC7 exMapsC1 [] exOptsC7 ≠ .ok stats) ∧
      (∀ d' stats, convert_dnsmasq exDocC7 exMapsC1 [] exOptsC7
        ≠ (d', .ok stats)) ∧
      (convert_dnsmasq exDocC7 exMapsC1 [] exOptsC7).1 = exDocC7) :=
  fail_if_existing_aborts (by rfl)

theorem set_option_value_of_settled {od : List (String × String)} {tag : String}
    {value : Option String} (h : OptSettled od tag value) :
    set_option_value od tag value false = od := by
  rcases h with rfl | ⟨v, rfl, rfl⟩ | ⟨v, e, rfl, hfind, hne⟩
  · rfl
  · simp [set_option_value]
  · by_cases hv : v = ""
    · simp [set_option_value, hv]
    · have hv' : (v == "") = false := by
        simp [hv]
      simp only [set_option_value, hv', Bool.false_eq_true, if_false, hfind]
      have hne' : (e.2 == "") = false := by
        simp [hne]
      simp [hne']

theorem find_replaceFirstTag_other {tag tg v : String}
    (hne : (tag == tg) = false) :
    ∀ od : List (String × String),
    (replaceFirstTag tg v od).find? (fun x => x.1 == tag)
      = od.find? (fun x => x.1 == tag) := by
  intro od
  induction od with
  | nil => rfl
  | cons e t ih =>
    by_cases he : (e.1 == tg) = true
    · simp only [replaceFirstTag, he, if_true]
      have het : (e.1 == tag) = false := by
        have h1 : e.1 = tg := by
          simpa using he
        subst h1
        have : ¬(e.1 = tag) := by
          intro hq
          rw [hq] at hne
          simp at hne
        simpa using this
      simp [List.find?, het]
    · have he' : (e.1 == tg) = false := by
        revert he
        cases (e.1 == tg) <;> simp
      simp only [replaceFirstTag, he', Bool.false_eq_true, if_false]
      by_cases het : (e.1 == tag) = true
      · simp [List.find?, het]
      · have het' : (e.1 == tag) = false := by
          revert het
          cases (e.1 == tag) <;> simp
        simp [List.find?, het', ih]

theorem find_replaceFirstTag_self {tg v : String} :
    ∀ {od : List (String × String)} {e},
    od.find? (fun x => x.1 == tg) = some e →
    (replaceFirstTag tg v od).find? (fun x => x.1 == tg) = some (e.1, v) := by
  intro od
  induction od with
  | nil => intro e h; cases h
  | cons a t ih =>
    intro e h
    by_cases ha : (a.1 == tg) = true
    · rw [List.find?] at h
      rw [ha] at h
      injection h with h
      subst h
      simp only [replaceFirstTag, ha, if_true]
      simp [List.find?, ha]
    · have ha' : (a.1 == tg) = false := by
        revert ha
        cases (a.1 == tg) <;> simp
      rw [List.find?] at h
      rw [ha'] at h
      simp only [replaceFirstTag, ha', Bool.false_eq_true, if_false]
      rw [List.find?]
      rw [ha']
      exact ih h

theorem find_append_single {α : Type} (p : α → Bool) (l : List α) (x : α)
    (hx : p x = false) : (l ++ [x]).find? p = l.find? p := by
  induction l with
  | nil => simp [List.find?, hx]
  | cons a t ih =>
    cases ha : p a with
    | true => simp [List.find?, ha]
    | false => simp [List.find?, ha, ih]

theorem find_append_last {α : Type} (p : α → Bool) (x : α) (hx : p x = true) :
    ∀ l : List α, l.find? p = none → (l ++ [x]).find? p = some x := by
  intro l
  induction l with
  | nil =>
    intro _
    simp [List.find?, hx]
  | cons a t ih =>
    intro h
    simp only [List.find?] at h
    cases ha : p a with
    | true =>
      rw [ha] at h
      simp at h
    | false =>
      rw [ha] at h
      simp only [List.cons_append, List.find?, ha]
      exact ih h

theorem find_set_option_value_other {od : List (String × String)}
    {tag tg : String} {value : Option String} (hne : (tag == tg) = false) :
    (set_option_value od tg value false).find? (fun x => x.1 == tag)
      = od.find? (fun x => x.1 == tag) := by
  cases value with
  | none => rfl
  | some v =>
    simp only [set_option_value]
    split
    · rfl
    · split
      · split
        · rfl
        · exact find_replaceFirstTag_other hne od
      · refine find_append_single _ od (tg, v) ?_
        have h1 : ¬(tag = tg) := by
          intro hq
          rw [hq] at hne
          simp at hne
        simp only []
        simp only [beq_eq_false_iff_ne, ne_eq]
        intro hq
        exact h1 hq.symm

theorem settled_after_set {od : List (String × String)} (tag : String)
    (value : Option String) :
    OptSettled (set_option_value od tag value false) tag value := by
  cases value with
  | none => exact Or.inl rfl
  | some v =>
    by_cases hv : v = ""
    · exact Or.inr (Or.inl ⟨v, rfl, hv⟩)
    · refine Or.inr (Or.inr ?_)
      simp only [set_option_value]
      split
      · rename_i hvv
        exact absurd (by simpa using hvv) hv
      · split
        · rename_i e hfind
          split
          · rename_i hskip
            refine ⟨v, e, rfl, hfind, ?_⟩
            intro h2
            rw [h2] at hskip
            simp at hskip
          · rename_i hskip
            exact ⟨v, (e.1, v), rfl, find_replaceFirstTag_self hfind, hv⟩
        · rename_i hfind
          refine ⟨v, (tag, v), rfl, ?_, hv⟩
          refine find_append_last _ (tag, v) ?_ od hfind
          simp

theorem settled_preserved {od : List (String × String)} {tag : String}
    {value : Option String} (tg : String) (v' : Option String)
    (hne : (tag == tg) = false) (h : OptSettled od tag value) :
    OptSettled (set_option_value od tg v' false) tag value := by
  rcases h with rfl | ⟨v, rfl, hv⟩ | ⟨v, e, rfl, hfind, hnee⟩
  · exact Or.inl rfl
  · exact Or.inr (Or.inl ⟨v, rfl, hv⟩)
  · refine Or.inr (Or.inr ⟨v, e, rfl, ?_, hnee⟩)
    rw [find_set_option_value_other hne]
    exact hfind

theorem set_chain5_idem (od : List (String × String))
    (t1 t2 t3 t4 t5 : String) (v1 v2 v3 v4 v5 : Option String)
    (h12 : (t1 == t2) = false) (h13 : (t1 == t3) = false)
    (h14 : (t1 == t4) = false) (h15 : (t1 == t5) = false)
    (h23 : (t2 == t3) = false) (h24 : (t2 == t4) = false)
    (h25 : (t2 == t5) = false) (h34 : (t3 == t4) = false)
    (h35 : (t3 == t5) = false) (h45 : (t4 == t5) = false) :
    set_option_value (set_option_value (set_option_value (set_option_value
      (set_option_value (set_option_value (set_option_value (set_option_value
        (set_option_value (set_option_value od t1 v1 false) t2 v2 false)
        t3 v3 false) t4 v4 false) t5 v5 false)
      t1 v1 false) t2 v2 false) t3 v3 false) t4 v4 false) t5 v5 false
    = set_option_value (set_option_value (set_option_value (set_option_value
        (set_option_value od t1 v1 false) t2 v2 false) t3 v3 false)
        t4 v4 false) t5 v5 false := by
  have s1 := settled_preserved t5 v5 h15 (settled_preserved t4 v4 h14
    (settled_preserved t3 v3 h13 (settled_preserved t2 v2 h12
      (@settled_after_set od t1 v1))))
  have s2 := settled_preserved t5 v5 h25 (settled_preserved t4 v4 h24
    (settled_preserved t3 v3 h23
      (@settled_after_set (set_option_value od t1 v1 false) t2 v2)))
  have s3 := settled_preserved t5 v5 h35 (settled_preserved t4 v4 h34
    (@settled_after_set (set_option_value (set_option_value od t1 v1 false)
      t2 v2 false) t3 v3))
  have s4 := settled_preserved t5 v5 h45
    (@settled_after_set (set_option_value (set_option_value (set_option_value od
      t1 v1 false) t2 v2 false) t3 v3 false) t4 v4)
  have s5 := @settled_after_set (set_option_value (set_option_value
    (set_option_value (set_option_value od t1 v1 false) t2 v2 false)
    t3 v3 false) t4 v4 false) t5 v5
  rw [set_option_value_of_settled s1, set_option_value_of_settled s2,
      set_option_value_of_settled s3, set_option_value_of_settled s4,
      set_option_value_of_settled s5]

theorem set_chain2_idem (od : List (String × String))
    (t1 t2 : String) (v1 v2 : Option String) (h12 : (t1 == t2) = false) :
    set_option_value (set_option_value (set_option_value (set_option_value od
      t1 v1 false) t2 v2 false) t1 v1 false) t2 v2 false
    = set_option_value (set_option_value od t1 v1 false) t2 v2 false := by
  have s1 := settled_preserved t2 v2 h12 (@settled_after_set od t1 v1)
  have s2 := @settled_after_set (set_option_value od t1 v1 false) t2 v2
  rw [set_option_value_of_settled s1, set_option_value_of_settled s2]

/-- Re-applying the same v4 option bundle without `force` changes nothing:
every field it would write is already settled by the first application. -/
theorem applyOptsToSubnet4_idem (o : IscDhcpOptionsV4) (s : KeaSubnetRec) :
    applyOptsToSubnet4 o false (applyOptsToSubnet4 o false s)
      = applyOptsToSubnet4 o false s := by
  simp only [applyOptsToSubnet4]
  rw [set_chain5_idem s.optionData "domain_name_servers" "routers" "domain_name"
    "domain_search" "ntp_servers" (join_list o.dnsServers) o.routers o.domainName
    o.domainSearch (join_list o.ntpServers) (by decide) (by decide) (by decide)
    (by decide) (by decide) (by decide) (by decide) (by decide) (by decide)
    (by decide)]

/-- v6 analogue of `applyOptsToSubnet4_idem`. -/
theorem applyOptsToSubnet6_idem (o : IscDhcpOptionsV6) (s : KeaSubnetRec) :
    applyOptsToSubnet6 o false (applyOptsToSubnet6 o false s)
      = applyOptsToSubnet6 o false s := by
  simp only [applyOptsToSubnet6]
  rw [set_chain2_idem s.optionData "dns_servers" "domain_search"
    (join_list o.dnsServers) o.domainSearch (by decide)]

theorem applyOpts4_g_idem (cidrs : List (String × Cidr))
    (opts : List IscDhcpOptionsV4) (s : KeaSubnetRec) :
    (fun s => match optForCidr4 cidrs opts s.cidr with
      | some o => applyOptsToSubnet4 o false s
      | none => s)
      ((fun s => match optForCidr4 cidrs opts s.cidr with
        | some o => applyOptsToSubnet4 o false s
        | none => s) s)
    = (fun s => match optForCidr4 cidrs opts s.cidr with
        | some o => applyOptsToSubnet4 o false s
        | none => s) s := by
  dsimp only
  cases hoc : optForCidr4 cidrs opts s.cidr with
  | none =>
    show (match optForCidr4 cidrs opts s.cidr with
      | some o2 => applyOptsToSubnet4 o2 false s
      | none => s) = s
    rw [hoc]
  | some o =>
    show (match optForCidr4 cidrs opts (applyOptsToSubnet4 o false s).cidr with
      | some o2 => applyOptsToSubnet4 o2 false (applyOptsToSubnet4 o false s)
      | none => applyOptsToSubnet4 o false s) = applyOptsToSubnet4 o false s
    have hcid : (applyOptsToSubnet4 o false s).cidr = s.cidr := rfl
    rw [hcid, hoc]
    exact applyOptsToSubnet4_idem o s

theorem applyOpts6_g_idem (cidrs : List (String × Cidr))
    (opts : List IscDhcpOptionsV6) (s : KeaSubnetRec) :
    (fun s => match optForCidr6 cidrs opts s.cidr with
      | some o => applyOptsToSubnet6 o false s
      | none => s)
      ((fun s => match optForCidr6 cidrs opts s.cidr with
        | some o => applyOptsToSubnet6 o false s
        | none => s) s)
    = (fun s => match optForCidr6 cidrs opts s.cidr with
        | some o => applyOptsToSubnet6 o false s
        | none => s) s := by
  dsimp only
  cases hoc : optForCidr6 cidrs opts s.cidr with
  | none =>
    show (match optForCidr6 cidrs opts s.cidr with
      | some o2 => applyOptsToSubnet6 o2 false s
      | none => s) = s
    rw [hoc]
  | some o =>
    show (match optForCidr6 cidrs opts (applyOptsToSubnet6 o false s).cidr with
      | some o2 => applyOptsToSubnet6 o2 false (applyOptsToSubnet6 o false s)
      | none => applyOptsToSubnet6 o false s) = applyOptsToSubnet6 o false s
    have hcid : (applyOptsToSubnet6 o false s).cidr = s.cidr := rfl
    rw [hcid, hoc]
    exact applyOptsToSubnet6_idem o s

theorem applyOpts4_map_idem (cidrs : List (String × Cidr))
    (opts : List IscDhcpOptionsV4) (l : List KeaSubnetRec) :
    ((l.map (fun s => match optForCidr4 cidrs opts s.cidr with
        | some o => applyOptsToSubnet4 o false s
        | none => s)).map (fun s => match optForCidr4 cidrs opts s.cidr with
        | some o => applyOptsToSubnet4 o false s
        | none => s))
    = l.map (fun s => match optForCidr4 cidrs opts s.cidr with
        | some o => applyOptsToSubnet4 o false s
        | none => s) := by
  rw [List.map_map]
  refine List.map_congr_left (fun s _ => ?_)
  exact applyOpts4_g_idem cidrs opts s

theorem applyOpts6_map_idem (cidrs : List (String × Cidr))
    (opts : List IscDhcpOptionsV6) (l : List KeaSubnetRec) :
    ((l.map (fun s => match optForCidr6 cidrs opts s.cidr with
        | some o => applyOptsToSubnet6 o false s
        | none => s)).map (fun s => match optForCidr6 cidrs opts s.cidr with
        | some o => applyOptsToSubnet6 o false s
        | none => s))
    = l.map (fun s => match optForCidr6 cidrs opts s.cidr with
        | some o => applyOptsToSubnet6 o false s
        | none => s) := by
  rw [List.map_map]
  refine List.map_congr_left (fun s _ => ?_)
  exact applyOpts6_g_idem cidrs opts s

/-- Re-running `apply_kea_options` without `force` on a document whose
subnet lists already carry the applied options is the identity on those
lists. -/
theorem apply_kea_options_stable {X : Doc} {o4 : List IscDhcpOptionsV4}
    {o6 : List IscDhcpOptionsV6} {l4 l6 : List KeaSubnetRec}
    (hs4 : X.keaSubnets = l4.map (fun s =>
      match optForCidr4 X.ifaceCidrsV4 o4 s.cidr with
      | some o => applyOptsToSubnet4 o false s
      | none => s))
    (hs6 : X.keaSubnetsV6 = l6.map (fun s =>
      match optForCidr6 X.ifaceCidrsV6 o6 s.cidr with
      | some o => applyOptsToSubnet6 o false s
      | none => s)) :
    (apply_kea_options X o4 o6 false).keaSubnets = X.keaSubnets ∧
    (apply_kea_options X o4 o6 false).keaSubnetsV6 = X.keaSubnetsV6 := by
  constructor
  · have h : (apply_kea_options X o4 o6 false).keaSubnets
        = X.keaSubnets.map (fun s =>
          match optForCidr4 X.ifaceCidrsV4 o4 s.cidr with
          | some o => applyOptsToSubnet4 o false s
          | none => s) := rfl
    rw [h, hs4, applyOpts4_map_idem]
  · have h : (apply_kea_options X o4 o6 false).keaSubnetsV6
        = X.keaSubnetsV6.map (fun s =>
          match optForCidr6 X.ifaceCidrsV6 o6 s.cidr with
          | some o => applyOptsToSubnet6 o false s
          | none => s) := rfl
    rw [h, hs6, applyOpts6_map_idem]

/-- With `force = false` and every desired CIDR already existing, the
desired-subnet loop changes nothing. -/
theorem applyDesiredList_all_skip (isV6 : Bool) (existing : List Cidr) :
    ∀ (des : List DesiredSubnet) (subs : List KeaSubnetRec) (ctr : Nat),
    (∀ ds ∈ des, ds.cidr ∈ existing) →
    applyDesiredList isV6 existing false des subs ctr = (subs, ctr) := by
  intro des
  induction des with
  | nil =>
    intro subs ctr _
    rfl
  | cons ds rest ih =>
    intro subs ctr hall
    have hm : elemBy ds.cidr existing = true :=
      (elemBy_iff _ _).mpr (hall ds (List.mem_cons_self ds rest))
    simp only [applyDesiredList, hm, if_true, Bool.false_eq_true, if_false]
    exact ih subs ctr (fun x hx => hall x (List.mem_cons_of_mem ds hx))

/-- Option application never changes the CIDRs of the subnet lists. -/
theorem apply_kea_options_cidrs (X : Doc) (o4 : List IscDhcpOptionsV4)
    (o6 : List IscDhcpOptionsV6) (f : Bool) :
    (apply_kea_options X o4 o6 f).keaSubnets.map (fun s => s.cidr)
      = X.keaSubnets.map (fun s => s.cidr) ∧
    (apply_kea_options X o4 o6 f).keaSubnetsV6.map (fun s => s.cidr)
      = X.keaSubnetsV6.map (fun s => s.cidr) := by
  constructor
  · have h : (apply_kea_options X o4 o6 f).keaSubnets
        = X.keaSubnets.map (fun s =>
          match optForCidr4 X.ifaceCidrsV4 o4 s.cidr with
          | some o => applyOptsToSubnet4 o f s
          | none => s) := rfl
    rw [h, List.map_map]
    refine List.map_congr_left (fun s _ => ?_)
    show (match optForCidr4 X.ifaceCidrsV4 o4 s.cidr with
      | some o => applyOptsToSubnet4 o f s
      | none => s).cidr = s.cidr
    cases optForCidr4 X.ifaceCidrsV4 o4 s.cidr <;> rfl
  · have h : (apply_kea_options X o4 o6 f).keaSubnetsV6
        = X.keaSubnetsV6.map (fun s =>
          match optForCidr6 X.ifaceCidrsV6 o6 s.cidr with
          | some o => applyOptsToSubnet6 o f s
          | none => s) := rfl
    rw [h, List.map_map]
    refine List.map_congr_left (fun s _ => ?_)
    show (match optForCidr6 X.ifaceCidrsV6 o6 s.cidr with
      | some o => applyOptsToSubnet6 o f s
      | none => s).cidr = s.cidr
    cases optForCidr6 X.ifaceCidrsV6 o6 s.cidr <;> rfl

theorem applyKeaSubnets4_all_skip {X : Doc} {ds4 : List DesiredSubnet}
    (hcov : ∀ x ∈ ds4, x.cidr ∈ X.keaSubnets.map (fun s => s.cidr))
    (hfl : ds4.isEmpty = false → (X.hasKea && X.hasKeaDhcp4) = true) :
    applyKeaSubnets4 X ds4 false = (X, none) := by
  by_cases hemp : ds4.isEmpty = true
  · simp [applyKeaSubnets4, hemp]
  · have hemp' : ds4.isEmpty = false := by
      revert hemp
      cases ds4.isEmpty <;> simp
    have hflags := hfl hemp'
    simp only [applyKeaSubnets4, hemp', hflags, Bool.not_true, Bool.false_eq_true,
      if_false]
    rw [applyDesiredList_all_skip false _ ds4 X.keaSubnets X.uuidCtr hcov]

theorem applyKeaSubnets6_all_skip {X : Doc} {ds6 : List DesiredSubnet}
    (hcov : ∀ x ∈ ds6, x.cidr ∈ X.keaSubnetsV6.map (fun s => s.cidr))
    (hfl : ds6.isEmpty = false → (X.hasKea && X.hasKeaDhcp6) = true) :
    applyKeaSubnets6 X ds6 false = (X, none) := by
  by_cases hemp : ds6.isEmpty = true
  · simp [applyKeaSubnets6, hemp]
  · have hemp' : ds6.isEmpty = false := by
      revert hemp
      cases ds6.isEmpty <;> simp
    have hflags := hfl hemp'
    simp only [applyKeaSubnets6, hemp', hflags, Bool.not_true, Bool.false_eq_true,
      if_false]
    rw [applyDesiredList_all_skip true _ ds6 X.keaSubnetsV6 X.uuidCtr hcov]

/-- With every desired CIDR already present and no `force`, re-applying the
desired subnets is the identity. -/
theorem apply_kea_subnets_all_skip {X : Doc} {ds4 ds6 : List DesiredSubnet}
    (hcov4 : ∀ x ∈ ds4, x.cidr ∈ X.keaSubnets.map (fun s => s.cidr))
    (hfl4 : ds4.isEmpty = false → (X.hasKea && X.hasKeaDhcp4) = true)
    (hcov6 : ∀ x ∈ ds6, x.cidr ∈ X.keaSubnetsV6.map (fun s => s.cidr))
    (hfl6 : ds6.isEmpty = false → (X.hasKea && X.hasKeaDhcp6) = true) :
    apply_kea_subnets X ds4 ds6 false = (X, none) := by
  unfold apply_kea_subnets
  rw [applyKeaSubnets4_all_skip hcov4 hfl4]
  exact applyKeaSubnets6_all_skip hcov6 hfl6

theorem dedupStr_map_nonempty {α : Type} {l : List α} {f : α → String}
    (h : (dedupStr (l.map f)).isEmpty = false) : l.isEmpty = false := by
  cases l with
  | nil => simp [dedupStr] at h
  | cons a t => rfl

/-- The v4 interface merge succeeds (touching only `keaIfacesV4`) whenever
the dhcp4 section is present or nothing is to merge. -/
theorem applyKeaIfaces4_ok_of {X : Doc} {if4 : List String}
    (hfl : if4.isEmpty = false → (X.hasKea && X.hasKeaDhcp4) = true) :
    ∃ X', applyKeaIfaces4 X if4 = (X', none) ∧
      X'.keaSubnets = X.keaSubnets ∧ X'.keaSubnetsV6 = X.keaSubnetsV6 ∧
      X'.ifaceCidrsV4 = X.ifaceCidrsV4 ∧ X'.ifaceCidrsV6 = X.ifaceCidrsV6 ∧
      X'.hasKea = X.hasKea ∧ X'.hasKeaDhcp4 = X.hasKeaDhcp4 ∧
      X'.hasKeaDhcp6 = X.hasKeaDhcp6 ∧
      X'.keaReservations = X.keaReservations ∧
      X'.keaReservationsV6 = X.keaReservationsV6 ∧
      X'.iscRangesV4 = X.iscRangesV4 ∧ X'.iscRangesV6 = X.iscRangesV6 ∧
      X'.iscOptionsV4 = X.iscOptionsV4 ∧ X'.iscOptionsV6 = X.iscOptionsV6 := by
  by_cases hemp : if4.isEmpty = true
  · refine ⟨X, ?_, rfl, rfl, rfl, rfl, rfl, rfl, rfl, rfl, rfl, rfl, rfl, rfl, rfl⟩
    simp [applyKeaIfaces4, hemp]
  · have hemp' : if4.isEmpty = false := by
      revert hemp
      cases if4.isEmpty <;> simp
    have hflags := hfl hemp'
    refine ⟨{ X with keaIfacesV4 := sortedSet (if4 ++ X.keaIfacesV4) }, ?_,
      rfl, rfl, rfl, rfl, rfl, rfl, rfl, rfl, rfl, rfl, rfl, rfl, rfl⟩
    simp [applyKeaIfaces4, hemp', hflags]

/-- v6 analogue. -/
theorem applyKeaIfaces6_ok_of {X : Doc} {if6 : List String}
    (hfl : if6.isEmpty = false → (X.hasKea && X.hasKeaDhcp6) = true) :
    ∃ X', applyKeaIfaces6 X if6 = (X', none) ∧
      X'.keaSubnets = X.keaSubnets ∧ X'.keaSubnetsV6 = X.keaSubnetsV6 ∧
      X'.ifaceCidrsV4 = X.ifaceCidrsV4 ∧ X'.ifaceCidrsV6 = X.ifaceCidrsV6 ∧
      X'.hasKea = X.hasKea ∧ X'.hasKeaDhcp4 = X.hasKeaDhcp4 ∧
      X'.hasKeaDhcp6 = X.hasKeaDhcp6 ∧
      X'.keaReservations = X.keaReservations ∧
      X'.keaReservationsV6 = X.keaReservationsV6 ∧
      X'.iscRangesV4 = X.iscRangesV4 ∧ X'.iscRangesV6 = X.iscRangesV6 ∧
      X'.iscOptionsV4 = X.iscOptionsV4 ∧ X'.iscOptionsV6 = X.iscOptionsV6 := by
  by_cases hemp : if6.isEmpty = true
  · refine ⟨X, ?_, rfl, rfl, rfl, rfl, rfl, rfl, rfl, rfl, rfl, rfl, rfl, rfl, rfl⟩
    simp [applyKeaIfaces6, hemp]
  · have hemp' : if6.isEmpty = false := by
      revert hemp
      cases if6.isEmpty <;> simp
    have hflags := hfl hemp'
    refine ⟨{ X with keaIfacesV6 := sortedSet (if6 ++ X.keaIfacesV6) }, ?_,
      rfl, rfl, rfl, rfl, rfl, rfl, rfl, rfl, rfl, rfl, rfl, rfl, rfl⟩
    simp [applyKeaIfaces6, hemp', hflags]

/-- The interface merge succeeds whenever each family with interfaces to
merge has its dhcp section, and touches only the `keaIfaces` lists. -/
theorem apply_kea_interfaces_ok_of {X : Doc} {ds4 ds6 : List DesiredSubnet}
    (hfl4 : ds4.isEmpty = false → (X.hasKea && X.hasKeaDhcp4) = true)
    (hfl6 : ds6.isEmpty = false → (X.hasKea && X.hasKeaDhcp6) = true) :
    ∃ X' ifc, apply_kea_interfaces X ds4 ds6 = (X', none, ifc) ∧
      X'.keaSubnets = X.keaSubnets ∧ X'.keaSubnetsV6 = X.keaSubnetsV6 ∧
      X'.ifaceCidrsV4 = X.ifaceCidrsV4 ∧ X'.ifaceCidrsV6 = X.ifaceCidrsV6 ∧
      X'.hasKea = X.hasKea ∧ X'.hasKeaDhcp4 = X.hasKeaDhcp4 ∧
      X'.hasKeaDhcp6 = X.hasKeaDhcp6 ∧
      X'.keaReservations = X.keaReservations ∧
      X'.keaReservationsV6 = X.keaReservationsV6 ∧
      X'.iscRangesV4 = X.iscRangesV4 ∧ X'.iscRangesV6 = X.iscRangesV6 ∧
      X'.iscOptionsV4 = X.iscOptionsV4 ∧ X'.iscOptionsV6 = X.iscOptionsV6 := by
  rcases @applyKeaIfaces4_ok_of X (dedupStr (ds4.map (fun ds => ds.iface)))
      (fun hne => hfl4 (dedupStr_map_nonempty hne)) with
    ⟨X1, h1, k1, k2, k3, k4, k5, k6, k7, k8, k9, k10, k11, k12, k13⟩
  rcases @applyKeaIfaces6_ok_of X1 (dedupStr (ds6.map (fun ds => ds.iface)))
      (fun hne => by
        rw [k5, k7]
        exact hfl6 (dedupStr_map_nonempty hne)) with
    ⟨X2, h2, g1, g2, g3, g4, g5, g6, g7, g8, g9, g10, g11, g12, g13⟩
  refine ⟨X2, sortedSet (dedupStr (ds4.map (fun ds => ds.iface)) ++
    dedupStr (ds6.map (fun ds => ds.iface))), ?_,
    g1.trans k1, g2.trans k2, g3.trans k3, g4.trans k4, g5.trans k5,
    g6.trans k6, g7.trans k7, g8.trans k8, g9.trans k9, g10.trans k10,
    g11.trans k11, g12.trans k12, g13.trans k13⟩
  simp only [apply_kea_interfaces]
  rw [h1]
  dsimp only
  rw [h2]

/-- Dissection of a successful `convert_kea_pre` run into its phase
outcomes, exposing the intermediate documents. -/
theorem convert_kea_pre_ok_inv {d dp : Doc} {ms : List IscStaticMap}
    {ms6 : List IscStaticMapV6} {o : MOpts} {ctx : KeaCtx}
    (h : convert_kea_pre d ms ms6 o = (dp, .ok ctx)) :
    ∃ dA dB,
      (if o.createSubnets || o.enableBackend then desired_subnets_v4 d
        else .ok []) = .ok ctx.desired4 ∧
      (if o.createSubnets || o.enableBackend then desired_subnets_v6 d
        else .ok []) = .ok ctx.desired6 ∧
      (if o.createSubnets then apply_kea_subnets d ctx.desired4 ctx.desired6
        o.forceSubnets else (d, none)) = (dA, none) ∧
      (if o.createSubnets then apply_kea_interfaces dA ctx.desired4 ctx.desired6
        else (dA, none, [])) = (dB, none, ctx.ifacesConfigured) ∧
      dp = (if o.createOptions then apply_kea_options dB
        (if o.createOptions then d.iscOptionsV4 else [])
        (if o.createOptions then d.iscOptionsV6 else []) o.forceOptions
        else dB) ∧
      ctx.subs = extract_kea_subnets dp ∧
      ctx.subs6 = extract_kea_subnets_v6 dp ∧
      validate_mapping_ifaces_v4 ms dp.ifaceCidrsV4 = .ok () ∧
      validate_mapping_ifaces_v6 ms6 dp.ifaceCidrsV6 = .ok () ∧
      keaBackendChecks dp ms.isEmpty ms6.isEmpty ctx.subs ctx.subs6
        o.createSubnets ctx.desired4 ctx.desired6 = none ∧
      ctx.existingIps = extract_existing_reservation_ips d ∧
      ctx.existingIps6 = extract_existing_reservation_ips_v6 d ∧
      ctx.existingDuids6 = extract_existing_reservation_duids_v6 d := by
  simp only [convert_kea_pre] at h
  split at h
  · simp at h
  rename_i des4 h4
  split at h
  · simp at h
  rename_i des6 h6
  split at h
  · simp at h
  rename_i dA happ
  split at h
  · simp at h
  rename_i dB ifs hifc
  split at h
  · simp at h
  rename_i uv4 hval4
  split at h
  · simp at h
  rename_i uv6 hval6
  split at h
  · simp at h
  rename_i hchecks
  split at h
  · simp at h
  rename_i hfail
  injection h with hdoc hrest
  injection hrest with hctx
  subst hdoc
  subst hctx
  cases uv4
  cases uv6
  exact ⟨dA, dB, h4, h6, happ, hifc, rfl, rfl, rfl, hval4, hval6, hchecks,
    rfl, rfl, rfl⟩

/-- Forward construction of a successful `convert_kea_pre` from the
outcomes of its phases. -/
theorem convert_kea_pre_build {d dC : Doc} {ms : List IscStaticMap}
    {ms6 : List IscStaticMapV6} {o : MOpts} {des4 des6 : List DesiredSubnet}
    {dA dB : Doc} {ifc : List String}
    (h4 : (if o.createSubnets || o.enableBackend then desired_subnets_v4 d
      else .ok []) = .ok des4)
    (h6 : (if o.createSubnets || o.enableBackend then desired_subnets_v6 d
      else .ok []) = .ok des6)
    (happ : (if o.createSubnets then apply_kea_subnets d des4 des6
      o.forceSubnets else (d, none)) = (dA, none))
    (hifc : (if o.createSubnets then apply_kea_interfaces dA des4 des6
      else (dA, none, [])) = (dB, none, ifc))
    (hdC : dC = (if o.createOptions then apply_kea_options dB
      (if o.createOptions then d.iscOptionsV4 else [])
      (if o.createOptions then d.iscOptionsV6 else []) o.forceOptions
      else dB))
    (hval4 : validate_mapping_ifaces_v4 ms dC.ifaceCidrsV4 = .ok ())
    (hval6 : validate_mapping_ifaces_v6 ms6 dC.ifaceCidrsV6 = .ok ())
    (hchecks : keaBackendChecks dC ms.isEmpty ms6.isEmpty
      (extract_kea_subnets dC) (extract_kea_subnets_v6 dC)
      o.createSubnets des4 des6 = none)
    (hfie : o.failIfExisting = false) :
    convert_kea_pre d ms ms6 o = (dC, .ok ⟨des4, des6, ifc,
      extract_kea_subnets dC, extract_kea_subnets_v6 dC,
      extract_existing_reservation_ips d,
      extract_existing_reservation_ips_v6 d,
      extract_existing_reservation_duids_v6 d⟩) := by
  subst hdC
  simp only [convert_kea_pre]
  rw [h4]
  dsimp only
  rw [h6]
  dsimp only
  rw [happ]
  dsimp only
  rw [hifc]
  dsimp only
  rw [hval4]
  dsimp only
  rw [hval6]
  dsimp only
  rw [hchecks]
  dsimp only
  have hfail : failIfExistingKea o (extract_existing_reservation_ips d)
      (extract_existing_reservation_ips_v6 d)
      (extract_existing_reservation_duids_v6 d) = none := by
    simp [failIfExistingKea, hfie]
  rw [hfail]

/-- With every mapping address already reserved, the v4 record phase only
counts skips and leaves the document unchanged. -/
theorem keaRecordPhaseV4_all_skip {X : Doc} {ms : List IscStaticMap}
    {subs : List Subnet} {ips : List Nat}
    (hcov : ∀ m ∈ ms, m.ipaddr ∈ ips)
    (hfl : ms.isEmpty = false → (X.hasKea && X.hasKeaDhcp4) = true) :
    keaRecordPhaseV4 X ms subs ips = (X, .ok (0, ms.length)) := by
  by_cases hemp : ms.isEmpty = true
  · have h0 : ms = [] := List.isEmpty_iff.mp hemp
    subst h0
    rfl
  · have hemp' : ms.isEmpty = false := by
      revert hemp
      cases ms.isEmpty <;> simp
    have hflags := hfl hemp'
    simp only [keaRecordPhaseV4, hemp', hflags, Bool.not_true, Bool.false_eq_true,
      if_false]
    rw [convLoopV4_all_skip subs ms ⟨[], ips, 0, 0, none⟩ hcov]
    dsimp only
    simp only [List.append_nil, Nat.zero_add]

/-- v6 analogue (an address or DUID hit suffices for a skip). -/
theorem keaRecordPhaseV6_all_skip {X : Doc} {ms6 : List IscStaticMapV6}
    {subs6 : List Subnet} {ips6 : List Nat} {duids : List String}
    (hcov : ∀ m ∈ ms6, m.ipaddr ∈ ips6 ∨ m.duid ∈ duids)
    (hfl : ms6.isEmpty = false → (X.hasKea && X.hasKeaDhcp6) = true) :
    keaRecordPhaseV6 X ms6 subs6 ips6 duids = (X, .ok (0, ms6.length)) := by
  by_cases hemp : ms6.isEmpty = true
  · have h0 : ms6 = [] := List.isEmpty_iff.mp hemp
    subst h0
    rfl
  · have hemp' : ms6.isEmpty = false := by
      revert hemp
      cases ms6.isEmpty <;> simp
    have hflags := hfl hemp'
    simp only [keaRecordPhaseV6, hemp', hflags, Bool.not_true, Bool.false_eq_true,
      if_false]
    rw [convLoopV6_all_skip subs6 ms6 ⟨[], ips6, duids, 0, 0, none⟩ hcov]
    dsimp only
    simp only [List.append_nil, Nat.zero_add]

/-- The enable phase succeeds whenever each nonempty family has its Kea
section flags set (or the backend is not being enabled). -/
theorem keaEnablePhase_ok_of {X : Doc} {o : MOpts} {subs subs6 : List Subnet}
    (hp4 : o.enableBackend = true → subs.isEmpty = false →
      (X.hasKea && X.hasKeaDhcp4) = true)
    (hp6 : o.enableBackend = true → subs6.isEmpty = false →
      (X.hasKea && X.hasKeaDhcp6) = true) :
    ∃ X' out, keaEnablePhase X o subs subs6 = (X', .ok out) := by
  by_cases he : o.enableBackend = true
  · simp only [keaEnablePhase, he, if_true, disable_isc_dhcp_from_config]
    rcases hek : enable_kea { X with iscEnabledV4 := [], iscEnabledV6 := [] }
      (!subs.isEmpty) (!subs6.isEmpty) with ⟨dx, e4, e6⟩
    dsimp only
    have spec := enable_kea_spec { X with iscEnabledV4 := [], iscEnabledV6 := [] }
      (!subs.isEmpty) (!subs6.isEmpty)
    rw [hek] at spec
    dsimp only at spec
    have hc1 : (!subs.isEmpty && !e4) = false := by
      by_cases hse : subs.isEmpty = true
      · simp [hse]
      · have hse' : subs.isEmpty = false := by
          revert hse
          cases subs.isEmpty <;> simp
        rcases Bool.and_eq_true_iff.mp (hp4 he hse') with ⟨hk, h4f⟩
        have he4 : e4 = true := by
          rw [spec.1, hse']
          show ({ X with iscEnabledV4 := [], iscEnabledV6 := [] }.hasKea &&
            (!false && { X with iscEnabledV4 := [], iscEnabledV6 := [] }.hasKeaDhcp4)) = true
          have hk' : { X with iscEnabledV4 := [], iscEnabledV6 := [] }.hasKea = true := hk
          have h4f' : { X with iscEnabledV4 := [], iscEnabledV6 := [] }.hasKeaDhcp4 = true := h4f
          rw [hk', h4f']
          rfl
        rw [he4]
        simp
    have hc2 : (!subs6.isEmpty && !e6) = false := by
      by_cases hse : subs6.isEmpty = true
      · simp [hse]
      · have hse' : subs6.isEmpty = false := by
          revert hse
          cases subs6.isEmpty <;> simp
        rcases Bool.and_eq_true_iff.mp (hp6 he hse') with ⟨hk, h6f⟩
        have he6 : e6 = true := by
          rw [spec.2.1, hse']
          show ({ X with iscEnabledV4 := [], iscEnabledV6 := [] }.hasKea &&
            (!false && { X with iscEnabledV4 := [], iscEnabledV6 := [] }.hasKeaDhcp6)) = true
          have hk' : { X with iscEnabledV4 := [], iscEnabledV6 := [] }.hasKea = true := hk
          have h6f' : { X with iscEnabledV4 := [], iscEnabledV6 := [] }.hasKeaDhcp6 = true := h6f
          rw [hk', h6f']
          rfl
        rw [he6]
        simp
    rw [hc1, hc2]
    exact ⟨dx, _, rfl⟩
  · have he' : o.enableBackend = false := by
      revert he
      cases o.enableBackend <;> simp
    simp [keaEnablePhase, he']

/-- Forward assembly of `convert_kea_post` from its phase outcomes. -/
theorem convert_kea_post_build {d d4 d5 d6 : Doc} {ms : List IscStaticMap}
    {ms6 : List IscStaticMapV6} {o : MOpts} {ctx : KeaCtx}
    {out4 out6 : Nat × Nat} {enOut : List String × List String × Bool × Bool}
    (hr4 : keaRecordPhaseV4 d ms ctx.subs ctx.existingIps = (d4, .ok out4))
    (hr6 : keaRecordPhaseV6 d4 ms6 ctx.subs6 ctx.existingIps6 ctx.existingDuids6
      = (d5, .ok out6))
    (hen : keaEnablePhase d5 o ctx.subs ctx.subs6 = (d6, .ok enOut)) :
    convert_kea_post d ms ms6 o ctx = (d6, .ok
      { iscMappingsFound := ms.length, iscMappingsV6Found := ms6.length,
        targetSubnetsFound := ctx.subs.length,
        targetSubnetsV6Found := ctx.subs6.length,
        reservationsToCreate := out4.1,
        reservationsV6ToCreate := out6.1,
        reservationsSkipped := out4.2,
        reservationsV6Skipped := out6.2,
        interfacesConfigured := ctx.ifacesConfigured,
        iscDisabledV4 := enOut.1, iscDisabledV6 := enOut.2.1,
        backendEnabledV4 := enOut.2.2.1, backendEnabledV6 := enOut.2.2.2 }) := by
  simp only [convert_kea_post]
  rw [hr4]
  dsimp only
  rw [hr6]
  dsimp only
  rw [hen]

/-- A successful `convert_kea` splits into a successful pre phase and a
successful post phase. -/
theorem convert_kea_ok_inv {d d1 : Doc} {ms : List IscStaticMap}
    {ms6 : List IscStaticMapV6} {o : MOpts} {stats : MStats}
    (h : convert_kea d ms ms6 o = (d1, .ok stats)) :
    ∃ dp ctx, convert_kea_pre d ms ms6 o = (dp, .ok ctx) ∧
      convert_kea_post dp ms ms6 o ctx = (d1, .ok stats) := by
  simp only [convert_kea] at h
  split at h
  · simp at h
  rename_i dp ctx hpre
  exact ⟨dp, ctx, hpre, h⟩

/-- Dissection of a successful `convert_kea_post`. -/
theorem convert_kea_post_ok_inv {dp d1 : Doc} {ms : List IscStaticMap}
    {ms6 : List IscStaticMapV6} {o : MOpts} {ctx : KeaCtx} {stats : MStats}
    (h : convert_kea_post dp ms ms6 o ctx = (d1, .ok stats)) :
    ∃ d4 d5 out4 out6 enOut,
      keaRecordPhaseV4 dp ms ctx.subs ctx.existingIps = (d4, .ok out4) ∧
      keaRecordPhaseV6 d4 ms6 ctx.subs6 ctx.existingIps6 ctx.existingDuids6
        = (d5, .ok out6) ∧
      keaEnablePhase d5 o ctx.subs ctx.subs6 = (d1, .ok enOut) ∧
      stats.reservationsToCreate = out4.1 ∧
      stats.reservationsV6ToCreate = out6.1 ∧
      stats.reservationsSkipped = out4.2 ∧
      stats.reservationsV6Skipped = out6.2 := by
  simp only [convert_kea_post] at h
  split at h
  · simp at h
  rename_i d4 out4 hr4
  split at h
  · simp at h
  rename_i d5 out6 hr6
  split at h
  · simp at h
  rename_i d6 enOut hen
  injection h with h1 h2
  injection h2 with h2
  subst h1
  subst h2
  exact ⟨d4, d5, out4, out6, enOut, hr4, hr6, hen, rfl, rfl, rfl, rfl⟩

/-- Extra preserved fields of the v4 record phase. -/
theorem keaRecordPhaseV4_keeps2 (d : Doc) (ms : List IscStaticMap)
    (subs : List Subnet) (X : List Nat) :
    (keaRecordPhaseV4 d ms subs X).1.ifaceCidrsV4 = d.ifaceCidrsV4 ∧
    (keaRecordPhaseV4 d ms subs X).1.ifaceCidrsV6 = d.ifaceCidrsV6 ∧
    (keaRecordPhaseV4 d ms subs X).1.iscRangesV4 = d.iscRangesV4 ∧
    (keaRecordPhaseV4 d ms subs X).1.iscRangesV6 = d.iscRangesV6 ∧
    (keaRecordPhaseV4 d ms subs X).1.iscOptionsV4 = d.iscOptionsV4 ∧
    (keaRecordPhaseV4 d ms subs X).1.iscOptionsV6 = d.iscOptionsV6 := by
  simp only [keaRecordPhaseV4]
  split
  · exact ⟨rfl, rfl, rfl, rfl, rfl, rfl⟩
  split
  · exact ⟨rfl, rfl, rfl, rfl, rfl, rfl⟩
  split <;> exact ⟨rfl, rfl, rfl, rfl, rfl, rfl⟩

/-- Extra preserved fields of the v6 record phase. -/
theorem keaRecordPhaseV6_keeps2 (d : Doc) (ms6 : List IscStaticMapV6)
    (subs6 : List Subnet) (X6 : List Nat) (XD : List String) :
    (keaRecordPhaseV6 d ms6 subs6 X6 XD).1.ifaceCidrsV4 = d.ifaceCidrsV4 ∧
    (keaRecordPhaseV6 d ms6 subs6 X6 XD).1.ifaceCidrsV6 = d.ifaceCidrsV6 ∧
    (keaRecordPhaseV6 d ms6 subs6 X6 XD).1.iscRangesV4 = d.iscRangesV4 ∧
    (keaRecordPhaseV6 d ms6 subs6 X6 XD).1.iscRangesV6 = d.iscRangesV6 ∧
    (keaRecordPhaseV6 d ms6 subs6 X6 XD).1.iscOptionsV4 = d.iscOptionsV4 ∧
    (keaRecordPhaseV6 d ms6 subs6 X6 XD).1.iscOptionsV6 = d.iscOptionsV6 := by
  simp only [keaRecordPhaseV6]
  split
  · exact ⟨rfl, rfl, rfl, rfl, rfl, rfl⟩
  split
  · exact ⟨rfl, rfl, rfl, rfl, rfl, rfl⟩
  split <;> exact ⟨rfl, rfl, rfl, rfl, rfl, rfl⟩

/-- Extra preserved fields of the enable phase. -/
theorem keaEnablePhase_frame2 (d : Doc) (o : MOpts) (subs subs6 : List Subnet) :
    (keaEnablePhase d o subs subs6).1.hasKea = d.hasKea ∧
    (keaEnablePhase d o subs subs6).1.hasKeaDhcp4 = d.hasKeaDhcp4 ∧
    (keaEnablePhase d o subs subs6).1.hasKeaDhcp6 = d.hasKeaDhcp6 ∧
    (keaEnablePhase d o subs subs6).1.iscRangesV4 = d.iscRangesV4 ∧
    (keaEnablePhase d o subs subs6).1.iscRangesV6 = d.iscRangesV6 ∧
    (keaEnablePhase d o subs subs6).1.iscOptionsV4 = d.iscOptionsV4 ∧
    (keaEnablePhase d o subs subs6).1.iscOptionsV6 = d.iscOptionsV6 := by
  unfold keaEnablePhase disable_isc_dhcp_from_config enable_kea
  by_cases he : o.enableBackend = true
  · simp only [he, if_true]
    by_cases hk : d.hasKea = true
    · simp only [hk, Bool.not_true, Bool.false_eq_true, if_false]
      split
      simp_all
      split <;> simp_all
    · have hk' : d.hasKea = false := by
        revert hk
        cases d.hasKea <;> simp
      simp only [hk', Bool.not_false, if_true]
      split
      simp_all
      split <;> simp_all
  · have he' : o.enableBackend = false := by
      revert he
      cases o.enableBackend <;> simp
    simp [he']

/-- Desired subnets depend only on the ranges and interface CIDRs. -/
theorem desired_subnets_v4_congr {a b : Doc}
    (hr : a.iscRangesV4 = b.iscRangesV4) (hc : a.ifaceCidrsV4 = b.ifaceCidrsV4) :
    desired_subnets_v4 a = desired_subnets_v4 b := by
  unfold desired_subnets_v4
  rw [hr, hc]

theorem desired_subnets_v6_congr {a b : Doc}
    (hr : a.iscRangesV6 = b.iscRangesV6) (hc : a.ifaceCidrsV6 = b.ifaceCidrsV6) :
    desired_subnets_v6 a = desired_subnets_v6 b := by
  unfold desired_subnets_v6
  rw [hr, hc]

/-- Option application touches only the subnet lists. -/
theorem apply_kea_options_keeps (X : Doc) (o4 : List IscDhcpOptionsV4)
    (o6 : List IscDhcpOptionsV6) (f : Bool) :
    (apply_kea_options X o4 o6 f).ifaceCidrsV4 = X.ifaceCidrsV4 ∧
    (apply_kea_options X o4 o6 f).ifaceCidrsV6 = X.ifaceCidrsV6 ∧
    (apply_kea_options X o4 o6 f).keaReservations = X.keaReservations ∧
    (apply_kea_options X o4 o6 f).keaReservationsV6 = X.keaReservationsV6 ∧
    (apply_kea_options X o4 o6 f).hasKea = X.hasKea ∧
    (apply_kea_options X o4 o6 f).hasKeaDhcp4 = X.hasKeaDhcp4 ∧
    (apply_kea_options X o4 o6 f).hasKeaDhcp6 = X.hasKeaDhcp6 ∧
    (apply_kea_options X o4 o6 f).iscRangesV4 = X.iscRangesV4 ∧
    (apply_kea_options X o4 o6 f).iscRangesV6 = X.iscRangesV6 ∧
    (apply_kea_options X o4 o6 f).iscOptionsV4 = X.iscOptionsV4 ∧
    (apply_kea_options X o4 o6 f).iscOptionsV6 = X.iscOptionsV6 := by
  exact ⟨rfl, rfl, rfl, rfl, rfl, rfl, rfl, rfl, rfl, rfl, rfl⟩

/-- A second `convert_kea` run over the first run's output document (same
mappings and options, no `force`, no `fail_if_existing`) succeeds, creates
no reservation, leaves the subnet lists unchanged and skips every
mapping. -/
theorem convert_kea_idem {d d1 : Doc} {ms : List IscStaticMap}
    {ms6 : List IscStaticMapV6} {o : MOpts} {stats1 : MStats}
    (hfe : o.failIfExisting = false)
    (hfs : o.forceSubnets = false)
    (hfo : o.forceOptions = false)
    (h1 : convert_kea d ms ms6 o = (d1, .ok stats1)) :
    ∃ d2 stats2, convert_kea d1 ms ms6 o = (d2, .ok stats2) ∧
      d2.keaReservations = d1.keaReservations ∧
      d2.keaReservationsV6 = d1.keaReservationsV6 ∧
      d2.keaSubnets = d1.keaSubnets ∧
      d2.keaSubnetsV6 = d1.keaSubnetsV6 ∧
      stats2.reservationsToCreate = 0 ∧
      stats2.reservationsV6ToCreate = 0 ∧
      stats2.reservationsSkipped = ms.length ∧
      stats2.reservationsV6Skipped = ms6.length := by
  rcases convert_kea_ok_inv h1 with ⟨dp, ctx, hpre, hpost⟩
  rcases convert_kea_pre_ok_inv hpre with ⟨dA, dB, h4, h6, happ, hifc, hdp,
    hsubs, hsubs6, hval4, hval6, hchecks, hips, hips6, hduids⟩
  have hframe := convert_kea_pre_frame d ms ms6 o
  rw [hpre] at hframe
  dsimp only at hframe
  obtain ⟨hfc4, hfc6, hfres, hfres6, hfk, hfk4, hfk6, hfR4, hfR6, hfO4, hfO6,
    hfE4w, hfE6w, hfEn4, hfEn6⟩ := hframe
  rcases convert_kea_post_ok_inv hpost with ⟨d4, d5, out4, out6, enOut,
    hr4, hr6, hen, hstc4, hstc6, hsts4, hsts6⟩
  have hk4 := keaRecordPhaseV4_keeps dp ms ctx.subs ctx.existingIps
  rw [hr4] at hk4
  dsimp only at hk4
  have hk4b := keaRecordPhaseV4_keeps2 dp ms ctx.subs ctx.existingIps
  rw [hr4] at hk4b
  dsimp only at hk4b
  have hk6 := keaRecordPhaseV6_keeps d4 ms6 ctx.subs6 ctx.existingIps6
    ctx.existingDuids6
  rw [hr6] at hk6
  dsimp only at hk6
  have hk6b := keaRecordPhaseV6_keeps2 d4 ms6 ctx.subs6 ctx.existingIps6
    ctx.existingDuids6
  rw [hr6] at hk6b
  dsimp only at hk6b
  have hfr2 := keaEnablePhase_frame d5 o ctx.subs ctx.subs6
  rw [hen] at hfr2
  dsimp only at hfr2
  have hfr2b := keaEnablePhase_frame2 d5 o ctx.subs ctx.subs6
  rw [hen] at hfr2b
  dsimp only at hfr2b
  have hd1c4 : d1.ifaceCidrsV4 = d.ifaceCidrsV4 := by
    rw [hfr2.2.2.2.2.1, hk6b.1, hk4b.1, hfc4]
  have hd1c6 : d1.ifaceCidrsV6 = d.ifaceCidrsV6 := by
    rw [hfr2.2.2.2.2.2, hk6b.2.1, hk4b.2.1, hfc6]
  have hd1R4 : d1.iscRangesV4 = d.iscRangesV4 := by
    rw [hfr2b.2.2.2.1, hk6b.2.2.1, hk4b.2.2.1, hfR4]
  have hd1R6 : d1.iscRangesV6 = d.iscRangesV6 := by
    rw [hfr2b.2.2.2.2.1, hk6b.2.2.2.1, hk4b.2.2.2.1, hfR6]
  have hd1O4 : d1.iscOptionsV4 = d.iscOptionsV4 := by
    rw [hfr2b.2.2.2.2.2.1, hk6b.2.2.2.2.1, hk4b.2.2.2.2.1, hfO4]
  have hd1O6 : d1.iscOptionsV6 = d.iscOptionsV6 := by
    rw [hfr2b.2.2.2.2.2.2, hk6b.2.2.2.2.2, hk4b.2.2.2.2.2, hfO6]
  have hd1k : d1.hasKea = d.hasKea := by
    rw [hfr2b.1, hk6.2.2.1, hk4.2.2.1, hfk]
  have hd1k4 : d1.hasKeaDhcp4 = d.hasKeaDhcp4 := by
    rw [hfr2b.2.1, hk6.2.2.2.1, hk4.2.2.2.1, hfk4]
  have hd1k6 : d1.hasKeaDhcp6 = d.hasKeaDhcp6 := by
    rw [hfr2b.2.2.1, hk6.2.2.2.2.1, hk4.2.2.2.2.1, hfk6]
  have hd1subs : d1.keaSubnets = dp.keaSubnets := by
    rw [hfr2.2.2.1, hk6.1, hk4.1]
  have hd1subs6 : d1.keaSubnetsV6 = dp.keaSubnetsV6 := by
    rw [hfr2.2.2.2.1, hk6.2.1, hk4.2.1]
  have hext1 : extract_kea_subnets d1 = ctx.subs := by
    rw [hsubs]
    simp only [extract_kea_subnets, hd1subs]
  have hext16 : extract_kea_subnets_v6 d1 = ctx.subs6 := by
    rw [hsubs6]
    simp only [extract_kea_subnets_v6, hd1subs6]
  have h4' : (if o.createSubnets || o.enableBackend then desired_subnets_v4 d1
      else .ok []) = .ok ctx.desired4 := by
    rw [desired_subnets_v4_congr hd1R4 hd1c4]
    exact h4
  have h6' : (if o.createSubnets || o.enableBackend then desired_subnets_v6 d1
      else .ok []) = .ok ctx.desired6 := by
    rw [desired_subnets_v6_congr hd1R6 hd1c6]
    exact h6
  have happ2 : (if o.createSubnets then apply_kea_subnets d1 ctx.desired4
      ctx.desired6 o.forceSubnets else (d1, none)) = (d1, none) := by
    by_cases hcs : o.createSubnets = true
    · simp only [hcs, if_true]
      rw [hfs]
      have happ1 : apply_kea_subnets d ctx.desired4 ctx.desired6 o.forceSubnets
          = (dA, none) := by
        rw [← happ]
        simp [hcs]
      rcases apply_kea_subnets_ok happ1 with ⟨hm4, hm6, hofl4, hofl6⟩
      have hextA : extract_kea_subnets dp = extract_kea_subnets dA := by
        rcases extract_subnets_apply_interfaces hifc with ⟨hiA, hiA6⟩
        rw [hdp]
        by_cases hco : o.createOptions = true
        · simp only [hco, if_true]
          rw [(extract_apply_kea_options dB _ _ _).1]
          exact hiA
        · have hco' : o.createOptions = false := by
            revert hco
            cases o.createOptions <;> simp
          simp only [hco', Bool.false_eq_true, if_false]
          exact hiA
      have hextA6 : extract_kea_subnets_v6 dp = extract_kea_subnets_v6 dA := by
        rcases extract_subnets_apply_interfaces hifc with ⟨hiA, hiA6⟩
        rw [hdp]
        by_cases hco : o.createOptions = true
        · simp only [hco, if_true]
          rw [(extract_apply_kea_options dB _ _ _).2]
          exact hiA6
        · have hco' : o.createOptions = false := by
            revert hco
            cases o.createOptions <;> simp
          simp only [hco', Bool.false_eq_true, if_false]
          exact hiA6
      have hcov4 : ∀ x ∈ ctx.desired4, x.cidr ∈ d1.keaSubnets.map (fun s => s.cidr) := by
        intro x hx
        have hmem := (hm4 x.cidr).mpr (Or.inr ⟨x, hx, rfl⟩)
        rw [← hextA, ← hsubs, ← hext1] at hmem
        rcases (extract_cidr_mem d1 x.cidr).1.mp hmem with ⟨r, hr, hrc⟩
        exact List.mem_map.mpr ⟨r, hr, hrc⟩
      have hcov6 : ∀ x ∈ ctx.desired6, x.cidr ∈ d1.keaSubnetsV6.map (fun s => s.cidr) := by
        intro x hx
        have hmem := (hm6 x.cidr).mpr (Or.inr ⟨x, hx, rfl⟩)
        rw [← hextA6, ← hsubs6, ← hext16] at hmem
        rcases (extract_cidr_mem d1 x.cidr).2.mp hmem with ⟨r, hr, hrc⟩
        exact List.mem_map.mpr ⟨r, hr, hrc⟩
      exact apply_kea_subnets_all_skip hcov4
        (fun hne => by rw [hd1k, hd1k4]; exact hofl4 hne)
        hcov6
        (fun hne => by rw [hd1k, hd1k6]; exact hofl6 hne)
    · have hcs' : o.createSubnets = false := by
        revert hcs
        cases o.createSubnets <;> simp
      simp [hcs']
  obtain ⟨dB2, ifc2, hifc2, hB1, hB2, hB3, hB4, hB5, hB6, hB7, hB8, hB9,
      hB10, hB11, hB12, hB13⟩ :
      ∃ dB2 ifc2, (if o.createSubnets then apply_kea_interfaces d1 ctx.desired4
        ctx.desired6 else (d1, none, [])) = (dB2, none, ifc2) ∧
        dB2.keaSubnets = d1.keaSubnets ∧ dB2.keaSubnetsV6 = d1.keaSubnetsV6 ∧
        dB2.ifaceCidrsV4 = d1.ifaceCidrsV4 ∧ dB2.ifaceCidrsV6 = d1.ifaceCidrsV6 ∧
        dB2.hasKea = d1.hasKea ∧ dB2.hasKeaDhcp4 = d1.hasKeaDhcp4 ∧
        dB2.hasKeaDhcp6 = d1.hasKeaDhcp6 ∧
        dB2.keaReservations = d1.keaReservations ∧
        dB2.keaReservationsV6 = d1.keaReservationsV6 ∧
        dB2.iscRangesV4 = d1.iscRangesV4 ∧ dB2.iscRangesV6 = d1.iscRangesV6 ∧
        dB2.iscOptionsV4 = d1.iscOptionsV4 ∧ dB2.iscOptionsV6 = d1.iscOptionsV6 := by
    by_cases hcs : o.createSubnets = true
    · simp only [hcs, if_true]
      have happ1 : apply_kea_subnets d ctx.desired4 ctx.desired6 o.forceSubnets
          = (dA, none) := by
        rw [← happ]
        simp [hcs]
      rcases apply_kea_subnets_ok happ1 with ⟨-, -, hofl4, hofl6⟩
      exact apply_kea_interfaces_ok_of
        (fun hne => by rw [hd1k, hd1k4]; exact hofl4 hne)
        (fun hne => by rw [hd1k, hd1k6]; exact hofl6 hne)
    · have hcs' : o.createSubnets = false := by
        revert hcs
        cases o.createSubnets <;> simp
      refine ⟨d1, [], ?_, rfl, rfl, rfl, rfl, rfl, rfl, rfl, rfl, rfl, rfl, rfl,
        rfl, rfl⟩
      simp [hcs']
  obtain ⟨dp2, hdp2, hp2s, hp2s6, hp2c4, hp2c6, hp2k, hp2k4, hp2k6, hp2r, hp2r6⟩ :
      ∃ dp2, dp2 = (if o.createOptions then apply_kea_options dB2
        (if o.createOptions then d1.iscOptionsV4 else [])
        (if o.createOptions then d1.iscOptionsV6 else []) o.forceOptions
        else dB2) ∧
        dp2.keaSubnets = d1.keaSubnets ∧ dp2.keaSubnetsV6 = d1.keaSubnetsV6 ∧
        dp2.ifaceCidrsV4 = d1.ifaceCidrsV4 ∧ dp2.ifaceCidrsV6 = d1.ifaceCidrsV6 ∧
        dp2.hasKea = d1.hasKea ∧ dp2.hasKeaDhcp4 = d1.hasKeaDhcp4 ∧
        dp2.hasKeaDhcp6 = d1.hasKeaDhcp6 ∧
        dp2.keaReservations = d1.keaReservations ∧
        dp2.keaReservationsV6 = d1.keaReservationsV6 := by
    by_cases hco : o.createOptions = true
    · have hcB : dB2.ifaceCidrsV4 = dB.ifaceCidrsV4 := by
        have hpc : dp.ifaceCidrsV4 = dB.ifaceCidrsV4 := by
          rw [hdp]
          simp only [hco, if_true]
          exact (apply_kea_options_keeps dB _ _ _).1
        rw [hB3, hd1c4, ← hfc4, hpc]
      have hcB6 : dB2.ifaceCidrsV6 = dB.ifaceCidrsV6 := by
        have hpc : dp.ifaceCidrsV6 = dB.ifaceCidrsV6 := by
          rw [hdp]
          simp only [hco, if_true]
          exact (apply_kea_options_keeps dB _ _ _).2.1
        rw [hB4, hd1c6, ← hfc6, hpc]
      have hshape : dp.keaSubnets = dB.keaSubnets.map (fun s =>
          match optForCidr4 dB.ifaceCidrsV4 d.iscOptionsV4 s.cidr with
          | some o => applyOptsToSubnet4 o false s
          | none => s) := by
        rw [hdp]
        simp only [hco, if_true]
        rw [hfo]
        rfl
      have hshape6 : dp.keaSubnetsV6 = dB.keaSubnetsV6.map (fun s =>
          match optForCidr6 dB.ifaceCidrsV6 d.iscOptionsV6 s.cidr with
          | some o => applyOptsToSubnet6 o false s
          | none => s) := by
        rw [hdp]
        simp only [hco, if_true]
        rw [hfo]
        rfl
      have hsub : dB2.keaSubnets = dB.keaSubnets.map (fun s =>
          match optForCidr4 dB2.ifaceCidrsV4 d1.iscOptionsV4 s.cidr with
          | some o => applyOptsToSubnet4 o false s
          | none => s) := by
        rw [hB1, hd1subs, hshape, hcB, hd1O4]
      have hsub6 : dB2.keaSubnetsV6 = dB.keaSubnetsV6.map (fun s =>
          match optForCidr6 dB2.ifaceCidrsV6 d1.iscOptionsV6 s.cidr with
          | some o => applyOptsToSubnet6 o false s
          | none => s) := by
        rw [hB2, hd1subs6, hshape6, hcB6, hd1O6]
      rcases apply_kea_options_stable hsub hsub6 with ⟨hx4, hx6⟩
      refine ⟨_, rfl, ?_, ?_, ?_, ?_, ?_, ?_, ?_, ?_, ?_⟩ <;>
        simp only [hco, if_true] <;> rw [hfo]
      · rw [hx4, hB1]
      · rw [hx6, hB2]
      · rw [(apply_kea_options_keeps dB2 _ _ _).1, hB3]
      · rw [(apply_kea_options_keeps dB2 _ _ _).2.1, hB4]
      · rw [(apply_kea_options_keeps dB2 _ _ _).2.2.2.2.1, hB5]
      · rw [(apply_kea_options_keeps dB2 _ _ _).2.2.2.2.2.1, hB6]
      · rw [(apply_kea_options_keeps dB2 _ _ _).2.2.2.2.2.2.1, hB7]
      · rw [(apply_kea_options_keeps dB2 _ _ _).2.2.1, hB8]
      · rw [(apply_kea_options_keeps dB2 _ _ _).2.2.2.1, hB9]
    · have hco' : o.createOptions = false := by
        revert hco
        cases o.createOptions <;> simp
      refine ⟨dB2, ?_, hB1, hB2, hB3, hB4, hB5, hB6, hB7, hB8, hB9⟩
      simp [hco']
  have hval4' : validate_mapping_ifaces_v4 ms dp2.ifaceCidrsV4 = .ok () := by
    rw [hp2c4, hd1c4, ← hfc4]
    exact hval4
  have hval6' : validate_mapping_ifaces_v6 ms6 dp2.ifaceCidrsV6 = .ok () := by
    rw [hp2c6, hd1c6, ← hfc6]
    exact hval6
  have hext2 : extract_kea_subnets dp2 = ctx.subs := by
    rw [← hext1]
    simp only [extract_kea_subnets, hp2s]
  have hext26 : extract_kea_subnets_v6 dp2 = ctx.subs6 := by
    rw [← hext16]
    simp only [extract_kea_subnets_v6, hp2s6]
  have hchecks' : keaBackendChecks dp2 ms.isEmpty ms6.isEmpty
      (extract_kea_subnets dp2) (extract_kea_subnets_v6 dp2)
      o.createSubnets ctx.desired4 ctx.desired6 = none := by
    rcases (keaBackendChecks_none_iff dp ms.isEmpty ms6.isEmpty ctx.subs ctx.subs6
      o.createSubnets ctx.desired4 ctx.desired6).mp hchecks with
      ⟨c1, c2, c3, c4, c5, c6⟩
    refine (keaBackendChecks_none_iff dp2 ms.isEmpty ms6.isEmpty _ _
      o.createSubnets ctx.desired4 ctx.desired6).mpr ?_
    rw [hext2, hext26]
    have hkd4 : has_kea_dhcp4 dp2 = has_kea_dhcp4 dp := by
      simp only [has_kea_dhcp4]
      rw [hp2k, hp2k4, hd1k, hd1k4, hfk, hfk4]
    have hkd6 : has_kea_dhcp6 dp2 = has_kea_dhcp6 dp := by
      simp only [has_kea_dhcp6]
      rw [hp2k, hp2k6, hd1k, hd1k6, hfk, hfk6]
    rw [hkd4, hkd6]
    exact ⟨c1, c2, c3, c4, c5, c6⟩
  have hpre2 : convert_kea_pre d1 ms ms6 o = (dp2, .ok ⟨ctx.desired4,
      ctx.desired6, ifc2, extract_kea_subnets dp2, extract_kea_subnets_v6 dp2,
      extract_existing_reservation_ips d1,
      extract_existing_reservation_ips_v6 d1,
      extract_existing_reservation_duids_v6 d1⟩) :=
    convert_kea_pre_build h4' h6' happ2 hifc2 hdp2 hval4' hval6' hchecks' hfe
  have hd1res4 : d1.keaReservations = d4.keaReservations := by
    rw [hfr2.1, hk6.2.2.2.2.2.2.2]
  have hd1res6 : d1.keaReservationsV6 = d5.keaReservationsV6 := by
    rw [hfr2.2.1]
  have hcov4 : ∀ m ∈ ms, m.ipaddr ∈ extract_existing_reservation_ips d1 := by
    intro m hm
    have hne : ms.isEmpty = false := by
      cases ms with
      | nil => cases hm
      | cons a t => rfl
    rcases keaRecordPhaseV4_ok hr4 with ⟨-, hcase⟩
    rcases hcase hne with ⟨hflags, herr, hcr, hsk, hd4⟩
    have hres := convLoopV4_all_reserved ctx.subs ms
      ⟨[], ctx.existingIps, 0, 0, none⟩ herr rfl m hm
    rcases convLoopV4_recs ctx.subs ms ⟨[], ctx.existingIps, 0, 0, none⟩ with
      ⟨new, hrecs, hresv, -, -, -⟩
    rw [hresv] at hres
    have hips1 : extract_existing_reservation_ips d1
        = extract_existing_reservation_ips d ++ new.map (fun r => r.ip) := by
      simp only [extract_existing_reservation_ips]
      rw [hd1res4, hd4]
      dsimp only
      rw [hrecs]
      dsimp only
      rw [List.nil_append, List.map_append, hfres]
    rw [hips1]
    rcases List.mem_append.mp hres with hin | hin
    · exact List.mem_append_right _ (List.mem_reverse.mp hin)
    · refine List.mem_append_left _ ?_
      rw [← hips]
      exact hin
  have hcov6 : ∀ m ∈ ms6, m.ipaddr ∈ extract_existing_reservation_ips_v6 d1 ∨
      m.duid ∈ extract_existing_reservation_duids_v6 d1 := by
    intro m hm
    have hne : ms6.isEmpty = false := by
      cases ms6 with
      | nil => cases hm
      | cons a t => rfl
    rcases keaRecordPhaseV6_ok hr6 with ⟨-, hcase⟩
    rcases hcase hne with ⟨hflags, herr, hcr, hsk, hd5⟩
    have hres := convLoopV6_all_reserved ctx.subs6 ms6
      ⟨[], ctx.existingIps6, ctx.existingDuids6, 0, 0, none⟩ herr rfl m hm
    rcases convLoopV6_recs ctx.subs6 ms6
      ⟨[], ctx.existingIps6, ctx.existingDuids6, 0, 0, none⟩ with
      ⟨new, hrecs, hresv, hresd, -, -, -⟩
    have hres4eq : d4.keaReservationsV6 = d.keaReservationsV6 := by
      rw [hk4.2.2.2.2.2.2.2, hfres6]
    have hips1 : extract_existing_reservation_ips_v6 d1
        = extract_existing_reservation_ips_v6 d ++ new.map (fun r => r.ip) := by
      simp only [extract_existing_reservation_ips_v6]
      rw [hd1res6, hd5]
      dsimp only
      rw [hrecs]
      dsimp only
      rw [List.nil_append, List.map_append, hres4eq]
    have hduids1 : extract_existing_reservation_duids_v6 d1
        = extract_existing_reservation_duids_v6 d ++ new.map (fun r => r.duid) := by
      simp only [extract_existing_reservation_duids_v6]
      rw [hd1res6, hd5]
      dsimp only
      rw [hrecs]
      dsimp only
      rw [List.nil_append, List.map_append, hres4eq]
    rcases hres with hip | hduid
    · rw [hresv] at hip
      rw [hips1]
      rcases List.mem_append.mp hip with hin | hin
      · exact Or.inl (List.mem_append_right _ (List.mem_reverse.mp hin))
      · refine Or.inl (List.mem_append_left _ ?_)
        rw [← hips6]
        exact hin
    · rw [hresd] at hduid
      rw [hduids1]
      rcases List.mem_append.mp hduid with hin | hin
      · exact Or.inr (List.mem_append_right _ (List.mem_reverse.mp hin))
      · refine Or.inr (List.mem_append_left _ ?_)
        rw [← hduids]
        exact hin
  have hr4' : keaRecordPhaseV4 dp2 ms (extract_kea_subnets dp2)
      (extract_existing_reservation_ips d1) = (dp2, .ok (0, ms.length)) :=
    keaRecordPhaseV4_all_skip hcov4 (fun hne => by
      rcases keaRecordPhaseV4_ok hr4 with ⟨-, hcase⟩
      rcases hcase hne with ⟨hflags, -⟩
      rw [hp2k, hp2k4, hd1k, hd1k4, ← hfk, ← hfk4]
      exact hflags)
  have hr6' : keaRecordPhaseV6 dp2 ms6 (extract_kea_subnets_v6 dp2)
      (extract_existing_reservation_ips_v6 d1)
      (extract_existing_reservation_duids_v6 d1) = (dp2, .ok (0, ms6.length)) :=
    keaRecordPhaseV6_all_skip hcov6 (fun hne => by
      rcases keaRecordPhaseV6_ok hr6 with ⟨-, hcase⟩
      rcases hcase hne with ⟨hflags, -⟩
      rw [hp2k, hp2k6, hd1k, hd1k6, ← hfk, ← hfk6, ← hk4.2.2.1, ← hk4.2.2.2.2.1]
      exact hflags)
  rcases @keaEnablePhase_ok_of dp2 o (extract_kea_subnets dp2)
      (extract_kea_subnets_v6 dp2)
      (fun he hne => by
        rcases keaEnablePhase_ok_inv he hen with ⟨he4, -, -, -, -, -, hfl, -⟩
        rw [hext2] at hne
        have ht : enOut.2.2.1 = true := by
          rw [he4, hne]
          rfl
        have hflags := hfl ht
        rw [hp2k, hp2k4, hd1k, hd1k4, ← hfk, ← hfk4, ← hk4.2.2.1, ← hk4.2.2.2.1,
          ← hk6.2.2.1, ← hk6.2.2.2.1]
        exact hflags)
      (fun he hne => by
        rcases keaEnablePhase_ok_inv he hen with ⟨-, he6, -, -, -, -, -, hfl⟩
        rw [hext26] at hne
        have ht : enOut.2.2.2 = true := by
          rw [he6, hne]
          rfl
        have hflags := hfl ht
        rw [hp2k, hp2k6, hd1k, hd1k6, ← hfk, ← hfk6, ← hk4.2.2.1, ← hk4.2.2.2.2.1,
          ← hk6.2.2.1, ← hk6.2.2.2.2.1]
        exact hflags) with ⟨X2, out2, henX⟩
  have hfrX := keaEnablePhase_frame dp2 o (extract_kea_subnets dp2)
    (extract_kea_subnets_v6 dp2)
  rw [henX] at hfrX
  dsimp only at hfrX
  have hpost2 := @convert_kea_post_build dp2 dp2 dp2 X2 ms ms6 o
    ⟨ctx.desired4, ctx.desired6, ifc2, extract_kea_subnets dp2,
     extract_kea_subnets_v6 dp2, extract_existing_reservation_ips d1,
     extract_existing_reservation_ips_v6 d1,
     extract_existing_reservation_duids_v6 d1⟩
    (0, ms.length) (0, ms6.length) out2 hr4' hr6' henX
  have hrun2 : convert_kea d1 ms ms6 o = convert_kea_post dp2 ms ms6 o
      ⟨ctx.desired4, ctx.desired6, ifc2, extract_kea_subnets dp2,
       extract_kea_subnets_v6 dp2, extract_existing_reservation_ips d1,
       extract_existing_reservation_ips_v6 d1,
       extract_existing_reservation_duids_v6 d1⟩ := by
    simp only [convert_kea]
    rw [hpre2]
  refine ⟨X2, ⟨ms.length, ms6.length, (extract_kea_subnets dp2).length,
      (extract_kea_subnets_v6 dp2).length, 0, 0, ms.length, ms6.length,
      ifc2, out2.1, out2.2.1, out2.2.2.1, out2.2.2.2⟩,
    ?_, ?_, ?_, ?_, ?_, rfl, rfl, rfl, rfl⟩
  · rw [hrun2]
    exact hpost2
  · rw [hfrX.1]
    exact hp2r
  · rw [hfrX.2.1]
    exact hp2r6
  · rw [hfrX.2.2.1]
    exact hp2s
  · rw [hfrX.2.2.2.1]
    exact hp2s6

/-- The dnsmasq v4 convert loop only grows the reserved sets. -/
theorem dnsConvLoopV4_mono :
    ∀ (ms : List IscStaticMap) (st : DnsConvSt),
    (∀ x, x ∈ st.reservedIps → x ∈ (dnsConvLoopV4 ms st).reservedIps) ∧
    (∀ x, x ∈ st.reservedMacs → x ∈ (dnsConvLoopV4 ms st).reservedMacs) ∧
    (∀ x, x ∈ st.reservedCids → x ∈ (dnsConvLoopV4 ms st).reservedCids) := by
  intro ms
  induction ms with
  | nil =>
    intro st
    exact ⟨fun x h => h, fun x h => h, fun x h => h⟩
  | cons m rest ih =>
    intro st
    by_cases hskip : (elemBy (IpAddr.v4 m.ipaddr) st.reservedIps ||
        elemBy m.mac st.reservedMacs) = true
    · simp only [dnsConvLoopV4, hskip, if_true]
      exact ih { st with skipped := st.skipped + 1 }
    · simp only [dnsConvLoopV4, hskip, Bool.false_eq_true, if_false]
      rcases ih { st with hosts := st.hosts ++ [create_dnsmasq_host_element m], reservedIps := IpAddr.v4 m.ipaddr :: st.reservedIps, reservedMacs := m.mac :: st.reservedMacs, created := st.created + 1 } with ⟨h1, h2, h3⟩
      exact ⟨fun x hx => h1 x (List.mem_cons_of_mem _ hx),
        fun x hx => h2 x (List.mem_cons_of_mem _ hx), fun x hx => h3 x hx⟩

/-- v6 analogue. -/
theorem dnsConvLoopV6_mono :
    ∀ (ms6 : List IscStaticMapV6) (st : DnsConvSt),
    (∀ x, x ∈ st.reservedIps → x ∈ (dnsConvLoopV6 ms6 st).reservedIps) ∧
    (∀ x, x ∈ st.reservedMacs → x ∈ (dnsConvLoopV6 ms6 st).reservedMacs) ∧
    (∀ x, x ∈ st.reservedCids → x ∈ (dnsConvLoopV6 ms6 st).reservedCids) := by
  intro ms6
  induction ms6 with
  | nil =>
    intro st
    exact ⟨fun x h => h, fun x h => h, fun x h => h⟩
  | cons m rest ih =>
    intro st
    by_cases hskip : (elemBy (IpAddr.v6 m.ipaddr) st.reservedIps ||
        elemBy m.duid st.reservedCids) = true
    · simp only [dnsConvLoopV6, hskip, if_true]
      exact ih { st with skippedV6 := st.skippedV6 + 1 }
    · simp only [dnsConvLoopV6, hskip, Bool.false_eq_true, if_false]
      rcases ih { st with hosts := st.hosts ++ [create_dnsmasq_host_element_v6 m], reservedIps := IpAddr.v6 m.ipaddr :: st.reservedIps, reservedCids := m.duid :: st.reservedCids, createdV6 := st.createdV6 + 1 } with ⟨h1, h2, h3⟩
      exact ⟨fun x hx => h1 x (List.mem_cons_of_mem _ hx),
        fun x hx => h2 x hx, fun x hx => h3 x (List.mem_cons_of_mem _ hx)⟩

/-- After the v4 convert loop every processed mapping has its address or
its MAC in the final reserved sets. -/
theorem dnsConvLoopV4_covers :
    ∀ (ms : List IscStaticMap) (st : DnsConvSt), ∀ m ∈ ms,
    IpAddr.v4 m.ipaddr ∈ (dnsConvLoopV4 ms st).reservedIps ∨
    m.mac ∈ (dnsConvLoopV4 ms st).reservedMacs := by
  intro ms
  induction ms with
  | nil =>
    intro st m hm
    exact absurd hm (List.not_mem_nil m)
  | cons m0 rest ih =>
    intro st m hm
    by_cases hskip : (elemBy (IpAddr.v4 m0.ipaddr) st.reservedIps ||
        elemBy m0.mac st.reservedMacs) = true
    · simp only [dnsConvLoopV4, hskip, if_true]
      rcases List.mem_cons.mp hm with rfl | hm'
      · rcases dnsConvLoopV4_mono rest { st with skipped := st.skipped + 1 } with
          ⟨h1, h2, -⟩
        rcases Bool.or_eq_true_iff.mp hskip with hip | hmac
        · exact Or.inl (h1 _ ((elemBy_iff _ _).mp hip))
        · exact Or.inr (h2 _ ((elemBy_iff _ _).mp hmac))
      · exact ih _ m hm'
    · simp only [dnsConvLoopV4, hskip, Bool.false_eq_true, if_false]
      rcases List.mem_cons.mp hm with rfl | hm'
      · rcases dnsConvLoopV4_mono rest { st with hosts := st.hosts ++ [create_dnsmasq_host_element m], reservedIps := IpAddr.v4 m.ipaddr :: st.reservedIps, reservedMacs := m.mac :: st.reservedMacs, created := st.created + 1 } with ⟨h1, -, -⟩
        exact Or.inl (h1 _ (List.mem_cons_self _ _))
      · exact ih _ m hm'

/-- v6 analogue (address or DUID covered). -/
theorem dnsConvLoopV6_covers :
    ∀ (ms6 : List IscStaticMapV6) (st : DnsConvSt), ∀ m ∈ ms6,
    IpAddr.v6 m.ipaddr ∈ (dnsConvLoopV6 ms6 st).reservedIps ∨
    m.duid ∈ (dnsConvLoopV6 ms6 st).reservedCids := by
  intro ms6
  induction ms6 with
  | nil =>
    intro st m hm
    exact absurd hm (List.not_mem_nil m)
  | cons m0 rest ih =>
    intro st m hm
    by_cases hskip : (elemBy (IpAddr.v6 m0.ipaddr) st.reservedIps ||
        elemBy m0.duid st.reservedCids) = true
    · simp only [dnsConvLoopV6, hskip, if_true]
      rcases List.mem_cons.mp hm with rfl | hm'
      · rcases dnsConvLoopV6_mono rest { st with skippedV6 := st.skippedV6 + 1 } with
          ⟨h1, -, h3⟩
        rcases Bool.or_eq_true_iff.mp hskip with hip | hcid
        · exact Or.inl (h1 _ ((elemBy_iff _ _).mp hip))
        · exact Or.inr (h3 _ ((elemBy_iff _ _).mp hcid))
      · exact ih _ m hm'
    · simp only [dnsConvLoopV6, hskip, Bool.false_eq_true, if_false]
      rcases List.mem_cons.mp hm with rfl | hm'
      · rcases dnsConvLoopV6_mono rest { st with hosts := st.hosts ++ [create_dnsmasq_host_element_v6 m], reservedIps := IpAddr.v6 m.ipaddr :: st.reservedIps, reservedCids := m.duid :: st.reservedCids, createdV6 := st.createdV6 + 1 } with ⟨h1, -, -⟩
        exact Or.inl (h1 _ (List.mem_cons_self _ _))
      · exact ih _ m hm'

/-- The v4 loop's final MAC set: the accepted hosts' hardware addresses on
top of the initial set. -/
theorem dnsConvLoopV4_macs :
    ∀ (ms : List IscStaticMap) (st : DnsConvSt),
    ∃ new, (dnsConvLoopV4 ms st).hosts = st.hosts ++ new ∧
      (dnsConvLoopV4 ms st).reservedMacs
        = (new.map (fun x => x.hw)).reverse ++ st.reservedMacs ∧
      (∀ x ∈ new, ∃ m ∈ ms, x = create_dnsmasq_host_element m) := by
  intro ms
  induction ms with
  | nil =>
    intro st
    exact ⟨[], by simp [dnsConvLoopV4], by simp [dnsConvLoopV4], by simp⟩
  | cons m rest ih =>
    intro st
    by_cases hskip : (elemBy (IpAddr.v4 m.ipaddr) st.reservedIps ||
        elemBy m.mac st.reservedMacs) = true
    · rcases ih { st with skipped := st.skipped + 1 } with ⟨new, h1, h2, h3⟩
      refine ⟨new, ?_⟩
      simp only [dnsConvLoopV4, hskip, if_true]
      exact ⟨h1, h2, fun x hx => by
        rcases h3 x hx with ⟨m', hm', hxe⟩
        exact ⟨m', List.mem_cons_of_mem m hm', hxe⟩⟩
    · rcases ih { st with hosts := st.hosts ++ [create_dnsmasq_host_element m], reservedIps := IpAddr.v4 m.ipaddr :: st.reservedIps, reservedMacs := m.mac :: st.reservedMacs, created := st.created + 1 } with ⟨new, h1, h2, h3⟩
      refine ⟨create_dnsmasq_host_element m :: new, ?_⟩
      simp only [dnsConvLoopV4, hskip, Bool.false_eq_true, if_false]
      refine ⟨by simpa using h1, ?_, ?_⟩
      · rw [h2]
        simp [create_dnsmasq_host_element]
      · intro x hx
        rcases List.mem_cons.mp hx with rfl | hx'
        · exact ⟨m, List.mem_cons_self m rest, rfl⟩
        · rcases h3 x hx' with ⟨m', hm', hxe⟩
          exact ⟨m', List.mem_cons_of_mem m hm', hxe⟩

/-- The v6 loop's final client-id set: the accepted hosts' client ids on
top of the initial set. -/
theorem dnsConvLoopV6_cids :
    ∀ (ms6 : List IscStaticMapV6) (st : DnsConvSt),
    ∃ new, (dnsConvLoopV6 ms6 st).hosts = st.hosts ++ new ∧
      (dnsConvLoopV6 ms6 st).reservedCids
        = (new.filterMap (fun x => x.clientId)).reverse ++ st.reservedCids ∧
      (∀ x ∈ new, ∃ m ∈ ms6, x = create_dnsmasq_host_element_v6 m) := by
  intro ms6
  induction ms6 with
  | nil =>
    intro st
    exact ⟨[], by simp [dnsConvLoopV6], by simp [dnsConvLoopV6], by simp⟩
  | cons m rest ih =>
    intro st
    by_cases hskip : (elemBy (IpAddr.v6 m.ipaddr) st.reservedIps ||
        elemBy m.duid st.reservedCids) = true
    · rcases ih { st with skippedV6 := st.skippedV6 + 1 } with ⟨new, h1, h2, h3⟩
      refine ⟨new, ?_⟩
      simp only [dnsConvLoopV6, hskip, if_true]
      exact ⟨h1, h2, fun x hx => by
        rcases h3 x hx with ⟨m', hm', hxe⟩
        exact ⟨m', List.mem_cons_of_mem m hm', hxe⟩⟩
    · rcases ih { st with hosts := st.hosts ++ [create_dnsmasq_host_element_v6 m], reservedIps := IpAddr.v6 m.ipaddr :: st.reservedIps, reservedCids := m.duid :: st.reservedCids, createdV6 := st.createdV6 + 1 } with ⟨new, h1, h2, h3⟩
      refine ⟨create_dnsmasq_host_element_v6 m :: new, ?_⟩
      simp only [dnsConvLoopV6, hskip, Bool.false_eq_true, if_false]
      refine ⟨by simpa using h1, ?_, ?_⟩
      · rw [h2]
        simp [create_dnsmasq_host_element_v6]
      · intro x hx
        rcases List.mem_cons.mp hx with rfl | hx'
        · exact ⟨m, List.mem_cons_self m rest, rfl⟩
        · rcases h3 x hx' with ⟨m', hm', hxe⟩
          exact ⟨m', List.mem_cons_of_mem m hm', hxe⟩

/-- With every mapping covered by the initial sets, the v4 convert loop
only counts skips. -/
theorem dnsConvLoopV4_all_skip :
    ∀ (ms : List IscStaticMap) (st : DnsConvSt),
    (∀ m ∈ ms, IpAddr.v4 m.ipaddr ∈ st.reservedIps ∨ m.mac ∈ st.reservedMacs) →
    dnsConvLoopV4 ms st = { st with skipped := st.skipped + ms.length } := by
  intro ms
  induction ms with
  | nil =>
    intro st _
    simp [dnsConvLoopV4]
  | cons m rest ih =>
    intro st hall
    have hm : (elemBy (IpAddr.v4 m.ipaddr) st.reservedIps ||
        elemBy m.mac st.reservedMacs) = true := by
      rcases hall m (List.mem_cons_self m rest) with hip | hmac
      · simp [elemBy_iff, hip]
      · simp [elemBy_iff, hmac]
    simp only [dnsConvLoopV4, hm, if_true]
    rw [ih { st with skipped := st.skipped + 1 }
      (fun m' hm' => hall m' (List.mem_cons_of_mem m hm'))]
    congr 1
    simp
    omega

/-- v6 analogue. -/
theorem dnsConvLoopV6_all_skip :
    ∀ (ms6 : List IscStaticMapV6) (st : DnsConvSt),
    (∀ m ∈ ms6, IpAddr.v6 m.ipaddr ∈ st.reservedIps ∨ m.duid ∈ st.reservedCids) →
    dnsConvLoopV6 ms6 st = { st with skippedV6 := st.skippedV6 + ms6.length } := by
  intro ms6
  induction ms6 with
  | nil =>
    intro st _
    simp [dnsConvLoopV6]
  | cons m rest ih =>
    intro st hall
    have hm : (elemBy (IpAddr.v6 m.ipaddr) st.reservedIps ||
        elemBy m.duid st.reservedCids) = true := by
      rcases hall m (List.mem_cons_self m rest) with hip | hcid
      · simp [elemBy_iff, hip]
      · simp [elemBy_iff, hcid]
    simp only [dnsConvLoopV6, hm, if_true]
    rw [ih { st with skippedV6 := st.skippedV6 + 1 }
      (fun m' hm' => hall m' (List.mem_cons_of_mem m hm'))]
    congr 1
    simp
    omega

theorem optKeys_append (a b : List DnsmasqOpt) :
    optKeys (a ++ b) = optKeys a ++ optKeys b := by
  simp [optKeys, List.filter_append]

theorem extract_opts_eq_optKeys (d : Doc) :
    extract_existing_dnsmasq_options d = optKeys d.dnsmasqOpts := rfl

theorem applyRanges_all_skip (existing : List RangeKey) (mk : IscRange → RangeKey) :
    ∀ (rs : List IscRange) (cur : List RangeKey),
    (∀ r ∈ rs, mk r ∈ existing) →
    applyRanges existing false mk rs cur = cur := by
  intro rs
  induction rs with
  | nil =>
    intro cur _
    rfl
  | cons r rest ih =>
    intro cur hall
    have hm : elemBy (mk r) existing = true :=
      (elemBy_iff _ _).mpr (hall r (List.mem_cons_self r rest))
    have hstep : applyRanges existing false mk (r :: rest) cur
        = applyRanges existing false mk rest cur := by
      simp only [applyRanges, List.foldl_cons, hm, if_true, Bool.false_eq_true,
        if_false]
    rw [hstep]
    exact ih cur (fun x hx => hall x (List.mem_cons_of_mem r hx))

theorem applyRanges_mono (existing : List RangeKey) (mk : IscRange → RangeKey) :
    ∀ (rs : List IscRange) (cur : List RangeKey), ∀ x ∈ cur,
    x ∈ applyRanges existing false mk rs cur := by
  intro rs
  induction rs with
  | nil =>
    intro cur x hx
    exact hx
  | cons r rest ih =>
    intro cur x hx
    by_cases hm : elemBy (mk r) existing = true
    · have hstep : applyRanges existing false mk (r :: rest) cur
          = applyRanges existing false mk rest cur := by
        simp only [applyRanges, List.foldl_cons, hm, if_true, Bool.false_eq_true,
          if_false]
      rw [hstep]
      exact ih cur x hx
    · have hm' : elemBy (mk r) existing = false := by
        revert hm
        cases elemBy (mk r) existing <;> simp
      have hstep : applyRanges existing false mk (r :: rest) cur
          = applyRanges existing false mk rest (cur ++ [mk r]) := by
        simp only [applyRanges, List.foldl_cons, hm', Bool.false_eq_true, if_false]
      rw [hstep]
      exact ih (cur ++ [mk r]) x (List.mem_append_left _ hx)

theorem applyRanges_covers (existing : List RangeKey) (mk : IscRange → RangeKey) :
    ∀ (rs : List IscRange) (cur : List RangeKey), ∀ r ∈ rs,
    mk r ∈ existing ∨ mk r ∈ applyRanges existing false mk rs cur := by
  intro rs
  induction rs with
  | nil =>
    intro cur r hr
    exact absurd hr (List.not_mem_nil r)
  | cons r0 rest ih =>
    intro cur r hr
    rcases List.mem_cons.mp hr with rfl | hr'
    · by_cases hm : elemBy (mk r) existing = true
      · exact Or.inl ((elemBy_iff _ _).mp hm)
      · have hm' : elemBy (mk r) existing = false := by
          revert hm
          cases elemBy (mk r) existing <;> simp
        have hstep : applyRanges existing false mk (r :: rest) cur
            = applyRanges existing false mk rest (cur ++ [mk r]) := by
          simp only [applyRanges, List.foldl_cons, hm', Bool.false_eq_true, if_false]
        rw [hstep]
        exact Or.inr (applyRanges_mono existing mk rest (cur ++ [mk r]) (mk r)
          (List.mem_append_right _ (List.mem_singleton.mpr rfl)))
    · by_cases hm : elemBy (mk r0) existing = true
      · have hstep : applyRanges existing false mk (r0 :: rest) cur
            = applyRanges existing false mk rest cur := by
          simp only [applyRanges, List.foldl_cons, hm, if_true, Bool.false_eq_true,
            if_false]
        rw [hstep]
        exact ih cur r hr'
      · have hm' : elemBy (mk r0) existing = false := by
          revert hm
          cases elemBy (mk r0) existing <;> simp
        have hstep : applyRanges existing false mk (r0 :: rest) cur
            = applyRanges existing false mk rest (cur ++ [mk r0]) := by
          simp only [applyRanges, List.foldl_cons, hm', Bool.false_eq_true, if_false]
        rw [hstep]
        exact ih (cur ++ [mk r0]) r hr'

theorem applyDesiredRangesV4_all_skip (existing : List RangeKey) :
    ∀ (des : List DesiredSubnet) (cur : List RangeKey),
    (∀ ds ∈ des, ∀ r ∈ ds.ranges, create_dnsmasq_range_element_v4 ds.iface
      r.rangeFrom r.rangeTo ds.cidr.plen ∈ existing) →
    applyDesiredRangesV4 existing false des cur = cur := by
  intro des
  induction des with
  | nil =>
    intro cur _
    rfl
  | cons ds rest ih =>
    intro cur hall
    have hstep : applyDesiredRangesV4 existing false (ds :: rest) cur
        = applyDesiredRangesV4 existing false rest
          (applyRanges existing false (fun r => create_dnsmasq_range_element_v4
            ds.iface r.rangeFrom r.rangeTo ds.cidr.plen) ds.ranges cur) := by
      simp only [applyDesiredRangesV4, List.foldl_cons]
    rw [hstep, applyRanges_all_skip existing _ ds.ranges cur
      (fun r hr => hall ds (List.mem_cons_self ds rest) r hr)]
    exact ih cur (fun x hx r hr => hall x (List.mem_cons_of_mem ds hx) r hr)

theorem applyDesiredRangesV6_all_skip (existing : List RangeKey) :
    ∀ (des : List DesiredSubnet) (cur : List RangeKey),
    (∀ ds ∈ des, ∀ r ∈ ds.ranges, create_dnsmasq_range_element_v6 ds.iface
      r.rangeFrom r.rangeTo ds.cidr.plen ∈ existing) →
    applyDesiredRangesV6 existing false des cur = cur := by
  intro des
  induction des with
  | nil =>
    intro cur _
    rfl
  | cons ds rest ih =>
    intro cur hall
    have hstep : applyDesiredRangesV6 existing false (ds :: rest) cur
        = applyDesiredRangesV6 existing false rest
          (applyRanges existing false (fun r => create_dnsmasq_range_element_v6
            ds.iface r.rangeFrom r.rangeTo ds.cidr.plen) ds.ranges cur) := by
      simp only [applyDesiredRangesV6, List.foldl_cons]
    rw [hstep, applyRanges_all_skip existing _ ds.ranges cur
      (fun r hr => hall ds (List.mem_cons_self ds rest) r hr)]
    exact ih cur (fun x hx r hr => hall x (List.mem_cons_of_mem ds hx) r hr)

theorem applyDesiredRangesV4_mono (existing : List RangeKey) :
    ∀ (des : List DesiredSubnet) (cur : List RangeKey), ∀ x ∈ cur,
    x ∈ applyDesiredRangesV4 existing false des cur := by
  intro des
  induction des with
  | nil =>
    intro cur x hx
    exact hx
  | cons ds rest ih =>
    intro cur x hx
    have hstep : applyDesiredRangesV4 existing false (ds :: rest) cur
        = applyDesiredRangesV4 existing false rest
          (applyRanges existing false (fun r => create_dnsmasq_range_element_v4
            ds.iface r.rangeFrom r.rangeTo ds.cidr.plen) ds.ranges cur) := by
      simp only [applyDesiredRangesV4, List.foldl_cons]
    rw [hstep]
    exact ih _ x (applyRanges_mono existing _ ds.ranges cur x hx)

theorem applyDesiredRangesV6_mono (existing : List RangeKey) :
    ∀ (des : List DesiredSubnet) (cur : List RangeKey), ∀ x ∈ cur,
    x ∈ applyDesiredRangesV6 existing false des cur := by
  intro des
  induction des with
  | nil =>
    intro cur x hx
    exact hx
  | cons ds rest ih =>
    intro cur x hx
    have hstep : applyDesiredRangesV6 existing false (ds :: rest) cur
        = applyDesiredRangesV6 existing false rest
          (applyRanges existing false (fun r => create_dnsmasq_range_element_v6
            ds.iface r.rangeFrom r.rangeTo ds.cidr.plen) ds.ranges cur) := by
      simp only [applyDesiredRangesV6, List.foldl_cons]
    rw [hstep]
    exact ih _ x (applyRanges_mono existing _ ds.ranges cur x hx)

theorem applyDesiredRangesV4_covers (existing : List RangeKey) :
    ∀ (des : List DesiredSubnet) (cur : List RangeKey), ∀ ds ∈ des, ∀ r ∈ ds.ranges,
    create_dnsmasq_range_element_v4 ds.iface r.rangeFrom r.rangeTo ds.cidr.plen
      ∈ existing ∨
    create_dnsmasq_range_element_v4 ds.iface r.rangeFrom r.rangeTo ds.cidr.plen
      ∈ applyDesiredRangesV4 existing false des cur := by
  intro des
  induction des with
  | nil =>
    intro cur ds hds
    exact absurd hds (List.not_mem_nil ds)
  | cons ds0 rest ih =>
    intro cur ds hds r hr
    have hstep : applyDesiredRangesV4 existing false (ds0 :: rest) cur
        = applyDesiredRangesV4 existing false rest
          (applyRanges existing false (fun r => create_dnsmasq_range_element_v4
            ds0.iface r.rangeFrom r.rangeTo ds0.cidr.plen) ds0.ranges cur) := by
      simp only [applyDesiredRangesV4, List.foldl_cons]
    rcases List.mem_cons.mp hds with rfl | hds'
    · rcases applyRanges_covers existing (fun r => create_dnsmasq_range_element_v4
        ds.iface r.rangeFrom r.rangeTo ds.cidr.plen) ds.ranges cur r hr with
        hin | hin
      · exact Or.inl hin
      · rw [hstep]
        exact Or.inr (applyDesiredRangesV4_mono existing rest _ _ hin)
    · rw [hstep]
      exact ih _ ds hds' r hr

theorem applyDesiredRangesV6_covers (existing : List RangeKey) :
    ∀ (des : List DesiredSubnet) (cur : List RangeKey), ∀ ds ∈ des, ∀ r ∈ ds.ranges,
    create_dnsmasq_range_element_v6 ds.iface r.rangeFrom r.rangeTo ds.cidr.plen
      ∈ existing ∨
    create_dnsmasq_range_element_v6 ds.iface r.rangeFrom r.rangeTo ds.cidr.plen
      ∈ applyDesiredRangesV6 existing false des cur := by
  intro des
  induction des with
  | nil =>
    intro cur ds hds
    exact absurd hds (List.not_mem_nil ds)
  | cons ds0 rest ih =>
    intro cur ds hds r hr
    have hstep : applyDesiredRangesV6 existing false (ds0 :: rest) cur
        = applyDesiredRangesV6 existing false rest
          (applyRanges existing false (fun r => create_dnsmasq_range_element_v6
            ds0.iface r.rangeFrom r.rangeTo ds0.cidr.plen) ds0.ranges cur) := by
      simp only [applyDesiredRangesV6, List.foldl_cons]
    rcases List.mem_cons.mp hds with rfl | hds'
    · rcases applyRanges_covers existing (fun r => create_dnsmasq_range_element_v6
        ds.iface r.rangeFrom r.rangeTo ds.cidr.plen) ds.ranges cur r hr with
        hin | hin
      · exact Or.inl hin
      · rw [hstep]
        exact Or.inr (applyDesiredRangesV6_mono existing rest _ _ hin)
    · rw [hstep]
      exact ih _ ds hds' r hr

theorem applyDnsmasqOptions_all_skip (existing : List OptKey) :
    ∀ (specs : List DnsmasqOptionSpec) (cur : List DnsmasqOpt),
    (∀ spec ∈ specs, option_key_for_spec spec ∈ existing) →
    applyDnsmasqOptions existing false specs cur = cur := by
  intro specs
  induction specs with
  | nil =>
    intro cur _
    rfl
  | cons spec rest ih =>
    intro cur hall
    have hm : elemBy (option_key_for_spec spec) existing = true :=
      (elemBy_iff _ _).mpr (hall spec (List.mem_cons_self spec rest))
    have hstep : applyDnsmasqOptions existing false (spec :: rest) cur
        = applyDnsmasqOptions existing false rest cur := by
      simp only [applyDnsmasqOptions, List.foldl_cons, hm, if_true,
        Bool.false_eq_true, if_false]
    rw [hstep]
    exact ih cur (fun x hx => hall x (List.mem_cons_of_mem spec hx))

theorem applyDnsmasqOptions_mono (existing : List OptKey) :
    ∀ (specs : List DnsmasqOptionSpec) (cur : List DnsmasqOpt), ∀ k ∈ optKeys cur,
    k ∈ optKeys (applyDnsmasqOptions existing false specs cur) := by
  intro specs
  induction specs with
  | nil =>
    intro cur k hk
    exact hk
  | cons spec rest ih =>
    intro cur k hk
    by_cases hm : elemBy (option_key_for_spec spec) existing = true
    · have hstep : applyDnsmasqOptions existing false (spec :: rest) cur
          = applyDnsmasqOptions existing false rest cur := by
        simp only [applyDnsmasqOptions, List.foldl_cons, hm, if_true,
          Bool.false_eq_true, if_false]
      rw [hstep]
      exact ih cur k hk
    · have hm' : elemBy (option_key_for_spec spec) existing = false := by
        revert hm
        cases elemBy (option_key_for_spec spec) existing <;> simp
      have hstep : applyDnsmasqOptions existing false (spec :: rest) cur
          = applyDnsmasqOptions existing false rest
            (cur ++ [create_dnsmasq_option_element spec.iface spec.option
              spec.option6 spec.value]) := by
        simp only [applyDnsmasqOptions, List.foldl_cons, hm', Bool.false_eq_true,
          if_false]
      rw [hstep]
      refine ih _ k ?_
      rw [optKeys_append]
      exact List.mem_append_left _ hk

theorem applyDnsmasqOptions_covers (existing : List OptKey) :
    ∀ (specs : List DnsmasqOptionSpec) (cur : List DnsmasqOpt), ∀ spec ∈ specs,
    option_key_for_spec spec ∈ existing ∨
    option_key_for_spec spec
      ∈ optKeys (applyDnsmasqOptions existing false specs cur) := by
  intro specs
  induction specs with
  | nil =>
    intro cur spec hs
    exact absurd hs (List.not_mem_nil spec)
  | cons spec0 rest ih =>
    intro cur spec hs
    rcases List.mem_cons.mp hs with rfl | hs'
    · by_cases hm : elemBy (option_key_for_spec spec) existing = true
      · exact Or.inl ((elemBy_iff _ _).mp hm)
      · have hm' : elemBy (option_key_for_spec spec) existing = false := by
          revert hm
          cases elemBy (option_key_for_spec spec) existing <;> simp
        have hstep : applyDnsmasqOptions existing false (spec :: rest) cur
            = applyDnsmasqOptions existing false rest
              (cur ++ [create_dnsmasq_option_element spec.iface spec.option
                spec.option6 spec.value]) := by
          simp only [applyDnsmasqOptions, List.foldl_cons, hm', Bool.false_eq_true,
            if_false]
        rw [hstep]
        refine Or.inr (applyDnsmasqOptions_mono existing rest _ _ ?_)
        rw [optKeys_append]
        refine List.mem_append_right _ ?_
        show option_key_for_spec spec ∈ optKeys [create_dnsmasq_option_element
          spec.iface spec.option spec.option6 spec.value]
        simp [optKeys, create_dnsmasq_option_element, dnsmasq_option_key,
          option_key_for_spec, eqIgnoreAsciiCase]
    · by_cases hm : elemBy (option_key_for_spec spec0) existing = true
      · have hstep : applyDnsmasqOptions existing false (spec0 :: rest) cur
            = applyDnsmasqOptions existing false rest cur := by
          simp only [applyDnsmasqOptions, List.foldl_cons, hm, if_true,
            Bool.false_eq_true, if_false]
        rw [hstep]
        exact ih cur spec hs'
      · have hm' : elemBy (option_key_for_spec spec0) existing = false := by
          revert hm
          cases elemBy (option_key_for_spec spec0) existing <;> simp
        have hstep : applyDnsmasqOptions existing false (spec0 :: rest) cur
            = applyDnsmasqOptions existing false rest
              (cur ++ [create_dnsmasq_option_element spec0.iface spec0.option
                spec0.option6 spec0.value]) := by
          simp only [applyDnsmasqOptions, List.foldl_cons, hm', Bool.false_eq_true,
            if_false]
        rw [hstep]
        exact ih _ spec hs'

/-- Fields `enable_dnsmasq` keeps besides the host/range/option lists. -/
theorem enable_dnsmasq_keeps2 (d : Doc) :
    (enable_dnsmasq d).1.ifaceCidrsV4 = d.ifaceCidrsV4 ∧
    (enable_dnsmasq d).1.ifaceCidrsV6 = d.ifaceCidrsV6 ∧
    (enable_dnsmasq d).1.iscRangesV4 = d.iscRangesV4 ∧
    (enable_dnsmasq d).1.iscRangesV6 = d.iscRangesV6 ∧
    (enable_dnsmasq d).1.iscOptionsV4 = d.iscOptionsV4 ∧
    (enable_dnsmasq d).1.iscOptionsV6 = d.iscOptionsV6 ∧
    (enable_dnsmasq d).1.hasDnsmasq = d.hasDnsmasq := by
  simp only [enable_dnsmasq]
  split <;> exact ⟨rfl, rfl, rfl, rfl, rfl, rfl, rfl⟩

/-- A successful `convert_dnsmasq` splits into the pre and post phases. -/
theorem convert_dnsmasq_ok_inv {d d1 : Doc} {ms : List IscStaticMap}
    {ms6 : List IscStaticMapV6} {o : MOpts} {stats : MStats}
    (h : convert_dnsmasq d ms ms6 o = (d1, .ok stats)) :
    ∃ ctx, convert_dnsmasq_pre d ms ms6 o = .ok ctx ∧
      convert_dnsmasq_post d ms ms6 o ctx = (d1, .ok stats) := by
  simp only [convert_dnsmasq] at h
  split at h
  · simp at h
  rename_i ctx hpre
  exact ⟨ctx, hpre, h⟩

/-- Further dissection of a successful `convert_dnsmasq_post`: the
backend-presence checks passed and the document frame is preserved. -/
theorem convert_dnsmasq_post_ok2 {d d' : Doc} {ms : List IscStaticMap}
    {ms6 : List IscStaticMapV6} {o : MOpts} {ctx : DnsCtx} {stats : MStats}
    (h : convert_dnsmasq_post d ms ms6 o ctx = (d', .ok stats)) :
    (dnsmasq_work_exists ms.isEmpty ms6.isEmpty o ctx.desired4 ctx.desired6
      ctx.desiredOptions && !(has_dnsmasq d)) = false ∧
    (∃ d4 ifc, (if o.createSubnets then apply_dnsmasq_interfaces
        (dnsMutate d ms ms6 o ctx) ctx.desired4 ctx.desired6
      else (dnsMutate d ms ms6 o ctx, none, [])) = (d4, none, ifc)) ∧
    (o.enableBackend = true → (!ctx.desired4.isEmpty || !ctx.desired6.isEmpty ||
      !ctx.existingRanges.isEmpty) = true → has_dnsmasq d = true) ∧
    d'.ifaceCidrsV4 = d.ifaceCidrsV4 ∧ d'.ifaceCidrsV6 = d.ifaceCidrsV6 ∧
    d'.iscRangesV4 = d.iscRangesV4 ∧ d'.iscRangesV6 = d.iscRangesV6 ∧
    d'.iscOptionsV4 = d.iscOptionsV4 ∧ d'.iscOptionsV6 = d.iscOptionsV6 ∧
    d'.hasDnsmasq = d.hasDnsmasq := by
  simp only [convert_dnsmasq_post] at h
  split at h
  · simp at h
  rename_i hbc
  have hbc' : (dnsmasq_work_exists ms.isEmpty ms6.isEmpty o ctx.desired4
      ctx.desired6 ctx.desiredOptions && !(has_dnsmasq d)) = false :=
    Bool.eq_false_iff.mpr hbc
  split at h
  · simp at h
  rename_i d4 ifc happ
  have hmut := dnsMutate_spec d ms ms6 o ctx
  have hd4fr : d4.ifaceCidrsV4 = d.ifaceCidrsV4 ∧ d4.ifaceCidrsV6 = d.ifaceCidrsV6 ∧
      d4.iscRangesV4 = d.iscRangesV4 ∧ d4.iscRangesV6 = d.iscRangesV6 ∧
      d4.iscOptionsV4 = d.iscOptionsV4 ∧ d4.iscOptionsV6 = d.iscOptionsV6 ∧
      d4.hasDnsmasq = d.hasDnsmasq := by
    have h1 := congrArg (fun p => p.1) happ
    dsimp only at h1
    revert h1
    split
    · intro h1
      have hk := apply_dnsmasq_interfaces_keeps (dnsMutate d ms ms6 o ctx)
        ctx.desired4 ctx.desired6
      rw [h1] at hk
      exact ⟨hk.2.2.2.1.trans hmut.2.1, hk.2.2.2.2.1.trans hmut.2.2.1,
        hk.2.2.2.2.2.1.trans hmut.2.2.2.1, hk.2.2.2.2.2.2.1.trans hmut.2.2.2.2.1,
        hk.2.2.2.2.2.2.2.1.trans hmut.2.2.2.2.2.1,
        hk.2.2.2.2.2.2.2.2.1.trans hmut.2.2.2.2.2.2.1,
        hk.2.2.2.2.2.2.2.2.2.trans hmut.2.2.2.2.2.2.2⟩
    · intro h1
      rw [← h1]
      exact ⟨hmut.2.1, hmut.2.2.1, hmut.2.2.2.1, hmut.2.2.2.2.1,
        hmut.2.2.2.2.2.1, hmut.2.2.2.2.2.2.1, hmut.2.2.2.2.2.2.2⟩
  refine ⟨hbc', ⟨d4, ifc, happ⟩, ?_⟩
  split at h
  · rename_i he
    rcases hdis : disable_isc_dhcp_from_config d4 with ⟨d5, dis4, dis6⟩
    rw [hdis] at h
    dsimp only at h
    have hd5 : d5 = { d4 with iscEnabledV4 := [], iscEnabledV6 := [] } := by
      have h1 := congrArg Prod.fst hdis
      dsimp only [disable_isc_dhcp_from_config] at h1
      exact h1.symm
    rcases hen2 : (if (!ctx.desired4.isEmpty || !ctx.desired6.isEmpty ||
        !ctx.existingRanges.isEmpty) then enable_dnsmasq d5 else (d5, false)) with
      ⟨d6, en⟩
    rw [hen2] at h
    dsimp only at h
    split at h
    · simp at h
    rename_i hchk
    simp only [Prod.mk.injEq, Except.ok.injEq] at h
    obtain ⟨hd6, -⟩ := h
    have hfr6 : d6.ifaceCidrsV4 = d5.ifaceCidrsV4 ∧
        d6.ifaceCidrsV6 = d5.ifaceCidrsV6 ∧
        d6.iscRangesV4 = d5.iscRangesV4 ∧ d6.iscRangesV6 = d5.iscRangesV6 ∧
        d6.iscOptionsV4 = d5.iscOptionsV4 ∧ d6.iscOptionsV6 = d5.iscOptionsV6 ∧
        d6.hasDnsmasq = d5.hasDnsmasq := by
      have h1 := congrArg Prod.fst hen2
      dsimp only at h1
      revert h1
      split
      · intro h1
        have hk := enable_dnsmasq_keeps2 d5
        rw [h1] at hk
        exact hk
      · intro h1
        rw [← h1]
        exact ⟨rfl, rfl, rfl, rfl, rfl, rfl, rfl⟩
    have hranges : (!ctx.desired4.isEmpty || !ctx.desired6.isEmpty ||
        !ctx.existingRanges.isEmpty) = true → has_dnsmasq d = true := by
      intro hhr
      have hen' : en = true := by
        revert hchk
        rw [hhr]
        cases en <;> simp
      rw [hhr] at hen2
      simp only [if_true] at hen2
      by_cases hdns : d5.hasDnsmasq = true
      · show d.hasDnsmasq = true
        rw [← hd4fr.2.2.2.2.2.2]
        rw [hd5] at hdns
        exact hdns
      · exfalso
        have hdns' : d5.hasDnsmasq = false := by
          revert hdns
          cases d5.hasDnsmasq <;> simp
        simp only [enable_dnsmasq, hdns', Bool.false_eq_true, if_false,
          Prod.mk.injEq] at hen2
        rw [← hen2.2] at hen'
        simp at hen'
    refine ⟨fun _ hhr => hranges hhr, ?_⟩
    have h5f : d5.ifaceCidrsV4 = d4.ifaceCidrsV4 ∧
        d5.ifaceCidrsV6 = d4.ifaceCidrsV6 ∧
        d5.iscRangesV4 = d4.iscRangesV4 ∧ d5.iscRangesV6 = d4.iscRangesV6 ∧
        d5.iscOptionsV4 = d4.iscOptionsV4 ∧ d5.iscOptionsV6 = d4.iscOptionsV6 ∧
        d5.hasDnsmasq = d4.hasDnsmasq := by
      rw [hd5]
      exact ⟨rfl, rfl, rfl, rfl, rfl, rfl, rfl⟩
    rw [← hd6]
    exact ⟨(hfr6.1.trans h5f.1).trans hd4fr.1,
      (hfr6.2.1.trans h5f.2.1).trans hd4fr.2.1,
      (hfr6.2.2.1.trans h5f.2.2.1).trans hd4fr.2.2.1,
      (hfr6.2.2.2.1.trans h5f.2.2.2.1).trans hd4fr.2.2.2.1,
      (hfr6.2.2.2.2.1.trans h5f.2.2.2.2.1).trans hd4fr.2.2.2.2.1,
      (hfr6.2.2.2.2.2.1.trans h5f.2.2.2.2.2.1).trans hd4fr.2.2.2.2.2.1,
      (hfr6.2.2.2.2.2.2.trans h5f.2.2.2.2.2.2).trans hd4fr.2.2.2.2.2.2⟩
  · rename_i he
    simp only [Prod.mk.injEq, Except.ok.injEq] at h
    obtain ⟨hd6, -⟩ := h
    have he' : o.enableBackend = false := Bool.eq_false_iff.mpr he
    refine ⟨fun ht => absurd ht (by simp [he']), ?_⟩
    rw [← hd6]
    exact hd4fr

/-- Forward construction of a successful `convert_dnsmasq_pre`. -/
theorem convert_dnsmasq_pre_build {d : Doc} {ms : List IscStaticMap}
    {ms6 : List IscStaticMapV6} {o : MOpts} {des4 des6 : List DesiredSubnet}
    {specs : List DnsmasqOptionSpec}
    (h4 : (if o.createSubnets || o.enableBackend then desired_subnets_v4 d
      else .ok []) = .ok des4)
    (h6 : (if o.createSubnets || o.enableBackend then desired_subnets_v6 d
      else .ok []) = .ok des6)
    (hspecs : specs = (if o.createOptions then dnsmasq_option_specs_from_isc
      (if o.createOptions then d.iscOptionsV4 else [])
      (if o.createOptions then d.iscOptionsV6 else []) else []))
    (hbc : dnsmasq_backend_missing d ms.isEmpty ms6.isEmpty des4 des6 specs
      = false)
    (hfie : dnsmasq_fail_existing o (extract_existing_dnsmasq_ips d)
      (extract_existing_dnsmasq_macs d) (extract_existing_dnsmasq_client_ids d)
      (extract_existing_dnsmasq_ranges d) = false)
    (hval4 : validate_mapping_ifaces_v4 ms d.ifaceCidrsV4 = .ok ())
    (hval6 : validate_mapping_ifaces_v6 ms6 d.ifaceCidrsV6 = .ok ()) :
    convert_dnsmasq_pre d ms ms6 o = .ok ⟨des4, des6, specs,
      extract_existing_dnsmasq_ips d, extract_existing_dnsmasq_macs d,
      extract_existing_dnsmasq_client_ids d, extract_existing_dnsmasq_ranges d,
      (if o.createOptions then extract_existing_dnsmasq_options d else [])⟩ := by
  subst hspecs
  simp only [convert_dnsmasq_pre]
  rw [h4]
  dsimp only
  rw [h6]
  dsimp only
  rw [hbc]
  simp only [Bool.false_eq_true, if_false]
  rw [hfie]
  simp only [Bool.false_eq_true, if_false]
  rw [hval4]
  dsimp only
  rw [hval6]

/-- Forward construction of a successful `convert_dnsmasq_post` from the
outcomes of its checks. -/
theorem convert_dnsmasq_post_build {d d4 : Doc} {ms : List IscStaticMap}
    {ms6 : List IscStaticMapV6} {o : MOpts} {ctx : DnsCtx} {ifc : List String}
    (hbc : (dnsmasq_work_exists ms.isEmpty ms6.isEmpty o ctx.desired4
      ctx.desired6 ctx.desiredOptions && !(has_dnsmasq d)) = false)
    (happ : (if o.createSubnets then apply_dnsmasq_interfaces
        (dnsMutate d ms ms6 o ctx) ctx.desired4 ctx.desired6
      else (dnsMutate d ms ms6 o ctx, none, [])) = (d4, none, ifc))
    (hen : o.enableBackend = true →
      (!ctx.desired4.isEmpty || !ctx.desired6.isEmpty ||
        !ctx.existingRanges.isEmpty) = true → d4.hasDnsmasq = true) :
    ∃ d' stats, convert_dnsmasq_post d ms ms6 o ctx = (d', .ok stats) := by
  simp only [convert_dnsmasq_post]
  rw [hbc]
  simp only [Bool.false_eq_true, if_false]
  rw [happ]
  dsimp only
  by_cases he : o.enableBackend = true
  · simp only [he, if_true]
    rcases hdis : disable_isc_dhcp_from_config d4 with ⟨d5, dis4, dis6⟩
    dsimp only
    have hd5 : d5 = { d4 with iscEnabledV4 := [], iscEnabledV6 := [] } := by
      have h1 := congrArg Prod.fst hdis
      dsimp only [disable_isc_dhcp_from_config] at h1
      exact h1.symm
    by_cases hhr : (!ctx.desired4.isEmpty || !ctx.desired6.isEmpty ||
        !ctx.existingRanges.isEmpty) = true
    · simp only [hhr, if_true]
      have hdns : d5.hasDnsmasq = true := by
        rw [hd5]
        exact hen he hhr
      simp only [enable_dnsmasq, hdns, if_true]
      simp only [Bool.not_true, Bool.and_false, Bool.false_eq_true, if_false]
      exact ⟨_, _, rfl⟩
    · have hhr' : (!ctx.desired4.isEmpty || !ctx.desired6.isEmpty ||
          !ctx.existingRanges.isEmpty) = false := by
        revert hhr
        cases (!ctx.desired4.isEmpty || !ctx.desired6.isEmpty ||
          !ctx.existingRanges.isEmpty) <;> simp
      simp only [hhr', Bool.false_eq_true, if_false]
      simp only [hhr', Bool.false_and, Bool.false_eq_true, if_false]
      exact ⟨_, _, rfl⟩
  · have he' : o.enableBackend = false := by
      revert he
      cases o.enableBackend <;> simp
    simp only [he', Bool.false_eq_true, if_false]
    exact ⟨_, _, rfl⟩

theorem dnsMutate_ranges (X : Doc) (ms : List IscStaticMap)
    (ms6 : List IscStaticMapV6) (o : MOpts) (ctx : DnsCtx) :
    (dnsMutate X ms ms6 o ctx).dnsmasqRanges
      = (if dnsmasq_work_exists ms.isEmpty ms6.isEmpty o ctx.desired4
          ctx.desired6 ctx.desiredOptions && o.createSubnets then
        applyDesiredRangesV6 ctx.existingRanges o.forceSubnets ctx.desired6
          (applyDesiredRangesV4 ctx.existingRanges o.forceSubnets ctx.desired4
            X.dnsmasqRanges)
      else X.dnsmasqRanges) := by
  simp only [dnsMutate]
  split <;> split <;> rfl

theorem dnsMutate_opts (X : Doc) (ms : List IscStaticMap)
    (ms6 : List IscStaticMapV6) (o : MOpts) (ctx : DnsCtx) :
    (dnsMutate X ms ms6 o ctx).dnsmasqOpts
      = (if dnsmasq_work_exists ms.isEmpty ms6.isEmpty o ctx.desired4
          ctx.desired6 ctx.desiredOptions && o.createOptions then
        applyDnsmasqOptions ctx.existingOptions o.forceOptions
          ctx.desiredOptions X.dnsmasqOpts
      else X.dnsmasqOpts) := by
  simp only [dnsMutate]
  split <;> split <;> rfl

/-- The dnsmasq interface merge succeeds when the backend is present (or
nothing is to merge), touching only `dnsmasqIfaces`. -/
theorem apply_dnsmasq_interfaces_ok_of {X : Doc} {a b : List DesiredSubnet}
    (h : (dedupStr (a.map (fun ds => ds.iface) ++ b.map (fun ds => ds.iface))).isEmpty
      = false → has_dnsmasq X = true) :
    ∃ X' ifc, apply_dnsmasq_interfaces X a b = (X', none, ifc) ∧
      X'.hasDnsmasq = X.hasDnsmasq ∧ X'.dnsmasqHosts = X.dnsmasqHosts ∧
      X'.dnsmasqRanges = X.dnsmasqRanges ∧ X'.dnsmasqOpts = X.dnsmasqOpts := by
  by_cases hemp : (dedupStr (a.map (fun ds => ds.iface) ++
      b.map (fun ds => ds.iface))).isEmpty = true
  · refine ⟨X, [], ?_, rfl, rfl, rfl, rfl⟩
    simp [apply_dnsmasq_interfaces, hemp]
  · have hemp' : (dedupStr (a.map (fun ds => ds.iface) ++
        b.map (fun ds => ds.iface))).isEmpty = false := by
      revert hemp
      cases (dedupStr (a.map (fun ds => ds.iface) ++
        b.map (fun ds => ds.iface))).isEmpty <;> simp
    have hdns := h hemp'
    refine ⟨{ X with dnsmasqIfaces := sortedSet (dedupStr (a.map (fun ds => ds.iface)
      ++ b.map (fun ds => ds.iface)) ++ X.dnsmasqIfaces) },
      sortedSet (dedupStr (a.map (fun ds => ds.iface)
        ++ b.map (fun ds => ds.iface)) ++ X.dnsmasqIfaces), ?_, rfl, rfl, rfl, rfl⟩
    simp only [apply_dnsmasq_interfaces, hemp', Bool.false_eq_true, if_false, hdns,
      Bool.not_true]

/-- A successful dnsmasq interface merge certifies the backend is present
when there was something to merge. -/
theorem apply_dnsmasq_interfaces_ok_inv {X X' : Doc} {a b : List DesiredSubnet}
    {ifc : List String}
    (h : apply_dnsmasq_interfaces X a b = (X', none, ifc)) :
    (dedupStr (a.map (fun ds => ds.iface) ++ b.map (fun ds => ds.iface))).isEmpty
      = false → has_dnsmasq X = true := by
  intro hemp
  by_cases hdns : has_dnsmasq X = true
  · exact hdns
  · exfalso
    have hdns' : has_dnsmasq X = false := by
      revert hdns
      cases has_dnsmasq X <;> simp
    simp [apply_dnsmasq_interfaces, hemp, hdns'] at h

/-- With every mapping covered by the context's existing sets, the dnsmasq
record loops accept nothing and skip everything. -/
theorem dnsMutateSt_all_skip {ms : List IscStaticMap} {ms6 : List IscStaticMapV6}
    {o : MOpts} {ctx : DnsCtx}
    (hca : ∀ m ∈ ms, IpAddr.v4 m.ipaddr ∈ ctx.existingIps ∨
      m.mac ∈ ctx.existingMacs)
    (hcb : ∀ m ∈ ms6, IpAddr.v6 m.ipaddr ∈ ctx.existingIps ∨
      m.duid ∈ ctx.existingCids) :
    (dnsMutateSt ms ms6 o ctx).hosts = [] ∧
    (dnsMutateSt ms ms6 o ctx).created = 0 ∧
    (dnsMutateSt ms ms6 o ctx).createdV6 = 0 ∧
    (dnsMutateSt ms ms6 o ctx).skipped = ms.length ∧
    (dnsMutateSt ms ms6 o ctx).skippedV6 = ms6.length := by
  by_cases hwork : dnsmasq_work_exists ms.isEmpty ms6.isEmpty o ctx.desired4
      ctx.desired6 ctx.desiredOptions = true
  · simp only [dnsMutateSt, hwork, if_true]
    rw [dnsConvLoopV4_all_skip ms
      ⟨[], ctx.existingIps, ctx.existingMacs, ctx.existingCids, 0, 0, 0, 0⟩ hca]
    rw [dnsConvLoopV6_all_skip ms6 _ hcb]
    refine ⟨rfl, rfl, rfl, ?_, ?_⟩ <;> simp
  · have hwork' : dnsmasq_work_exists ms.isEmpty ms6.isEmpty o ctx.desired4
        ctx.desired6 ctx.desiredOptions = false := by
      revert hwork
      cases dnsmasq_work_exists ms.isEmpty ms6.isEmpty o ctx.desired4
        ctx.desired6 ctx.desiredOptions <;> simp
    have hms : ms = [] := by
      have h1 : ms.isEmpty = true := by
        simp only [dnsmasq_work_exists] at hwork'
        rcases Bool.or_eq_false_iff.mp hwork' with ⟨h2, -⟩
        rcases Bool.or_eq_false_iff.mp h2 with ⟨h3, -⟩
        rcases Bool.or_eq_false_iff.mp h3 with ⟨h4, -⟩
        revert h4
        cases ms.isEmpty <;> simp
      exact List.isEmpty_iff.mp h1
    have hms6 : ms6 = [] := by
      have h1 : ms6.isEmpty = true := by
        simp only [dnsmasq_work_exists] at hwork'
        rcases Bool.or_eq_false_iff.mp hwork' with ⟨h2, -⟩
        rcases Bool.or_eq_false_iff.mp h2 with ⟨h3, -⟩
        rcases Bool.or_eq_false_iff.mp h3 with ⟨-, h4⟩
        revert h4
        cases ms6.isEmpty <;> simp
      exact List.isEmpty_iff.mp h1
    subst hms
    subst hms6
    simp only [dnsMutateSt, hwork', Bool.false_eq_true, if_false]
    simp

/-- A second `convert_dnsmasq` run over the first run's output document
(same mappings and options, no `force`, no `fail_if_existing`, mappings
with nonempty MAC/DUID as the extractor guarantees) succeeds, adds no
host, range or option, and skips every mapping. -/
theorem convert_dnsmasq_idem {d d1 : Doc} {ms : List IscStaticMap}
    {ms6 : List IscStaticMapV6} {o : MOpts} {stats1 : MStats}
    (hfe : o.failIfExisting = false)
    (hfs : o.forceSubnets = false)
    (hfo : o.forceOptions = false)
    (hmac : ∀ m ∈ ms, ¬(m.mac = ""))
    (hduid : ∀ m ∈ ms6, ¬(m.duid = ""))
    (h1 : convert_dnsmasq d ms ms6 o = (d1, .ok stats1)) :
    ∃ d2 stats2, convert_dnsmasq d1 ms ms6 o = (d2, .ok stats2) ∧
      d2.dnsmasqHosts = d1.dnsmasqHosts ∧
      d2.dnsmasqRanges = d1.dnsmasqRanges ∧
      d2.dnsmasqOpts = d1.dnsmasqOpts ∧
      stats2.reservationsToCreate = 0 ∧
      stats2.reservationsV6ToCreate = 0 ∧
      stats2.reservationsSkipped = ms.length ∧
      stats2.reservationsV6Skipped = ms6.length := by
  rcases convert_dnsmasq_ok_inv h1 with ⟨ctx, hpre, hpost⟩
  rcases convert_dnsmasq_pre_ok hpre with ⟨h4, h6, hspecs, hbcm, hfex, hval4,
    hval6, hips, hmacs, hcids, hranges, hopts⟩
  rcases convert_dnsmasq_post_ok hpost with ⟨hh1, hr1, ho1, -, -, -, -⟩
  rcases convert_dnsmasq_post_ok2 hpost with ⟨hbc1, ⟨d4A, ifcA, happA⟩, henA,
    hC4, hC6, hR4, hR6, hO4, hO6, hHD⟩
  have h4' : (if o.createSubnets || o.enableBackend then desired_subnets_v4 d1
      else .ok []) = .ok ctx.desired4 := by
    rw [desired_subnets_v4_congr hR4 hC4]
    exact h4
  have h6' : (if o.createSubnets || o.enableBackend then desired_subnets_v6 d1
      else .ok []) = .ok ctx.desired6 := by
    rw [desired_subnets_v6_congr hR6 hC6]
    exact h6
  have hspecs2 : ctx.desiredOptions = (if o.createOptions then
      dnsmasq_option_specs_from_isc (if o.createOptions then d1.iscOptionsV4 else [])
        (if o.createOptions then d1.iscOptionsV6 else []) else []) := by
    rw [hO4, hO6]
    exact hspecs
  have hbcm2 : dnsmasq_backend_missing d1 ms.isEmpty ms6.isEmpty ctx.desired4
      ctx.desired6 ctx.desiredOptions = false := by
    simp only [dnsmasq_backend_missing, has_dnsmasq] at hbcm ⊢
    rw [hHD]
    exact hbcm
  have hfex2 : dnsmasq_fail_existing o (extract_existing_dnsmasq_ips d1)
      (extract_existing_dnsmasq_macs d1) (extract_existing_dnsmasq_client_ids d1)
      (extract_existing_dnsmasq_ranges d1) = false := by
    simp [dnsmasq_fail_existing, hfe]
  have hval4' : validate_mapping_ifaces_v4 ms d1.ifaceCidrsV4 = .ok () := by
    rw [hC4]
    exact hval4
  have hval6' : validate_mapping_ifaces_v6 ms6 d1.ifaceCidrsV6 = .ok () := by
    rw [hC6]
    exact hval6
  have hpre2 := convert_dnsmasq_pre_build h4' h6' hspecs2 hbcm2 hfex2 hval4' hval6'
  obtain ⟨ctx2, hpre2'⟩ : ∃ ctx2, convert_dnsmasq_pre d1 ms ms6 o = .ok ctx2 :=
    ⟨_, hpre2⟩
  rcases convert_dnsmasq_pre_ok hpre2' with ⟨g4, g6, gspecs, -, -, -, -, gips,
    gmacs, gcids, granges, gopts⟩
  have hdes4eq : ctx2.desired4 = ctx.desired4 := by
    have := g4.symm.trans h4'
    injection this
  have hdes6eq : ctx2.desired6 = ctx.desired6 := by
    have := g6.symm.trans h6'
    injection this
  have hspecseq : ctx2.desiredOptions = ctx.desiredOptions := by
    rw [gspecs]
    exact hspecs2.symm
  have hbc2 : (dnsmasq_work_exists ms.isEmpty ms6.isEmpty o ctx2.desired4
      ctx2.desired6 ctx2.desiredOptions && !(has_dnsmasq d1)) = false := by
    rw [hdes4eq, hdes6eq, hspecseq]
    have hhd : has_dnsmasq d1 = has_dnsmasq d := hHD
    rw [hhd]
    exact hbc1
  obtain ⟨d42, ifc2, happ2, hd42⟩ : ∃ d42 ifc2,
      (if o.createSubnets then apply_dnsmasq_interfaces
        (dnsMutate d1 ms ms6 o ctx2) ctx2.desired4 ctx2.desired6
      else (dnsMutate d1 ms ms6 o ctx2, none, [])) = (d42, none, ifc2) ∧
      d42.hasDnsmasq = d1.hasDnsmasq := by
    by_cases hcs : o.createSubnets = true
    · simp only [hcs, if_true]
      simp only [hcs, if_true] at happA
      have hinv := apply_dnsmasq_interfaces_ok_inv happA
      have hyp : (dedupStr (ctx2.desired4.map (fun ds => ds.iface) ++
          ctx2.desired6.map (fun ds => ds.iface))).isEmpty = false →
          has_dnsmasq (dnsMutate d1 ms ms6 o ctx2) = true := by
        intro hne
        rw [hdes4eq, hdes6eq] at hne
        have h1m := hinv hne
        simp only [has_dnsmasq] at h1m ⊢
        rw [(dnsMutate_spec d1 ms ms6 o ctx2).2.2.2.2.2.2.2, hHD]
        rw [(dnsMutate_spec d ms ms6 o ctx).2.2.2.2.2.2.2] at h1m
        exact h1m
      rcases apply_dnsmasq_interfaces_ok_of hyp with ⟨X', ifc', heq, hflag, -, -, -⟩
      exact ⟨X', ifc', heq, hflag.trans
        (dnsMutate_spec d1 ms ms6 o ctx2).2.2.2.2.2.2.2⟩
    · have hcs' : o.createSubnets = false := by
        revert hcs
        cases o.createSubnets <;> simp
      refine ⟨dnsMutate d1 ms ms6 o ctx2, [], ?_,
        (dnsMutate_spec d1 ms ms6 o ctx2).2.2.2.2.2.2.2⟩
      simp [hcs']
  have hd1ranges_all : d1.dnsmasqRanges = d.dnsmasqRanges ∨
      ((dnsmasq_work_exists ms.isEmpty ms6.isEmpty o ctx.desired4 ctx.desired6
        ctx.desiredOptions && o.createSubnets) = true ∧
      d1.dnsmasqRanges = applyDesiredRangesV6 ctx.existingRanges false
        ctx.desired6 (applyDesiredRangesV4 ctx.existingRanges false
          ctx.desired4 d.dnsmasqRanges)) := by
    rw [hr1, dnsMutate_ranges]
    by_cases hz : (dnsmasq_work_exists ms.isEmpty ms6.isEmpty o ctx.desired4
        ctx.desired6 ctx.desiredOptions && o.createSubnets) = true
    · right
      refine ⟨hz, ?_⟩
      simp only [hz, if_true]
      rw [hfs]
    · left
      have hz' : (dnsmasq_work_exists ms.isEmpty ms6.isEmpty o ctx.desired4
          ctx.desired6 ctx.desiredOptions && o.createSubnets) = false := by
        revert hz
        cases (dnsmasq_work_exists ms.isEmpty ms6.isEmpty o ctx.desired4
          ctx.desired6 ctx.desiredOptions && o.createSubnets) <;> simp
      simp [hz']
  have hen2 : o.enableBackend = true →
      (!ctx2.desired4.isEmpty || !ctx2.desired6.isEmpty ||
        !ctx2.existingRanges.isEmpty) = true → d42.hasDnsmasq = true := by
    intro he hhr
    rw [hd42, hHD]
    rw [hdes4eq, hdes6eq, granges] at hhr
    show d.hasDnsmasq = true
    by_cases hdd : (!ctx.desired4.isEmpty || !ctx.desired6.isEmpty) = true
    · have hra : (!ctx.desired4.isEmpty || !ctx.desired6.isEmpty ||
          !ctx.existingRanges.isEmpty) = true := by
        rcases Bool.or_eq_true_iff.mp hdd with ha | hb
        · simp [ha]
        · simp [hb]
      exact henA he hra
    · have hdd' : (!ctx.desired4.isEmpty || !ctx.desired6.isEmpty) = false := by
        revert hdd
        cases (!ctx.desired4.isEmpty || !ctx.desired6.isEmpty) <;> simp
      rcases Bool.or_eq_false_iff.mp hdd' with ⟨hd4e, hd6e⟩
      have hd4e' : ctx.desired4 = [] := by
        apply List.isEmpty_iff.mp
        revert hd4e
        cases ctx.desired4.isEmpty <;> simp
      have hd6e' : ctx.desired6 = [] := by
        apply List.isEmpty_iff.mp
        revert hd6e
        cases ctx.desired6.isEmpty <;> simp
      have hsame : d1.dnsmasqRanges = d.dnsmasqRanges := by
        rcases hd1ranges_all with hq | ⟨-, hq⟩
        · exact hq
        · rw [hq, hd4e', hd6e']
          rfl
      have hrng : (!d1.dnsmasqRanges.isEmpty) = true := by
        rw [hd4e', hd6e'] at hhr
        simp only [List.isEmpty_nil, Bool.not_true, Bool.false_or] at hhr
        exact hhr
      have hra : (!ctx.desired4.isEmpty || !ctx.desired6.isEmpty ||
          !ctx.existingRanges.isEmpty) = true := by
        have hceq : ctx.existingRanges = d1.dnsmasqRanges := by
          rw [hranges]
          exact hsame.symm
        rw [hceq]
        exact Bool.or_eq_true_iff.mpr (Or.inr hrng)
      exact henA he hra
  rcases convert_dnsmasq_post_build hbc2 happ2 hen2 with ⟨d2, stats2, hp2⟩
  have hrun2 : convert_dnsmasq d1 ms ms6 o = (d2, .ok stats2) := by
    simp only [convert_dnsmasq]
    rw [hpre2']
    exact hp2
  rcases convert_dnsmasq_post_ok hp2 with ⟨ph, pr, po, pc1, pc2, pc3, pc4⟩
  have hst1 : ∀ m ∈ ms, IpAddr.v4 m.ipaddr ∈ ctx2.existingIps ∨
      m.mac ∈ ctx2.existingMacs := by
    by_cases hw : dnsmasq_work_exists ms.isEmpty ms6.isEmpty o ctx.desired4
        ctx.desired6 ctx.desiredOptions = true
    · intro m hm
      have hmut1 : dnsMutateSt ms ms6 o ctx = dnsConvLoopV6 ms6 (dnsConvLoopV4 ms
          ⟨[], ctx.existingIps, ctx.existingMacs, ctx.existingCids, 0, 0, 0, 0⟩) := by
        simp only [dnsMutateSt, hw, if_true]
      rcases dnsConvLoopV4_recs ms
        ⟨[], ctx.existingIps, ctx.existingMacs, ctx.existingCids, 0, 0, 0, 0⟩ with
        ⟨new4, e1, e2, -, -, -, -, -⟩
      rcases dnsConvLoopV4_macs ms
        ⟨[], ctx.existingIps, ctx.existingMacs, ctx.existingCids, 0, 0, 0, 0⟩ with
        ⟨new4m, f1, f2, f3⟩
      have hnew4eq : new4 = new4m := by
        simpa using e1.symm.trans f1
      subst hnew4eq
      rcases dnsConvLoopV6_recs ms6 (dnsConvLoopV4 ms
        ⟨[], ctx.existingIps, ctx.existingMacs, ctx.existingCids, 0, 0, 0, 0⟩) with
        ⟨new6, g1, -, -, -, -, -⟩
      have hhostsSt : (dnsMutateSt ms ms6 o ctx).hosts = new4 ++ new6 := by
        rw [hmut1, g1, e1]
        simp
      have hd1hosts : d1.dnsmasqHosts = d.dnsmasqHosts ++ (new4 ++ new6) := by
        rw [hh1, hhostsSt]
      have hips2 : ctx2.existingIps = ctx.existingIps
          ++ (new4 ++ new6).map (fun h => h.ip) := by
        rw [gips, hips]
        simp only [extract_existing_dnsmasq_ips, hd1hosts, List.map_append]
      rcases dnsConvLoopV4_covers ms
        ⟨[], ctx.existingIps, ctx.existingMacs, ctx.existingCids, 0, 0, 0, 0⟩ m hm
        with hip | hmc
      · rw [e2] at hip
        left
        rw [hips2]
        rcases List.mem_append.mp hip with hin | hin
        · refine List.mem_append_right _ ?_
          have hin' := List.mem_reverse.mp hin
          rw [List.map_append]
          exact List.mem_append_left _ hin'
        · exact List.mem_append_left _ hin
      · rw [f2] at hmc
        right
        rw [gmacs]
        simp only [extract_existing_dnsmasq_macs, hd1hosts, List.map_append,
          List.filter_append]
        rcases List.mem_append.mp hmc with hin | hin
        · have hin' := List.mem_reverse.mp hin
          rcases List.mem_map.mp hin' with ⟨x, hx, hxe⟩
          rcases f3 x hx with ⟨m', hm', hxdef⟩
          have hxne : ¬(x.hw = "") := by
            rw [hxdef]
            exact hmac m' hm'
          refine List.mem_append_right _ ?_
          refine List.mem_append_left _ ?_
          refine List.mem_filter.mpr ⟨?_, ?_⟩
          · exact List.mem_map.mpr ⟨x, hx, hxe⟩
          · rw [← hxe]
            simp [hxne]
        · refine List.mem_append_left _ ?_
          rw [hmacs] at hin
          simp only [extract_existing_dnsmasq_macs] at hin
          exact hin
    · intro m hm
      exfalso
      have hw' : dnsmasq_work_exists ms.isEmpty ms6.isEmpty o ctx.desired4
          ctx.desired6 ctx.desiredOptions = false := by
        revert hw
        cases dnsmasq_work_exists ms.isEmpty ms6.isEmpty o ctx.desired4
          ctx.desired6 ctx.desiredOptions <;> simp
      have hmse : ms.isEmpty = true := by
        simp only [dnsmasq_work_exists] at hw'
        rcases Bool.or_eq_false_iff.mp hw' with ⟨h2, -⟩
        rcases Bool.or_eq_false_iff.mp h2 with ⟨h3, -⟩
        rcases Bool.or_eq_false_iff.mp h3 with ⟨hq, -⟩
        revert hq
        cases ms.isEmpty <;> simp
      rw [List.isEmpty_iff.mp hmse] at hm
      exact absurd hm (List.not_mem_nil m)
  have hst2 : ∀ m ∈ ms6, IpAddr.v6 m.ipaddr ∈ ctx2.existingIps ∨
      m.duid ∈ ctx2.existingCids := by
    by_cases hw : dnsmasq_work_exists ms.isEmpty ms6.isEmpty o ctx.desired4
        ctx.desired6 ctx.desiredOptions = true
    · intro m hm
      have hmut1 : dnsMutateSt ms ms6 o ctx = dnsConvLoopV6 ms6 (dnsConvLoopV4 ms
          ⟨[], ctx.existingIps, ctx.existingMacs, ctx.existingCids, 0, 0, 0, 0⟩) := by
        simp only [dnsMutateSt, hw, if_true]
      rcases dnsConvLoopV4_recs ms
        ⟨[], ctx.existingIps, ctx.existingMacs, ctx.existingCids, 0, 0, 0, 0⟩ with
        ⟨new4, e1, e2, e3, -, -, -, -⟩
      rcases dnsConvLoopV6_recs ms6 (dnsConvLoopV4 ms
        ⟨[], ctx.existingIps, ctx.existingMacs, ctx.existingCids, 0, 0, 0, 0⟩) with
        ⟨new6, g1, g2, -, -, -, -⟩
      rcases dnsConvLoopV6_cids ms6 (dnsConvLoopV4 ms
        ⟨[], ctx.existingIps, ctx.existingMacs, ctx.existingCids, 0, 0, 0, 0⟩) with
        ⟨new6c, k1, k2, k3⟩
      have hnew6eq : new6c = new6 := by
        have hq := g1.symm.trans k1
        exact (List.append_cancel_left hq).symm
      subst hnew6eq
      have hhostsSt : (dnsMutateSt ms ms6 o ctx).hosts = new4 ++ new6c := by
        rw [hmut1, g1, e1]
        simp
      have hd1hosts : d1.dnsmasqHosts = d.dnsmasqHosts ++ (new4 ++ new6c) := by
        rw [hh1, hhostsSt]
      have hips2 : ctx2.existingIps = ctx.existingIps
          ++ (new4 ++ new6c).map (fun h => h.ip) := by
        rw [gips, hips]
        simp only [extract_existing_dnsmasq_ips, hd1hosts, List.map_append]
      rcases dnsConvLoopV6_covers ms6 (dnsConvLoopV4 ms
        ⟨[], ctx.existingIps, ctx.existingMacs, ctx.existingCids, 0, 0, 0, 0⟩) m hm
        with hip | hcd
      · rw [g2, e2] at hip
        left
        rw [hips2]
        rcases List.mem_append.mp hip with hin | hin
        · refine List.mem_append_right _ ?_
          have hin' := List.mem_reverse.mp hin
          rw [List.map_append]
          exact List.mem_append_right _ hin'
        · rcases List.mem_append.mp hin with hin2 | hin2
          · refine List.mem_append_right _ ?_
            have hin' := List.mem_reverse.mp hin2
            rw [List.map_append]
            exact List.mem_append_left _ hin'
          · exact List.mem_append_left _ hin2
      · rw [k2, e3] at hcd
        right
        rw [gcids]
        simp only [extract_existing_dnsmasq_client_ids, hd1hosts,
          List.filterMap_append, List.filter_append]
        rcases List.mem_append.mp hcd with hin | hin
        · have hin' := List.mem_reverse.mp hin
          rcases List.mem_filterMap.mp hin' with ⟨x, hx, hxe⟩
          rcases k3 x hx with ⟨m', hm', hxdef⟩
          have hne : ¬(m.duid = "") := by
            have hxduid : x.clientId = some m'.duid := by
              rw [hxdef]
              rfl
            rw [hxduid] at hxe
            injection hxe with hxe2
            rw [← hxe2]
            exact hduid m' hm'
          refine List.mem_append_right _ ?_
          refine List.mem_append_right _ ?_
          refine List.mem_filter.mpr ⟨?_, by simp [hne]⟩
          exact List.mem_filterMap.mpr ⟨x, hx, hxe⟩
        · refine List.mem_append_left _ ?_
          rw [hcids] at hin
          simp only [extract_existing_dnsmasq_client_ids] at hin
          exact hin
    · intro m hm
      exfalso
      have hw' : dnsmasq_work_exists ms.isEmpty ms6.isEmpty o ctx.desired4
          ctx.desired6 ctx.desiredOptions = false := by
        revert hw
        cases dnsmasq_work_exists ms.isEmpty ms6.isEmpty o ctx.desired4
          ctx.desired6 ctx.desiredOptions <;> simp
      have hmse : ms6.isEmpty = true := by
        simp only [dnsmasq_work_exists] at hw'
        rcases Bool.or_eq_false_iff.mp hw' with ⟨h2, -⟩
        rcases Bool.or_eq_false_iff.mp h2 with ⟨h3, -⟩
        rcases Bool.or_eq_false_iff.mp h3 with ⟨-, hq⟩
        revert hq
        cases ms6.isEmpty <;> simp
      rw [List.isEmpty_iff.mp hmse] at hm
      exact absurd hm (List.not_mem_nil m)
  rcases dnsMutateSt_all_skip hst1 hst2 with ⟨sh, sc, sc6, ss, ss6⟩
  refine ⟨d2, stats2, hrun2, ?_, ?_, ?_, ?_, ?_, ?_, ?_⟩
  · rw [ph, sh]
    simp
  · rw [pr, dnsMutate_ranges]
    by_cases hbcs : (dnsmasq_work_exists ms.isEmpty ms6.isEmpty o ctx2.desired4
        ctx2.desired6 ctx2.desiredOptions && o.createSubnets) = true
    · simp only [hbcs, if_true]
      rw [hfs]
      have hbcs1 : (dnsmasq_work_exists ms.isEmpty ms6.isEmpty o ctx.desired4
          ctx.desired6 ctx.desiredOptions && o.createSubnets) = true := by
        rw [← hdes4eq, ← hdes6eq, ← hspecseq]
        exact hbcs
      have hd1r : d1.dnsmasqRanges = applyDesiredRangesV6 ctx.existingRanges false
          ctx.desired6 (applyDesiredRangesV4 ctx.existingRanges false
            ctx.desired4 d.dnsmasqRanges) := by
        rcases hd1ranges_all with hq | ⟨-, hq⟩
        · rw [hr1, dnsMutate_ranges, hbcs1] at hq
          simp only [if_true] at hq
          rw [hfs] at hq
          rw [hr1, dnsMutate_ranges, hbcs1]
          simp only [if_true]
          rw [hfs]
        · exact hq
      have hEx1 : ctx.existingRanges = d.dnsmasqRanges := hranges
      have hcov4 : ∀ ds ∈ ctx.desired4, ∀ r ∈ ds.ranges,
          create_dnsmasq_range_element_v4 ds.iface r.rangeFrom r.rangeTo
            ds.cidr.plen ∈ d1.dnsmasqRanges := by
        intro ds hds r hr
        rw [hd1r]
        rcases applyDesiredRangesV4_covers ctx.existingRanges ctx.desired4
          d.dnsmasqRanges ds hds r hr with hin | hin
        · rw [hEx1] at hin
          refine applyDesiredRangesV6_mono _ _ _ _ ?_
          exact applyDesiredRangesV4_mono _ _ _ _ hin
        · exact applyDesiredRangesV6_mono _ _ _ _ hin
      have hcov6 : ∀ ds ∈ ctx.desired6, ∀ r ∈ ds.ranges,
          create_dnsmasq_range_element_v6 ds.iface r.rangeFrom r.rangeTo
            ds.cidr.plen ∈ d1.dnsmasqRanges := by
        intro ds hds r hr
        rw [hd1r]
        rcases applyDesiredRangesV6_covers ctx.existingRanges ctx.desired6
          (applyDesiredRangesV4 ctx.existingRanges false ctx.desired4
            d.dnsmasqRanges) ds hds r hr with hin | hin
        · rw [hEx1] at hin
          refine applyDesiredRangesV6_mono _ _ _ _ ?_
          exact applyDesiredRangesV4_mono _ _ _ _ hin
        · exact hin
      have hEx2 : ctx2.existingRanges = d1.dnsmasqRanges := granges
      rw [hdes4eq, hdes6eq, hEx2]
      rw [applyDesiredRangesV4_all_skip d1.dnsmasqRanges ctx.desired4
        d1.dnsmasqRanges (fun ds hds r hr => hcov4 ds hds r hr)]
      rw [applyDesiredRangesV6_all_skip d1.dnsmasqRanges ctx.desired6
        d1.dnsmasqRanges (fun ds hds r hr => hcov6 ds hds r hr)]
    · have hbcs' : (dnsmasq_work_exists ms.isEmpty ms6.isEmpty o ctx2.desired4
          ctx2.desired6 ctx2.desiredOptions && o.createSubnets) = false := by
        revert hbcs
        cases (dnsmasq_work_exists ms.isEmpty ms6.isEmpty o ctx2.desired4
          ctx2.desired6 ctx2.desiredOptions && o.createSubnets) <;> simp
      simp [hbcs']
  · rw [po, dnsMutate_opts]
    by_cases hbco : (dnsmasq_work_exists ms.isEmpty ms6.isEmpty o ctx2.desired4
        ctx2.desired6 ctx2.desiredOptions && o.createOptions) = true
    · simp only [hbco, if_true]
      rw [hfo]
      have hbco1 : (dnsmasq_work_exists ms.isEmpty ms6.isEmpty o ctx.desired4
          ctx.desired6 ctx.desiredOptions && o.createOptions) = true := by
        rw [← hdes4eq, ← hdes6eq, ← hspecseq]
        exact hbco
      have hco : o.createOptions = true := (Bool.and_eq_true_iff.mp hbco1).2
      have hd1o : d1.dnsmasqOpts = applyDnsmasqOptions ctx.existingOptions false
          ctx.desiredOptions d.dnsmasqOpts := by
        rw [ho1, dnsMutate_opts, hbco1]
        simp only [if_true]
        rw [hfo]
      have hEx1o : ctx.existingOptions = optKeys d.dnsmasqOpts := by
        rw [hopts]
        simp only [hco, if_true]
        exact extract_opts_eq_optKeys d
      have hcov : ∀ spec ∈ ctx.desiredOptions,
          option_key_for_spec spec ∈ optKeys d1.dnsmasqOpts := by
        intro spec hs
        rw [hd1o]
        rcases applyDnsmasqOptions_covers ctx.existingOptions ctx.desiredOptions
          d.dnsmasqOpts spec hs with hin | hin
        · rw [hEx1o] at hin
          exact applyDnsmasqOptions_mono _ _ _ _ hin
        · exact hin
      have hEx2o : ctx2.existingOptions = optKeys d1.dnsmasqOpts := by
        rw [gopts]
        simp only [hco, if_true]
        exact extract_opts_eq_optKeys d1
      rw [hspecseq, hEx2o]
      rw [applyDnsmasqOptions_all_skip (optKeys d1.dnsmasqOpts) ctx.desiredOptions
        d1.dnsmasqOpts (fun spec hs => hcov spec hs)]
    · have hbco' : (dnsmasq_work_exists ms.isEmpty ms6.isEmpty o ctx2.desired4
          ctx2.desired6 ctx2.desiredOptions && o.createOptions) = false := by
        revert hbco
        cases (dnsmasq_work_exists ms.isEmpty ms6.isEmpty o ctx2.desired4
          ctx2.desired6 ctx2.desiredOptions && o.createOptions) <;> simp
      simp [hbco']
  · rw [pc1, sc]
  · rw [pc2, sc6]
  · rw [pc3, ss]
  · rw [pc4, ss6]

/-- C6: converting twice with identical options, feeding the first
convert's output document into the second convert, creates zero
additional records in the second run when the force options are not set:
for both backends the second run succeeds, every v4 mapping is counted as
skipped and none as to-create (likewise for v6), and the record, subnet,
range and option lists of the document are unchanged by the second run.
(For the dnsmasq backend this needs the source mappings to carry nonempty
hardware/DUID identifiers, which the extraction phase guarantees:
`extract.rs` drops ISC static mappings with an empty `mac` or `duid`.) -/
theorem convert_twice_idempotent {d dk1 dd1 : Doc} {ms : List IscStaticMap}
    {ms6 : List IscStaticMapV6} {o : MOpts} {statsK1 statsD1 : MStats}
    (hfe : o.failIfExisting = false)
    (hfs : o.forceSubnets = false)
    (hfo : o.forceOptions = false)
    (hmac : ∀ m ∈ ms, ¬(m.mac = ""))
    (hduid : ∀ m ∈ ms6, ¬(m.duid = ""))
    (h1k : convert_kea d ms ms6 o = (dk1, .ok statsK1))
    (h1d : convert_dnsmasq d ms ms6 o = (dd1, .ok statsD1)) :
    (∃ dk2 statsK2, convert_kea dk1 ms ms6 o = (dk2, .ok statsK2) ∧
      dk2.keaReservations = dk1.keaReservations ∧
      dk2.keaReservationsV6 = dk1.keaReservationsV6 ∧
      dk2.keaSubnets = dk1.keaSubnets ∧
      dk2.keaSubnetsV6 = dk1.keaSubnetsV6 ∧
      statsK2.reservationsToCreate = 0 ∧
      statsK2.reservationsV6ToCreate = 0 ∧
      statsK2.reservationsSkipped = ms.length ∧
      statsK2.reservationsV6Skipped = ms6.length) ∧
    (∃ dd2 statsD2, convert_dnsmasq dd1 ms ms6 o = (dd2, .ok statsD2) ∧
      dd2.dnsmasqHosts = dd1.dnsmasqHosts ∧
      dd2.dnsmasqRanges = dd1.dnsmasqRanges ∧
      dd2.dnsmasqOpts = dd1.dnsmasqOpts ∧
      statsD2.reservationsToCreate = 0 ∧
      statsD2.reservationsV6ToCreate = 0 ∧
      statsD2.reservationsSkipped = ms.length ∧
      statsD2.reservationsV6Skipped = ms6.length) :=
  ⟨convert_kea_idem hfe hfs hfo h1k,
   convert_dnsmasq_idem hfe hfs hfo hmac hduid h1d⟩

/-- Witness for C6 on a one-mapping fixture that both backends convert
successfully. -/
theorem convert_twice_idempotent_witness :
    (∃ dk2 statsK2, convert_kea exDocC6kOut exMapsC1 [] exOptsC1
        = (dk2, .ok statsK2) ∧
      dk2.keaReservations = exDocC6kOut.keaReservations ∧
      dk2.keaReservationsV6 = exDocC6kOut.keaReservationsV6 ∧
      dk2.keaSubnets = exDocC6kOut.keaSubnets ∧
      dk2.keaSubnetsV6 = exDocC6kOut.keaSubnetsV6 ∧
      statsK2.reservationsToCreate = 0 ∧
      statsK2.reservationsV6ToCreate = 0 ∧
      statsK2.reservationsSkipped = exMapsC1.length ∧
      statsK2.reservationsV6Skipped = ([] : List IscStaticMapV6).length) ∧
    (∃ dd2 statsD2, convert_dnsmasq exDocC6dOut exMapsC1 [] exOptsC1
        = (dd2, .ok statsD2) ∧
      dd2.dnsmasqHosts = exDocC6dOut.dnsmasqHosts ∧
      dd2.dnsmasqRanges = exDocC6dOut.dnsmasqRanges ∧
      dd2.dnsmasqOpts = exDocC6dOut.dnsmasqOpts ∧
      statsD2.reservationsToCreate = 0 ∧
      statsD2.reservationsV6ToCreate = 0 ∧
      statsD2.reservationsSkipped = exMapsC1.length ∧
      statsD2.reservationsV6Skipped = ([] : List IscStaticMapV6).length) :=
  @convert_twice_idempotent exDocC6 exDocC6kOut exDocC6dOut exMapsC1 []
    exOptsC1 exStatsC1ok exStatsC6d (by rfl) (by rfl) (by rfl)
    (by decide) (by decide) (by rfl) (by rfl)

end Isc2Kea
